import Mathlib

/-!
# Orbiter Lua binding layer: value marshaller, object identity cache, chunk runner,
vessel classes

A shallow embedding of `Interpreter.cpp` (LuaScript/LuaInterpreter) and of the Lua
extensions of the vessel classes (`DGLua.cpp`, `HST_Lua.cpp`, `ShuttleALua.cpp`),
together with the part of the Lua 5.1 C API that the embedded functions call.

Modelling conventions

* Native pointers (`VESSEL*`, `MFD2*`, `LightEmitter*`, `void*`) are addresses, `Nat`.
* A C `double` is its 64-bit IEEE-754 pattern (`Double.bits`).  The embedded code only
  moves doubles around; formatting and parsing (`sprintf`, `strtod`) belong to the C
  library and are taken as the parameter `CLib`.
* Collectable Lua objects live in a heap indexed by object id: `lua_State.tables`
  and `lua_State.udata`.  Object identity is id equality; nothing is ever collected
  (the wrappers of the identity cache are referenced from the registry).
* A table is an association list in traversal order; `lua_next` walks it in that order.
  Keys are compared as values of `LuaValue`.
* Indexing follows `luaV_gettable` and `luaV_settable` through `__index` and
  `__newindex` tables for at most `MAXTAGLOOP` steps; a metamethod that is a function
  would run script code and is outside the model.
* An API call that raises a Lua error, or whose behaviour is undefined in C
  (dereferencing a pointer that is no userdata block, `lua_next` on a non-table),
  yields `none`.
* `char` buffers are unbounded strings, and the Lua stack has no size limit.
* The Orbiter core (`VESSEL::Version`, `VESSEL3::clbkGeneric`,
  `oapiGetFocusInterface`) is the parameter `Host`, or an argument of the call.
* Compiling a chunk and running a Lua closure belong to the Lua virtual machine and are
  taken as the parameter `Engine`; `lua_pcall` and `lua_call` are embedded around it.
  An error that reaches an unprotected `lua_call` is a Lua panic and yields `none`.
* The methods of `Interpreter` are embedded as the calling thread executes them.  What a
  method does outside the fields of the object (waits and releases on the two mutexes,
  calls into script code, terminal output) is appended, in order, to `Interpreter.trace`.
  Whether a `WaitForSingleObject` acquired its mutex before the timeout is an argument.
* The header `Interpreter.h` is not among the sources; the constants `PRMTP_*` it
  declares are the parameter `InterpreterH`.
* The calls a script operation makes into the Orbiter core or into a subsystem of a
  vessel are returned as a list (`HostCall`, `DGCall`), in the order they are made.
-/

namespace Orbiter

/-! ## Values -/

/-- A C `double` as its IEEE-754 binary64 bit pattern. -/
structure Double where
  bits : Nat
  deriving DecidableEq, Repr

/-- The biased exponent field (11 bits). -/
def Double.exponent (d : Double) : Nat := (d.bits / 2 ^ 52) % 2 ^ 11

/-- The fraction field (52 bits). -/
def Double.fraction (d : Double) : Nat := d.bits % 2 ^ 52

/-- Neither an infinity nor a NaN. -/
def Double.isFinite (d : Double) : Bool := d.exponent != 2047

/-- A NaN: all-ones exponent, non-zero fraction. -/
def Double.isNaN (d : Double) : Bool := d.exponent == 2047 && d.fraction != 0

/-- The C comparison `a == b` on doubles: false on NaN, and `+0 == -0`. -/
def Double.ceq (a b : Double) : Bool :=
  !a.isNaN && !b.isNaN && (a.bits == b.bits || (a.bits % 2 ^ 63 == 0 && b.bits % 2 ^ 63 == 0))

/-- Native addresses. -/
abbrev Addr := Nat

/-- A Lua value (`TValue`).  Collectable objects are referred to by heap id. -/
inductive LuaValue where
  | nil
  | bool (b : Bool)
  | lightuserdata (p : Addr)
  | number (n : Double)
  | string (s : String)
  | table (id : Nat)
  | cfunction (name : String)
  | lfunction (id : Nat)
  | userdata (id : Nat)
  deriving DecidableEq, Repr

/-- Type tags of `lua.h`. -/
def LUA_TNONE : Int := -1
def LUA_TNIL : Int := 0
def LUA_TBOOLEAN : Int := 1
def LUA_TLIGHTUSERDATA : Int := 2
def LUA_TNUMBER : Int := 3
def LUA_TSTRING : Int := 4
def LUA_TTABLE : Int := 5
def LUA_TFUNCTION : Int := 6
def LUA_TUSERDATA : Int := 7

/-- The macro `ttype(o)`. -/
def LuaValue.ttype : LuaValue → Int
  | .nil => LUA_TNIL
  | .bool _ => LUA_TBOOLEAN
  | .lightuserdata _ => LUA_TLIGHTUSERDATA
  | .number _ => LUA_TNUMBER
  | .string _ => LUA_TSTRING
  | .table _ => LUA_TTABLE
  | .cfunction _ => LUA_TFUNCTION
  | .lfunction _ => LUA_TFUNCTION
  | .userdata _ => LUA_TUSERDATA

/-- The hash part of a Lua table with its metatable. -/
structure Table where
  node : List (LuaValue × LuaValue)
  metatable : Option Nat
  deriving DecidableEq, Repr

/-- A full userdata: the block holds one native pointer. -/
structure Udata where
  block : Addr
  metatable : Option Nat
  deriving DecidableEq, Repr

/-- Raw read `luaH_get`; an absent key reads as nil. -/
def luaH_get : List (LuaValue × LuaValue) → LuaValue → LuaValue
  | [], _ => .nil
  | (k, v) :: rest, key => if k = key then v else luaH_get rest key

/-- Remove every entry stored under `key`. -/
def luaH_remove : List (LuaValue × LuaValue) → LuaValue → List (LuaValue × LuaValue)
  | [], _ => []
  | (k, v) :: rest, key => if k = key then luaH_remove rest key else (k, v) :: luaH_remove rest key

/-- Overwrite the entry of `key` in place, or append a new entry. -/
def luaH_store : List (LuaValue × LuaValue) → LuaValue → LuaValue → List (LuaValue × LuaValue)
  | [], key, val => [(key, val)]
  | (k, v) :: rest, key, val =>
      if k = key then (k, val) :: rest else (k, v) :: luaH_store rest key val

/-- Raw write: storing nil removes the key from the traversal. -/
def luaH_set (nd : List (LuaValue × LuaValue)) (key val : LuaValue) : List (LuaValue × LuaValue) :=
  if val = .nil then luaH_remove nd key else luaH_store nd key val

/-- Traversal step `luaH_next`: `none` is the error "invalid key to next",
`some none` the end of the traversal. -/
def luaH_next : List (LuaValue × LuaValue) → LuaValue → Option (Option (LuaValue × LuaValue))
  | [], _ => none
  | (k, _) :: rest, key => if k = key then some rest.head? else luaH_next rest key

/-- The state of one Lua interpreter, as seen from the running C function. -/
structure lua_State where
  /-- The slots `base .. top-1` of the running function, bottom first. -/
  stack : List LuaValue
  /-- The table heap: the table with id `i` is `tables[i]`. -/
  tables : List Table
  /-- The userdata heap. -/
  udata : List Udata
  /-- The id of the registry table. -/
  l_registry : Nat
  /-- The id of the table of globals. -/
  l_gt : Nat
  /-- The environment of the running C function, when one is running. -/
  env : Option Nat
  /-- The per-type metatables `G(L)->mt`, by type tag. -/
  mt : List (Int × Nat)
  deriving DecidableEq, Repr

def LUA_REGISTRYINDEX : Int := -10000
def LUA_ENVIRONINDEX : Int := -10001
def LUA_GLOBALSINDEX : Int := -10002
def MAXTAGLOOP : Nat := 100

/-- The function `index2adr` of lapi.c.  `none` stands for `luaO_nilobject`
(an acceptable index above the top) and for indices the API does not allow. -/
def index2adr (L : lua_State) (idx : Int) : Option LuaValue :=
  if 0 < idx then L.stack[(idx - 1).toNat]?
  else if LUA_REGISTRYINDEX < idx then
    if idx = 0 ∨ (L.stack.length : Int) < -idx then none
    else L.stack[((L.stack.length : Int) + idx).toNat]?
  else if idx = LUA_REGISTRYINDEX then some (.table L.l_registry)
  else if idx = LUA_ENVIRONINDEX then L.env.map LuaValue.table
  else if idx = LUA_GLOBALSINDEX then some (.table L.l_gt)
  else none

/-- Overwrite the stack slot an index denotes (pseudo-indices are left alone). -/
def setslot (L : lua_State) (idx : Int) (v : LuaValue) : lua_State :=
  if 0 < idx then { L with stack := L.stack.set (idx - 1).toNat v }
  else if LUA_REGISTRYINDEX < idx ∧ idx ≠ 0 ∧ -idx ≤ (L.stack.length : Int) then
    { L with stack := L.stack.set ((L.stack.length : Int) + idx).toNat v }
  else L

def lua_type (L : lua_State) (idx : Int) : Int :=
  match index2adr L idx with
  | none => LUA_TNONE
  | some o => o.ttype

def lua_istable (L : lua_State) (idx : Int) : Bool := lua_type L idx == LUA_TTABLE
def lua_isnil (L : lua_State) (idx : Int) : Bool := lua_type L idx == LUA_TNIL
def lua_isboolean (L : lua_State) (idx : Int) : Bool := lua_type L idx == LUA_TBOOLEAN
def lua_islightuserdata (L : lua_State) (idx : Int) : Bool := lua_type L idx == LUA_TLIGHTUSERDATA

def lua_isuserdata (L : lua_State) (idx : Int) : Bool :=
  match index2adr L idx with
  | some (.userdata _) => true
  | some (.lightuserdata _) => true
  | _ => false

def lua_gettop (L : lua_State) : Int := L.stack.length

def lua_push (L : lua_State) (v : LuaValue) : lua_State := { L with stack := L.stack ++ [v] }

def lua_pushnil (L : lua_State) : lua_State := lua_push L .nil
def lua_pushnumber (L : lua_State) (n : Double) : lua_State := lua_push L (.number n)
def lua_pushboolean (L : lua_State) (b : Int) : lua_State := lua_push L (.bool (b != 0))
def lua_pushstring (L : lua_State) (s : String) : lua_State := lua_push L (.string s)
def lua_pushlightuserdata (L : lua_State) (p : Addr) : lua_State := lua_push L (.lightuserdata p)

/-- The macro `lua_pop(L,n)`, that is `lua_settop(L, -(n)-1)`. -/
def lua_pop (L : lua_State) (n : Nat) : lua_State :=
  { L with stack := L.stack.take (L.stack.length - n) }

def lua_pushvalue (L : lua_State) (idx : Int) : lua_State :=
  lua_push L ((index2adr L idx).getD .nil)

/-- Create an empty table and push it (`narr`, `nrec` are size hints only). -/
def lua_createtable (L : lua_State) (_narr _nrec : Nat) : lua_State :=
  { L with stack := L.stack ++ [.table L.tables.length],
           tables := L.tables ++ [{ node := [], metatable := none }] }

/-- Allocate a userdata block, push the userdata, return the id of the block.
The fresh block is modelled as holding the null pointer. -/
def lua_newuserdata (L : lua_State) : Nat × lua_State :=
  (L.udata.length,
   { L with stack := L.stack ++ [.userdata L.udata.length],
            udata := L.udata ++ [{ block := 0, metatable := none }] })

/-- The assignment `*p = a` through a pointer to a userdata block. -/
def pokeblock (L : lua_State) (id : Nat) (a : Addr) : lua_State :=
  match L.udata[id]? with
  | none => L
  | some u => { L with udata := L.udata.set id { u with block := a } }

/-! ## Metatables and indexing -/

/-- The metatable of a value: own for tables and userdata, per type otherwise. -/
def getmetatable (L : lua_State) (o : LuaValue) : Option Nat :=
  match o with
  | .table id => (L.tables[id]?).bind Table.metatable
  | .userdata id => (L.udata[id]?).bind Udata.metatable
  | _ => L.mt.lookup o.ttype

/-- The function `luaT_gettmbyobj`: the metamethod field `event`, nil when absent. -/
def luaT_gettmbyobj (L : lua_State) (o : LuaValue) (event : String) : LuaValue :=
  match getmetatable L o with
  | none => .nil
  | some m =>
    match L.tables[m]? with
    | none => .nil
    | some h => luaH_get h.node (.string event)

def isfunction : LuaValue → Bool
  | .cfunction _ => true
  | .lfunction _ => true
  | _ => false

/-- The function `luaV_gettable`, with `loop` iterations left (at the start `MAXTAGLOOP`).
`none`: a type error, "loop in gettable", or an `__index` function (calls into script
code are outside the model). -/
def luaV_gettable (L : lua_State) : Nat → LuaValue → LuaValue → Option LuaValue
  | 0, _, _ => none
  | loop + 1, t, key =>
    match t with
    | .table id =>
      match L.tables[id]? with
      | none => none
      | some h =>
        let res := luaH_get h.node key
        if res ≠ .nil then some res
        else
          let tm := luaT_gettmbyobj L t "__index"
          if tm = .nil then some res
          else if isfunction tm then none
          else luaV_gettable L loop tm key
    | _ =>
      let tm := luaT_gettmbyobj L t "__index"
      if tm = .nil then none
      else if isfunction tm then none
      else luaV_gettable L loop tm key

/-- A key `luaH_set` refuses: nil ("table index is nil") or a NaN ("table index is NaN"). -/
def badkey : LuaValue → Bool
  | .nil => true
  | .number n => n.isNaN
  | _ => false

/-- The function `luaV_settable`, with `loop` iterations left.  `none`: a type error,
a nil or NaN key, "loop in settable", or a `__newindex` function. -/
def luaV_settable (L : lua_State) : Nat → LuaValue → LuaValue → LuaValue → Option lua_State
  | 0, _, _, _ => none
  | loop + 1, t, key, val =>
    match t with
    | .table id =>
      match L.tables[id]? with
      | none => none
      | some h =>
        if badkey key then none
        else
          let tm := if luaH_get h.node key ≠ .nil then .nil else luaT_gettmbyobj L t "__newindex"
          if tm = .nil then
            some { L with tables := L.tables.set id { h with node := luaH_set h.node key val } }
          else if isfunction tm then none
          else luaV_settable L loop tm key val
    | _ =>
      let tm := luaT_gettmbyobj L t "__newindex"
      if tm = .nil then none
      else if isfunction tm then none
      else luaV_settable L loop tm key val

def lua_getfield (L : lua_State) (idx : Int) (k : String) : Option lua_State :=
  match index2adr L idx with
  | none => none
  | some t => (luaV_gettable L MAXTAGLOOP t (.string k)).map (lua_push L)

/-- Pops the key and pushes `t[key]`. -/
def lua_gettable (L : lua_State) (idx : Int) : Option lua_State :=
  match index2adr L idx, L.stack.getLast? with
  | some t, some key => (luaV_gettable L MAXTAGLOOP t key).map (lua_push (lua_pop L 1))
  | _, _ => none

/-- Does `t[k] = v` with `v` the top of the stack, then pops `v`. -/
def lua_setfield (L : lua_State) (idx : Int) (k : String) : Option lua_State :=
  match index2adr L idx, L.stack.getLast? with
  | some t, some v => (luaV_settable L MAXTAGLOOP t (.string k) v).map (fun L1 => lua_pop L1 1)
  | _, _ => none

/-- Does `t[key] = v` with the key below the top and `v` on top, then pops both. -/
def lua_settable (L : lua_State) (idx : Int) : Option lua_State :=
  match index2adr L idx, index2adr L (-2), index2adr L (-1) with
  | some t, some key, some v => (luaV_settable L MAXTAGLOOP t key v).map (fun L1 => lua_pop L1 2)
  | _, _, _ => none

/-- Pops a table or nil and makes it the metatable of the value at `objindex`. -/
def lua_setmetatable (L : lua_State) (objindex : Int) : Option lua_State :=
  match index2adr L objindex, L.stack.getLast? with
  | some obj, some m =>
    let mtv : Option (Option Nat) :=
      match m with
      | .nil => some none
      | .table id => some (some id)
      | _ => none
    match mtv with
    | none => none
    | some newmt =>
      let L1 := lua_pop L 1
      match obj with
      | .table id =>
        match L1.tables[id]? with
        | none => none
        | some h => some { L1 with tables := L1.tables.set id { h with metatable := newmt } }
      | .userdata id =>
        match L1.udata[id]? with
        | none => none
        | some u => some { L1 with udata := L1.udata.set id { u with metatable := newmt } }
      | o =>
        match newmt with
        | none => some { L1 with mt := L1.mt.filter (fun e => e.1 != o.ttype) }
        | some id => some { L1 with mt := (o.ttype, id) :: L1.mt.filter (fun e => e.1 != o.ttype) }
  | _, _ => none

/-- The macro `luaL_getmetatable(L,n)`. -/
def luaL_getmetatable (L : lua_State) (tname : String) : Option lua_State :=
  lua_getfield L LUA_REGISTRYINDEX tname

/-- Pops a key and pushes the next key and value of the table at `idx` (result `true`),
or pushes nothing at the end of the traversal (result `false`). -/
def lua_next (L : lua_State) (idx : Int) : Option (Bool × lua_State) :=
  match index2adr L idx, L.stack.getLast? with
  | some (.table id), some key =>
    match L.tables[id]? with
    | none => none
    | some h =>
      let step := if key = .nil then some h.node.head? else luaH_next h.node key
      match step with
      | none => none
      | some none => some (false, lua_pop L 1)
      | some (some (k, v)) => some (true, { L with stack := (L.stack.take (L.stack.length - 1)) ++ [k, v] })
  | _, _ => none

/-! ## C library and host types -/

/-- The C library routines the binding layer formats and parses numbers with. -/
structure CLib where
  /-- The conversion `%g` of `sprintf`. -/
  fmt_g : Double → String
  /-- The conversion `%.14g` (`LUAI_NUMFFORMAT`) of `lua_number2str`. -/
  lua_number2str : Double → String
  /-- The routine `luaO_str2d`: a numeral, when the string is one. -/
  luaO_str2d : String → Option Double
  /-- The conversion `0x%08x` of a pointer. -/
  fmt_ptr : Addr → String
  /-- The address of the block of the userdata with a given id. -/
  blockaddr : Nat → Addr

/-- The macro `tonumber(o,&n)` of lvm.h. -/
def tonumber (c : CLib) : LuaValue → Option Double
  | .number n => some n
  | .string s => c.luaO_str2d s
  | _ => none

def lua_tonumber (c : CLib) (L : lua_State) (idx : Int) : Double :=
  match index2adr L idx with
  | none => ⟨0⟩
  | some o => (tonumber c o).getD ⟨0⟩

def lua_isnumber (c : CLib) (L : lua_State) (idx : Int) : Bool :=
  match index2adr L idx with
  | none => false
  | some o => (tonumber c o).isSome

def lua_isstring (L : lua_State) (idx : Int) : Bool :=
  lua_type L idx == LUA_TSTRING || lua_type L idx == LUA_TNUMBER

/-- The macro `lua_tostring(L,i)`, that is `lua_tolstring(L,i,NULL)`: a number is
converted to a string in its stack slot; any other non-string gives `NULL`. -/
def lua_tostring (c : CLib) (L : lua_State) (idx : Int) : Option String × lua_State :=
  match index2adr L idx with
  | some (.string s) => (some s, L)
  | some (.number n) => (some (c.lua_number2str n), setslot L idx (.string (c.lua_number2str n)))
  | _ => (none, L)

def lua_toboolean (L : lua_State) (idx : Int) : Bool :=
  match index2adr L idx with
  | none => false
  | some .nil => false
  | some (.bool b) => b
  | some _ => true

/-- The struct `VECTOR3` of the Orbiter SDK. -/
structure VECTOR3 where
  x : Double
  y : Double
  z : Double
  deriving DecidableEq, Repr

/-- The struct `MATRIX3` of the Orbiter SDK (`data[0..8]` is `m11, m12, .., m33`). -/
structure MATRIX3 where
  m11 : Double
  m12 : Double
  m13 : Double
  m21 : Double
  m22 : Double
  m23 : Double
  m31 : Double
  m32 : Double
  m33 : Double
  deriving DecidableEq, Repr

/-! ## Interpreter.cpp: value marshaller -/

def lua_tovector (c : CLib) (L : lua_State) (idx : Int) : Option (VECTOR3 × lua_State) := do
  let L1 ← lua_getfield L idx "x"
  let x := lua_tonumber c L1 (-1)
  let L2 := lua_pop L1 1
  let L3 ← lua_getfield L2 idx "y"
  let y := lua_tonumber c L3 (-1)
  let L4 := lua_pop L3 1
  let L5 ← lua_getfield L4 idx "z"
  let z := lua_tonumber c L5 (-1)
  let L6 := lua_pop L5 1
  pure (⟨x, y, z⟩, L6)

def lua_pushvector (L : lua_State) (vec : VECTOR3) : Option lua_State := do
  let L1 := lua_createtable L 0 3
  let L2 := lua_pushnumber L1 vec.x
  let L3 ← lua_setfield L2 (-2) "x"
  let L4 := lua_pushnumber L3 vec.y
  let L5 ← lua_setfield L4 (-2) "y"
  let L6 := lua_pushnumber L5 vec.z
  lua_setfield L6 (-2) "z"

/-- The number of keys of the table an index denotes (0 for anything else). -/
def tabsize (L : lua_State) (idx : Int) : Nat :=
  match index2adr L idx with
  | some (.table id) => ((L.tables[id]?).map (fun h => h.node.length)).getD 0
  | _ => 0

/-- The loop `while (lua_next(L,ii)) { lua_pop(L,1); n++; }` of `lua_isvector` and
`lua_ismatrix`, with at most `fuel` calls of `lua_next`. -/
def countkeys : Nat → lua_State → Int → Nat → Option (Nat × lua_State)
  | 0, _, _, _ => none
  | fuel + 1, L, ii, n =>
    match lua_next L ii with
    | none => none
    | some (false, L1) => some (n, L1)
    | some (true, L1) => countkeys fuel (lua_pop L1 1) ii (n + 1)

/-- The loop `for (i ..) { lua_getfield; fail = lua_isnil; lua_pop; if (fail) return 0; }`
followed by `return 1`, over the remaining field names. -/
def checkfields (L : lua_State) (idx : Int) : List String → Option (Int × lua_State)
  | [] => some (1, L)
  | f :: rest =>
    match lua_getfield L idx f with
    | none => none
    | some L1 =>
      let fail := lua_isnil L1 (-1)
      let L2 := lua_pop L1 1
      if fail then some (0, L2) else checkfields L2 idx rest

/-- One call of `lua_next` per key and a last one that ends the traversal: the
bound `tabsize + 1` on the counting loop is never reached (`countkeys_traverse`). -/
def lua_isvector (L : lua_State) (idx : Int) : Option (Int × lua_State) :=
  if !lua_istable L idx then some (0, L)
  else
    let L1 := lua_pushnil L
    let ii := if 0 ≤ idx then idx else idx - 1
    match countkeys (tabsize L1 ii + 1) L1 ii 0 with
    | none => none
    | some (n, L2) =>
      if n ≠ 3 then some (0, L2)
      else checkfields L2 idx ["x", "y", "z"]

def lua_pushmatrix (L : lua_State) (mat : MATRIX3) : Option lua_State := do
  let L0 := lua_createtable L 0 9
  let L1 ← lua_setfield (lua_pushnumber L0 mat.m11) (-2) "m11"
  let L2 ← lua_setfield (lua_pushnumber L1 mat.m12) (-2) "m12"
  let L3 ← lua_setfield (lua_pushnumber L2 mat.m13) (-2) "m13"
  let L4 ← lua_setfield (lua_pushnumber L3 mat.m21) (-2) "m21"
  let L5 ← lua_setfield (lua_pushnumber L4 mat.m22) (-2) "m22"
  let L6 ← lua_setfield (lua_pushnumber L5 mat.m23) (-2) "m23"
  let L7 ← lua_setfield (lua_pushnumber L6 mat.m31) (-2) "m31"
  let L8 ← lua_setfield (lua_pushnumber L7 mat.m32) (-2) "m32"
  lua_setfield (lua_pushnumber L8 mat.m33) (-2) "m33"

/-- One step `lua_getfield (L, idx, k); v = lua_tonumber (L, -1); lua_pop (L,1);`. -/
def getnumfield (c : CLib) (L : lua_State) (idx : Int) (k : String) : Option (Double × lua_State) :=
  match lua_getfield L idx k with
  | none => none
  | some L1 => some (lua_tonumber c L1 (-1), lua_pop L1 1)

def lua_tomatrix (c : CLib) (L : lua_State) (idx : Int) : Option (MATRIX3 × lua_State) := do
  let (a11, L1) ← getnumfield c L idx "m11"
  let (a12, L2) ← getnumfield c L1 idx "m12"
  let (a13, L3) ← getnumfield c L2 idx "m13"
  let (a21, L4) ← getnumfield c L3 idx "m21"
  let (a22, L5) ← getnumfield c L4 idx "m22"
  let (a23, L6) ← getnumfield c L5 idx "m23"
  let (a31, L7) ← getnumfield c L6 idx "m31"
  let (a32, L8) ← getnumfield c L7 idx "m32"
  let (a33, L9) ← getnumfield c L8 idx "m33"
  pure (⟨a11, a12, a13, a21, a22, a23, a31, a32, a33⟩, L9)

def lua_ismatrix (L : lua_State) (idx : Int) : Option (Int × lua_State) :=
  if !lua_istable L idx then some (0, L)
  else
    let L1 := lua_pushnil L
    let ii := if 0 ≤ idx then idx else idx - 1
    match countkeys (tabsize L1 ii + 1) L1 ii 0 with
    | none => none
    | some (n, L2) =>
      if n ≠ 9 then some (0, L2)
      else checkfields L2 idx ["m11", "m12", "m13", "m21", "m22", "m23", "m31", "m32", "m33"]

/-- What `lua_touserdata` returns when it is not `NULL`: a pointer to the block of a
full userdata, or the address a light userdata carries. -/
inductive CPtr where
  | block (id : Nat)
  | raw (a : Addr)
  deriving DecidableEq, Repr

/-- The API function `lua_touserdata`; `none` is `NULL`. -/
def lua_touserdata (L : lua_State) (idx : Int) : Option CPtr :=
  match index2adr L idx with
  | some (.userdata id) => some (.block id)
  | some (.lightuserdata p) => if p = 0 then none else some (.raw p)
  | _ => none

/-- The pointer value `%08x` prints. -/
def ptrvalue (c : CLib) : Option CPtr → Addr
  | none => 0
  | some (.block id) => c.blockaddr id
  | some (.raw a) => a

/-- The conversion `%*g`: `%g` right-justified in a field of the given width. -/
def fmt_gw (c : CLib) (w : Nat) (d : Double) : String :=
  String.mk (List.replicate (w - (c.fmt_g d).length) ' ') ++ c.fmt_g d

/-- The table branch of `lua_tostringex`: the loop
`while (lua_next(L, idx) != 0) { .. }` over the entries, appending one line per
entry to the static buffer `tbuf`.  `self` is the recursive call
`lua_tostringex (L,-1)`; at most `fuel` calls of `lua_next`. -/
def tostringex_table (c : CLib) (self : lua_State → String → Option (String × lua_State × String)) :
    Nat → lua_State → Int → String → Option (String × lua_State × String)
  | 0, _, _, _ => none
  | fuel + 1, L, idx, tbuf =>
    match lua_next L idx with
    | none => none
    | some (false, L1) => some (tbuf, L1, tbuf)
    | some (true, L1) =>
      let key := if lua_isstring L1 (-2) then lua_tostring c L1 (-2) else (none, L1)
      let fieldstr := if lua_isstring L1 (-2) then key.1.getD "" ++ "=" else ""
      match self key.2 tbuf with
      | none => none
      | some (str, L3, tbuf1) =>
        tostringex_table c self fuel (lua_pop L3 1) idx (tbuf1 ++ (fieldstr ++ str) ++ "\n")

/-- The function `Interpreter::lua_tostringex`.  The result is the returned text, the
Lua state, and the contents of the function-static buffer `tbuf`, which the argument
`tbuf` gives on entry.  `fuel` bounds the nesting of calls and the iterations of the
table loop together. -/
def lua_tostringex (c : CLib) : Nat → lua_State → Int → String → Option (String × lua_State × String)
  | 0, _, _, _ => none
  | fuel + 1, L, idx, tbuf =>
    match lua_tostring c L idx with
    | (some str, L1) => some (str, L1, tbuf)
    | (none, L1) =>
      match lua_isvector L1 idx with
      | none => none
      | some (isvec, L2) =>
        if isvec ≠ 0 then
          match lua_tovector c L2 idx with
          | none => none
          | some (v, L3) =>
            some ("[" ++ c.fmt_g v.x ++ " " ++ c.fmt_g v.y ++ " " ++ c.fmt_g v.z ++ "]", L3, tbuf)
        else
          match lua_ismatrix L2 idx with
          | none => none
          | some (ismat, L3) =>
            if ismat ≠ 0 then
              match lua_tomatrix c L3 idx with
              | none => none
              | some (m, L4) =>
                let len := fun (d : Double) => (c.fmt_g d).length
                let lmax0 := max (len m.m11) (max (len m.m21) (len m.m31))
                let lmax1 := max (len m.m12) (max (len m.m22) (len m.m32))
                let lmax2 := max (len m.m13) (max (len m.m23) (len m.m33))
                some ("[" ++ fmt_gw c lmax0 m.m11 ++ " " ++ fmt_gw c lmax1 m.m12 ++ " "
                        ++ fmt_gw c lmax2 m.m13 ++ "]\n["
                        ++ fmt_gw c lmax0 m.m21 ++ " " ++ fmt_gw c lmax1 m.m22 ++ " "
                        ++ fmt_gw c lmax2 m.m23 ++ "]\n["
                        ++ fmt_gw c lmax0 m.m31 ++ " " ++ fmt_gw c lmax1 m.m32 ++ " "
                        ++ fmt_gw c lmax2 m.m33 ++ "]", L4, tbuf)
            else if lua_isnil L3 idx then some ("nil", L3, tbuf)
            else if lua_isboolean L3 idx then
              some (if lua_toboolean L3 idx then "true" else "false", L3, tbuf)
            else if lua_islightuserdata L3 idx then
              some ("0x" ++ c.fmt_ptr (ptrvalue c (lua_touserdata L3 idx)) ++ " [data]", L3, tbuf)
            else if lua_isuserdata L3 idx then
              some ("0x" ++ c.fmt_ptr (ptrvalue c (lua_touserdata L3 idx)) ++ " [object]", L3, tbuf)
            else if lua_istable L3 idx then
              tostringex_table c (fun La tb => lua_tostringex c fuel La (-1) tb) fuel
                (lua_pushnil L3) (if idx < 0 then idx - 1 else idx) tbuf
            else some ("", L3, tbuf)

/-! ## Interpreter.cpp: object identity cache -/

/-- The global `vfocus = (VESSEL*)0x1`, the flag for the focus object. -/
def vfocus : Addr := 1

/-- The Orbiter core as the binding layer calls into it. -/
structure Host where
  /-- The method `VESSEL::Version()`; `none` when no vessel object lives at the address. -/
  Version : Addr → Option Nat
  /-- The callback `VESSEL3::clbkGeneric (msgid, prm, context)` with `context` the Lua
  state: the result and the state the callback leaves; `none` when it does not return. -/
  clbkGeneric : Addr → Int → lua_State → Option (Int × lua_State)
  /-- The message id `VMSG_LUAINSTANCE` of the Orbiter SDK. -/
  VMSG_LUAINSTANCE : Int

def LoadVesselExtensions (h : Host) (L : lua_State) (v : Addr) : Option (Bool × lua_State) :=
  match h.Version v with
  | none => none
  | some ver =>
    if ver < 2 then some (false, L)
    else
      match h.clbkGeneric v h.VMSG_LUAINSTANCE L with
      | none => none
      | some (r, L1) => some (r != 0, L1)

/-- The function `Interpreter::lua_pushvessel`.  Besides the state it returns the calls
of `LoadVesselExtensions` it made, each with the vessel and the Lua state passed. -/
def lua_pushvessel (h : Host) (L : lua_State) (v : Addr) : Option (lua_State × List (Addr × lua_State)) := do
  let L1 := lua_pushlightuserdata L v
  let L2 ← lua_gettable L1 LUA_REGISTRYINDEX
  if lua_isnil L2 (-1) then
    let L3 := lua_pop L2 1
    let (pv, L4) := lua_newuserdata L3
    let L5 := pokeblock L4 pv v
    let L6 ← luaL_getmetatable L5 "VESSEL.vtable"
    let L7 ← lua_setmetatable L6 (-2)
    let (_, L8) ← LoadVesselExtensions h L7 v
    let L9 := lua_pushlightuserdata L8 v
    let L10 := lua_pushvalue L9 (-2)
    let L11 ← lua_settable L10 LUA_REGISTRYINDEX
    pure (L11, [(v, L7)])
  else pure (L2, [])

/-- The function `Interpreter::lua_tovessel`; `focus` is what `oapiGetFocusInterface()`
returns at the time of the call. -/
def lua_tovessel (focus : Addr) (L : lua_State) (idx : Int) : Option (Addr × lua_State) :=
  match lua_touserdata L idx with
  | some (.block id) =>
    match L.udata[id]? with
    | none => none
    | some u =>
      if u.block = vfocus then some (focus, pokeblock L id focus)
      else some (u.block, L)
  | _ => none

/-- The shared body of `lua_pushmfd`, `lua_pushlightemitter` and `lua_pushsketchpad`,
which differ in the metatable name only. -/
def pushobject (tname : String) (L : lua_State) (p : Addr) : Option lua_State := do
  let L1 := lua_pushlightuserdata L p
  let L2 ← lua_gettable L1 LUA_REGISTRYINDEX
  if lua_isnil L2 (-1) then
    let L3 := lua_pop L2 1
    let (pp, L4) := lua_newuserdata L3
    let L5 := pokeblock L4 pp p
    let L6 ← luaL_getmetatable L5 tname
    let L7 ← lua_setmetatable L6 (-2)
    let L8 := lua_pushlightuserdata L7 p
    let L9 := lua_pushvalue L8 (-2)
    lua_settable L9 LUA_REGISTRYINDEX
  else pure L2

def lua_pushmfd (L : lua_State) (mfd : Addr) : Option lua_State := pushobject "MFD.vtable" L mfd

def lua_pushlightemitter (L : lua_State) (le : Addr) : Option lua_State :=
  pushobject "LightEmitter.vtable" L le

def lua_pushsketchpad (L : lua_State) (skp : Addr) : Option lua_State := pushobject "SKP.vtable" L skp

/-- The pointer read `return *p` of `lua_tomfd` and `lua_tolightemitter`. -/
def readblock (L : lua_State) (idx : Int) : Option Addr :=
  match lua_touserdata L idx with
  | some (.block id) => (L.udata[id]?).map Udata.block
  | _ => none

def lua_tomfd (L : lua_State) (idx : Int) : Option Addr := readblock L idx

def lua_tolightemitter (L : lua_State) (idx : Int) : Option Addr := readblock L idx

/-- The auxiliary-library function `luaL_newmetatable`. -/
def luaL_newmetatable (L : lua_State) (tname : String) : Option (Int × lua_State) := do
  let L1 ← lua_getfield L LUA_REGISTRYINDEX tname
  if !lua_isnil L1 (-1) then pure (0, L1)
  else
    let L2 := lua_pop L1 1
    let L3 := lua_createtable L2 0 0
    let L4 := lua_pushvalue L3 (-1)
    let L5 ← lua_setfield L4 LUA_REGISTRYINDEX tname
    pure (1, L5)

/-- The opening of the `Load..API` functions: `luaL_newmetatable (L, tname)`, then
`metatable.__index = metatable`; the metatable stays on the stack. -/
def newvtable (L : lua_State) (tname : String) : Option lua_State := do
  let (_, L1) ← luaL_newmetatable L tname
  let L2 := lua_pushstring L1 "__index"
  let L3 := lua_pushvalue L2 (-2)
  lua_settable L3 (-3)

/-- The loop of `luaL_openlib (L, NULL, l, 0)`: store each function of the list in the
table on top of the stack under its name. -/
def luaL_openlib_top (L : lua_State) : List (String × String) → Option lua_State
  | [] => some L
  | (name, func) :: l =>
    match lua_setfield (lua_push L (.cfunction func)) (-2) name with
    | none => none
    | some L1 => luaL_openlib_top L1 l

def LoadLightEmitterMethods (L : lua_State) : Option lua_State := do
  let L1 ← newvtable L "LightEmitter.vtable"
  luaL_openlib_top L1
    [("get_position", "le_get_position"), ("set_position", "le_set_position"),
     ("get_direction", "le_get_direction"), ("set_direction", "le_set_direction"),
     ("get_intensity", "le_get_intensity"), ("set_intensity", "le_set_intensity"),
     ("get_range", "le_get_range"), ("set_range", "le_set_range"),
     ("get_attenuation", "le_get_attenuation"), ("set_attenuation", "le_set_attenuation"),
     ("get_spotaperture", "le_get_spotaperture"), ("set_spotaperture", "le_set_spotaperture"),
     ("activate", "le_activate"), ("is_active", "le_is_active")]

/-- Run `lua_pushvessel` for each handle of a list in turn. -/
def pushvessels (h : Host) : lua_State → List Addr → Option (lua_State × List (Addr × lua_State))
  | L, [] => some (L, [])
  | L, v :: vs =>
    match lua_pushvessel h L v with
    | none => none
    | some (L1, calls) =>
      match pushvessels h L1 vs with
      | none => none
      | some (L2, calls2) => some (L2, calls ++ calls2)

/-- A small interpreter state: empty stack, registry (id 0) and globals (id 1). -/
def L0 : lua_State :=
  { stack := [], tables := [⟨[], none⟩, ⟨[], none⟩], udata := [],
    l_registry := 0, l_gt := 1, env := none, mt := [] }

/-- The doubles 1.0, 2.0, 3.0 and 4.0. -/
def d1 : Double := ⟨0x3FF0000000000000⟩
def d2 : Double := ⟨0x4000000000000000⟩
def d3 : Double := ⟨0x4008000000000000⟩
def d4 : Double := ⟨0x4010000000000000⟩

/-- How the stand-in C library prints a double: the four doubles above as "1" .. "4",
any other as its bit pattern. -/
def fmt0 (d : Double) : String :=
  if d = d1 then "1" else if d = d2 then "2" else if d = d3 then "3" else if d = d4 then "4"
  else toString d.bits

/-- A stand-in C library for evaluating the model on concrete inputs. -/
def clib0 : CLib :=
  { fmt_g := fmt0, lua_number2str := fmt0, luaO_str2d := fun _ => none,
    fmt_ptr := fun a => toString a, blockaddr := fun i => 4096 + 16 * i }

/-! ## Predicates and sample states for the statements below -/

/-- A table as Lua keeps it: no key occurs twice and nil is no key. -/
def wfnode (nd : List (LuaValue × LuaValue)) : Prop :=
  (nd.map Prod.fst).Nodup ∧ LuaValue.nil ∉ nd.map Prod.fst

/-- An index that denotes a slot of the stack (no pseudo-index). -/
def validindex (L : lua_State) (idx : Int) : Prop :=
  (1 ≤ idx ∧ idx ≤ L.stack.length) ∨
    (idx ≤ -1 ∧ -(L.stack.length : Int) ≤ idx ∧ LUA_REGISTRYINDEX + 1 < idx)

/-- Every table on the heap is as Lua keeps it, and the stack refers to tables of the heap. -/
def tablesok (L : lua_State) : Prop :=
  (∀ h ∈ L.tables, wfnode h.node) ∧
    ∀ v ∈ L.stack, match v with
      | .table id => id < L.tables.length
      | _ => True

/-- Reading each of the fields `fs` of `t` with `lua_getfield` gives a value other than nil. -/
def fieldspresent (L : lua_State) (t : LuaValue) (fs : List String) : Prop :=
  ∀ k ∈ fs, ∃ v, luaV_gettable L MAXTAGLOOP t (.string k) = some v ∧ v ≠ .nil

/-- The value at `idx` is a table with exactly `n` keys whose fields `fs` all read as
something other than nil. -/
def tableshape (L : lua_State) (idx : Int) (n : Nat) (fs : List String) : Prop :=
  ∃ id h, index2adr L idx = some (.table id) ∧ L.tables[id]? = some h ∧
    h.node.length = n ∧ fieldspresent L (.table id) fs

/-- The property the specification words for the vector and matrix probes: a table
with exactly `n` keys whose fields `fs` are all present and hold numbers. -/
def numbershape (L : lua_State) (idx : Int) (n : Nat) (fs : List String) : Prop :=
  ∃ id h, index2adr L idx = some (.table id) ∧ L.tables[id]? = some h ∧
    h.node.length = n ∧ ∀ k ∈ fs, ∃ d, luaV_gettable L MAXTAGLOOP (.table id) (.string k) = some (.number d)

/-- The state `L0` with the table `{x=1, y=2, z=3}` on the stack. -/
def Lxyz : lua_State :=
  { L0 with stack := [.table 2],
            tables := L0.tables ++ [⟨[(.string "x", .number d1), (.string "y", .number d2),
              (.string "z", .number d3)], none⟩] }

/-- The state `L0` with the table `{x="a", y=true, z=3}` on the stack. -/
def Lmixed : lua_State :=
  { L0 with stack := [.table 2],
            tables := L0.tables ++ [⟨[(.string "x", .string "a"), (.string "y", .bool true),
              (.string "z", .number d3)], none⟩] }

/-- The state `L0` with a table on the stack that has the nine keys `m11 .. m33`, all
holding the string "a". -/
def Lmat : lua_State :=
  { L0 with stack := [.table 2],
            tables := L0.tables ++ [⟨[(.string "m11", .string "a"), (.string "m12", .string "a"),
              (.string "m13", .string "a"), (.string "m21", .string "a"),
              (.string "m22", .string "a"), (.string "m23", .string "a"),
              (.string "m31", .string "a"), (.string "m32", .string "a"),
              (.string "m33", .string "a")], none⟩] }

/-- The text `lua_tostringex` gives for a key of a table entry. -/
def keytext : LuaValue → String
  | .string s => s
  | _ => ""

/-- The text `lua_tostring` gives for a number value. -/
def numtext (c : CLib) : LuaValue → String
  | .number d => c.lua_number2str d
  | _ => ""

/-- The generic table dump: one line `key=value` with a newline per entry, in traversal
order, appended to what the static buffer holds. -/
def dumptext (valtext : LuaValue → String) : String → List (LuaValue × LuaValue) → String
  | tbuf, [] => tbuf
  | tbuf, (k, v) :: rest => dumptext valtext (tbuf ++ ((keytext k ++ "=") ++ valtext v) ++ "\n") rest

/-- The state `L0` with the table `{x=1, y=2, z=3, w=4}` on the stack. -/
def Lxyzw : lua_State :=
  { L0 with stack := [.table 2],
            tables := L0.tables ++ [⟨[(.string "x", .number d1), (.string "y", .number d2),
              (.string "z", .number d3), (.string "w", .number d4)], none⟩] }

/-- The wrapper the registry caches for a native address: `registry[lightuserdata p]`,
nil when there is none. -/
def cached (L : lua_State) (p : Addr) : LuaValue :=
  match L.tables[L.l_registry]? with
  | none => .nil
  | some R => luaH_get R.node (.lightuserdata p)

/-- What the registry holds under a metatable name: `registry[tname]`. -/
def registered (L : lua_State) (tname : String) : LuaValue :=
  match L.tables[L.l_registry]? with
  | none => .nil
  | some R => luaH_get R.node (.string tname)

/-- The registry is a table without metatable in which a metatable name is either free
or bound to a table. -/
def regok (L : lua_State) (tname : String) : Prop :=
  ∃ R, L.tables[L.l_registry]? = some R ∧ R.metatable = none ∧
    (luaH_get R.node (.string tname) = .nil ∨ ∃ m, luaH_get R.node (.string tname) = .table m)

/-- The invariant of the wrapper cache: every cached wrapper is a full userdata of the
heap, which holds the address it is cached under (the focus flag apart, which
`lua_tovessel` overwrites), and no userdata is cached under two addresses. -/
def cacheinv (L : lua_State) : Prop :=
  (∀ p, cached L p = .nil ∨
    ∃ id u, cached L p = .userdata id ∧ L.udata[id]? = some u ∧ (p ≠ vfocus → u.block = p)) ∧
  (∀ p q, cached L p ≠ .nil → cached L p = cached L q → p = q)

/-- What a `clbkGeneric` callback may do to the Lua state it is handed: it leaves the
stack, the registry slot and the cached wrappers alone, keeps the registry a plain table,
and does not write into the blocks of the userdata that exist. -/
def hookframe (L L1 : lua_State) : Prop :=
  L1.stack = L.stack ∧ L1.l_registry = L.l_registry ∧
    (∀ p, cached L1 p = cached L p) ∧ regok L1 "VESSEL.vtable" ∧
    (∀ (id : Nat) (u : Udata), L.udata[id]? = some u →
      ∃ u1 : Udata, L1.udata[id]? = some u1 ∧ u1.block = u.block)

/-- The callback `clbkGeneric (VMSG_LUAINSTANCE, 0, L)` of the host is well behaved on
the states of `P`: called as `lua_pushvessel` calls it, on a state of `P` in which the
new wrapper of the vessel `v` (of version 2 or later) is on top of the stack, it
returns, respects `hookframe` and leaves a state of `P`.  Nothing is asked of the
callback on any other state. -/
def hookok (h : Host) (P : lua_State → Prop) : Prop :=
  ∀ v L ver id u, h.Version v = some ver → 2 ≤ ver → P L → regok L "VESSEL.vtable" →
    L.stack.getLast? = some (.userdata id) → L.udata[id]? = some u → u.block = v →
    ∃ r L1, h.clbkGeneric v h.VMSG_LUAINSTANCE L = some (r, L1) ∧ hookframe L L1 ∧ P L1

/-- The states of `P` are closed under what the wrapper cache itself does to a state
around the callback: it changes the stack, allocates a userdata, and stores a wrapper
in the registry under the address it wraps. -/
def cachestable (P : lua_State → Prop) : Prop :=
  (∀ (L : lua_State) (st : List LuaValue), P L → P { L with stack := st }) ∧
  (∀ (L : lua_State) (U : Udata), P L → P { L with udata := L.udata ++ [U] }) ∧
  (∀ (L : lua_State) (R : Table) (p : Addr) (w : LuaValue), P L →
    L.tables[L.l_registry]? = some R → R.metatable = none →
    P { L with tables := (L.tables.set L.l_registry
      { R with node := luaH_set R.node (.lightuserdata p) w }) })

/-- The metatable `lua_setmetatable` installs for the value on top of the stack. -/
def metaof : LuaValue → Option Nat
  | .table t => some t
  | _ => none

/-- A host whose vessel objects live at addresses from 4096 on, are of version 2 and keep
the default `clbkGeneric` of `VESSEL3`, which does nothing and returns 0. -/
def hostdef : Host :=
  { Version := fun a => if a < 4096 then none else some 2,
    clbkGeneric := fun _ _ L => some (0, L),
    VMSG_LUAINSTANCE := 2 }

/-- The state `L0` after `newvtable` has registered the metatables `VESSEL.vtable`
(table 2) and `LightEmitter.vtable` (table 3); both are left on the stack. -/
def Lapi : lua_State :=
  { stack := [.table 2, .table 3],
    tables := [⟨[(.string "VESSEL.vtable", .table 2), (.string "LightEmitter.vtable", .table 3)], none⟩,
      ⟨[], none⟩,
      ⟨[(.string "__index", .table 2)], none⟩,
      ⟨[(.string "__index", .table 3)], none⟩],
    udata := [], l_registry := 0, l_gt := 1, env := none, mt := [] }

/-- The metatable of the wrapper on top of the stack, when a full userdata is there. -/
def topmeta (L : lua_State) : Option (Option Nat) :=
  match index2adr L (-1) with
  | some (.userdata id) => (L.udata[id]?).map Udata.metatable
  | _ => none

/-! ## Script engine: calls into script code -/

/-- The error statuses a protected call can return (`LUA_ERRRUN`, `LUA_ERRMEM`,
`LUA_ERRERR` of `lua.h`). -/
inductive LuaErr where
  | errrun
  | errmem
  | errerr
  deriving DecidableEq, Repr

def LuaErr.code : LuaErr → Int
  | .errrun => 2
  | .errmem => 4
  | .errerr => 5

/-- How a call into script code ends when it returns: with results, or with an error
and its error value. -/
inductive CallResult where
  | ok (results : List LuaValue)
  | error (e : LuaErr) (msg : LuaValue)
  deriving DecidableEq, Repr

/-- The script engine proper, which the binding layer treats as a collaborator: the
compiler behind `luaL_loadbuffer`, the execution of a function value, and the C
conversion `lua_number2integer`.  The run of a function covers what the script does to
the Lua state, through the C functions it calls as well.  What such a C function does to
the interpreter object is not part of `exec`: `proc.Frameskip` calls
`Interpreter::frameskip`, which reads `status` and, when it is not 1, operates the two
gates; the record `Interpreter.trace` holds what the methods of `Interpreter` embedded
here do themselves. -/
structure Engine where
  /-- Compile a chunk of `n` bytes: the id of the new closure, or the error message. -/
  load : String → Nat → Except String Nat
  /-- Run a function on arguments in a state whose stack is the caller's (the callee
  works in a frame of its own): the outcome and the state it leaves, `none` when the
  call does not return. -/
  exec : LuaValue → List LuaValue → lua_State → Option (CallResult × lua_State)
  /-- The conversion of a `lua_Number` to a `lua_Integer`. -/
  lua_number2integer : Double → Int

/-- The names `luaT_typenames` of the type tags. -/
def luaT_typename (o : LuaValue) : String :=
  match o with
  | .nil => "nil"
  | .bool _ => "boolean"
  | .lightuserdata _ => "userdata"
  | .number _ => "number"
  | .string _ => "string"
  | .table _ => "table"
  | .cfunction _ => "function"
  | .lfunction _ => "function"
  | .userdata _ => "userdata"

/-- The function `luaD_call` on the value `f`: a function is run, any other value is
run through its `__call` metamethod with `f` as first argument, and a value without
one raises the error "attempt to call". -/
def luaD_call (eng : Engine) (L : lua_State) (f : LuaValue) (args : List LuaValue) :
    Option (CallResult × lua_State) :=
  if isfunction f then eng.exec f args L
  else if isfunction (luaT_gettmbyobj L f "__call") then
    eng.exec (luaT_gettmbyobj L f "__call") (f :: args) L
  else some (CallResult.error LuaErr.errrun
    (LuaValue.string ("attempt to call a " ++ luaT_typename f ++ " value")), L)

/-- Pad or cut the results of a call to `nresults` values. -/
def adjustresults (nresults : Nat) (rs : List LuaValue) : List LuaValue :=
  (rs ++ List.replicate nresults LuaValue.nil).take nresults

/-- The API function `lua_pcall (L, nargs, nresults, 0)`: the status and the state, in
which the function and its arguments are replaced by the results, or by the error
value when the call failed. -/
def lua_pcall (eng : Engine) (L : lua_State) (nargs nresults : Nat) : Option (Int × lua_State) :=
  match L.stack[L.stack.length - (nargs + 1)]? with
  | none => none
  | some f =>
    if L.stack.length < nargs + 1 then none
    else
      match luaD_call eng { L with stack := L.stack.take (L.stack.length - (nargs + 1)) } f
          (L.stack.drop (L.stack.length - nargs)) with
      | none => none
      | some (.ok rs, L1) =>
        some (0, { L1 with stack := L.stack.take (L.stack.length - (nargs + 1))
                                      ++ adjustresults nresults rs })
      | some (.error e msg, L1) =>
        some (e.code, { L1 with stack := L.stack.take (L.stack.length - (nargs + 1)) ++ [msg] })

/-- The API function `lua_call (L, nargs, nresults)`.  An error is raised outside any
protected call, so the call does not return (`none`). -/
def lua_call (eng : Engine) (L : lua_State) (nargs nresults : Nat) : Option lua_State :=
  match L.stack[L.stack.length - (nargs + 1)]? with
  | none => none
  | some f =>
    if L.stack.length < nargs + 1 then none
    else
      match luaD_call eng { L with stack := L.stack.take (L.stack.length - (nargs + 1)) } f
          (L.stack.drop (L.stack.length - nargs)) with
      | some (.ok rs, L1) =>
        some { L1 with stack := L.stack.take (L.stack.length - (nargs + 1))
                                  ++ adjustresults nresults rs }
      | _ => none

/-- The value `luaL_loadbuffer` pushes: the compiled chunk as a function, or the error
message. -/
def loadvalue (eng : Engine) (chunk : String) (n : Nat) : LuaValue :=
  match eng.load chunk n with
  | .ok id => .lfunction id
  | .error msg => .string msg

/-- The auxiliary-library function `luaL_loadbuffer (L, buff, sz, name)`: the status
(0, or `LUA_ERRSYNTAX`) and the state with the function or the message pushed. -/
def luaL_loadbuffer (eng : Engine) (L : lua_State) (chunk : String) (n : Nat) : Int × lua_State :=
  match eng.load chunk n with
  | .ok id => (0, lua_push L (.lfunction id))
  | .error msg => (3, lua_push L (.string msg))

/-- The conversion of `lua_tointeger` on a value: a number or a numeral string is
converted, anything else gives 0. -/
def tointegerv (eng : Engine) (c : CLib) (o : LuaValue) : Int :=
  match tonumber c o with
  | some d => eng.lua_number2integer d
  | none => 0

def lua_tointeger (eng : Engine) (c : CLib) (L : lua_State) (idx : Int) : Int :=
  match index2adr L idx with
  | none => 0
  | some o => tointegerv eng c o

/-! ## Interpreter.cpp: cooperative scheduler and chunk runner -/

/-- The two Win32 mutex handles of an interpreter. -/
inductive Mutex where
  | hExecMutex
  | hWaitMutex
  deriving DecidableEq, Repr

/-- What an interpreter does to the world outside its fields, in the order it does it. -/
inductive Event where
  /-- The call `WaitForSingleObject (m, timeout)`, and whether the mutex was acquired
  before the timeout. -/
  | wait (m : Mutex) (timeout : Nat) (acquired : Bool)
  /-- The call `ReleaseMutex (m)`. -/
  | release (m : Mutex)
  /-- The call `luaL_loadbuffer` on a chunk. -/
  | loadbuffer (chunk : String) (n : Nat)
  /-- The protected call `lua_pcall` of a value. -/
  | pcall (f : LuaValue)
  /-- The call `lua_call` of a value. -/
  | call (f : LuaValue)
  /-- The call `term_strout (str, iserr)`. -/
  | strout (str : String) (iserr : Bool)
  /-- The call `postfunc (postcontext)` of a function the host registered. -/
  | postcall (f : Nat) (context : Addr)
  deriving DecidableEq, Repr

/-- The fields of `class Interpreter`, and the record `trace` of its events. -/
structure Interpreter where
  L : lua_State
  is_busy : Bool
  is_term : Bool
  jobs : Int
  status : Int
  term_verbose : Int
  postfunc : Option Nat
  postcontext : Addr
  trace : List Event
  deriving DecidableEq, Repr

def Interpreter.Status (I : Interpreter) : Int := I.status

def Interpreter.IsBusy (I : Interpreter) : Bool := I.is_busy

def Interpreter.Terminate (I : Interpreter) : Interpreter := { I with status := 1 }

def Interpreter.term_strout (I : Interpreter) (str : String) (iserr : Bool) : Interpreter :=
  { I with trace := I.trace ++ [.strout str iserr] }

/-- The function `Interpreter::WaitExec`.  `gotwait` and `gotexec` say whether the two
calls of `WaitForSingleObject` acquired their mutex before the timeout; the code does
not look at what they return. -/
def Interpreter.WaitExec (I : Interpreter) (timeout : Nat) (gotwait gotexec : Bool) : Interpreter :=
  { I with trace := I.trace ++ [.wait .hWaitMutex timeout gotwait,
                                .wait .hExecMutex timeout gotexec, .release .hWaitMutex] }

def Interpreter.EndExec (I : Interpreter) : Interpreter :=
  { I with trace := I.trace ++ [.release .hExecMutex] }

/-- The function `Interpreter::frameskip`, as the calling thread sees it; `timeout` is
the default argument of `WaitExec`. -/
def Interpreter.frameskip (I : Interpreter) (timeout : Nat) (gotwait gotexec : Bool) :
    Option Interpreter :=
  if I.status = 1 then
    match lua_setfield (lua_pushboolean I.L 1) LUA_GLOBALSINDEX "wait_exit" with
    | none => none
    | some L1 => some { I with L := L1 }
  else some (I.EndExec.WaitExec timeout gotwait gotexec)

/-- The test `chunk[0]` of a C string: the buffer holds a first byte and it is not NUL. -/
def chunknonempty (chunk : String) : Bool :=
  match chunk.data with
  | [] => false
  | ch :: _ => ch != Char.ofNat 0

/-- The function `Interpreter::RunChunk`. -/
def Interpreter.RunChunk (eng : Engine) (c : CLib) (I : Interpreter) (chunk : String) (n : Nat) :
    Option (Int × Interpreter) :=
  if chunknonempty chunk then
    let I1 := { I with is_busy := true }
    let L1 := (luaL_loadbuffer eng I1.L chunk n).2
    match lua_pcall eng L1 0 0 with
    | none => none
    | some (res, L2) =>
      let I2 := { I1 with L := L2, trace := I1.trace ++
        [Event.loadbuffer chunk n, Event.pcall ((index2adr L1 (-1)).getD .nil)] }
      let I3 := if res ≠ 0 ∧ I2.is_term then I2.term_strout "Execution error." false else I2
      match lua_getfield I3.L LUA_GLOBALSINDEX "_nbranch" with
      | none => none
      | some L3 =>
        match lua_call eng L3 0 1 with
        | none => none
        | some L4 =>
          some (res, { I3 with L := lua_pop L4 1, jobs := lua_tointeger eng c L4 (-1),
                               is_busy := false,
                               trace := I3.trace ++ [Event.call ((index2adr L3 (-1)).getD .nil)] })
  else
    match lua_getfield I.L LUA_GLOBALSINDEX "_idle" with
    | none => none
    | some L1 =>
      match lua_call eng L1 0 1 with
      | none => none
      | some L2 =>
        some (-1, { I with L := lua_pop L2 1, jobs := lua_tointeger eng c L2 (-1),
                           trace := I.trace ++ [Event.call ((index2adr L1 (-1)).getD .nil)] })

/-- The function `Interpreter::ProcessChunk`; `timeout`, `gotwait` and `gotexec` are
those of its call of `WaitExec`. -/
def Interpreter.ProcessChunk (eng : Engine) (c : CLib) (I : Interpreter) (chunk : String) (n : Nat)
    (timeout : Nat) (gotwait gotexec : Bool) : Option (Int × Interpreter) :=
  match (I.WaitExec timeout gotwait gotexec).RunChunk eng c chunk n with
  | none => none
  | some (res, I1) => some (res, I1.EndExec)

/-- The status `lua_pcall` returns for an outcome of the call. -/
def statusof : CallResult → Int
  | .ok _ => 0
  | .error e _ => e.code

/-- What `lua_pcall (L, 0, 0, 0)` leaves on the stack in place of the function: nothing
after a call that succeeded, the error value after one that failed. -/
def errvalues : CallResult → List LuaValue
  | .ok _ => []
  | .error _ msg => [msg]

/-- A stand-in script engine.  The chunk "x = 2+2" compiles to closure 1, which sets the
global `x` to 4; "error()" compiles to closure 2, which raises an error; any other chunk
fails to compile.  Closure 10 returns 3 and closure 11 returns 2. -/
def eng0 : Engine :=
  { load := fun chunk _ =>
      if chunk = "x = 2+2" then .ok 1 else if chunk = "error()" then .ok 2
      else .error "syntax error",
    exec := fun f _ L =>
      match f with
      | .lfunction 1 =>
        (lua_setfield (lua_pushnumber L d4) LUA_GLOBALSINDEX "x").map
          (fun L1 => (CallResult.ok [], L1))
      | .lfunction 2 => some (CallResult.error LuaErr.errrun (LuaValue.string "error"), L)
      | .lfunction 10 => some (CallResult.ok [LuaValue.number d3], L)
      | .lfunction 11 => some (CallResult.ok [LuaValue.number d2], L)
      | _ => none,
    lua_number2integer := fun d =>
      if d = d1 then 1 else if d = d2 then 2 else if d = d3 then 3 else if d = d4 then 4 else 0 }

/-- The state `L0` with the globals `_idle` (closure 10) and `_nbranch` (closure 11), as
the startup script defines them. -/
def Lrun : lua_State :=
  { L0 with tables := [⟨[], none⟩,
      ⟨[(.string "_idle", .lfunction 10), (.string "_nbranch", .lfunction 11)], none⟩] }

/-- An interpreter with the field values the constructor sets, on the state `Lrun`. -/
def I0 : Interpreter :=
  { L := Lrun, is_busy := false, is_term := false, jobs := 0, status := 0, term_verbose := 0,
    postfunc := none, postcontext := 0, trace := [] }

/-- The raw value of a global variable. -/
def getglobal (L : lua_State) (name : String) : LuaValue :=
  match L.tables[L.l_gt]? with
  | none => .nil
  | some G => luaH_get G.node (.string name)

/-- The state `L0` with the table `{a=1}` on the stack. -/
def Lrec : lua_State :=
  { L0 with stack := [.table 2],
            tables := L0.tables ++ [⟨[(.string "a", .number d1)], none⟩] }

/-- The order of gate operations and script events that the specification words for one
`ProcessChunk` call: HandoffGate, ExecutionGate, the script events, then the release of
ExecutionGate and last the release of HandoffGate. -/
def claimedorder (t : Nat) (gw ge : Bool) (evs : List Event) : List Event :=
  [.wait .hWaitMutex t gw, .wait .hExecMutex t ge] ++ evs
    ++ [.release .hExecMutex, .release .hWaitMutex]

/-! ## Interpreter.cpp: construction and the operations of the class -/

/-- The function `luaL_newstate`: a new state with an empty stack, a registry and a
table of globals, both empty. -/
def luaL_newstate : lua_State :=
  { stack := [], tables := [⟨[], none⟩, ⟨[], none⟩], udata := [],
    l_registry := 0, l_gt := 1, env := none, mt := [] }

/-- The constructor `Interpreter::Interpreter ()`; `self` is the address `this`, which it
stores in the registry under "interp".  It also creates the two mutexes, `hExecMutex`
owned by the constructing thread and `hWaitMutex` owned by nobody. -/
def Interpreter.new (self : Addr) : Option Interpreter :=
  match lua_setfield (lua_pushlightuserdata luaL_newstate self) LUA_REGISTRYINDEX "interp" with
  | none => none
  | some L1 =>
    some { L := L1, is_busy := false, is_term := false, jobs := 0, status := 0,
           term_verbose := 0, postfunc := none, postcontext := 0, trace := [] }

/-- The function `Interpreter::PostStep`: a registered `postfunc` (a null pointer is
`none`) is called once with `postcontext`, and both fields are reset. -/
def Interpreter.PostStep (I : Interpreter) (_simt _simdt _mjd : Double) : Interpreter :=
  match I.postfunc with
  | some f =>
    { I with postfunc := none, postcontext := 0,
             trace := I.trace ++ [Event.postcall f I.postcontext] }
  | none => I

/-- A call of one of the operations of `Interpreter` that the host or the script thread
makes, with its arguments. -/
inductive Op where
  | Terminate
  | RunChunk (chunk : String) (n : Nat)
  | ProcessChunk (chunk : String) (n : Nat) (timeout : Nat) (gotwait gotexec : Bool)
  | frameskip (timeout : Nat) (gotwait gotexec : Bool)
  | PostStep (simt simdt mjd : Double)
  deriving DecidableEq, Repr

/-- Perform one operation; `none` when the operation does not return. -/
def Interpreter.perform (eng : Engine) (c : CLib) (I : Interpreter) : Op → Option Interpreter
  | .Terminate => some I.Terminate
  | .RunChunk chunk n => (I.RunChunk eng c chunk n).map Prod.snd
  | .ProcessChunk chunk n t gw ge => (I.ProcessChunk eng c chunk n t gw ge).map Prod.snd
  | .frameskip t gw ge => I.frameskip t gw ge
  | .PostStep simt simdt mjd => some (I.PostStep simt simdt mjd)

/-- Perform a sequence of operations one after the other. -/
def Interpreter.performall (eng : Engine) (c : CLib) : Interpreter → List Op → Option Interpreter
  | I, [] => some I
  | I, op :: ops =>
    match I.perform eng c op with
    | none => none
    | some I1 => Interpreter.performall eng c I1 ops

/-- The absolute index of the slot a negative stack index denotes. -/
def absindex (L : lua_State) (idx : Int) : Int := (L.stack.length : Int) + 1 + idx

/-! ## DGLua.cpp: script methods of the DeltaGlider -/

/-- The operations of the DeltaGlider subsystems that the script methods call. -/
inductive DGCall where
  | LowerGear
  | RaiseGear
  | CloseNcone
  | OpenNcone
  | CloseHatch
  | OpenHatch
  | CloseRetroCover
  | OpenRetroCover
  | CloseOuterAirlock
  | OpenOuterAirlock
  | CloseInnerAirlock
  | OpenInnerAirlock
  | CloseRadiator
  | OpenRadiator
  | RetractAirbrake
  | ExtendAirbrake
  deriving DecidableEq, Repr

/-- The function `lua_toDG` of DGLua.cpp: the pointer read `*pv` with `pv` what
`lua_touserdata` returns; `none` when that is no block of a full userdata. -/
def lua_toDG (L : lua_State) (idx : Int) : Option Addr := readblock L idx

/-- The function `dgGear` of DGLua.cpp.  The result is the return value with the subsystem
operations called, each with the vessel it is called on; `none` when the vessel pointer
read from the wrapper is null, which `dgGear` does not test before it calls through it. -/
def dgGear (eng : Engine) (c : CLib) (L : lua_State) : Option (Int × List (Addr × DGCall)) :=
  match lua_toDG L 1 with
  | none => none
  | some dg =>
    let action := lua_tointeger eng c L 2
    if dg = 0 then none
    else if Int.land action 1 ≠ 0 then some (0, [(dg, DGCall.LowerGear)])
    else some (0, [(dg, DGCall.RaiseGear)])

/-- The shared body of `dgNosecone`, `dgHatch`, `dgRetro`, `dgOLock`, `dgILock`,
`dgRadiator` and `dgABrake` of DGLua.cpp, which differ in the two subsystem operations
only: `if (dg && action >= 0 && action < 2) { if (action == 0) close; else open; }`. -/
def dgswitch (eng : Engine) (c : CLib) (L : lua_State) (close opn : DGCall) :
    Option (Int × List (Addr × DGCall)) :=
  match lua_toDG L 1 with
  | none => none
  | some dg =>
    let action := lua_tointeger eng c L 2
    if dg ≠ 0 ∧ 0 ≤ action ∧ action < 2 then
      if action = 0 then some (0, [(dg, close)]) else some (0, [(dg, opn)])
    else some (0, [])

def dgNosecone (eng : Engine) (c : CLib) (L : lua_State) : Option (Int × List (Addr × DGCall)) :=
  dgswitch eng c L .CloseNcone .OpenNcone

def dgHatch (eng : Engine) (c : CLib) (L : lua_State) : Option (Int × List (Addr × DGCall)) :=
  dgswitch eng c L .CloseHatch .OpenHatch

def dgRetro (eng : Engine) (c : CLib) (L : lua_State) : Option (Int × List (Addr × DGCall)) :=
  dgswitch eng c L .CloseRetroCover .OpenRetroCover

def dgOLock (eng : Engine) (c : CLib) (L : lua_State) : Option (Int × List (Addr × DGCall)) :=
  dgswitch eng c L .CloseOuterAirlock .OpenOuterAirlock

def dgILock (eng : Engine) (c : CLib) (L : lua_State) : Option (Int × List (Addr × DGCall)) :=
  dgswitch eng c L .CloseInnerAirlock .OpenInnerAirlock

def dgRadiator (eng : Engine) (c : CLib) (L : lua_State) : Option (Int × List (Addr × DGCall)) :=
  dgswitch eng c L .CloseRadiator .OpenRadiator

def dgABrake (eng : Engine) (c : CLib) (L : lua_State) : Option (Int × List (Addr × DGCall)) :=
  dgswitch eng c L .RetractAirbrake .ExtendAirbrake

/-- The stack of a method call `dg:Method (action)`: the wrapper of the DeltaGlider at
address 5000 and the number `action`. -/
def Ldg (action : Double) : lua_State :=
  { L0 with stack := [.userdata 0, .number action], udata := [⟨5000, none⟩] }

/-! ## Interpreter.cpp: argument checks -/

/-- What `AssertPrmtp` takes from the header `Interpreter.h`, which is not among the
sources: the values of the constants `PRMTP_*`, and the default argument `iserr` that
the declaration of the static `term_strout (L, str, iserr)` gives. -/
structure InterpreterH where
  PRMTP_NUMBER : Int
  PRMTP_VECTOR : Int
  PRMTP_STRING : Int
  PRMTP_LIGHTUSERDATA : Int
  PRMTP_TABLE : Int
  term_strout_iserr : Bool

/-- The function `Interpreter::GetInterpreter`: the pointer the registry holds under
"interp" (`none` for `NULL`). -/
def GetInterpreter (L : lua_State) : Option (Option CPtr × lua_State) :=
  match lua_getfield L LUA_REGISTRYINDEX "interp" with
  | none => none
  | some L1 => some (lua_touserdata L1 (-1), lua_pop L1 1)

/-- The static function `Interpreter::term_strout (L, str, iserr)`: the call of the method
`term_strout (str, iserr)` on the interpreter the registry names; `none` when that
pointer is null. -/
def term_strout (L : lua_State) (str : String) (iserr : Bool) : Option (lua_State × List Event) :=
  match GetInterpreter L with
  | some (some _, L1) => some (L1, [Event.strout str iserr])
  | _ => none

/-- The static table `tpname` of `AssertPrmtp`. -/
def tpname : List String := ["number", "vector", "string", "handle", "table"]

/-- The function `Interpreter::AssertPrmtp`: the result, the Lua state and the output
written.  `%d` prints `prm` in decimal; `none` when `tpname[tp]` reads outside the table. -/
def AssertPrmtp (k : InterpreterH) (c : CLib) (L : lua_State) (fname : String)
    (idx prm tp : Int) : Option (Int × lua_State × List Event) :=
  let probe : Option (Int × lua_State) :=
    if tp = k.PRMTP_NUMBER then some (if lua_isnumber c L idx then 1 else 0, L)
    else if tp = k.PRMTP_VECTOR then lua_isvector L idx
    else if tp = k.PRMTP_STRING then some (if lua_isstring L idx then 1 else 0, L)
    else if tp = k.PRMTP_LIGHTUSERDATA then some (if lua_islightuserdata L idx then 1 else 0, L)
    else if tp = k.PRMTP_TABLE then some (if lua_istable L idx then 1 else 0, L)
    else some (1, L)
  match probe with
  | none => none
  | some (res, L1) =>
    if res = 0 then
      if tp < 0 then none
      else
        match tpname[tp.toNat]? with
        | none => none
        | some tn =>
          match term_strout L1 (fname ++ ": argument " ++ toString prm
              ++ ": invalid type (expected " ++ tn ++ ")") k.term_strout_iserr with
          | none => none
          | some (L2, out) => some (res, L2, out)
    else some (res, L1, [])

/-- The diagnostic of `AssertPrmtp` for a function name, an argument position and the
name of the expected type. -/
def prmtpmessage (fname : String) (prm : Int) (tn : String) : String :=
  fname ++ ": argument " ++ toString prm ++ ": invalid type (expected " ++ tn ++ ")"

/-- The five kinds of parameter `AssertPrmtp` knows. -/
inductive PrmKind where
  | number
  | vector
  | string
  | handle
  | table
  deriving DecidableEq, Repr

/-- The constant `PRMTP_*` of a kind. -/
def PrmKind.const (k : InterpreterH) : PrmKind → Int
  | .number => k.PRMTP_NUMBER
  | .vector => k.PRMTP_VECTOR
  | .string => k.PRMTP_STRING
  | .handle => k.PRMTP_LIGHTUSERDATA
  | .table => k.PRMTP_TABLE

/-- The name of a kind, as the diagnostic is to give it. -/
def PrmKind.name : PrmKind → String
  | .number => "number"
  | .vector => "vector"
  | .string => "string"
  | .handle => "handle"
  | .table => "table"

/-- The value at `idx` satisfies the probe of a kind: `lua_isnumber`, `lua_isvector`,
`lua_isstring`, `lua_islightuserdata`, `lua_istable` returns nonzero. -/
def PrmKind.probe (c : CLib) (L : lua_State) (idx : Int) : PrmKind → Prop
  | .number => lua_isnumber c L idx = true
  | .vector => ∃ r L1, lua_isvector L idx = some (r, L1) ∧ r ≠ 0
  | .string => lua_isstring L idx = true
  | .handle => lua_islightuserdata L idx = true
  | .table => lua_istable L idx = true

/-- The header values under which `tpname[tp]` is the name of the kind `tp`. -/
def header0 : InterpreterH :=
  { PRMTP_NUMBER := 0, PRMTP_VECTOR := 1, PRMTP_STRING := 2, PRMTP_LIGHTUSERDATA := 3,
    PRMTP_TABLE := 4, term_strout_iserr := false }

/-- A state in which the interpreter at address 4096 is registered, with the string "abc"
and the table `{x=1, y=2, z=3}` on the stack. -/
def Largs : lua_State :=
  { stack := [.string "abc", .table 2],
    tables := [⟨[(.string "interp", .lightuserdata 4096)], none⟩, ⟨[], none⟩,
      ⟨[(.string "x", .number d1), (.string "y", .number d2), (.string "z", .number d3)], none⟩],
    udata := [], l_registry := 0, l_gt := 1, env := none, mt := [] }

/-! ## Interpreter.cpp: operations that call into the Orbiter core -/

/-- The calls into the Orbiter core that change its state, as the operations below make
them. -/
inductive HostCall where
  | oapiSetTimeAcceleration (warp : Double)
  | SetAngularVel (v : Addr) (av : VECTOR3)
  | oapiAnnotationSetPos (note : Addr) (x1 y1 x2 y2 : Double)
  deriving DecidableEq, Repr

/-- The function `Interpreter::oapi_set_tacc` (script name `oapi.set_tacc`): the number of
results and the host calls made. -/
def oapi_set_tacc (c : CLib) (L : lua_State) : Int × List HostCall :=
  let warp := lua_tonumber c L (-1)
  (0, [HostCall.oapiSetTimeAcceleration warp])

/-- The function `Interpreter::vesselSetAngularVel` (script name `set_angvel` of a
vessel); `focus` is what `oapiGetFocusInterface()` returns at the time of the call. -/
def vesselSetAngularVel (c : CLib) (focus : Addr) (L : lua_State) :
    Option (Int × lua_State × List HostCall) :=
  match lua_tovessel focus L 1 with
  | none => none
  | some (v, L1) =>
    if v ≠ 0 then
      match lua_tovector c L1 2 with
      | none => none
      | some (av, L2) => some (0, L2, [HostCall.SetAngularVel v av])
    else some (0, L1, [])

/-- The function `Interpreter::noteSetPos` (script name `set_pos` of an annotation);
`none` when argument 1 is no full userdata, whose block `*pnote` reads. -/
def noteSetPos (c : CLib) (L : lua_State) : Option (Int × List HostCall) :=
  match readblock L 1 with
  | none => none
  | some note =>
    let x1 := lua_tonumber c L 2
    let y1 := lua_tonumber c L 3
    let x2 := lua_tonumber c L 4
    let y2 := lua_tonumber c L 5
    some (0, [HostCall.oapiAnnotationSetPos note x1 y1 x2 y2])

/-- The stack of the call `oapi.set_tacc ("fast")`. -/
def Ltacc : lua_State := { L0 with stack := [.string "fast"] }

/-- The stack of the call `v:set_angvel ({})` on the wrapper of the vessel at address
5000: the wrapper and an empty table. -/
def Langvel : lua_State :=
  { L0 with stack := [.userdata 0, .table 2], tables := L0.tables ++ [⟨[], none⟩],
            udata := [⟨5000, none⟩] }

/-- The stack of the call `note:set_pos ("left", 1, 2, 3)` on the wrapper of the annotation
with handle 7000. -/
def Lnote : lua_State :=
  { L0 with stack := [.userdata 0, .string "left", .number d1, .number d2, .number d3],
            udata := [⟨7000, none⟩] }

/-! ## Lua API and auxiliary library: luaL_findtable, luaL_openlib -/

/-- The position in the stack list of the slot a stack index denotes. -/
def stackpos (L : lua_State) (idx : Int) : Option Nat :=
  if 0 < idx then (if idx ≤ L.stack.length then some (idx - 1).toNat else none)
  else if idx < 0 ∧ -idx ≤ L.stack.length then some ((L.stack.length : Int) + idx).toNat
  else none

/-- The function `lua_remove`: the slot at `idx` is removed and the slots above it move
down; `none` for an index that denotes no slot. -/
def lua_remove (L : lua_State) (idx : Int) : Option lua_State :=
  (stackpos L idx).map (fun i => { L with stack := L.stack.eraseIdx i })

/-- The function `lua_insert`: the top value moves into the slot at `idx` and the slots
from there on move up. -/
def lua_insert (L : lua_State) (idx : Int) : Option lua_State :=
  match stackpos L idx, L.stack.getLast? with
  | some i, some v =>
    some { L with stack := (L.stack.dropLast.take i) ++ [v] ++ (L.stack.dropLast.drop i) }
  | _, _ => none

/-- The function `lua_rawget`: pops a key and pushes the raw value `t[key]` of the table
at `idx`. -/
def lua_rawget (L : lua_State) (idx : Int) : Option lua_State :=
  match index2adr L idx, L.stack.getLast? with
  | some (.table id), some key =>
    (L.tables[id]?).map (fun h => lua_push (lua_pop L 1) (luaH_get h.node key))
  | _, _ => none

/-- The parts of a name between its dots, as `strchr (fname, '.')` finds them. -/
def splitdots : List Char → List (List Char)
  | [] => [[]]
  | ch :: cs =>
    if ch = '.' then [] :: splitdots cs
    else
      match splitdots cs with
      | [] => [[ch]]
      | p :: ps => (ch :: p) :: ps

/-- The loop of `luaL_findtable` over the parts of the name that are left, with the table
reached so far on top of the stack.  The result is the name from the part on that holds
a value that is no table (`none` for `NULL`). -/
def findtable_loop (szhint : Nat) : lua_State → List String → Option (Option String × lua_State)
  | L, [] => some (none, L)
  | L, part :: rest =>
    match lua_rawget (lua_pushstring L part) (-2) with
    | none => none
    | some L2 =>
      if lua_isnil L2 (-1) then
        let L3 := lua_pop L2 1
        let L4 := lua_createtable L3 0 (if rest = [] then szhint else 1)
        let L5 := lua_pushstring L4 part
        let L6 := lua_pushvalue L5 (-2)
        match lua_settable L6 (-4) with
        | none => none
        | some L7 =>
          match lua_remove L7 (-2) with
          | none => none
          | some L8 => findtable_loop szhint L8 rest
      else if !lua_istable L2 (-1) then
        some (some (String.intercalate "." (part :: rest)), lua_pop L2 2)
      else
        match lua_remove L2 (-2) with
        | none => none
        | some L8 => findtable_loop szhint L8 rest

/-- The auxiliary-library function `luaL_findtable`. -/
def luaL_findtable (L : lua_State) (idx : Int) (fname : String) (szhint : Nat) :
    Option (Option String × lua_State) :=
  findtable_loop szhint (lua_pushvalue L idx) ((splitdots fname.data).map String.mk)

/-- The auxiliary-library function `luaL_openlib (L, libname, l, 0)` (that is
`luaI_openlib`) for a library name that is not `NULL` and no upvalues: the library table
is `_LOADED[libname]`, or else the global of that name, created when absent; the
functions of `l` are stored in it and it is left on the stack.  `none` stands for the
error "name conflict for module" as well. -/
def luaL_openlib (L : lua_State) (libname : String) (l : List (String × String)) :
    Option lua_State := do
  let (_, L1) ← luaL_findtable L LUA_REGISTRYINDEX "_LOADED" 1
  let L2 ← lua_getfield L1 (-1) libname
  let L3 ←
    if !lua_istable L2 (-1) then do
      let L2a := lua_pop L2 1
      let (conflict, L2b) ← luaL_findtable L2a LUA_GLOBALSINDEX libname l.length
      if conflict.isSome then none
      else
        let L2c := lua_pushvalue L2b (-1)
        lua_setfield L2c (-3) libname
    else pure L2
  let L4 ← lua_remove L3 (-2)
  let L5 ← lua_insert L4 (-1)
  luaL_openlib_top L5 l

/-! ## DGLua.cpp, HST_Lua.cpp, ShuttleALua.cpp: Lua_InitInstance -/

/-- The shared body of `DeltaGlider::Lua_InitInstance`, `HST::Lua_InitInstance` and
`ShuttleA::Lua_InitInstance`, which differ in the four names and in the function list
only.  The wrapper of the vessel is on top of the stack. -/
def vessel_InitInstance (sentinel vtable method base : String) (lib : List (String × String))
    (L : lua_State) : Option (Int × lua_State) := do
  let L1 ← luaL_getmetatable L sentinel
  let L2 ←
    if lua_isnil L1 (-1) then do
      let La := lua_pop L1 1
      let (_, Lb) ← luaL_newmetatable La vtable
      let Lc ← luaL_openlib Lb method lib
      let (_, Ld) ← luaL_newmetatable Lc base
      let Le := lua_pushstring Ld "__index"
      let Lf ← luaL_getmetatable Le "VESSEL.vtable"
      let Lg ← lua_settable Lf (-3)
      let Lh ← lua_setmetatable Lg (-2)
      let Li := lua_pushstring Lh "__index"
      let Lj := lua_pushvalue Li (-2)
      let Lk ← lua_settable Lj (-4)
      pure (lua_pop Lk 1)
    else pure L1
  let L3 ← lua_setmetatable L2 (-2)
  pure (0, L3)

/-- The function list `dgLib` of `DeltaGlider::Lua_InitInstance`. -/
def dgLib : List (String × String) :=
  [("Gear", "dgGear"), ("Nosecone", "dgNosecone"), ("Hatch", "dgHatch"), ("Retro", "dgRetro"),
   ("OLock", "dgOLock"), ("ILock", "dgILock"), ("Radiator", "dgRadiator"), ("ABrake", "dgABrake")]

/-- The function list `hstLib` of `HST::Lua_InitInstance`. -/
def hstLib : List (String × String) :=
  [("antenna", "hstAntenna"), ("hatch", "hstHatch"), ("array", "hstArray")]

/-- The function list `shuttleaLib` of `ShuttleA::Lua_InitInstance`. -/
def shuttleaLib : List (String × String) :=
  [("gear", "lua_gear"), ("set_adilayout", "set_adilayout"),
   ("set_attrefmode", "set_attrefmode"), ("set_attreftgtmode", "set_attreftgtmode"),
   ("set_attrefoffset", "set_attrefoffset"), ("set_atttgtoffset", "set_atttgtoffset"),
   ("set_attoffsetmode", "set_attoffsetmode"), ("set_atttgtframemode", "set_atttgtframemode")]

def DeltaGlider.Lua_InitInstance (L : lua_State) : Option (Int × lua_State) :=
  vessel_InitInstance "VESSEL.DG" "DG.vtable" "DG.method" "DG.base" dgLib L

def HST.Lua_InitInstance (L : lua_State) : Option (Int × lua_State) :=
  vessel_InitInstance "VESSEL.HST" "HST.vtable" "HST.method" "HST.base" hstLib L

def ShuttleA.Lua_InitInstance (L : lua_State) : Option (Int × lua_State) :=
  vessel_InitInstance "VESSEL.SHUTTLEA" "SHUTTLEA.vtable" "SHUTTLEA.method" "SHUTTLEA.base"
    shuttleaLib L

/-- A state after `Interpreter::Initialise`, cut down to what the vessel classes use: the
registry (table 0) names `_LOADED` (table 2) and `VESSEL.vtable` (table 3), which holds
itself as `__index` and the methods `get_name` and `Gear`; the wrapper of a vessel
(userdata 0, of address 5000, with `VESSEL.vtable` attached) is on the stack. -/
def Lvessel : lua_State :=
  { stack := [.userdata 0],
    tables := [⟨[(.string "_LOADED", .table 2), (.string "VESSEL.vtable", .table 3)], none⟩,
      ⟨[], none⟩, ⟨[], none⟩,
      ⟨[(.string "__index", .table 3), (.string "get_name", .cfunction "v_get_name"),
        (.string "Gear", .cfunction "v_gear")], none⟩],
    udata := [⟨5000, some 3⟩], l_registry := 0, l_gt := 1, env := none, mt := [] }

/-! ## Predicates, heaps and sample states for the vessel classes -/

/-- The table `id` takes a raw assignment of a string key: the key is there, or the
table has no `__newindex` metamethod. -/
def rawsettable (tb : List Table) (id : Nat) (h : Table) : Prop :=
  tb[id]? = some h ∧
    (h.metatable = none ∨
      ∃ b hb, h.metatable = some b ∧ tb[b]? = some hb ∧
        luaH_get hb.node (.string "__newindex") = .nil)

/-- The table `id` gives a raw read of its fields: it has no `__index` metamethod. -/
def rawgettable (tb : List Table) (id : Nat) (h : Table) : Prop :=
  tb[id]? = some h ∧
    (h.metatable = none ∨
      ∃ b hb, h.metatable = some b ∧ tb[b]? = some hb ∧
        luaH_get hb.node (.string "__index") = .nil)

/-- The node of a library table after `luaL_openlib` has stored the functions of `l`. -/
def libnode (nd : List (LuaValue × LuaValue)) : List (String × String) → List (LuaValue × LuaValue)
  | [] => nd
  | (name, func) :: l => libnode (luaH_set nd (.string name) (.cfunction func)) l

/-- The table heap after `luaL_newmetatable` has created the table `tname`: the new table
is the last one, and the registry `R` names it. -/
def newmetaheap (tb : List Table) (r : Nat) (R : Table) (tname : String) : List Table :=
  (tb ++ [(⟨[], none⟩ : Table)]).set r
    { R with node := luaH_set R.node (.string tname) (.table tb.length) }

/-- The table heap after `luaL_openlib` has created the library table `method`: with `n`
the number of tables before, table `n` is the new global `p1`, which holds the library
table `n+1` under `p2`; the table `T` of loaded modules names the library table, which
holds the functions of `l`. -/
def openlibheap (tb : List Table) (g ld : Nat) (G T : Table) (method p1 p2 : String)
    (l : List (String × String)) : List Table :=
  (((((tb ++ [(⟨[], none⟩ : Table)]).set g
      { G with node := luaH_set G.node (.string p1) (.table tb.length) })
    ++ [(⟨[], none⟩ : Table)]).set tb.length
      ⟨luaH_set [] (.string p2) (.table (tb.length + 1)), none⟩).set ld
      { T with node := luaH_set T.node (.string method) (.table (tb.length + 1)) }).set
    (tb.length + 1) ⟨libnode [] l, none⟩

/-- The table heap after the first run of a vessel class's `Lua_InitInstance`.  With `n`
the number of tables before the run: table `n` is `vtable`, whose `__index` is the method
table; table `n+1` is the new global; table `n+2` is the method table, whose metatable is
`base`; table `n+3` is `base`, whose `__index` is the table `tv` of `VESSEL.vtable`. -/
def installedtables (tb : List Table) (r g ld tv : Nat) (R T G : Table)
    (vtable method base p1 p2 : String) (lib : List (String × String)) : List Table :=
  let h1 := newmetaheap tb r R vtable
  let h2 := openlibheap h1 g ld G T method p1 p2 lib
  let h3 := newmetaheap h2 r
    { R with node := luaH_set R.node (.string vtable) (.table tb.length) } base
  ((h3.set (tb.length + 3) ⟨luaH_set [] (.string "__index") (.table tv), none⟩).set
      (tb.length + 2) ⟨libnode [] lib, some (tb.length + 3)⟩).set
    tb.length ⟨luaH_set [] (.string "__index") (.table (tb.length + 2)), none⟩

/-- The table a library name is loaded as: `_LOADED[libname]` of the registry (the method
table of a vessel class), when it is a table. -/
def loadedlib (L : lua_State) (libname : String) : Option Nat :=
  match registered L "_LOADED" with
  | .table ld =>
    match L.tables[ld]? with
    | some T =>
      match luaH_get T.node (.string libname) with
      | .table M => some M
      | _ => none
    | none => none
  | _ => none

/-- The raw entry a table of the heap holds under a name; nil when there is no such table. -/
def rawentry (L : lua_State) (t : Option Nat) (name : String) : LuaValue :=
  match t with
  | some id =>
    match L.tables[id]? with
    | some h => luaH_get h.node (.string name)
    | none => .nil
  | none => .nil

/-- The entry of a method in the table registered under a metatable name (such as
"VESSEL.vtable"). -/
def vtableentry (L : lua_State) (tname name : String) : LuaValue :=
  rawentry L (metaof (registered L tname)) name

/-- The entry of a method in the method table of a vessel class (such as "DG.method"). -/
def methodentry (L : lua_State) (libname name : String) : LuaValue :=
  rawentry L (loadedlib L libname) name

/-- What a script reads as `wrapper.name` on the full userdata `u`. -/
def lookup (L : lua_State) (u : Nat) (name : String) : Option LuaValue :=
  luaV_gettable L MAXTAGLOOP (.userdata u) (.string name)

/-- A state in which a vessel class is not installed and its `Lua_InitInstance` can run:
the wrapper `u` is on top of the stack; the registry is a plain table that holds nothing
under `sentinel`, `vtable` and `base`, names the table of loaded modules under "_LOADED"
and a plain table under "VESSEL.vtable"; neither the module `method` nor the global `p1`
(the first part of `method`) exists; registry, table of loaded modules, table of globals
and `VESSEL.vtable` are four different tables. -/
def classabsent (L : lua_State) (u : Nat) (sentinel vtable method base p1 : String) : Prop :=
  ∃ (st : List LuaValue) (U : Udata) (R T G TV : Table) (ld tv : Nat),
    L.stack = st ++ [.userdata u] ∧ L.udata[u]? = some U ∧
    L.tables[L.l_registry]? = some R ∧ R.metatable = none ∧
    luaH_get R.node (.string sentinel) = .nil ∧
    luaH_get R.node (.string vtable) = .nil ∧
    luaH_get R.node (.string base) = .nil ∧
    luaH_get R.node (.string "_LOADED") = .table ld ∧
    luaH_get R.node (.string "VESSEL.vtable") = .table tv ∧
    L.tables[ld]? = some T ∧ T.metatable = none ∧ luaH_get T.node (.string method) = .nil ∧
    L.tables[L.l_gt]? = some G ∧ G.metatable = none ∧ luaH_get G.node (.string p1) = .nil ∧
    L.tables[tv]? = some TV ∧ TV.metatable = none ∧
    L.l_registry ≠ ld ∧ L.l_registry ≠ L.l_gt ∧ ld ≠ L.l_gt ∧
    tv ≠ L.l_registry ∧ tv ≠ ld ∧ tv ≠ L.l_gt

/-- The tables of a vessel class are in place, with `V` the table registered as `vtable`:
the registry is a plain table that names `V`, the table `B` registered as `base`, the
table of loaded modules and the table of "VESSEL.vtable"; the `__index` of the plain
table `V` is the method table loaded as `method`, whose metatable is the plain table
`B`, which has `__index`, the table of "VESSEL.vtable", a plain table, and no
`__newindex`; these six tables are different ones. -/
def classtables (L : lua_State) (vtable method base : String) (V : Nat) : Prop :=
  ∃ (M B tv ld : Nat) (R T hV hM hB hT : Table),
    L.tables[L.l_registry]? = some R ∧ R.metatable = none ∧
    luaH_get R.node (.string vtable) = .table V ∧
    luaH_get R.node (.string base) = .table B ∧
    luaH_get R.node (.string "_LOADED") = .table ld ∧
    luaH_get R.node (.string "VESSEL.vtable") = .table tv ∧
    L.tables[ld]? = some T ∧ T.metatable = none ∧
    luaH_get T.node (.string method) = .table M ∧
    L.tables[V]? = some hV ∧ hV.metatable = none ∧
    luaH_get hV.node (.string "__index") = .table M ∧
    L.tables[M]? = some hM ∧ hM.metatable = some B ∧
    L.tables[B]? = some hB ∧ hB.metatable = none ∧
    luaH_get hB.node (.string "__index") = .table tv ∧
    luaH_get hB.node (.string "__newindex") = .nil ∧
    L.tables[tv]? = some hT ∧ hT.metatable = none ∧
    [L.l_registry, ld, V, M, B, tv].Nodup

/-- A state in which a vessel class is installed for the wrapper `u`: the tables of the
class are in place and the metatable of `u` is the table registered as `vtable`. -/
def classinstalled (L : lua_State) (u : Nat) (vtable method base : String) : Prop :=
  ∃ (U : Udata) (V : Nat),
    L.udata[u]? = some U ∧ U.metatable = some V ∧ classtables L vtable method base V

/-- The table heap after a run of a vessel class's `Lua_InitInstance` that finds the
tables of the class in place: the method table `M` holds the functions of the list
again, the table `B` of inherited methods has its `__index` and is the metatable of `M`,
and the `__index` of the metatable `V` of the wrappers is `M`. -/
def reinstalledtables (tb : List Table) (V M B tv : Nat) (hV hM hB : Table)
    (lib : List (String × String)) : List Table :=
  (((tb.set M ⟨libnode hM.node lib, hM.metatable⟩).set B
      { hB with node := luaH_set hB.node (.string "__index") (.table tv) }).set M
      ⟨libnode hM.node lib, some B⟩).set V
    { hV with node := luaH_set hV.node (.string "__index") (.table M) }

/-- A state in which `Lua_InitInstance` of a vessel class runs after an earlier run: the
wrapper `u` is on top of the stack, the tables of the class are in place and the
registry holds nothing under `sentinel`. -/
def classpresent (L : lua_State) (u : Nat) (sentinel vtable method base : String) : Prop :=
  ∃ (st : List LuaValue) (U : Udata) (V : Nat),
    L.stack = st ++ [.userdata u] ∧ L.udata[u]? = some U ∧
    registered L sentinel = .nil ∧ classtables L vtable method base V

/-- The steps by which `Interpreter::lua_pushvessel` makes the wrapper of a vessel it has
not seen before, up to the call of `LoadVesselExtensions`: a new userdata block that
holds the vessel, with the metatable `VESSEL.vtable`, on top of the stack. -/
def newwrapper (L : lua_State) (v : Addr) : Option lua_State := do
  let (pv, L4) := lua_newuserdata L
  let L5 := pokeblock L4 pv v
  let L6 ← luaL_getmetatable L5 "VESSEL.vtable"
  lua_setmetatable L6 (-2)

/-- The script statement `p1.p2.name = v` (such as `DG.method.Gear = v`) in terms of the
Lua API. -/
def scriptassign (L : lua_State) (p1 p2 name : String) (v : LuaValue) : Option lua_State := do
  let L1 ← lua_getfield L LUA_GLOBALSINDEX p1
  let L2 ← lua_getfield L1 (-1) p2
  let L3 ← lua_setfield (lua_push L2 v) (-2) name
  pure (lua_pop L3 2)

/-- Two runs of a vessel class's `Lua_InitInstance` on one interpreter: the first run, a
script that replaces the entry `name` of the method table by `v`, a new wrapper for a
second vessel, and the second run.  The result is the entry of the method table before
and after the second run, and whether the second run left all tables, the method table
and the registry among them, as they were. -/
def tworuns (init : lua_State → Option (Int × lua_State)) (L : lua_State)
    (p1 p2 method name : String) (v : LuaValue) (w : Addr) :
    Option (LuaValue × LuaValue × Bool) := do
  let (_, L1) ← init L
  let L2 ← scriptassign L1 p1 p2 name v
  let L3 ← newwrapper L2 w
  let (_, L4) ← init L3
  pure (methodentry L3 method name, methodentry L4 method name,
    decide (L4.tables = L3.tables))

/-- The state `Lvessel` after the first run of `DeltaGlider::Lua_InitInstance` and with the
wrapper of a second vessel (userdata 1, of address 6000) on top of the stack: tables 4,
6 and 7 are `DG.vtable`, `DG.method` and `DG.base`, table 5 is the global `DG`. -/
def Lvessel2 : lua_State :=
  { stack := [.userdata 0, .userdata 1],
    tables := [⟨[(.string "_LOADED", .table 2), (.string "VESSEL.vtable", .table 3),
        (.string "DG.vtable", .table 4), (.string "DG.base", .table 7)], none⟩,
      ⟨[(.string "DG", .table 5)], none⟩,
      ⟨[(.string "DG.method", .table 6)], none⟩,
      ⟨[(.string "__index", .table 3), (.string "get_name", .cfunction "v_get_name"),
        (.string "Gear", .cfunction "v_gear")], none⟩,
      ⟨[(.string "__index", .table 6)], none⟩,
      ⟨[(.string "method", .table 6)], none⟩,
      ⟨[(.string "Gear", .cfunction "dgGear"), (.string "Nosecone", .cfunction "dgNosecone"),
        (.string "Hatch", .cfunction "dgHatch"), (.string "Retro", .cfunction "dgRetro"),
        (.string "OLock", .cfunction "dgOLock"), (.string "ILock", .cfunction "dgILock"),
        (.string "Radiator", .cfunction "dgRadiator"), (.string "ABrake", .cfunction "dgABrake")],
        some 7⟩,
      ⟨[(.string "__index", .table 3)], none⟩],
    udata := [⟨5000, some 4⟩, ⟨6000, some 3⟩], l_registry := 0, l_gt := 1, env := none, mt := [] }

/-- An operation is added to or replaced in the table registered under a metatable name
(such as "VESSEL.vtable"), in terms of the Lua API: the table is fetched with
`luaL_getmetatable` and the value is stored with `lua_setfield`. -/
def vtable_assign (L : lua_State) (tname name : String) (v : LuaValue) : Option lua_State := do
  let L1 ← luaL_getmetatable L tname
  let L2 ← lua_setfield (lua_push L1 v) (-2) name
  pure (lua_pop L2 1)

/-- The tables of a state are ready for the `Lua_InitInstance` of a vessel class:
whatever wrapper is put on top of the stack, the class is absent (`classabsent`) or its
tables are in place (`classpresent`).  Stack and userdata of the state play no part. -/
def classready (sentinel vtable method base p1 : String) (L : lua_State) : Prop :=
  ∀ (st : List LuaValue) (ud : List Udata) (u : Nat) (U : Udata), ud[u]? = some U →
    classabsent { L with stack := st ++ [.userdata u], udata := ud } u
      sentinel vtable method base p1 ∨
    classpresent { L with stack := st ++ [.userdata u], udata := ud } u
      sentinel vtable method base

/-- A host whose vessels, at the addresses from 4096 on, are of version 2 and of one
class with a Lua extension: `clbkGeneric` answers the message `VMSG_LUAINSTANCE` with
the `Lua_InitInstance` of the class, which takes the `context` of the callback, and
does nothing on any other message.  (The `clbkGeneric` of the vessel classes is not
among the sources.) -/
def classhost (init : lua_State → Option (Int × lua_State)) : Host :=
  { Version := fun a => if a < 4096 then none else some 2,
    clbkGeneric := fun _ msg L => if msg = 2 then init L else some (0, L),
    VMSG_LUAINSTANCE := 2 }

/-- A host whose vessels are DeltaGliders. -/
def hostDG : Host := classhost DeltaGlider.Lua_InitInstance

/-- A host whose vessels are of the class `HST`. -/
def hostHST : Host := classhost HST.Lua_InitInstance

/-- A host whose vessels are of the class `ShuttleA`. -/
def hostShuttleA : Host := classhost ShuttleA.Lua_InitInstance

/-- A state after `Interpreter::Initialise`, cut down to what the wrapper cache and the
vessel classes use: the registry (table 0) names `_LOADED` (table 2), `VESSEL.vtable`
(table 3, with the methods `get_name` and `Gear`) and `LightEmitter.vtable` (table 4);
the stack is empty and nothing is cached. -/
def Lhost : lua_State :=
  { stack := [],
    tables := [⟨[(.string "_LOADED", .table 2), (.string "VESSEL.vtable", .table 3),
        (.string "LightEmitter.vtable", .table 4)], none⟩,
      ⟨[], none⟩, ⟨[], none⟩,
      ⟨[(.string "__index", .table 3), (.string "get_name", .cfunction "v_get_name"),
        (.string "Gear", .cfunction "v_gear")], none⟩,
      ⟨[(.string "__index", .table 4)], none⟩],
    udata := [], l_registry := 0, l_gt := 1, env := none, mt := [] }

/-- The lines of `Interpreter::LoadVesselAPI` that create the pseudo-instance `focus`:
the focus flag `vfocus` is pushed as a light userdata, `VESSEL.vtable` is made its
metatable (for a light userdata this is the metatable of the type) and the value is
stored in the global `focus`. -/
def createfocus (L : lua_State) : Option lua_State := do
  let L1 := lua_pushlightuserdata L vfocus
  let L2 ← luaL_getmetatable L1 "VESSEL.vtable"
  let L3 ← lua_setmetatable L2 (-2)
  lua_setfield L3 LUA_GLOBALSINDEX "focus"

/-- The stack of a method call `focus:method ()` in the state that `createfocus` leaves:
the value of the global `focus` is argument 1. -/
def focuscall (L : lua_State) : Option lua_State :=
  (createfocus L).map (fun L1 => { L1 with stack := [getglobal L1 "focus"] })

/-- The state `Lhost` after one vessel wrapper has been made and cached for the address
5000 by `lua_pushlightemitter`. -/
def Lhit : lua_State :=
  { stack := [.userdata 0],
    tables := [⟨[(.string "_LOADED", .table 2), (.string "VESSEL.vtable", .table 3),
        (.string "LightEmitter.vtable", .table 4), (.lightuserdata 5000, .userdata 0)], none⟩,
      ⟨[], none⟩, ⟨[], none⟩,
      ⟨[(.string "__index", .table 3), (.string "get_name", .cfunction "v_get_name"),
        (.string "Gear", .cfunction "v_gear")], none⟩,
      ⟨[(.string "__index", .table 4)], none⟩],
    udata := [⟨5000, some 4⟩], l_registry := 0, l_gt := 1, env := none, mt := [] }

/-! # Lemmas on the Lua API model -/

theorem getElem?_append_length {α : Type} (st : List α) (a : α) (r : List α) :
    (st ++ a :: r)[st.length]? = some a := by
  rw [List.getElem?_append_right (le_refl _)]; simp

theorem take_length_append {α : Type} (st r : List α) (n : Nat) :
    List.take (st.length + n) (st ++ r) = st ++ List.take n r := by
  simp [List.take_append_eq_append_take]

@[simp]
theorem index2adr_neg1 (st : List LuaValue) (a : LuaValue) (tb ud r g e m) :
    index2adr ⟨st ++ [a], tb, ud, r, g, e, m⟩ (-1) = some a := by
  simp [index2adr, LUA_REGISTRYINDEX]

@[simp]
theorem index2adr_neg2 (st : List LuaValue) (a b : LuaValue) (tb ud r g e m) :
    index2adr ⟨st ++ [a, b], tb, ud, r, g, e, m⟩ (-2) = some a := by
  simp [index2adr, LUA_REGISTRYINDEX, List.getElem_append_right]

theorem luaV_settable_raw (L : lua_State) (n id : Nat) (h : Table) (key val : LuaValue)
    (hh : L.tables[id]? = some h) (hk : badkey key = false)
    (hm : luaH_get h.node key ≠ .nil ∨ luaT_gettmbyobj L (.table id) "__newindex" = .nil) :
    luaV_settable L (n + 1) (.table id) key val
      = some { L with tables := L.tables.set id { h with node := luaH_set h.node key val } } := by
  rw [luaV_settable]
  simp only [hh, hk]
  rcases hm with hm | hm <;> simp [hm]

theorem luaV_gettable_raw (L : lua_State) (n id : Nat) (h : Table) (key : LuaValue)
    (hh : L.tables[id]? = some h)
    (hm : luaH_get h.node key ≠ .nil ∨ luaT_gettmbyobj L (.table id) "__index" = .nil) :
    luaV_gettable L (n + 1) (.table id) key = some (luaH_get h.node key) := by
  rw [luaV_gettable]
  simp only [hh]
  rcases hm with hm | hm <;> simp [hm]

theorem luaT_gettmbyobj_nometa (L : lua_State) (id : Nat) (h : Table) (ev : String)
    (hh : L.tables[id]? = some h) (hm : h.metatable = none) :
    luaT_gettmbyobj L (.table id) ev = .nil := by
  simp [luaT_gettmbyobj, getmetatable, hh, hm]

/-- The call `lua_setfield (L, -2, k)` on a table without metatable that is the last
object allocated and lies just below the value on top. -/
theorem lua_setfield_fresh (L : lua_State) (st : List LuaValue) (tb : List Table)
    (nd : List (LuaValue × LuaValue)) (k : String) (v : LuaValue) :
    lua_setfield { L with stack := st ++ [.table tb.length, v], tables := tb ++ [⟨nd, none⟩] } (-2) k
      = some { L with stack := st ++ [.table tb.length],
                      tables := tb ++ [⟨luaH_set nd (.string k) v, none⟩] } := by
  have hh : (tb ++ [(⟨nd, none⟩ : Table)])[tb.length]? = some ⟨nd, none⟩ :=
    getElem?_append_length _ _ _
  simp only [lua_setfield, index2adr_neg2]
  have : (st ++ [LuaValue.table tb.length, v]).getLast? = some v := by simp
  simp only [this, MAXTAGLOOP]
  rw [luaV_settable_raw _ 99 tb.length ⟨nd, none⟩ _ _ hh (by rfl)
    (Or.inr (luaT_gettmbyobj_nometa _ _ _ _ hh rfl))]
  simp [lua_pop, take_length_append]

theorem lua_getfield_raw (L : lua_State) (idx : Int) (id : Nat) (h : Table) (k : String)
    (hi : index2adr L idx = some (.table id)) (hh : L.tables[id]? = some h)
    (hm : luaH_get h.node (.string k) ≠ .nil ∨ luaT_gettmbyobj L (.table id) "__index" = .nil) :
    lua_getfield L idx k = some (lua_push L (luaH_get h.node (.string k))) := by
  simp only [lua_getfield, hi, MAXTAGLOOP]
  rw [luaV_gettable_raw _ 99 id h _ hh hm]; rfl

theorem lua_pop_push (L : lua_State) (v : LuaValue) : lua_pop (lua_push L v) 1 = L := by
  simp [lua_pop, lua_push]

theorem lua_tonumber_push (c : CLib) (L : lua_State) (n : Double) :
    lua_tonumber c (lua_push L (.number n)) (-1) = n := by
  simp [lua_tonumber, lua_push, tonumber]

theorem lua_isnil_push (L : lua_State) (v : LuaValue) :
    lua_isnil (lua_push L v) (-1) = decide (v = .nil) := by
  cases v <;> simp [lua_isnil, lua_type, lua_push, LuaValue.ttype, LUA_TNIL, LUA_TBOOLEAN,
    LUA_TLIGHTUSERDATA, LUA_TNUMBER, LUA_TSTRING, LUA_TTABLE, LUA_TFUNCTION, LUA_TUSERDATA]

/-- The step `lua_getfield; lua_tonumber (L,-1); lua_pop (L,1)` on a raw number field. -/
theorem getnumfield_raw (c : CLib) (L : lua_State) (idx : Int) (id : Nat) (h : Table) (k : String)
    (n : Double) (hi : index2adr L idx = some (.table id)) (hh : L.tables[id]? = some h)
    (hn : luaH_get h.node (.string k) = .number n) :
    getnumfield c L idx k = some (n, L) := by
  have hg := lua_getfield_raw L idx id h k hi hh (Or.inl (by simp [hn]))
  simp [getnumfield, hg, hn, lua_tonumber_push, lua_pop_push]

theorem Double.ceq_self (d : Double) (h : d.isFinite = true) : d.ceq d = true := by
  simp only [Double.isFinite, bne_iff_ne, ne_eq] at h
  simp [Double.ceq, Double.isNaN, h]

/-! # The value marshaller -/

theorem lua_pushvector_eq (L : lua_State) (v : VECTOR3) :
    lua_pushvector L v = some { L with
      stack := L.stack ++ [.table L.tables.length],
      tables := L.tables ++ [⟨[(.string "x", .number v.x), (.string "y", .number v.y),
                               (.string "z", .number v.z)], none⟩] } := by
  simp only [lua_pushvector, lua_createtable, lua_pushnumber, lua_push, List.append_assoc,
    List.singleton_append, bind, Option.bind, pure]
  rw [lua_setfield_fresh]
  simp only [List.append_assoc, List.singleton_append]
  rw [lua_setfield_fresh]
  simp only [List.append_assoc, List.singleton_append]
  rw [lua_setfield_fresh]
  simp [luaH_set, luaH_store]

theorem lua_tovector_eq (c : CLib) (L : lua_State) (idx : Int) :
    lua_tovector c L idx =
      (getnumfield c L idx "x").bind (fun r1 =>
        (getnumfield c r1.2 idx "y").bind (fun r2 =>
          (getnumfield c r2.2 idx "z").bind (fun r3 => some (⟨r1.1, r2.1, r3.1⟩, r3.2)))) := by
  simp only [lua_tovector, getnumfield, bind, pure]
  cases lua_getfield L idx "x" with
  | none => rfl
  | some L1 =>
    simp only [Option.bind]
    cases lua_getfield (lua_pop L1 1) idx "y" with
    | none => rfl
    | some L3 =>
      simp only [Option.bind]
      cases lua_getfield (lua_pop L3 1) idx "z" <;> rfl

/-- C6: for every VECTOR3 `v` with three finite components, `lua_pushvector` succeeds and
pushes one new table, and `lua_tovector` applied to that table (at any index that
denotes it, for instance -1) returns a vector whose `x`, `y` and `z` are those of `v`,
bit for bit and under the C comparison of doubles, leaving the Lua state as it was. -/
theorem lua_tovector_pushvector (c : CLib) (L : lua_State) (v : VECTOR3)
    (hx : v.x.isFinite = true) (hy : v.y.isFinite = true) (hz : v.z.isFinite = true) :
    ∃ L1, lua_pushvector L v = some L1 ∧
      L1.stack = L.stack ++ [.table L.tables.length] ∧
      index2adr L1 (-1) = some (.table L.tables.length) ∧
      ∀ idx, index2adr L1 idx = some (.table L.tables.length) →
        ∃ r, lua_tovector c L1 idx = some (r, L1) ∧
          r.x = v.x ∧ r.y = v.y ∧ r.z = v.z ∧
          r.x.ceq v.x = true ∧ r.y.ceq v.y = true ∧ r.z.ceq v.z = true := by
  refine ⟨_, lua_pushvector_eq L v, rfl, by simp, ?_⟩
  intro idx hi
  have hh : (L.tables ++ [(⟨[(.string "x", .number v.x), (.string "y", .number v.y),
      (.string "z", .number v.z)], none⟩ : Table)])[L.tables.length]? = some _ :=
    getElem?_append_length _ _ _
  refine ⟨v, ?_, rfl, rfl, rfl, Double.ceq_self _ hx, Double.ceq_self _ hy, Double.ceq_self _ hz⟩
  rw [lua_tovector_eq]
  rw [getnumfield_raw c _ idx _ _ "x" v.x hi hh (by simp [luaH_get])]
  simp only [Option.bind]
  rw [getnumfield_raw c _ idx _ _ "y" v.y hi hh (by simp [luaH_get])]
  simp only [Option.bind]
  rw [getnumfield_raw c _ idx _ _ "z" v.z hi hh (by simp [luaH_get])]

theorem lua_tovector_pushvector_witness :
    ∃ L1, lua_pushvector L0 ⟨⟨1⟩, ⟨2⟩, ⟨3⟩⟩ = some L1 ∧
      L1.stack = L0.stack ++ [.table L0.tables.length] ∧
      index2adr L1 (-1) = some (.table L0.tables.length) ∧
      ∀ idx, index2adr L1 idx = some (.table L0.tables.length) →
        ∃ r, lua_tovector clib0 L1 idx = some (r, L1) ∧
          r.x = ⟨1⟩ ∧ r.y = ⟨2⟩ ∧ r.z = ⟨3⟩ ∧
          r.x.ceq ⟨1⟩ = true ∧ r.y.ceq ⟨2⟩ = true ∧ r.z.ceq ⟨3⟩ = true :=
  lua_tovector_pushvector clib0 L0 ⟨⟨1⟩, ⟨2⟩, ⟨3⟩⟩ (by decide) (by decide) (by decide)

theorem lua_pushmatrix_eq (L : lua_State) (m : MATRIX3) :
    lua_pushmatrix L m = some { L with
      stack := L.stack ++ [.table L.tables.length],
      tables := L.tables ++ [⟨[(.string "m11", .number m.m11), (.string "m12", .number m.m12),
        (.string "m13", .number m.m13), (.string "m21", .number m.m21),
        (.string "m22", .number m.m22), (.string "m23", .number m.m23),
        (.string "m31", .number m.m31), (.string "m32", .number m.m32),
        (.string "m33", .number m.m33)], none⟩] } := by
  simp only [lua_pushmatrix, lua_createtable, lua_pushnumber, lua_push, List.append_assoc,
    List.singleton_append, bind, pure]
  iterate 8 (rw [lua_setfield_fresh]; simp only [List.append_assoc, List.singleton_append, Option.bind])
  rw [lua_setfield_fresh]
  simp [luaH_set, luaH_store]

/-- C7: for every MATRIX3 `m` with nine finite components, `lua_pushmatrix` succeeds and
pushes one new table, and `lua_tomatrix` applied to that table (at any index that denotes
it, for instance -1) returns a matrix whose nine fields `m11 .. m33` are those of `m`,
each in its own position, bit for bit and under the C comparison of doubles, leaving
the Lua state as it was. -/
theorem lua_tomatrix_pushmatrix (c : CLib) (L : lua_State) (m : MATRIX3)
    (hfin : m.m11.isFinite = true ∧ m.m12.isFinite = true ∧ m.m13.isFinite = true ∧
      m.m21.isFinite = true ∧ m.m22.isFinite = true ∧ m.m23.isFinite = true ∧
      m.m31.isFinite = true ∧ m.m32.isFinite = true ∧ m.m33.isFinite = true) :
    ∃ L1, lua_pushmatrix L m = some L1 ∧
      L1.stack = L.stack ++ [.table L.tables.length] ∧
      index2adr L1 (-1) = some (.table L.tables.length) ∧
      ∀ idx, index2adr L1 idx = some (.table L.tables.length) →
        ∃ r, lua_tomatrix c L1 idx = some (r, L1) ∧
          r.m11 = m.m11 ∧ r.m12 = m.m12 ∧ r.m13 = m.m13 ∧
          r.m21 = m.m21 ∧ r.m22 = m.m22 ∧ r.m23 = m.m23 ∧
          r.m31 = m.m31 ∧ r.m32 = m.m32 ∧ r.m33 = m.m33 ∧
          r.m11.ceq m.m11 = true ∧ r.m12.ceq m.m12 = true ∧ r.m13.ceq m.m13 = true ∧
          r.m21.ceq m.m21 = true ∧ r.m22.ceq m.m22 = true ∧ r.m23.ceq m.m23 = true ∧
          r.m31.ceq m.m31 = true ∧ r.m32.ceq m.m32 = true ∧ r.m33.ceq m.m33 = true := by
  obtain ⟨h11, h12, h13, h21, h22, h23, h31, h32, h33⟩ := hfin
  refine ⟨_, lua_pushmatrix_eq L m, rfl, by simp, ?_⟩
  intro idx hi
  have hh : (L.tables ++ [(⟨[(.string "m11", .number m.m11), (.string "m12", .number m.m12),
        (.string "m13", .number m.m13), (.string "m21", .number m.m21),
        (.string "m22", .number m.m22), (.string "m23", .number m.m23),
        (.string "m31", .number m.m31), (.string "m32", .number m.m32),
        (.string "m33", .number m.m33)], none⟩ : Table)])[L.tables.length]? = some _ :=
    getElem?_append_length _ _ _
  refine ⟨m, ?_, rfl, rfl, rfl, rfl, rfl, rfl, rfl, rfl, rfl, Double.ceq_self _ h11,
    Double.ceq_self _ h12, Double.ceq_self _ h13, Double.ceq_self _ h21, Double.ceq_self _ h22,
    Double.ceq_self _ h23, Double.ceq_self _ h31, Double.ceq_self _ h32, Double.ceq_self _ h33⟩
  simp only [lua_tomatrix, bind, pure]
  rw [getnumfield_raw c _ idx _ _ "m11" m.m11 hi hh (by simp [luaH_get])]
  simp only [Option.bind]
  rw [getnumfield_raw c _ idx _ _ "m12" m.m12 hi hh (by simp [luaH_get])]
  simp only [Option.bind]
  rw [getnumfield_raw c _ idx _ _ "m13" m.m13 hi hh (by simp [luaH_get])]
  simp only [Option.bind]
  rw [getnumfield_raw c _ idx _ _ "m21" m.m21 hi hh (by simp [luaH_get])]
  simp only [Option.bind]
  rw [getnumfield_raw c _ idx _ _ "m22" m.m22 hi hh (by simp [luaH_get])]
  simp only [Option.bind]
  rw [getnumfield_raw c _ idx _ _ "m23" m.m23 hi hh (by simp [luaH_get])]
  simp only [Option.bind]
  rw [getnumfield_raw c _ idx _ _ "m31" m.m31 hi hh (by simp [luaH_get])]
  simp only [Option.bind]
  rw [getnumfield_raw c _ idx _ _ "m32" m.m32 hi hh (by simp [luaH_get])]
  simp only [Option.bind]
  rw [getnumfield_raw c _ idx _ _ "m33" m.m33 hi hh (by simp [luaH_get])]

theorem lua_tomatrix_pushmatrix_witness :
    ∃ L1, lua_pushmatrix L0 ⟨⟨1⟩, ⟨2⟩, ⟨3⟩, ⟨4⟩, ⟨5⟩, ⟨6⟩, ⟨7⟩, ⟨8⟩, ⟨9⟩⟩ = some L1 ∧
      L1.stack = L0.stack ++ [.table L0.tables.length] ∧
      index2adr L1 (-1) = some (.table L0.tables.length) ∧
      ∀ idx, index2adr L1 idx = some (.table L0.tables.length) →
        ∃ r, lua_tomatrix clib0 L1 idx = some (r, L1) ∧
          r.m11 = ⟨1⟩ ∧ r.m12 = ⟨2⟩ ∧ r.m13 = ⟨3⟩ ∧
          r.m21 = ⟨4⟩ ∧ r.m22 = ⟨5⟩ ∧ r.m23 = ⟨6⟩ ∧
          r.m31 = ⟨7⟩ ∧ r.m32 = ⟨8⟩ ∧ r.m33 = ⟨9⟩ ∧
          r.m11.ceq ⟨1⟩ = true ∧ r.m12.ceq ⟨2⟩ = true ∧ r.m13.ceq ⟨3⟩ = true ∧
          r.m21.ceq ⟨4⟩ = true ∧ r.m22.ceq ⟨5⟩ = true ∧ r.m23.ceq ⟨6⟩ = true ∧
          r.m31.ceq ⟨7⟩ = true ∧ r.m32.ceq ⟨8⟩ = true ∧ r.m33.ceq ⟨9⟩ = true :=
  lua_tomatrix_pushmatrix clib0 L0 ⟨⟨1⟩, ⟨2⟩, ⟨3⟩, ⟨4⟩, ⟨5⟩, ⟨6⟩, ⟨7⟩, ⟨8⟩, ⟨9⟩⟩ (by decide)

theorem luaH_next_append (pre suf : List (LuaValue × LuaValue)) (k v : LuaValue)
    (hk : k ∉ pre.map Prod.fst) :
    luaH_next (pre ++ (k, v) :: suf) k = some suf.head? := by
  induction pre with
  | nil => simp [luaH_next]
  | cons p pre ih =>
    obtain ⟨k1, v1⟩ := p
    simp only [List.map_cons, List.mem_cons, not_or] at hk
    have : ¬ k1 = k := fun h => hk.1 h.symm
    simp [luaH_next, this, ih hk.2]

theorem lua_next_at (tb : List Table) (ud r g e m) (ii : Int) (id : Nat) (h : Table)
    (base : List LuaValue) (key : LuaValue)
    (hii : index2adr ⟨base ++ [key], tb, ud, r, g, e, m⟩ ii = some (.table id))
    (hh : tb[id]? = some h) :
    lua_next ⟨base ++ [key], tb, ud, r, g, e, m⟩ ii =
      match (if key = .nil then some h.node.head? else luaH_next h.node key) with
      | none => none
      | some none => some (false, ⟨base, tb, ud, r, g, e, m⟩)
      | some (some (k, v)) => some (true, ⟨base ++ [k, v], tb, ud, r, g, e, m⟩) := by
  simp only [lua_next, hii, hh, List.getLast?_append, List.getLast?_singleton, Option.or]
  cases (if key = LuaValue.nil then some h.node.head? else luaH_next h.node key) with
  | none => rfl
  | some o =>
    cases o with
    | none => simp [lua_pop]
    | some p => simp

theorem lua_pop_two (base : List LuaValue) (k v : LuaValue) (tb ud r g e m) :
    lua_pop ⟨base ++ [k, v], tb, ud, r, g, e, m⟩ 1 = ⟨base ++ [k], tb, ud, r, g, e, m⟩ := by
  have := take_length_append base [k, v] 1
  simp [lua_pop]
  simpa using this

/-- The counting loop visits the remaining entries `suf` of the table one by one. -/
theorem countkeys_traverse (tb : List Table) (ud r g e m) (ii : Int) (id : Nat) (h : Table)
    (base : List LuaValue)
    (hii : ∀ x, index2adr ⟨base ++ [x], tb, ud, r, g, e, m⟩ ii = some (.table id))
    (hh : tb[id]? = some h) (hw : wfnode h.node) :
    ∀ (suf pre : List (LuaValue × LuaValue)) (key : LuaValue) (fuel n : Nat),
      h.node = pre ++ suf →
      (if key = .nil then some h.node.head? else luaH_next h.node key) = some suf.head? →
      suf.length < fuel →
      countkeys fuel ⟨base ++ [key], tb, ud, r, g, e, m⟩ ii n
        = some (n + suf.length, ⟨base, tb, ud, r, g, e, m⟩) := by
  intro suf
  induction suf with
  | nil =>
    intro pre key fuel n hnode hstep hfuel
    obtain ⟨fuel, rfl⟩ : ∃ f, fuel = f + 1 := ⟨fuel - 1, by simp at hfuel; omega⟩
    rw [countkeys, lua_next_at tb ud r g e m ii id h base key (hii key) hh, hstep]
    simp
  | cons p suf ih =>
    intro pre key fuel n hnode hstep hfuel
    obtain ⟨k, v⟩ := p
    obtain ⟨fuel, rfl⟩ : ∃ f, fuel = f + 1 := ⟨fuel - 1, by simp at hfuel; omega⟩
    have hkeys : k ∉ pre.map Prod.fst ∧ k ≠ .nil := by
      have h1 := hw.1; have h2 := hw.2
      rw [hnode] at h1 h2
      simp only [List.map_append, List.map_cons, List.mem_append, List.mem_cons, not_or] at h2
      rw [List.map_append, List.nodup_append] at h1
      refine ⟨fun hin => h1.2.2 hin (by simp), fun hk => h2.2.1 hk.symm⟩
    rw [countkeys, lua_next_at tb ud r g e m ii id h base key (hii key) hh, hstep]
    simp only [List.head?, lua_pop_two]
    have := ih (pre ++ [(k, v)]) k fuel (n + 1) (by simp [hnode])
      (by
        simp only [hkeys.2, if_false]
        rw [hnode]; exact luaH_next_append pre suf k v hkeys.1)
      (by simp at hfuel; omega)
    rw [this]; simp; omega

theorem index2adr_shift (st : List LuaValue) (tb ud r g e m) (idx : Int) (x : LuaValue)
    (hv : validindex ⟨st, tb, ud, r, g, e, m⟩ idx) :
    index2adr ⟨st ++ [x], tb, ud, r, g, e, m⟩ (if 0 ≤ idx then idx else idx - 1)
      = index2adr ⟨st, tb, ud, r, g, e, m⟩ idx := by
  simp only [validindex, LUA_REGISTRYINDEX] at hv
  rcases hv with ⟨h1, h2⟩ | ⟨h1, h2, h3⟩
  · have h0 : 0 ≤ idx := by omega
    have hpos : 0 < idx := by omega
    have hlt : (idx - 1).toNat < st.length := by omega
    simp only [h0, if_true, index2adr, hpos]
    rw [List.getElem?_append_left hlt]
  · have h0 : ¬ 0 ≤ idx := by omega
    have hpos : ¬ 0 < idx := by omega
    have hpos' : ¬ 0 < idx - 1 := by omega
    have e1 : ((st.length : Int) + 1 + (idx - 1)).toNat = ((st.length : Int) + idx).toNat := by
      congr 1; omega
    have hlt : ((st.length : Int) + idx).toNat < st.length := by omega
    simp only [h0, if_false, index2adr, hpos, hpos', LUA_REGISTRYINDEX, List.length_append,
      List.length_singleton, Nat.cast_add, Nat.cast_one]
    have c1 : (-10000 : Int) < idx - 1 := by omega
    have c2 : (-10000 : Int) < idx := by omega
    have c3 : ¬ (idx - 1 = 0 ∨ (st.length : Int) + 1 < -(idx - 1)) := by omega
    have c4 : ¬ (idx = 0 ∨ (st.length : Int) < -idx) := by omega
    simp only [c1, c2, c3, c4, if_true, if_false, e1]
    rw [List.getElem?_append_left hlt]

theorem checkfields_spec (L : lua_State) (idx : Int) (t : LuaValue)
    (hi : index2adr L idx = some t) (fs : List String) :
    (∀ r L1, checkfields L idx fs = some (r, L1) → L1 = L ∧ (r = 0 ∨ r = 1)) ∧
      (checkfields L idx fs = some (1, L) ↔ fieldspresent L t fs) := by
  induction fs with
  | nil => simp [checkfields, fieldspresent]
  | cons f fs ih =>
    simp only [checkfields, lua_getfield, hi, fieldspresent, List.mem_cons, forall_eq_or_imp]
    cases hg : luaV_gettable L MAXTAGLOOP t (.string f) with
    | none => simp
    | some v =>
      simp only [Option.map_some', lua_isnil_push, lua_pop_push, decide_eq_true_eq]
      by_cases hv : v = .nil
      · simp [hv]
      · simp only [hv, if_false, Option.some.injEq, exists_eq_left', not_false_eq_true, true_and]
        refine ⟨ih.1, ih.2.trans ?_⟩
        simp [fieldspresent, hv]

theorem checkfields_raw (L : lua_State) (idx : Int) (id : Nat) (h : Table)
    (hi : index2adr L idx = some (.table id)) (hh : L.tables[id]? = some h)
    (hm : h.metatable = none) (fs : List String) :
    ∃ r, checkfields L idx fs = some (r, L) := by
  induction fs with
  | nil => exact ⟨1, rfl⟩
  | cons f fs ih =>
    have hg := lua_getfield_raw L idx id h f hi hh
      (Or.inr (luaT_gettmbyobj_nometa L id h _ hh hm))
    simp only [checkfields, hg, lua_isnil_push, lua_pop_push, decide_eq_true_eq]
    by_cases hv : luaH_get h.node (.string f) = .nil
    · exact ⟨0, by simp [hv]⟩
    · simpa [hv] using ih

/-- The shared opening of `lua_isvector` and `lua_ismatrix` on a table: the counting
loop returns the number of keys and restores the stack. -/
theorem countkeys_table (L : lua_State) (idx : Int) (id : Nat) (h : Table)
    (hv : validindex L idx) (hi : index2adr L idx = some (.table id))
    (hh : L.tables[id]? = some h) (hw : wfnode h.node) :
    countkeys (tabsize (lua_pushnil L) (if 0 ≤ idx then idx else idx - 1) + 1) (lua_pushnil L)
      (if 0 ≤ idx then idx else idx - 1) 0 = some (h.node.length, L) := by
  obtain ⟨st, tb, ud, r, g, e, m⟩ := L
  have hii : ∀ x, index2adr ⟨st ++ [x], tb, ud, r, g, e, m⟩ (if 0 ≤ idx then idx else idx - 1)
      = some (.table id) := fun x => by rw [index2adr_shift st tb ud r g e m idx x hv, hi]
  have hsz : tabsize (lua_pushnil ⟨st, tb, ud, r, g, e, m⟩) (if 0 ≤ idx then idx else idx - 1)
      = h.node.length := by
    simp only [tabsize, lua_pushnil, lua_push, hii]
    simp only at hh
    simp [hh]
  rw [hsz]
  have := countkeys_traverse tb ud r g e m _ id h st hii hh hw h.node [] .nil
    (h.node.length + 1) 0 (by simp) (by simp) (by omega)
  simpa [lua_pushnil, lua_push] using this

theorem mem_stack_of_index2adr (L : lua_State) (idx : Int) (v : LuaValue)
    (hv : validindex L idx) (hi : index2adr L idx = some v) : v ∈ L.stack := by
  simp only [validindex, LUA_REGISTRYINDEX] at hv
  rcases hv with ⟨h1, h2⟩ | ⟨h1, h2, h3⟩
  · have hpos : 0 < idx := by omega
    simp only [index2adr, hpos, if_true] at hi
    exact List.getElem?_mem hi
  · have hpos : ¬ 0 < idx := by omega
    have c2 : (-10000 : Int) < idx := by omega
    have c4 : ¬ (idx = 0 ∨ (L.stack.length : Int) < -idx) := by omega
    simp only [index2adr, hpos, LUA_REGISTRYINDEX, c2, c4, if_true, if_false] at hi
    exact List.getElem?_mem hi

theorem lua_istable_iff (L : lua_State) (idx : Int) :
    lua_istable L idx = true ↔ ∃ id, index2adr L idx = some (.table id) := by
  simp only [lua_istable, lua_type]
  cases h : index2adr L idx with
  | none => simp [LUA_TNONE, LUA_TTABLE]
  | some v =>
    cases v <;> simp [LuaValue.ttype, LUA_TNIL, LUA_TBOOLEAN, LUA_TLIGHTUSERDATA, LUA_TNUMBER,
      LUA_TSTRING, LUA_TTABLE, LUA_TFUNCTION, LUA_TUSERDATA]

/-- The common body of the probes `lua_isvector` (`n = 3`) and `lua_ismatrix` (`n = 9`). -/
theorem shapeprobe_spec (L : lua_State) (idx : Int) (n : Nat) (fs : List String)
    (probe : Option (Int × lua_State))
    (hp : probe = if !lua_istable L idx then some (0, L)
      else
        match countkeys (tabsize (lua_pushnil L) (if 0 ≤ idx then idx else idx - 1) + 1)
            (lua_pushnil L) (if 0 ≤ idx then idx else idx - 1) 0 with
        | none => none
        | some (k, L2) => if k ≠ n then some (0, L2) else checkfields L2 idx fs)
    (hv : validindex L idx) (hw : tablesok L) :
    (∀ r L1, probe = some (r, L1) → L1 = L ∧ (r = 0 ∨ r = 1)) ∧
      ((∃ r L1, probe = some (r, L1) ∧ r ≠ 0) ↔ tableshape L idx n fs) ∧
      (lua_istable L idx = false → probe = some (0, L)) ∧
      (∀ id h, index2adr L idx = some (.table id) → L.tables[id]? = some h →
        h.metatable = none → ∃ r, probe = some (r, L)) := by
  by_cases ht : lua_istable L idx = true
  · obtain ⟨id, hi⟩ := (lua_istable_iff L idx).1 ht
    have hmem := mem_stack_of_index2adr L idx _ hv hi
    have hlt : id < L.tables.length := by simpa using hw.2 _ hmem
    have hh : L.tables[id]? = some L.tables[id] := List.getElem?_eq_getElem hlt
    have hwf : wfnode L.tables[id].node := hw.1 _ (List.getElem_mem hlt)
    have hc := countkeys_table L idx id _ hv hi hh hwf
    simp only [ht, Bool.not_true, Bool.false_eq_true, if_false, hc] at hp
    by_cases hn : L.tables[id].node.length = n
    · simp only [hn, ne_eq, not_true_eq_false, if_false] at hp
      have hcs := checkfields_spec L idx _ hi fs
      subst hp
      refine ⟨hcs.1, ?_, by simp [ht], ?_⟩
      · constructor
        · rintro ⟨r, L1, hr, hr0⟩
          obtain ⟨rfl, h01⟩ := hcs.1 r L1 hr
          have : r = 1 := by omega
          subst this
          exact ⟨id, _, hi, hh, hn, hcs.2.1 hr⟩
        · rintro ⟨id2, h2, hi2, hh2, _, hf⟩
          rw [hi] at hi2
          obtain rfl : id = id2 := by simpa using hi2
          exact ⟨1, L, hcs.2.2 hf, by decide⟩
      · intro id2 h2 hi2 hh2 hm
        exact checkfields_raw L idx id2 h2 hi2 hh2 hm fs
    · simp only [hn, ne_eq, not_false_eq_true, if_true] at hp
      subst hp
      refine ⟨by simp, ?_, by simp [ht], fun _ _ _ _ _ => ⟨0, rfl⟩⟩
      constructor
      · rintro ⟨r, L1, hr, hr0⟩
        simp only [Option.some.injEq, Prod.mk.injEq] at hr
        exact absurd hr.1.symm hr0
      · rintro ⟨id2, h2, hi2, hh2, hn2, _⟩
        rw [hi] at hi2
        obtain rfl : id = id2 := by simpa using hi2
        rw [hh] at hh2
        obtain rfl : L.tables[id] = h2 := by simpa using hh2
        exact absurd hn2 hn
  · have ht' : lua_istable L idx = false := by simpa using ht
    simp only [ht', Bool.not_false, if_true] at hp
    subst hp
    refine ⟨by simp, ?_, fun _ => rfl, fun id h hi _ _ => ?_⟩
    · constructor
      · rintro ⟨r, L1, hr, hr0⟩
        simp only [Option.some.injEq, Prod.mk.injEq] at hr
        exact absurd hr.1.symm hr0
      · rintro ⟨id2, h2, hi2, _⟩
        exact absurd ((lua_istable_iff L idx).2 ⟨id2, hi2⟩) ht
    · exact absurd ((lua_istable_iff L idx).2 ⟨id, hi⟩) ht

/-- C4 (as amended): on a stack index of a well-formed state, `lua_isvector` returns
nonzero if and only if the value at the index is a table that has exactly 3 keys and
whose fields `x`, `y` and `z` all read as something other than nil, of whatever type.
It returns 0 or 1, leaves the Lua state as it was, returns 0 on every non-table, and
always returns on a table without metatable. -/
theorem lua_isvector_iff (L : lua_State) (idx : Int) (hv : validindex L idx) (hw : tablesok L) :
    (∀ r L1, lua_isvector L idx = some (r, L1) → L1 = L ∧ (r = 0 ∨ r = 1)) ∧
      ((∃ r L1, lua_isvector L idx = some (r, L1) ∧ r ≠ 0)
        ↔ tableshape L idx 3 ["x", "y", "z"]) ∧
      (lua_istable L idx = false → lua_isvector L idx = some (0, L)) ∧
      (∀ id h, index2adr L idx = some (.table id) → L.tables[id]? = some h →
        h.metatable = none → ∃ r, lua_isvector L idx = some (r, L)) :=
  shapeprobe_spec L idx 3 ["x", "y", "z"] (lua_isvector L idx) rfl hv hw

/-- C5 (as amended): on a stack index of a well-formed state, `lua_ismatrix` returns
nonzero if and only if the value at the index is a table that has exactly 9 keys and
whose fields `m11 .. m33` all read as something other than nil, of whatever type.
It returns 0 or 1, leaves the Lua state as it was, returns 0 on every non-table, and
always returns on a table without metatable. -/
theorem lua_ismatrix_iff (L : lua_State) (idx : Int) (hv : validindex L idx) (hw : tablesok L) :
    (∀ r L1, lua_ismatrix L idx = some (r, L1) → L1 = L ∧ (r = 0 ∨ r = 1)) ∧
      ((∃ r L1, lua_ismatrix L idx = some (r, L1) ∧ r ≠ 0)
        ↔ tableshape L idx 9 ["m11", "m12", "m13", "m21", "m22", "m23", "m31", "m32", "m33"]) ∧
      (lua_istable L idx = false → lua_ismatrix L idx = some (0, L)) ∧
      (∀ id h, index2adr L idx = some (.table id) → L.tables[id]? = some h →
        h.metatable = none → ∃ r, lua_ismatrix L idx = some (r, L)) :=
  shapeprobe_spec L idx 9 ["m11", "m12", "m13", "m21", "m22", "m23", "m31", "m32", "m33"]
    (lua_ismatrix L idx) rfl hv hw

theorem tablesok_Lxyz : tablesok Lxyz := by
  refine ⟨?_, ?_⟩
  · intro h hh
    simp only [Lxyz, L0, List.cons_append, List.nil_append, List.mem_cons, List.mem_singleton,
      List.not_mem_nil, or_false] at hh
    rcases hh with rfl | rfl | rfl <;> simp [wfnode]
  · intro v hv
    simp only [Lxyz, List.mem_singleton] at hv
    subst hv
    simp [Lxyz, L0]

/-- The witness of `lua_isvector_iff` (C4): the table `{x=1, y=2, z=3}` at index -1. -/
theorem lua_isvector_iff_witness :
    (∀ r L1, lua_isvector Lxyz (-1) = some (r, L1) → L1 = Lxyz ∧ (r = 0 ∨ r = 1)) ∧
      ((∃ r L1, lua_isvector Lxyz (-1) = some (r, L1) ∧ r ≠ 0)
        ↔ tableshape Lxyz (-1) 3 ["x", "y", "z"]) ∧
      (lua_istable Lxyz (-1) = false → lua_isvector Lxyz (-1) = some (0, Lxyz)) ∧
      (∀ id h, index2adr Lxyz (-1) = some (.table id) → Lxyz.tables[id]? = some h →
        h.metatable = none → ∃ r, lua_isvector Lxyz (-1) = some (r, Lxyz)) :=
  lua_isvector_iff Lxyz (-1) (Or.inr (by decide)) tablesok_Lxyz

/-- The counterexample to C4 as stated: the table `{x="a", y=true, z=3}` has three keys
and holds a string and a boolean, yet `lua_isvector` returns 1 on it. -/
theorem lua_isvector_accepts_nonnumbers :
    (∃ r L1, lua_isvector Lmixed (-1) = some (r, L1) ∧ r ≠ 0) ∧
      ¬ numbershape Lmixed (-1) 3 ["x", "y", "z"] := by
  refine ⟨⟨1, Lmixed, by decide, by decide⟩, ?_⟩
  rintro ⟨id, h, hi, hh, -, hf⟩
  have hid : id = 2 := by
    have : index2adr Lmixed (-1) = some (.table 2) := by decide
    rw [this] at hi; simpa using hi.symm
  subst hid
  obtain ⟨d, hd⟩ := hf "x" (by simp)
  have : luaV_gettable Lmixed MAXTAGLOOP (.table 2) (.string "x") = some (.string "a") := by
    decide
  rw [this] at hd
  simp at hd

theorem tablesok_Lmat : tablesok Lmat := by
  refine ⟨?_, ?_⟩
  · intro h hh
    simp only [Lmat, L0, List.cons_append, List.nil_append, List.mem_cons, List.mem_singleton,
      List.not_mem_nil, or_false] at hh
    rcases hh with rfl | rfl | rfl <;> simp [wfnode]
  · intro v hv
    simp only [Lmat, List.mem_singleton] at hv
    subst hv
    simp [Lmat, L0]

/-- The witness of `lua_ismatrix_iff` (C5): a table with the nine keys `m11 .. m33`
at index 1. -/
theorem lua_ismatrix_iff_witness :
    (∀ r L1, lua_ismatrix Lmat 1 = some (r, L1) → L1 = Lmat ∧ (r = 0 ∨ r = 1)) ∧
      ((∃ r L1, lua_ismatrix Lmat 1 = some (r, L1) ∧ r ≠ 0)
        ↔ tableshape Lmat 1 9 ["m11", "m12", "m13", "m21", "m22", "m23", "m31", "m32", "m33"]) ∧
      (lua_istable Lmat 1 = false → lua_ismatrix Lmat 1 = some (0, Lmat)) ∧
      (∀ id h, index2adr Lmat 1 = some (.table id) → Lmat.tables[id]? = some h →
        h.metatable = none → ∃ r, lua_ismatrix Lmat 1 = some (r, Lmat)) :=
  lua_ismatrix_iff Lmat 1 (Or.inl (by decide)) tablesok_Lmat

/-- The counterexample to C5 as stated: a table whose nine fields `m11 .. m33` all hold
the string "a" has no number-typed field, yet `lua_ismatrix` returns 1 on it. -/
theorem lua_ismatrix_accepts_nonnumbers :
    (∃ r L1, lua_ismatrix Lmat (-1) = some (r, L1) ∧ r ≠ 0) ∧
      ¬ numbershape Lmat (-1) 9 ["m11", "m12", "m13", "m21", "m22", "m23", "m31", "m32", "m33"] := by
  refine ⟨⟨1, Lmat, by decide, by decide⟩, ?_⟩
  rintro ⟨id, h, hi, hh, -, hf⟩
  have hid : id = 2 := by
    have : index2adr Lmat (-1) = some (.table 2) := by decide
    rw [this] at hi; simpa using hi.symm
  subst hid
  obtain ⟨d, hd⟩ := hf "m11" (by simp)
  have : luaV_gettable Lmat MAXTAGLOOP (.table 2) (.string "m11") = some (.string "a") := by
    decide
  rw [this] at hd
  simp at hd

/-! # The probe order of lua_tostringex -/

theorem shapeprobe_count (L : lua_State) (idx : Int) (n : Nat) (fs : List String)
    (id : Nat) (h : Table) (hv : validindex L idx) (hw : tablesok L)
    (hi : index2adr L idx = some (.table id)) (hh : L.tables[id]? = some h)
    (hn : h.node.length ≠ n) :
    (if !lua_istable L idx then some (0, L)
      else
        match countkeys (tabsize (lua_pushnil L) (if 0 ≤ idx then idx else idx - 1) + 1)
            (lua_pushnil L) (if 0 ≤ idx then idx else idx - 1) 0 with
        | none => none
        | some (k, L2) => if k ≠ n then some (0, L2) else checkfields L2 idx fs)
      = some (0, L) := by
  have ht : lua_istable L idx = true := (lua_istable_iff L idx).2 ⟨id, hi⟩
  have hwf : wfnode h.node := hw.1 _ (List.getElem?_mem hh)
  have hc := countkeys_table L idx id _ hv hi hh hwf
  simp [ht, hc, hn]

@[simp]
theorem index2adr_neg1_two (st : List LuaValue) (a b : LuaValue) (tb ud r g e m) :
    index2adr ⟨st ++ [a, b], tb, ud, r, g, e, m⟩ (-1) = some b := by
  have : st ++ [a, b] = (st ++ [a]) ++ [b] := by simp
  rw [this]; exact index2adr_neg1 _ _ _ _ _ _ _ _

theorem setslot_neg1_two (st : List LuaValue) (a b v : LuaValue) (tb ud r g e m) :
    setslot ⟨st ++ [a, b], tb, ud, r, g, e, m⟩ (-1) v = ⟨st ++ [a, v], tb, ud, r, g, e, m⟩ := by
  have h1 : ¬ (0 : Int) < -1 := by decide
  have h3 : (((st ++ [a, b]).length : Int) + -1).toNat = (st ++ [a]).length := by
    simp only [List.length_append, List.length_cons, List.length_nil]; omega
  have h4 : LUA_REGISTRYINDEX < (-1 : Int) ∧ (-1 : Int) ≠ 0 ∧ -(-1 : Int) ≤ ((st ++ [a, b]).length : Int) := by
    refine ⟨by decide, by decide, ?_⟩
    simp only [List.length_append, List.length_cons, List.length_nil]; omega
  simp only [setslot, h1, if_false, h4, and_self, if_true, h3]
  have h2 : st ++ [a, b] = (st ++ [a]) ++ [b] := by simp
  rw [h2, List.set_append_right _ _ (le_refl _)]
  simp

/-- The call `lua_tostringex (L,-1)` on a number value on top of the stack. -/
theorem lua_tostringex_number (c : CLib) (fuel : Nat) (st : List LuaValue) (k : LuaValue)
    (d : Double) (tb ud r g e m) (tbuf : String) :
    lua_tostringex c (fuel + 1) ⟨st ++ [k, .number d], tb, ud, r, g, e, m⟩ (-1) tbuf
      = some (c.lua_number2str d, ⟨st ++ [k, .string (c.lua_number2str d)], tb, ud, r, g, e, m⟩, tbuf) := by
  rw [lua_tostringex]
  simp [lua_tostring, setslot_neg1_two]

theorem lua_isstring_key (st : List LuaValue) (ks : String) (v : LuaValue) (tb ud r g e m) :
    lua_isstring ⟨st ++ [.string ks, v], tb, ud, r, g, e, m⟩ (-2) = true := by
  simp [lua_isstring, lua_type, LuaValue.ttype]

theorem lua_tostring_key (c : CLib) (st : List LuaValue) (ks : String) (v : LuaValue)
    (tb ud r g e m) :
    lua_tostring c ⟨st ++ [.string ks, v], tb, ud, r, g, e, m⟩ (-2)
      = (some ks, ⟨st ++ [.string ks, v], tb, ud, r, g, e, m⟩) := by
  simp [lua_tostring]

/-- The table loop of `lua_tostringex` appends one line per remaining entry `suf`, when
the keys are strings and the nested call renders each value as `valtext` says. -/
theorem tostringex_table_traverse (c : CLib)
    (self : lua_State → String → Option (String × lua_State × String))
    (valtext : LuaValue → String) (tb : List Table) (ud r g e m) (ii : Int) (id : Nat)
    (h : Table) (base : List LuaValue)
    (hii : ∀ x, index2adr ⟨base ++ [x], tb, ud, r, g, e, m⟩ ii = some (.table id))
    (hh : tb[id]? = some h) (hw : wfnode h.node)
    (hself : ∀ ks v, (LuaValue.string ks, v) ∈ h.node → ∀ t, ∃ v1,
      self ⟨base ++ [.string ks, v], tb, ud, r, g, e, m⟩ t
        = some (valtext v, ⟨base ++ [.string ks, v1], tb, ud, r, g, e, m⟩, t))
    (hkeys : ∀ p ∈ h.node, ∃ ks, p.1 = LuaValue.string ks) :
    ∀ (suf pre : List (LuaValue × LuaValue)) (key : LuaValue) (fuel : Nat) (tbuf : String),
      h.node = pre ++ suf →
      (if key = .nil then some h.node.head? else luaH_next h.node key) = some suf.head? →
      suf.length < fuel →
      tostringex_table c self fuel ⟨base ++ [key], tb, ud, r, g, e, m⟩ ii tbuf
        = some (dumptext valtext tbuf suf, ⟨base, tb, ud, r, g, e, m⟩, dumptext valtext tbuf suf) := by
  intro suf
  induction suf with
  | nil =>
    intro pre key fuel tbuf hnode hstep hfuel
    obtain ⟨fuel, rfl⟩ : ∃ f, fuel = f + 1 := ⟨fuel - 1, by simp at hfuel; omega⟩
    rw [tostringex_table, lua_next_at tb ud r g e m ii id h base key (hii key) hh, hstep]
    simp [dumptext]
  | cons p suf ih =>
    intro pre key fuel tbuf hnode hstep hfuel
    obtain ⟨k, v⟩ := p
    obtain ⟨fuel, rfl⟩ : ∃ f, fuel = f + 1 := ⟨fuel - 1, by simp at hfuel; omega⟩
    have hmem : (k, v) ∈ h.node := by rw [hnode]; simp
    obtain ⟨ks, hks⟩ := hkeys _ hmem
    simp only at hks
    subst hks
    have hnotin : LuaValue.string ks ∉ pre.map Prod.fst := by
      have h1 := hw.1
      rw [hnode, List.map_append, List.nodup_append] at h1
      exact fun hin => h1.2.2 hin (by simp)
    obtain ⟨v1, hs⟩ := hself ks v hmem tbuf
    rw [tostringex_table, lua_next_at tb ud r g e m ii id h base key (hii key) hh, hstep]
    simp only [List.head?, lua_isstring_key, if_true, lua_tostring_key, hs, lua_pop_two,
      Option.getD_some]
    have := ih (pre ++ [(.string ks, v)]) (.string ks) fuel
      (tbuf ++ (ks ++ "=" ++ valtext v) ++ "\n") (by simp [hnode])
      (by
        simp only [reduceCtorEq, if_false]
        rw [hnode]; exact luaH_next_append pre suf _ v hnotin)
      (by simp at hfuel; omega)
    rw [this]
    simp [dumptext, keytext]

theorem luaH_get_mem (nd : List (LuaValue × LuaValue)) (k v : LuaValue)
    (hg : luaH_get nd k = v) (hv : v ≠ .nil) : (k, v) ∈ nd := by
  induction nd with
  | nil => simp [luaH_get] at hg; exact absurd hg.symm hv
  | cons p nd ih =>
    obtain ⟨k1, v1⟩ := p
    simp only [luaH_get] at hg
    by_cases hk : k1 = k
    · simp only [hk, if_true] at hg
      simp [hk, hg]
    · simp only [hk, if_false] at hg
      exact List.mem_cons_of_mem _ (ih hg)

/-- A table with exactly four keys whose fields `x`, `y`, `z`, `w` hold numbers has
string keys and number values throughout. -/
theorem four_numeric_fields (nd : List (LuaValue × LuaValue)) (a b d w : Double)
    (hlen : nd.length = 4)
    (hx : luaH_get nd (.string "x") = .number a) (hy : luaH_get nd (.string "y") = .number b)
    (hz : luaH_get nd (.string "z") = .number d) (hw : luaH_get nd (.string "w") = .number w) :
    ∀ p ∈ nd, (∃ ks, p.1 = LuaValue.string ks) ∧ ∃ n, p.2 = LuaValue.number n := by
  have mx := luaH_get_mem nd _ _ hx (by simp)
  have my := luaH_get_mem nd _ _ hy (by simp)
  have mz := luaH_get_mem nd _ _ hz (by simp)
  have mw := luaH_get_mem nd _ _ hw (by simp)
  have hsub : [(LuaValue.string "x", LuaValue.number a), (LuaValue.string "y", LuaValue.number b),
      (LuaValue.string "z", LuaValue.number d), (LuaValue.string "w", LuaValue.number w)] ⊆ nd := by
    intro p hp
    simp only [List.mem_cons, List.mem_singleton, List.not_mem_nil, or_false] at hp
    rcases hp with rfl | rfl | rfl | rfl <;> assumption
  have hnd : [(LuaValue.string "x", LuaValue.number a), (LuaValue.string "y", LuaValue.number b),
      (LuaValue.string "z", LuaValue.number d), (LuaValue.string "w", LuaValue.number w)].Nodup := by
    simp
  have hperm := (List.subperm_of_subset hnd hsub).perm_of_length_le (by simp [hlen])
  intro p hp
  have := hperm.symm.subset hp
  simp only [List.mem_cons, List.mem_singleton, List.not_mem_nil, or_false] at this
  rcases this with rfl | rfl | rfl | rfl <;> exact ⟨⟨_, rfl⟩, ⟨_, rfl⟩⟩

theorem luaV_gettable_present (L : lua_State) (id : Nat) (h : Table) (key : LuaValue)
    (hh : L.tables[id]? = some h) (hp : luaH_get h.node key ≠ .nil) :
    luaV_gettable L MAXTAGLOOP (.table id) key = some (luaH_get h.node key) :=
  luaV_gettable_raw L 99 id h key hh (Or.inl hp)

theorem lua_tostring_table (c : CLib) (L : lua_State) (idx : Int) (id : Nat)
    (hi : index2adr L idx = some (.table id)) : lua_tostring c L idx = (none, L) := by
  simp [lua_tostring, hi]

/-- The vector branch of `lua_tostringex`. -/
theorem lua_tostringex_vector (c : CLib) (fuel : Nat) (tbuf : String) (L : lua_State) (idx : Int)
    (id : Nat) (h : Table) (a b d : Double) (hv : validindex L idx) (hw : tablesok L)
    (hi : index2adr L idx = some (.table id)) (hh : L.tables[id]? = some h)
    (hlen : h.node.length = 3)
    (hx : luaH_get h.node (.string "x") = .number a)
    (hy : luaH_get h.node (.string "y") = .number b)
    (hz : luaH_get h.node (.string "z") = .number d) :
    lua_tostringex c (fuel + 1) L idx tbuf
      = some ("[" ++ c.fmt_g a ++ " " ++ c.fmt_g b ++ " " ++ c.fmt_g d ++ "]", L, tbuf) := by
  obtain ⟨p1, p2, -, -⟩ := shapeprobe_spec L idx 3 ["x", "y", "z"] (lua_isvector L idx) rfl hv hw
  have hshape : tableshape L idx 3 ["x", "y", "z"] := by
    refine ⟨id, h, hi, hh, hlen, ?_⟩
    intro k hk
    simp only [List.mem_cons, List.mem_singleton, List.not_mem_nil, or_false] at hk
    rcases hk with rfl | rfl | rfl
    · exact ⟨_, luaV_gettable_present L id h _ hh (by simp [hx]), by simp [hx]⟩
    · exact ⟨_, luaV_gettable_present L id h _ hh (by simp [hy]), by simp [hy]⟩
    · exact ⟨_, luaV_gettable_present L id h _ hh (by simp [hz]), by simp [hz]⟩
  obtain ⟨r, L1, hr, hr0⟩ := p2.2 hshape
  obtain ⟨rfl, h01⟩ := p1 r L1 hr
  have hr1 : r = 1 := h01.resolve_left hr0
  subst hr1
  have htv : lua_tovector c L1 idx = some (⟨a, b, d⟩, L1) := by
    rw [lua_tovector_eq, getnumfield_raw c _ idx _ _ "x" a hi hh hx]
    simp only [Option.bind]
    rw [getnumfield_raw c _ idx _ _ "y" b hi hh hy]
    simp only [Option.bind]
    rw [getnumfield_raw c _ idx _ _ "z" d hi hh hz]
  rw [lua_tostringex, lua_tostring_table c L1 idx id hi]
  simp [hr, htv]

/-- The table branch of `lua_tostringex` on a table that is neither vector- nor
matrix-shaped and has string keys and number values. -/
theorem lua_tostringex_dump (c : CLib) (fuel : Nat) (tbuf : String) (L : lua_State) (idx : Int)
    (id : Nat) (h : Table) (hv : validindex L idx) (hw : tablesok L)
    (hi : index2adr L idx = some (.table id)) (hh : L.tables[id]? = some h)
    (hn3 : h.node.length ≠ 3) (hn9 : h.node.length ≠ 9)
    (hall : ∀ p ∈ h.node, (∃ ks, p.1 = LuaValue.string ks) ∧ ∃ n, p.2 = LuaValue.number n)
    (hfuel : h.node.length + 1 < fuel) :
    lua_tostringex c fuel L idx tbuf
      = some (dumptext (numtext c) tbuf h.node, L, dumptext (numtext c) tbuf h.node) := by
  obtain ⟨f, rfl⟩ : ∃ f, fuel = f + 1 + 1 := ⟨fuel - 2, by omega⟩
  have hvec : lua_isvector L idx = some (0, L) :=
    shapeprobe_count L idx 3 ["x", "y", "z"] id h hv hw hi hh hn3
  have hmat : lua_ismatrix L idx = some (0, L) :=
    shapeprobe_count L idx 9 _ id h hv hw hi hh hn9
  have hwf : wfnode h.node := hw.1 _ (List.getElem?_mem hh)
  have hidx : (if idx < 0 then idx - 1 else idx) = (if 0 ≤ idx then idx else idx - 1) := by
    by_cases h0 : 0 ≤ idx
    · have : ¬ idx < 0 := by omega
      simp [h0, this]
    · have : idx < 0 := by omega
      simp [h0, this]
  rw [lua_tostringex, lua_tostring_table c L idx id hi]
  simp only [hvec, hmat, ne_eq, not_true_eq_false, if_false, lua_isnil, lua_isboolean,
    lua_islightuserdata, lua_isuserdata, lua_istable, lua_type, hi, LuaValue.ttype, hidx]
  obtain ⟨st, tb, ud, r, g, e, m⟩ := L
  have hii : ∀ x, index2adr ⟨st ++ [x], tb, ud, r, g, e, m⟩ (if 0 ≤ idx then idx else idx - 1)
      = some (.table id) := fun x => by rw [index2adr_shift st tb ud r g e m idx x hv, hi]
  have := tostringex_table_traverse c (fun La t => lua_tostringex c (f + 1) La (-1) t)
    (numtext c) tb ud r g e m _ id h st hii hh hwf
    (by
      intro ks v hmem t
      obtain ⟨-, n, hn⟩ := hall _ hmem
      simp only at hn
      subst hn
      exact ⟨_, lua_tostringex_number c f st _ n tb ud r g e m t⟩)
    (fun p hp => (hall p hp).1) h.node [] .nil (f + 1) tbuf (by simp) (by simp) (by omega)
  simpa [lua_pushnil, lua_push, LUA_TTABLE, LUA_TNIL, LUA_TBOOLEAN, LUA_TLIGHTUSERDATA] using this

theorem dumptext_length (valtext : LuaValue → String) (nd : List (LuaValue × LuaValue)) :
    ∀ tbuf : String, tbuf.length + nd.length ≤ (dumptext valtext tbuf nd).length := by
  induction nd with
  | nil => intro tbuf; simp [dumptext]
  | cons p nd ih =>
    intro tbuf
    obtain ⟨k, v⟩ := p
    have := ih (tbuf ++ ((keytext k ++ "=") ++ valtext v) ++ "\n")
    simp only [dumptext, List.length_cons]
    simp only [String.length_append] at this
    have h1 : ("\n" : String).length = 1 := by decide
    omega

/-- C10: `lua_tostringex` renders every table that has exactly the three numeric fields
`x`, `y`, `z` through its vector branch: the text is `[x y z]` in `%g` format and the
static buffer of the table dump is untouched.  It renders every table with exactly the
four numeric fields `x`, `y`, `z`, `w` through the generic table dump: the text is the
static buffer grown by one line `key=value` per entry, which is never the buffer as it
was, so not the work of the vector branch. -/
theorem lua_tostringex_probe_order (c : CLib) (fuel : Nat) (tbuf : String)
    (L : lua_State) (idx : Int) (id : Nat) (h : Table) (a b d : Double)
    (hv : validindex L idx) (hw : tablesok L)
    (hi : index2adr L idx = some (.table id)) (hh : L.tables[id]? = some h)
    (hlen : h.node.length = 3)
    (hx : luaH_get h.node (.string "x") = .number a)
    (hy : luaH_get h.node (.string "y") = .number b)
    (hz : luaH_get h.node (.string "z") = .number d)
    (M : lua_State) (jdx : Int) (jd : Nat) (k : Table) (a4 b4 d4 w4 : Double)
    (hv4 : validindex M jdx) (hw4 : tablesok M)
    (hi4 : index2adr M jdx = some (.table jd)) (hh4 : M.tables[jd]? = some k)
    (hlen4 : k.node.length = 4)
    (hx4 : luaH_get k.node (.string "x") = .number a4)
    (hy4 : luaH_get k.node (.string "y") = .number b4)
    (hz4 : luaH_get k.node (.string "z") = .number d4)
    (hw44 : luaH_get k.node (.string "w") = .number w4)
    (hfuel : 6 ≤ fuel) :
    lua_tostringex c fuel L idx tbuf
        = some ("[" ++ c.fmt_g a ++ " " ++ c.fmt_g b ++ " " ++ c.fmt_g d ++ "]", L, tbuf) ∧
      lua_tostringex c fuel M jdx tbuf
        = some (dumptext (numtext c) tbuf k.node, M, dumptext (numtext c) tbuf k.node) ∧
      tbuf.length + 4 ≤ (dumptext (numtext c) tbuf k.node).length := by
  obtain ⟨f, rfl⟩ : ∃ f, fuel = f + 1 := ⟨fuel - 1, by omega⟩
  refine ⟨lua_tostringex_vector c f tbuf L idx id h a b d hv hw hi hh hlen hx hy hz,
    lua_tostringex_dump c (f + 1) tbuf M jdx jd k hv4 hw4 hi4 hh4 (by omega) (by omega)
      (four_numeric_fields k.node a4 b4 d4 w4 hlen4 hx4 hy4 hz4 hw44) (by omega), ?_⟩
  have := dumptext_length (numtext c) k.node tbuf
  omega

theorem tablesok_Lxyzw : tablesok Lxyzw := by
  refine ⟨?_, ?_⟩
  · intro h hh
    simp only [Lxyzw, L0, List.cons_append, List.nil_append, List.mem_cons, List.mem_singleton,
      List.not_mem_nil, or_false] at hh
    rcases hh with rfl | rfl | rfl <;> simp [wfnode]
  · intro v hv
    simp only [Lxyzw, List.mem_singleton] at hv
    subst hv
    simp [Lxyzw, L0]

/-- The witness of `lua_tostringex_probe_order` (C10): `{x=1, y=2, z=3}` renders as
`[1 2 3]`, `{x=1, y=2, z=3, w=4}` as four lines. -/
theorem lua_tostringex_probe_order_witness :
    lua_tostringex clib0 6 Lxyz (-1) ""
        = some ("[" ++ clib0.fmt_g d1 ++ " " ++ clib0.fmt_g d2 ++ " " ++ clib0.fmt_g d3 ++ "]", Lxyz, "") ∧
      lua_tostringex clib0 6 Lxyzw (-1) ""
        = some ("x=1\ny=2\nz=3\nw=4\n", Lxyzw, "x=1\ny=2\nz=3\nw=4\n") ∧
      "".length + 4 ≤ ("x=1\ny=2\nz=3\nw=4\n" : String).length :=
  lua_tostringex_probe_order clib0 6 "" Lxyz (-1) 2
    ⟨[(.string "x", .number d1), (.string "y", .number d2), (.string "z", .number d3)], none⟩
    d1 d2 d3 (Or.inr (by decide)) tablesok_Lxyz (by decide) (by decide) (by decide) (by decide)
    (by decide) (by decide)
    Lxyzw (-1) 2
    ⟨[(.string "x", .number d1), (.string "y", .number d2), (.string "z", .number d3),
      (.string "w", .number d4)], none⟩
    d1 d2 d3 d4 (Or.inr (by decide)) tablesok_Lxyzw (by decide) (by decide) (by decide)
    (by decide) (by decide) (by decide) (by decide) (by decide)

/-! # The object identity cache -/

theorem index2adr_registry (L : lua_State) :
    index2adr L LUA_REGISTRYINDEX = some (.table L.l_registry) := by
  simp [index2adr, LUA_REGISTRYINDEX]

theorem lua_gettable_registry (st : List LuaValue) (key : LuaValue) (tb : List Table)
    (ud r g e m) (R : Table) (hR : tb[r]? = some R) (hm : R.metatable = none) :
    lua_gettable ⟨st ++ [key], tb, ud, r, g, e, m⟩ LUA_REGISTRYINDEX
      = some ⟨st ++ [luaH_get R.node key], tb, ud, r, g, e, m⟩ := by
  simp only [lua_gettable, index2adr_registry, List.getLast?_append, List.getLast?_singleton,
    Option.or, MAXTAGLOOP]
  rw [luaV_gettable_raw _ 99 r R key hR (Or.inr (luaT_gettmbyobj_nometa _ r R _ hR hm))]
  simp [lua_pop, lua_push]

theorem lua_getfield_registry (L : lua_State) (k : String) (R : Table)
    (hR : L.tables[L.l_registry]? = some R) (hm : R.metatable = none) :
    lua_getfield L LUA_REGISTRYINDEX k = some (lua_push L (luaH_get R.node (.string k))) :=
  lua_getfield_raw L _ L.l_registry R k (index2adr_registry L) hR
    (Or.inr (luaT_gettmbyobj_nometa L _ R _ hR hm))

@[simp]
theorem index2adr_neg2_three (st : List LuaValue) (a b c : LuaValue) (tb ud r g e m) :
    index2adr ⟨st ++ [a, b, c], tb, ud, r, g, e, m⟩ (-2) = some b := by
  have : st ++ [a, b, c] = (st ++ [a]) ++ [b, c] := by simp
  rw [this]; exact index2adr_neg2 _ _ _ _ _ _ _ _ _

@[simp]
theorem index2adr_neg1_three (st : List LuaValue) (a b c : LuaValue) (tb ud r g e m) :
    index2adr ⟨st ++ [a, b, c], tb, ud, r, g, e, m⟩ (-1) = some c := by
  have : st ++ [a, b, c] = (st ++ [a, b]) ++ [c] := by simp
  rw [this]; exact index2adr_neg1 _ _ _ _ _ _ _ _

theorem lua_settable_registry (st : List LuaValue) (a key val : LuaValue) (tb : List Table)
    (ud r g e m) (R : Table) (hR : tb[r]? = some R) (hm : R.metatable = none)
    (hk : badkey key = false) :
    lua_settable ⟨st ++ [a, key, val], tb, ud, r, g, e, m⟩ LUA_REGISTRYINDEX
      = some ⟨st ++ [a], tb.set r { R with node := luaH_set R.node key val }, ud, r, g, e, m⟩ := by
  simp only [lua_settable, index2adr_registry, index2adr_neg2_three, index2adr_neg1_three,
    MAXTAGLOOP]
  rw [luaV_settable_raw _ 99 r R key val hR hk (Or.inr (luaT_gettmbyobj_nometa _ r R _ hR hm))]
  have := take_length_append st [a, key, val] 1
  simp [lua_pop] 
  simpa using this

/-- The call `lua_setmetatable (L,-2)` on the userdata allocated last, with nil or a
table on top. -/
theorem lua_setmetatable_fresh (st : List LuaValue) (mv : LuaValue) (tb : List Table)
    (ud : List Udata) (u : Udata) (r g e m)
    (hmv : mv = .nil ∨ ∃ t, mv = .table t) :
    lua_setmetatable ⟨st ++ [.userdata ud.length, mv], tb, ud ++ [u], r, g, e, m⟩ (-2)
      = some ⟨st ++ [.userdata ud.length], tb, ud ++ [{ u with metatable := metaof mv }], r, g, e, m⟩ := by
  have hpop : lua_pop ⟨st ++ [.userdata ud.length, mv], tb, ud ++ [u], r, g, e, m⟩ 1
      = ⟨st ++ [.userdata ud.length], tb, ud ++ [u], r, g, e, m⟩ := lua_pop_two _ _ _ _ _ _ _ _ _
  have hget : (ud ++ [u])[ud.length]? = some u := getElem?_append_length _ _ _
  have hset : (ud ++ [u]).set ud.length = fun x => ud ++ [x] := by
    funext x; rw [List.set_append_right _ _ (le_refl _)]; simp
  rcases hmv with rfl | ⟨t, rfl⟩
  · simp only [lua_setmetatable, index2adr_neg2, List.getLast?_append, List.getLast?_cons_cons,
      List.getLast?_singleton, Option.or, hpop, hget, hset, metaof]
  · simp only [lua_setmetatable, index2adr_neg2, List.getLast?_append, List.getLast?_cons_cons,
      List.getLast?_singleton, Option.or, hpop, hget, hset, metaof]

theorem luaH_get_store_self (nd : List (LuaValue × LuaValue)) (k v : LuaValue) :
    luaH_get (luaH_store nd k v) k = v := by
  induction nd with
  | nil => simp [luaH_store, luaH_get]
  | cons p nd ih =>
    obtain ⟨k1, v1⟩ := p
    by_cases hk : k1 = k <;> simp [luaH_store, luaH_get, hk, ih]

theorem luaH_get_store_other (nd : List (LuaValue × LuaValue)) (k v k2 : LuaValue) (hne : k2 ≠ k) :
    luaH_get (luaH_store nd k v) k2 = luaH_get nd k2 := by
  induction nd with
  | nil => simp [luaH_store, luaH_get, Ne.symm hne]
  | cons p nd ih =>
    obtain ⟨k1, v1⟩ := p
    by_cases hk : k1 = k
    · subst hk
      simp [luaH_store, luaH_get, Ne.symm hne]
    · by_cases hk2 : k1 = k2
      · subst hk2; simp [luaH_store, luaH_get, hk]
      · simp [luaH_store, luaH_get, hk, hk2, ih]

theorem luaH_get_remove_self (nd : List (LuaValue × LuaValue)) (k : LuaValue) :
    luaH_get (luaH_remove nd k) k = .nil := by
  induction nd with
  | nil => simp [luaH_remove, luaH_get]
  | cons p nd ih =>
    obtain ⟨k1, v1⟩ := p
    by_cases hk : k1 = k <;> simp [luaH_remove, luaH_get, hk, ih]

theorem luaH_get_remove_other (nd : List (LuaValue × LuaValue)) (k k2 : LuaValue) (hne : k2 ≠ k) :
    luaH_get (luaH_remove nd k) k2 = luaH_get nd k2 := by
  induction nd with
  | nil => simp [luaH_remove, luaH_get]
  | cons p nd ih =>
    obtain ⟨k1, v1⟩ := p
    by_cases hk : k1 = k
    · subst hk
      simp [luaH_remove, luaH_get, Ne.symm hne, ih]
    · by_cases hk2 : k1 = k2
      · subst hk2; simp [luaH_remove, luaH_get, hk]
      · simp [luaH_remove, luaH_get, hk, hk2, ih]

theorem luaH_get_set_self (nd : List (LuaValue × LuaValue)) (k v : LuaValue) :
    luaH_get (luaH_set nd k v) k = v := by
  by_cases hv : v = .nil
  · simp [luaH_set, hv, luaH_get_remove_self]
  · simp [luaH_set, hv, luaH_get_store_self]

theorem luaH_get_set_other (nd : List (LuaValue × LuaValue)) (k v k2 : LuaValue) (hne : k2 ≠ k) :
    luaH_get (luaH_set nd k v) k2 = luaH_get nd k2 := by
  by_cases hv : v = .nil
  · simp [luaH_set, hv, luaH_get_remove_other _ _ _ hne]
  · simp [luaH_set, hv, luaH_get_store_other _ _ _ _ hne]

/-- On a cache hit `lua_pushvessel` pushes the cached wrapper and does nothing else. -/
theorem lua_pushvessel_hit (h : Host) (L : lua_State) (v : Addr)
    (hreg : regok L "VESSEL.vtable") (hc : cached L v ≠ .nil) :
    lua_pushvessel h L v = some (lua_push L (cached L v), []) := by
  obtain ⟨R, hR, hm, -⟩ := hreg
  obtain ⟨st, tb, ud, r, g, e, m⟩ := L
  simp only at hR
  have hcv : cached ⟨st, tb, ud, r, g, e, m⟩ v = luaH_get R.node (.lightuserdata v) := by
    simp [cached, hR]
  rw [hcv] at hc ⊢
  simp only [lua_pushvessel, lua_pushlightuserdata, lua_push, bind, pure,
    lua_gettable_registry st _ tb ud r g e m R hR hm, Option.bind]
  have := lua_isnil_push ⟨st, tb, ud, r, g, e, m⟩ (luaH_get R.node (.lightuserdata v))
  simp only [lua_push] at this
  simp [this, hc]

theorem hookframe_refl (L : lua_State) (hreg : regok L "VESSEL.vtable") : hookframe L L :=
  ⟨rfl, rfl, fun _ => rfl, hreg, fun _ u hu => ⟨u, hu, rfl⟩⟩

/-- What `LoadVesselExtensions` does to the state of a vessel the host knows. -/
theorem LoadVesselExtensions_frame (h : Host) (P : lua_State → Prop) (L : lua_State)
    (v : Addr) (id : Nat) (u : Udata) (hok : hookok h P)
    (hver : h.Version v ≠ none) (hreg : regok L "VESSEL.vtable") (hP : P L)
    (htop : L.stack.getLast? = some (.userdata id)) (hu : L.udata[id]? = some u)
    (hb : u.block = v) :
    ∃ b L1, LoadVesselExtensions h L v = some (b, L1) ∧ hookframe L L1 ∧ P L1 := by
  cases hv : h.Version v with
  | none => exact absurd hv hver
  | some ver =>
    by_cases h2 : ver < 2
    · exact ⟨false, L, by simp [LoadVesselExtensions, hv, h2], hookframe_refl L hreg, hP⟩
    · obtain ⟨r, L1, hc, hf, hP1⟩ := hok v L ver id u hv (by omega) hP hreg htop hu hb
      exact ⟨r != 0, L1, by simp [LoadVesselExtensions, hv, h2, hc], hf, hP1⟩

/-- On a cache miss `lua_pushvessel` allocates a userdata holding `v`, gives it the
metatable registered as `VESSEL.vtable`, runs `LoadVesselExtensions` on that state, and
then stores the userdata in the registry under the key `v`. -/
theorem lua_pushvessel_miss (h : Host) (P : lua_State → Prop) (L : lua_State) (v : Addr)
    (hreg : regok L "VESSEL.vtable") (hc : cached L v = .nil) (hok : hookok h P)
    (hst : cachestable P) (hP : P L) (hver : h.Version v ≠ none) :
    ∃ (L8 : lua_State) (R8 : Table), P L8 ∧
      hookframe { L with stack := L.stack ++ [.userdata L.udata.length],
                         udata := L.udata ++ [⟨v, metaof (registered L "VESSEL.vtable")⟩] } L8 ∧
      L8.tables[L8.l_registry]? = some R8 ∧ R8.metatable = none ∧
      lua_pushvessel h L v = some
        ({ L8 with tables := (L8.tables.set L8.l_registry
            { R8 with node := luaH_set R8.node (.lightuserdata v) (.userdata L.udata.length) }) },
         [(v, { L with stack := L.stack ++ [.userdata L.udata.length],
                       udata := L.udata ++ [⟨v, metaof (registered L "VESSEL.vtable")⟩] })]) := by
  obtain ⟨R, hR, hm, hvt⟩ := hreg
  obtain ⟨st, tb, ud, r, g, e, m⟩ := L
  simp only at hR
  have hcv : luaH_get R.node (.lightuserdata v) = .nil := by
    simpa [cached, hR] using hc
  -- the metatable step
  have hsm := lua_setmetatable_fresh st (luaH_get R.node (.string "VESSEL.vtable")) tb ud
    ⟨v, none⟩ r g e m hvt
  have hrg : registered ⟨st, tb, ud, r, g, e, m⟩ "VESSEL.vtable"
      = luaH_get R.node (.string "VESSEL.vtable") := by simp [registered, hR]
  rw [hrg]
  generalize metaof (luaH_get R.node (.string "VESSEL.vtable")) = mt at hsm
  have hreg7 : regok ⟨st ++ [.userdata ud.length], tb, ud ++ [⟨v, mt⟩], r, g, e, m⟩ "VESSEL.vtable" :=
    ⟨R, hR, hm, hvt⟩
  have hP7 : P ⟨st ++ [.userdata ud.length], tb, ud ++ [⟨v, mt⟩], r, g, e, m⟩ :=
    hst.1 _ (st ++ [.userdata ud.length]) (hst.2.1 _ ⟨v, mt⟩ hP)
  obtain ⟨b, L8, hlve, hf, hP8⟩ := LoadVesselExtensions_frame h P _ v ud.length ⟨v, mt⟩ hok hver
    hreg7 hP7 (by simp) (getElem?_append_length _ _ _) rfl
  obtain ⟨R8, hR8, hm8, -⟩ := hf.2.2.2.1
  refine ⟨L8, R8, hP8, hf, hR8, hm8, ?_⟩
  obtain ⟨st8, tb8, ud8, r8, g8, e8, m8⟩ := L8
  have hst8 : st8 = st ++ [.userdata ud.length] := hf.1
  subst hst8
  simp only at hR8
  have hnil := lua_isnil_push ⟨st, tb, ud, r, g, e, m⟩ .nil
  simp only [lua_push] at hnil
  have hpop : lua_pop ⟨st ++ [LuaValue.nil], tb, ud, r, g, e, m⟩ 1 = ⟨st, tb, ud, r, g, e, m⟩ :=
    lua_pop_push ⟨st, tb, ud, r, g, e, m⟩ .nil
  have hpoke : pokeblock ⟨st ++ [.userdata ud.length], tb, ud ++ [⟨0, none⟩], r, g, e, m⟩ ud.length v
      = ⟨st ++ [.userdata ud.length], tb, ud ++ [⟨v, none⟩], r, g, e, m⟩ := by
    have hget : (ud ++ [(⟨0, none⟩ : Udata)])[ud.length]? = some ⟨0, none⟩ :=
      getElem?_append_length _ _ _
    simp only [pokeblock, hget]
    rw [List.set_append_right _ _ (le_refl _)]
    simp
  have hgm : luaL_getmetatable ⟨st ++ [.userdata ud.length], tb, ud ++ [⟨v, none⟩], r, g, e, m⟩
      "VESSEL.vtable" = some ⟨st ++ [.userdata ud.length, luaH_get R.node (.string "VESSEL.vtable")],
        tb, ud ++ [⟨v, none⟩], r, g, e, m⟩ := by
    rw [luaL_getmetatable, lua_getfield_registry _ _ R hR hm]
    simp [lua_push]
  have hpv : lua_pushvalue ⟨st ++ [.userdata ud.length] ++ [.lightuserdata v], tb8, ud8, r8, g8, e8, m8⟩ (-2)
      = ⟨st ++ [.userdata ud.length, .lightuserdata v, .userdata ud.length], tb8, ud8, r8, g8, e8, m8⟩ := by
    have : st ++ [LuaValue.userdata ud.length] ++ [LuaValue.lightuserdata v]
        = st ++ [LuaValue.userdata ud.length, LuaValue.lightuserdata v] := by simp
    rw [this]
    simp [lua_pushvalue, lua_push]
  have hset := lua_settable_registry st (.userdata ud.length) (.lightuserdata v)
    (.userdata ud.length) tb8 ud8 r8 g8 e8 m8 R8 hR8 hm8 rfl
  simp only [lua_pushvessel, lua_pushlightuserdata, lua_push, bind, pure,
    lua_gettable_registry st _ tb ud r g e m R hR hm, Option.bind, hcv, hnil, if_true, hpop,
    lua_newuserdata, hpoke, hgm, hsm, hlve, hpv, hset]
  simp

theorem cached_stack (L : lua_State) (st : List LuaValue) (p : Addr) :
    cached { L with stack := st } p = cached L p := rfl

/-- One call of `lua_pushvessel` on a state that satisfies the cache invariant. -/
theorem lua_pushvessel_step (h : Host) (P : lua_State → Prop) (L : lua_State) (v : Addr)
    (hreg : regok L "VESSEL.vtable") (hinv : cacheinv L) (hok : hookok h P)
    (hst : cachestable P) (hP : P L) (hver : h.Version v ≠ none) :
    ∃ L1 calls, lua_pushvessel h L v = some (L1, calls) ∧ P L1 ∧
      regok L1 "VESSEL.vtable" ∧ cacheinv L1 ∧
      L1.stack = L.stack ++ [cached L1 v] ∧ cached L1 v ≠ .nil ∧
      (∀ q, q ≠ v → cached L1 q = cached L q) ∧
      (cached L v ≠ .nil → cached L1 v = cached L v ∧ calls = []) ∧
      (cached L v = .nil → ∃ Lc, calls = [(v, Lc)] ∧ cached Lc v = .nil ∧
        ∃ mt, Lc = { L with stack := L.stack ++ [.userdata L.udata.length],
                            udata := L.udata ++ [⟨v, mt⟩] }) ∧
      (∀ (id : Nat) (u : Udata), L.udata[id]? = some u →
        ∃ u1 : Udata, L1.udata[id]? = some u1 ∧ u1.block = u.block) := by
  by_cases hc : cached L v = .nil
  · obtain ⟨L8, R8, hP8, hf, hR8, hm8, hpush⟩ :=
      lua_pushvessel_miss h P L v hreg hc hok hst hP hver
    have hP11 := hst.2.2 L8 R8 v (.userdata L.udata.length) hP8 hR8 hm8
    generalize metaof (registered L "VESSEL.vtable") = mt at hf hpush
    obtain ⟨hst, hr, hcach, hreg8, hblk⟩ := hf
    obtain ⟨st8, tb8, ud8, r8, g8, e8, m8⟩ := L8
    simp only at hst hr hR8 hpush
    have hlt : r8 < tb8.length := by
      by_contra hcon
      rw [List.getElem?_eq_none (by omega)] at hR8
      exact absurd hR8 (by simp)
    have hcnew : ∀ q, cached ⟨st8, tb8.set r8
          ⟨luaH_set R8.node (.lightuserdata v) (.userdata L.udata.length), R8.metatable⟩,
          ud8, r8, g8, e8, m8⟩ q
        = if q = v then .userdata L.udata.length else cached L q := by
      intro q
      have h8 : cached ⟨st8, tb8, ud8, r8, g8, e8, m8⟩ q = luaH_get R8.node (.lightuserdata q) := by
        simp [cached, hR8]
      have hq := hcach q
      rw [h8] at hq
      simp only [cached, List.getElem?_set_self hlt, ← cached_stack L
        (L.stack ++ [.userdata L.udata.length])]
      by_cases hqv : q = v
      · subst hqv; simp [luaH_get_set_self]
      · rw [luaH_get_set_other _ _ _ _ (by simpa using hqv)]
        simp only [hqv, if_false]
        rw [hq]; rfl
    have hnew : ∃ u1 : Udata, ud8[L.udata.length]? = some u1 ∧ u1.block = v := by
      have := hblk L.udata.length ⟨v, mt⟩ (by simp [getElem?_append_length])
      simpa using this
    have hold : ∀ (id : Nat) (u : Udata), L.udata[id]? = some u →
        ∃ u1 : Udata, ud8[id]? = some u1 ∧ u1.block = u.block := by
      intro id u hu
      have hid : id < L.udata.length := by
        by_contra hcon
        rw [List.getElem?_eq_none (by omega)] at hu
        exact absurd hu (by simp)
      have := hblk id u (by simp only; rw [List.getElem?_append_left hid]; exact hu)
      simpa using this
    refine ⟨_, _, hpush, hP11, ?_, ?_, ?_, ?_, ?_, ?_, ?_, ?_⟩
    · obtain ⟨R, hR, hm, hvt⟩ := hreg8
      simp only at hR
      rw [hR8] at hR
      obtain rfl : R8 = R := by simpa using hR
      refine ⟨⟨luaH_set R8.node (.lightuserdata v) (.userdata L.udata.length), R8.metatable⟩,
        List.getElem?_set_self hlt, hm8, ?_⟩
      show luaH_get (luaH_set R8.node (.lightuserdata v) (.userdata L.udata.length))
          (.string "VESSEL.vtable") = .nil ∨ ∃ m, luaH_get (luaH_set R8.node (.lightuserdata v)
          (.userdata L.udata.length)) (.string "VESSEL.vtable") = .table m
      rw [luaH_get_set_other _ _ _ _ (by simp)]
      exact hvt
    · refine ⟨?_, ?_⟩
      · intro p
        rw [hcnew p]
        by_cases hpv : p = v
        · subst hpv
          obtain ⟨u1, hu1, hb⟩ := hnew
          exact Or.inr ⟨_, u1, by simp, hu1, fun _ => hb⟩
        · simp only [hpv, if_false]
          rcases hinv.1 p with hn | ⟨id, u, hcp, hu, hb⟩
          · exact Or.inl hn
          · obtain ⟨u1, hu1, hb1⟩ := hold id u hu
            exact Or.inr ⟨id, u1, hcp, hu1, fun hne => by rw [hb1]; exact hb hne⟩
      · intro p q hp hpq
        rw [hcnew p] at hp hpq
        rw [hcnew q] at hpq
        have hfresh : ∀ x, x ≠ v → cached L x ≠ .userdata L.udata.length := by
          intro x _ hx
          rcases hinv.1 x with hn | ⟨id, u, hcp, hu, -⟩
          · rw [hn] at hx; simp at hx
          · rw [hcp] at hx
            have : id = L.udata.length := by simpa using hx
            subst this
            rw [List.getElem?_eq_none (le_refl _)] at hu
            simp at hu
        by_cases hpv : p = v <;> by_cases hqv : q = v
        · rw [hpv, hqv]
        · simp only [hpv, hqv, if_true, if_false] at hpq
          exact absurd hpq.symm (hfresh q hqv)
        · simp only [hpv, hqv, if_true, if_false] at hpq
          exact absurd hpq (hfresh p hpv)
        · simp only [hpv, hqv, if_false] at hp hpq
          exact hinv.2 p q hp hpq
    · simp only [hcnew v, if_true]
      rw [hst]
    · rw [hcnew v]; simp
    · intro q hq
      rw [hcnew q]; simp [hq]
    · intro hne; exact absurd hc hne
    · intro _
      exact ⟨_, rfl, hc, mt, rfl⟩
    · exact hold
  · rw [lua_pushvessel_hit h L v hreg hc]
    refine ⟨_, _, rfl, hst.1 L _ hP, hreg, hinv, rfl, hc, fun _ _ => rfl, fun _ => ⟨rfl, rfl⟩,
      fun hn => absurd hn hc, fun id u hu => ⟨u, hu, rfl⟩⟩

/-! # Wrapping and unwrapping vessels -/

theorem Lapi_eq :
    (newvtable L0 "VESSEL.vtable").bind (fun L => newvtable L "LightEmitter.vtable") = some Lapi := by
  decide

theorem hookok_hostdef : hookok hostdef (fun _ => True) := by
  intro v L ver id u _ _ _ hreg _ _ _
  exact ⟨0, L, rfl, hookframe_refl L hreg, trivial⟩

theorem cachestable_true : cachestable (fun _ => True) :=
  ⟨fun _ _ _ => trivial, fun _ _ _ => trivial, fun _ _ _ _ _ _ _ => trivial⟩

theorem regok_Lapi (tname : String) (hn : tname = "VESSEL.vtable" ∨ tname = "LightEmitter.vtable") :
    regok Lapi tname := by
  refine ⟨_, rfl, rfl, Or.inr ?_⟩
  rcases hn with rfl | rfl
  · exact ⟨2, by decide⟩
  · exact ⟨3, by decide⟩

theorem cached_Lapi (p : Addr) : cached Lapi p = .nil := by
  simp [cached, Lapi, luaH_get]

theorem cacheinv_Lapi : cacheinv Lapi :=
  ⟨fun p => Or.inl (cached_Lapi p), fun p _ hp => absurd (cached_Lapi p) hp⟩

/-- A run of `lua_pushvessel` calls on a state that satisfies the cache invariant. -/
theorem pushvessels_spec (h : Host) (P : lua_State → Prop) (hok : hookok h P)
    (hst : cachestable P) :
    ∀ (hs : List Addr) (L : lua_State), regok L "VESSEL.vtable" → cacheinv L → P L →
      (∀ v ∈ hs, h.Version v ≠ none) →
      ∃ L1 calls, pushvessels h L hs = some (L1, calls) ∧ P L1 ∧
        regok L1 "VESSEL.vtable" ∧ cacheinv L1 ∧
        L1.stack = L.stack ++ hs.map (cached L1) ∧
        (∀ q, cached L q ≠ .nil → cached L1 q = cached L q) ∧
        (∀ v ∈ hs, cached L1 v ≠ .nil) ∧
        (∀ v, (calls.map Prod.fst).count v = if v ∈ hs ∧ cached L v = .nil then 1 else 0) ∧
        (∀ c ∈ calls, cached c.2 c.1 = .nil ∧
          ∃ id u, c.2.stack.getLast? = some (.userdata id) ∧ c.2.udata[id]? = some u ∧
            u.block = c.1) := by
  intro hs
  induction hs with
  | nil =>
    intro L hreg hinv hP _
    exact ⟨L, [], rfl, hP, hreg, hinv, by simp, fun _ _ => rfl, by simp, by simp, by simp⟩
  | cons v vs ih =>
    intro L hreg hinv hP hver
    obtain ⟨La, ca, hpa, hPa, hrega, hinva, hsta, hnna, hotha, hhit, hmiss, -⟩ :=
      lua_pushvessel_step h P L v hreg hinv hok hst hP (hver v (by simp))
    obtain ⟨Lb, cb, hpb, hPb, hregb, hinvb, hstb, hmonob, hallb, hcntb, hcallb⟩ :=
      ih La hrega hinva hPa (fun x hx => hver x (by simp [hx]))
    have hmonoa : ∀ q, cached L q ≠ .nil → cached La q = cached L q := by
      intro q hq
      by_cases hqv : q = v
      · subst hqv; exact (hhit hq).1
      · exact hotha q hqv
    refine ⟨Lb, ca ++ cb, by simp [pushvessels, hpa, hpb], hPb, hregb, hinvb, ?_, ?_, ?_, ?_,
      ?_⟩
    · rw [hstb, hsta, ← hmonob v hnna]; simp
    · intro q hq
      rw [hmonob q (by rw [hmonoa q hq]; exact hq), hmonoa q hq]
    · intro x hx
      simp only [List.mem_cons] at hx
      rcases hx with rfl | hx
      · rw [hmonob x hnna]; exact hnna
      · exact hallb x hx
    · intro x
      simp only [List.map_append, List.count_append, hcntb x, List.mem_cons]
      by_cases hc : cached L v = .nil
      · obtain ⟨Lc, hca, -, -⟩ := hmiss hc
        subst hca
        by_cases hxv : x = v
        · subst hxv
          simp [hc, hnna]
        · have : ¬ v = x := fun e => hxv e.symm
          simp [hxv, this, hotha x hxv]
      · obtain ⟨hsame, hca⟩ := hhit hc
        subst hca
        by_cases hxv : x = v
        · subst hxv
          simp [hc, hnna]
        · simp [hxv, hotha x hxv]
    · intro c hcm
      simp only [List.mem_append] at hcm
      rcases hcm with hcm | hcm
      · by_cases hc : cached L v = .nil
        · obtain ⟨Lc, hca, hcn, mt, hLc⟩ := hmiss hc
          subst hca
          simp only [List.mem_singleton] at hcm
          subst hcm
          refine ⟨hcn, L.udata.length, ⟨v, mt⟩, ?_, ?_, rfl⟩
          · simp [hLc]
          · simp [hLc, getElem?_append_length]
        · rw [(hhit hc).2] at hcm
          simp at hcm
      · exact hcallb c hcm

/-- The branch `*pv = oapiGetFocusInterface ()` of `lua_tovessel`: were the block of a
full userdata to hold the focus flag, the first call would store the focus vessel of
that moment in the block, and every later call would return that vessel.  The code makes
no such userdata: the pseudo-instance `focus` is a light userdata (`createfocus`). -/
theorem lua_tovessel_rebinds (A B : Addr) (L : lua_State) (idx : Int) (id : Nat) (u : Udata)
    (hi : index2adr L idx = some (.userdata id)) (hu : L.udata[id]? = some u)
    (hf : u.block = vfocus) (hA : A ≠ vfocus) :
    ∃ L1, lua_tovessel A L idx = some (A, L1) ∧ lua_tovessel B L1 idx = some (A, L1) := by
  have hlt : id < L.udata.length := by
    by_contra hcon
    rw [List.getElem?_eq_none (by omega)] at hu
    exact absurd hu (by simp)
  refine ⟨pokeblock L id A, by simp [lua_tovessel, lua_touserdata, hi, hu, hf], ?_⟩
  have hi1 : index2adr (pokeblock L id A) idx = some (.userdata id) := by
    simpa [pokeblock, hu, index2adr] using hi
  have hu1 : (pokeblock L id A).udata[id]? = some { u with block := A } := by
    simp [pokeblock, hu, List.getElem?_set_self hlt]
  simp [lua_tovessel, lua_touserdata, hi1, hu1, hA]

/-- On a cache hit the shared body of `lua_pushmfd`, `lua_pushlightemitter` and
`lua_pushsketchpad` pushes what is cached under the address. -/
theorem pushobject_hit (tname : String) (L : lua_State) (p : Addr)
    (hreg : regok L tname) (hc : cached L p ≠ .nil) :
    pushobject tname L p = some (lua_push L (cached L p)) := by
  obtain ⟨R, hR, hm, -⟩ := hreg
  obtain ⟨st, tb, ud, r, g, e, m⟩ := L
  simp only at hR
  have hcv : cached ⟨st, tb, ud, r, g, e, m⟩ p = luaH_get R.node (.lightuserdata p) := by
    simp [cached, hR]
  rw [hcv] at hc ⊢
  simp only [pushobject, lua_pushlightuserdata, lua_push, bind, pure,
    lua_gettable_registry st _ tb ud r g e m R hR hm, Option.bind]
  have := lua_isnil_push ⟨st, tb, ud, r, g, e, m⟩ (luaH_get R.node (.lightuserdata p))
  simp only [lua_push] at this
  simp [this, hc]

/-- On a cache miss the shared body allocates a userdata holding the address, gives it
the metatable registered under `tname`, and caches it under the address. -/
theorem pushobject_miss (tname : String) (L : lua_State) (p : Addr)
    (hreg : regok L tname) (hc : cached L p = .nil) :
    ∃ L1, pushobject tname L p = some L1 ∧
      L1.stack = L.stack ++ [.userdata L.udata.length] ∧
      L1.udata = L.udata ++ [⟨p, metaof (registered L tname)⟩] ∧
      cached L1 p = .userdata L.udata.length := by
  obtain ⟨R, hR, hm, hvt⟩ := hreg
  obtain ⟨st, tb, ud, r, g, e, m⟩ := L
  simp only at hR
  have hcv : luaH_get R.node (.lightuserdata p) = .nil := by
    simpa [cached, hR] using hc
  have hrg : registered ⟨st, tb, ud, r, g, e, m⟩ tname = luaH_get R.node (.string tname) := by
    simp [registered, hR]
  have hlt : r < tb.length := by
    by_contra hcon
    rw [List.getElem?_eq_none (by omega)] at hR
    exact absurd hR (by simp)
  have hsm := lua_setmetatable_fresh st (luaH_get R.node (.string tname)) tb ud
    ⟨p, none⟩ r g e m hvt
  have hnil := lua_isnil_push ⟨st, tb, ud, r, g, e, m⟩ .nil
  simp only [lua_push] at hnil
  have hpop : lua_pop ⟨st ++ [LuaValue.nil], tb, ud, r, g, e, m⟩ 1 = ⟨st, tb, ud, r, g, e, m⟩ :=
    lua_pop_push ⟨st, tb, ud, r, g, e, m⟩ .nil
  have hpoke : pokeblock ⟨st ++ [.userdata ud.length], tb, ud ++ [⟨0, none⟩], r, g, e, m⟩ ud.length p
      = ⟨st ++ [.userdata ud.length], tb, ud ++ [⟨p, none⟩], r, g, e, m⟩ := by
    have hget : (ud ++ [(⟨0, none⟩ : Udata)])[ud.length]? = some ⟨0, none⟩ :=
      getElem?_append_length _ _ _
    simp only [pokeblock, hget]
    rw [List.set_append_right _ _ (le_refl _)]
    simp
  have hgm : luaL_getmetatable ⟨st ++ [.userdata ud.length], tb, ud ++ [⟨p, none⟩], r, g, e, m⟩
      tname = some ⟨st ++ [.userdata ud.length, luaH_get R.node (.string tname)],
        tb, ud ++ [⟨p, none⟩], r, g, e, m⟩ := by
    rw [luaL_getmetatable, lua_getfield_registry _ _ R hR hm]
    simp [lua_push]
  generalize hmt : metaof (luaH_get R.node (.string tname)) = mt at hsm
  have hpv : lua_pushvalue ⟨st ++ [.userdata ud.length] ++ [.lightuserdata p], tb,
      ud ++ [⟨p, mt⟩], r, g, e, m⟩ (-2)
      = ⟨st ++ [.userdata ud.length, .lightuserdata p, .userdata ud.length], tb,
        ud ++ [⟨p, mt⟩], r, g, e, m⟩ := by
    have : st ++ [LuaValue.userdata ud.length] ++ [LuaValue.lightuserdata p]
        = st ++ [LuaValue.userdata ud.length, LuaValue.lightuserdata p] := by simp
    rw [this]
    simp [lua_pushvalue, lua_push]
  have hset := lua_settable_registry st (.userdata ud.length) (.lightuserdata p)
    (.userdata ud.length) tb (ud ++ [⟨p, mt⟩]) r g e m R hR hm rfl
  refine ⟨⟨st ++ [.userdata ud.length],
    tb.set r { R with node := luaH_set R.node (.lightuserdata p) (.userdata ud.length) },
    ud ++ [⟨p, mt⟩], r, g, e, m⟩, ?_, rfl, ?_, ?_⟩
  · simp only [pushobject, lua_pushlightuserdata, lua_push, bind, pure,
      lua_gettable_registry st _ tb ud r g e m R hR hm, Option.bind, hcv, hnil, if_true, hpop,
      lua_newuserdata, hpoke, hgm, hsm, hpv, hset]
    simp
  · simp [hrg, hmt]
  · simp [cached, List.getElem?_set_self hlt, luaH_get_set_self]

/-- The counterexample to C2 as stated: after `lua_pushvessel` has wrapped the address
5000, `lua_pushlightemitter` called with the same address pushes the vessel wrapper,
whose metatable is `VESSEL.vtable` (table 2), not `LightEmitter.vtable` (table 3); and
after `lua_pushlightemitter` has wrapped 5000, `lua_pushvessel` pushes the light-emitter
wrapper and never calls `LoadVesselExtensions`. -/
theorem lua_pushlightemitter_after_pushvessel :
    registered Lapi "VESSEL.vtable" = .table 2 ∧
    registered Lapi "LightEmitter.vtable" = .table 3 ∧
    ((lua_pushvessel hostdef Lapi 5000).bind (fun r => lua_pushlightemitter r.1 5000)).map topmeta
      = some (some (some 2)) ∧
    ((lua_pushlightemitter Lapi 5000).bind (fun L1 => lua_pushvessel hostdef L1 5000)).map
        (fun r => (topmeta r.1, r.2))
      = some (some (some 3), []) := by
  decide

/-! # The chunk runner -/

theorem lua_pcall_top (eng : Engine) (base : List LuaValue) (f : LuaValue) (tb ud r g e m) :
    lua_pcall eng ⟨base ++ [f], tb, ud, r, g, e, m⟩ 0 0 =
      match luaD_call eng ⟨base, tb, ud, r, g, e, m⟩ f [] with
      | none => none
      | some (out, L1) => some (statusof out, { L1 with stack := base ++ errvalues out }) := by
  have h1 : (base ++ [f])[(base ++ [f]).length - (0 + 1)]? = some f := by simp
  have h2 : List.take ((base ++ [f]).length - (0 + 1)) (base ++ [f]) = base := by simp
  have h3 : List.drop ((base ++ [f]).length - 0) (base ++ [f]) = [] := by simp
  simp only [lua_pcall, h1, h2, h3]
  have h4 : ¬ (base ++ [f]).length < 0 + 1 := by simp
  simp only [h4, if_false]
  cases luaD_call eng ⟨base, tb, ud, r, g, e, m⟩ f [] with
  | none => rfl
  | some p =>
    obtain ⟨out, L1⟩ := p
    cases out <;> simp [statusof, errvalues, adjustresults]

theorem lua_call_top (eng : Engine) (base : List LuaValue) (f : LuaValue) (tb ud r g e m) :
    lua_call eng ⟨base ++ [f], tb, ud, r, g, e, m⟩ 0 1 =
      match luaD_call eng ⟨base, tb, ud, r, g, e, m⟩ f [] with
      | some (.ok rs, L1) => some { L1 with stack := base ++ [rs.headD .nil] }
      | _ => none := by
  have h1 : (base ++ [f])[(base ++ [f]).length - (0 + 1)]? = some f := by simp
  have h2 : List.take ((base ++ [f]).length - (0 + 1)) (base ++ [f]) = base := by simp
  have h3 : List.drop ((base ++ [f]).length - 0) (base ++ [f]) = [] := by simp
  simp only [lua_call, h1, h2, h3]
  have h4 : ¬ (base ++ [f]).length < 0 + 1 := by simp
  simp only [h4, if_false]
  cases luaD_call eng ⟨base, tb, ud, r, g, e, m⟩ f [] with
  | none => rfl
  | some p =>
    obtain ⟨out, L1⟩ := p
    cases out with
    | ok rs => cases rs <;> simp [adjustresults]
    | error e msg => rfl

/-- The sequence `lua_getfield (L, LUA_GLOBALSINDEX, name); lua_call (L, 0, 1);
jobs = lua_tointeger (L, -1); lua_pop (L, 1)` when the global reads as `f` and the call
of `f` returns the results `rs`. -/
theorem globalcall_ok (eng : Engine) (c : CLib) (L : lua_State) (f : LuaValue)
    (rs : List LuaValue) (La : lua_State)
    (hx : luaD_call eng L f [] = some (.ok rs, La)) :
    ∃ L2, lua_call eng (lua_push L f) 0 1 = some L2 ∧
      index2adr (lua_push L f) (-1) = some f ∧
      lua_tointeger eng c L2 (-1) = tointegerv eng c (rs.headD .nil) ∧
      lua_pop L2 1 = { La with stack := L.stack } := by
  obtain ⟨st, tb, ud, r, g, e, m⟩ := L
  obtain ⟨sa, ta, ua, ra, ga, ea, ma⟩ := La
  refine ⟨⟨st ++ [rs.headD .nil], ta, ua, ra, ga, ea, ma⟩, ?_, by simp [lua_push], ?_, ?_⟩
  · simp only [lua_push, lua_call_top, hx]
  · simp [lua_tointeger]
  · exact lua_pop_push ⟨st, ta, ua, ra, ga, ea, ma⟩ _

theorem lua_pcall_push (eng : Engine) (L : lua_State) (f : LuaValue) (out : CallResult)
    (La : lua_State) (hx : luaD_call eng L f [] = some (out, La)) :
    lua_pcall eng (lua_push L f) 0 0
      = some (statusof out, { La with stack := L.stack ++ errvalues out }) := by
  obtain ⟨st, tb, ud, r, g1, e, m⟩ := L
  simp only [lua_push, lua_pcall_top]
  rw [hx]

theorem luaL_loadbuffer_push (eng : Engine) (L : lua_State) (chunk : String) (n : Nat) :
    (luaL_loadbuffer eng L chunk n).2 = lua_push L (loadvalue eng chunk n) := by
  simp only [luaL_loadbuffer, loadvalue]
  cases eng.load chunk n <;> rfl

/-- The idle branch of `RunChunk`: the global `_idle` reads as `f`, and the call of `f`
returns the results `rs`. -/
theorem RunChunk_idle (eng : Engine) (c : CLib) (I : Interpreter) (chunk : String) (n : Nat)
    (f : LuaValue) (rs : List LuaValue) (La : lua_State)
    (he : chunknonempty chunk = false)
    (hf : lua_getfield I.L LUA_GLOBALSINDEX "_idle" = some (lua_push I.L f))
    (hx : luaD_call eng I.L f [] = some (.ok rs, La)) :
    I.RunChunk eng c chunk n = some (-1, { I with
      L := { La with stack := I.L.stack },
      jobs := tointegerv eng c (rs.headD .nil),
      trace := I.trace ++ [.call f] }) := by
  obtain ⟨L2, h1, h2, h3, h4⟩ := globalcall_ok eng c I.L f rs La hx
  simp only [Interpreter.RunChunk, he, Bool.false_eq_true, if_false, hf, h1, h2, h3, h4,
    Option.getD_some]

/-- The command branch of `RunChunk`: the call of the value `luaL_loadbuffer` pushed ends
as `out`; after it the global `_nbranch` reads as `g`, and the call of `g` returns the
results `rs`. -/
theorem RunChunk_command (eng : Engine) (c : CLib) (I : Interpreter) (chunk : String) (n : Nat)
    (out : CallResult) (La : lua_State) (g : LuaValue) (rs : List LuaValue) (Lb : lua_State)
    (hne : chunknonempty chunk = true)
    (hx : luaD_call eng I.L (loadvalue eng chunk n) [] = some (out, La))
    (hg : lua_getfield { La with stack := I.L.stack ++ errvalues out } LUA_GLOBALSINDEX "_nbranch"
      = some (lua_push { La with stack := I.L.stack ++ errvalues out } g))
    (hy : luaD_call eng { La with stack := I.L.stack ++ errvalues out } g [] = some (.ok rs, Lb)) :
    I.RunChunk eng c chunk n = some (statusof out, { I with
      L := { Lb with stack := I.L.stack ++ errvalues out },
      jobs := tointegerv eng c (rs.headD .nil),
      is_busy := false,
      trace := I.trace ++ [.loadbuffer chunk n, .pcall (loadvalue eng chunk n)]
        ++ (if statusof out ≠ 0 ∧ I.is_term = true then [.strout "Execution error." false] else [])
        ++ [.call g] }) := by
  obtain ⟨L2, h1, h2, h3, h4⟩ := globalcall_ok eng c _ g rs Lb hy
  have hp := lua_pcall_push eng I.L (loadvalue eng chunk n) out La hx
  have htop : index2adr (lua_push I.L (loadvalue eng chunk n)) (-1) = some (loadvalue eng chunk n) := by
    simp [lua_push]
  simp only [Interpreter.RunChunk, hne, if_true, luaL_loadbuffer_push, hp, htop, Option.getD_some]
  by_cases hs : statusof out ≠ 0 ∧ I.is_term = true
  · simp only [hs, and_self, if_true, Interpreter.term_strout, hg, h1, h2, h3, h4,
      Option.getD_some, ne_eq, not_false_eq_true]
  · simp only [hs, if_false, hg, h1, h2, h3, h4, Option.getD_some]
    simp

/-- The method `RunChunk` only appends to the record of events, and what it appends does
not depend on what the record holds. -/
theorem RunChunk_trace_indep (eng : Engine) (c : CLib) (I : Interpreter) (chunk : String)
    (n : Nat) (tr : List Event) :
    ({ I with trace := tr } : Interpreter).RunChunk eng c chunk n
      = (I.RunChunk eng c chunk n).map
          (fun p => (p.1, { p.2 with trace := tr ++ p.2.trace.drop I.trace.length })) := by
  by_cases hc : chunknonempty chunk = true
  · simp only [Interpreter.RunChunk, hc, if_true]
    cases lua_pcall eng (luaL_loadbuffer eng I.L chunk n).2 0 0 with
    | none => rfl
    | some p =>
      obtain ⟨res, L2⟩ := p
      by_cases hs : res ≠ 0 ∧ I.is_term = true
      · simp only [hs, and_self, if_true, Interpreter.term_strout, ne_eq, not_false_eq_true]
        cases lua_getfield L2 LUA_GLOBALSINDEX "_nbranch" with
        | none => rfl
        | some L3 =>
          rcases hl : lua_call eng L3 0 1 with _ | L4 <;> simp [hl, List.append_assoc]
      · simp only [hs, if_false]
        cases lua_getfield L2 LUA_GLOBALSINDEX "_nbranch" with
        | none => rfl
        | some L3 =>
          rcases hl : lua_call eng L3 0 1 with _ | L4 <;> simp [hl, List.append_assoc]
  · simp only [Interpreter.RunChunk, hc, if_false]
    cases lua_getfield I.L LUA_GLOBALSINDEX "_idle" with
    | none => rfl
    | some L1 =>
      rcases hl : lua_call eng L1 0 1 with _ | L4 <;> simp [hl]

/-- The method `RunChunk` only appends to the record of events. -/
theorem RunChunk_trace_append (eng : Engine) (c : CLib) (I : Interpreter) (chunk : String)
    (n : Nat) (res : Int) (I1 : Interpreter) (h : I.RunChunk eng c chunk n = some (res, I1)) :
    ∃ evs, I1.trace = I.trace ++ evs := by
  by_cases hc : chunknonempty chunk = true
  · simp only [Interpreter.RunChunk, hc, if_true] at h
    cases hp : lua_pcall eng (luaL_loadbuffer eng I.L chunk n).2 0 0 with
    | none => simp [hp] at h
    | some p =>
      obtain ⟨res1, L2⟩ := p
      simp only [hp] at h
      by_cases hs : res1 ≠ 0 ∧ I.is_term = true
      · simp only [hs, and_self, if_true, Interpreter.term_strout, ne_eq, not_false_eq_true] at h
        cases hg : lua_getfield L2 LUA_GLOBALSINDEX "_nbranch" with
        | none => simp [hg] at h
        | some L3 =>
          simp only [hg] at h
          cases hl : lua_call eng L3 0 1 with
          | none => simp [hl] at h
          | some L4 =>
            simp only [hl, Option.some.injEq, Prod.mk.injEq] at h
            obtain ⟨-, rfl⟩ := h
            exact ⟨_, by simp only [List.append_assoc]; rfl⟩
      · simp only [hs, if_false] at h
        cases hg : lua_getfield L2 LUA_GLOBALSINDEX "_nbranch" with
        | none => simp [hg] at h
        | some L3 =>
          simp only [hg] at h
          cases hl : lua_call eng L3 0 1 with
          | none => simp [hl] at h
          | some L4 =>
            simp only [hl, Option.some.injEq, Prod.mk.injEq] at h
            obtain ⟨-, rfl⟩ := h
            exact ⟨_, by simp only [List.append_assoc]; rfl⟩
  · simp only [Interpreter.RunChunk, hc, if_false] at h
    cases hg : lua_getfield I.L LUA_GLOBALSINDEX "_idle" with
    | none => simp [hg] at h
    | some L1 =>
      simp only [hg] at h
      cases hl : lua_call eng L1 0 1 with
      | none => simp [hl] at h
      | some L2 =>
        simp only [hl, Option.some.injEq, Prod.mk.injEq] at h
        obtain ⟨-, rfl⟩ := h
        exact ⟨_, rfl⟩

/-- The method `ProcessChunk` in terms of `RunChunk` on the same interpreter. -/
theorem ProcessChunk_of_RunChunk (eng : Engine) (c : CLib) (I : Interpreter) (chunk : String)
    (n : Nat) (t : Nat) (gw ge : Bool) (res : Int) (I1 : Interpreter)
    (h : I.RunChunk eng c chunk n = some (res, I1)) :
    I.ProcessChunk eng c chunk n t gw ge = some (res, { I1 with
      trace := I.trace ++ [.wait .hWaitMutex t gw, .wait .hExecMutex t ge, .release .hWaitMutex]
        ++ I1.trace.drop I.trace.length ++ [.release .hExecMutex] }) := by
  have := RunChunk_trace_indep eng c I chunk n
    (I.trace ++ [.wait .hWaitMutex t gw, .wait .hExecMutex t ge, .release .hWaitMutex])
  simp only [Interpreter.ProcessChunk, Interpreter.WaitExec, this, h, Option.map_some',
    Interpreter.EndExec]

/-! # Status, diagnostics and job count of RunChunk -/

/-- C11 (the code at the failing input): the table `{a=1}` is rendered twice.  The first
call, on the empty static buffer, returns the one line `a=1`; the second call on the
same table finds the buffer as the first left it and returns that line twice. -/
theorem lua_tostringex_accumulates :
    lua_tostringex clib0 3 Lrec (-1) "" = some ("a=1\n", Lrec, "a=1\n") ∧
      lua_tostringex clib0 3 Lrec (-1) "a=1\n" = some ("a=1\na=1\n", Lrec, "a=1\na=1\n") := by
  decide

theorem lua_pcall_status (eng : Engine) (L : lua_State) (a b : Nat) (res : Int) (L1 : lua_State)
    (h : lua_pcall eng L a b = some (res, L1)) : res = 0 ∨ res = 2 ∨ res = 4 ∨ res = 5 := by
  simp only [lua_pcall] at h
  cases hf : L.stack[L.stack.length - (a + 1)]? with
  | none => simp [hf] at h
  | some f =>
    simp only [hf] at h
    by_cases hl : L.stack.length < a + 1
    · simp [hl] at h
    · simp only [hl, if_false] at h
      rcases hd : luaD_call eng { L with stack := L.stack.take (L.stack.length - (a + 1)) } f
          (L.stack.drop (L.stack.length - a)) with _ | ⟨out, L2⟩
      · simp [hd] at h
      · cases out with
        | ok rs =>
          simp only [hd, Option.some.injEq, Prod.mk.injEq] at h
          exact Or.inl h.1.symm
        | error e msg =>
          simp only [hd, Option.some.injEq, Prod.mk.injEq] at h
          rw [← h.1]
          cases e <;> simp [LuaErr.code]

/-- Whatever the state: an empty chunk gives -1 whenever `RunChunk` returns, and a
non-empty chunk gives the status of `lua_pcall`, which is 0, 2, 4 or 5. -/
theorem RunChunk_result (eng : Engine) (c : CLib) (I : Interpreter) (chunk : String) (n : Nat)
    (res : Int) (I1 : Interpreter) (h : I.RunChunk eng c chunk n = some (res, I1)) :
    (chunknonempty chunk = false → res = -1) ∧
      (chunknonempty chunk = true → res = 0 ∨ res = 2 ∨ res = 4 ∨ res = 5) := by
  by_cases hc : chunknonempty chunk = true
  · refine ⟨fun hn => by rw [hc] at hn; exact absurd hn (by simp), fun _ => ?_⟩
    simp only [Interpreter.RunChunk, hc, if_true] at h
    rcases hp : lua_pcall eng (luaL_loadbuffer eng I.L chunk n).2 0 0 with _ | ⟨res1, L2⟩
    · simp [hp] at h
    · have hst := lua_pcall_status eng _ 0 0 res1 L2 hp
      simp only [hp] at h
      by_cases hs : res1 ≠ 0 ∧ I.is_term = true
      · simp only [hs, and_self, if_true, Interpreter.term_strout, ne_eq, not_false_eq_true] at h
        rcases hg : lua_getfield L2 LUA_GLOBALSINDEX "_nbranch" with _ | L3
        · simp [hg] at h
        · simp only [hg] at h
          rcases hl : lua_call eng L3 0 1 with _ | L4
          · simp [hl] at h
          · simp only [hl, Option.some.injEq, Prod.mk.injEq] at h
            rw [← h.1]; exact hst
      · simp only [hs, if_false] at h
        rcases hg : lua_getfield L2 LUA_GLOBALSINDEX "_nbranch" with _ | L3
        · simp [hg] at h
        · simp only [hg] at h
          rcases hl : lua_call eng L3 0 1 with _ | L4
          · simp [hl] at h
          · simp only [hl, Option.some.injEq, Prod.mk.injEq] at h
            rw [← h.1]; exact hst
  · refine ⟨fun _ => ?_, fun hn => absurd hn hc⟩
    simp only [Interpreter.RunChunk, hc, Bool.false_eq_true, if_false] at h
    rcases hg : lua_getfield I.L LUA_GLOBALSINDEX "_idle" with _ | L1
    · simp [hg] at h
    · simp only [hg] at h
      rcases hl : lua_call eng L1 0 1 with _ | L2
      · simp [hl] at h
      · simp only [hl, Option.some.injEq, Prod.mk.injEq] at h
        exact h.1.symm

/-- C12: `RunChunk` called with an empty chunk returns -1 (it returns when the call of the
global `_idle` returns, and -1 is its result in every state in which it returns), and
`RunChunk` called with a non-empty chunk returns the status of the protected call, which
is 0, 2, 4 or 5 and never -1; so the idle status -1 differs from the success status 0 and
from every error status. -/
theorem RunChunk_idle_status (eng : Engine) (c : CLib) (I : Interpreter)
    (chunk0 : String) (n0 : Nat) (f : LuaValue) (rs : List LuaValue) (La : lua_State)
    (he : chunknonempty chunk0 = false)
    (hf : lua_getfield I.L LUA_GLOBALSINDEX "_idle" = some (lua_push I.L f))
    (hx : luaD_call eng I.L f [] = some (.ok rs, La))
    (chunk : String) (n : Nat) (out : CallResult) (Lb : lua_State) (g : LuaValue)
    (rs2 : List LuaValue) (Lc : lua_State)
    (hne : chunknonempty chunk = true)
    (hx2 : luaD_call eng I.L (loadvalue eng chunk n) [] = some (out, Lb))
    (hg : lua_getfield { Lb with stack := I.L.stack ++ errvalues out } LUA_GLOBALSINDEX "_nbranch"
      = some (lua_push { Lb with stack := I.L.stack ++ errvalues out } g))
    (hy : luaD_call eng { Lb with stack := I.L.stack ++ errvalues out } g [] = some (.ok rs2, Lc)) :
    (∃ I1, I.RunChunk eng c chunk0 n0 = some (-1, I1)) ∧
      (∃ res I2, I.RunChunk eng c chunk n = some (res, I2) ∧ res ≠ -1 ∧
        (res = 0 ∨ res = 2 ∨ res = 4 ∨ res = 5)) ∧
      (∀ (J : Interpreter) (ch : String) (k : Nat) (res : Int) (J1 : Interpreter),
        J.RunChunk eng c ch k = some (res, J1) →
          (chunknonempty ch = false → res = -1) ∧ (chunknonempty ch = true → res ≠ -1)) ∧
      (∀ e : LuaErr, (-1 : Int) ≠ statusof (.ok []) ∧ (-1 : Int) ≠ e.code) := by
  refine ⟨⟨_, RunChunk_idle eng c I chunk0 n0 f rs La he hf hx⟩, ?_, ?_, ?_⟩
  · have h := RunChunk_command eng c I chunk n out Lb g rs2 Lc hne hx2 hg hy
    have hr := (RunChunk_result eng c I chunk n _ _ h).2 hne
    exact ⟨_, _, h, by omega, hr⟩
  · intro J ch k res J1 h
    have hr := RunChunk_result eng c J ch k res J1 h
    exact ⟨hr.1, fun hn => by have := hr.2 hn; omega⟩
  · intro e
    cases e <;> simp [statusof, LuaErr.code]

/-- The witness of `RunChunk_idle_status` (C12): the empty chunk, and the chunk "error()". -/
theorem RunChunk_idle_status_witness :
    (∃ I1, I0.RunChunk eng0 clib0 "" 0 = some (-1, I1)) ∧
      (∃ res I2, I0.RunChunk eng0 clib0 "error()" 7 = some (res, I2) ∧ res ≠ -1 ∧
        (res = 0 ∨ res = 2 ∨ res = 4 ∨ res = 5)) ∧
      (∀ (J : Interpreter) (ch : String) (k : Nat) (res : Int) (J1 : Interpreter),
        J.RunChunk eng0 clib0 ch k = some (res, J1) →
          (chunknonempty ch = false → res = -1) ∧ (chunknonempty ch = true → res ≠ -1)) ∧
      (∀ e : LuaErr, (-1 : Int) ≠ statusof (.ok []) ∧ (-1 : Int) ≠ e.code) :=
  RunChunk_idle_status eng0 clib0 I0 "" 0 (.lfunction 10) [.number d3] Lrun
    (by decide) (by decide) (by decide)
    "error()" 7 (.error .errrun (.string "error")) Lrun (.lfunction 11) [.number d2]
    { Lrun with stack := [.string "error"] } (by decide) (by decide) (by decide) (by decide)

/-- C13: for a non-empty chunk `RunChunk` returns the status of the protected call of what
`luaL_loadbuffer` pushed: 0 when the chunk ran to completion, a nonzero status when its
execution raised an error, and a nonzero status (`LUA_ERRRUN`) when the chunk failed to
compile, since the value called is then the error message, a string. -/
theorem RunChunk_status (eng : Engine) (c : CLib) (I : Interpreter)
    (chunk : String) (n : Nat) (out : CallResult) (La : lua_State) (g : LuaValue)
    (rs : List LuaValue) (Lb : lua_State)
    (hne : chunknonempty chunk = true)
    (hx : luaD_call eng I.L (loadvalue eng chunk n) [] = some (out, La))
    (hg : lua_getfield { La with stack := I.L.stack ++ errvalues out } LUA_GLOBALSINDEX "_nbranch"
      = some (lua_push { La with stack := I.L.stack ++ errvalues out } g))
    (hy : luaD_call eng { La with stack := I.L.stack ++ errvalues out } g [] = some (.ok rs, Lb)) :
    ∃ res I1, I.RunChunk eng c chunk n = some (res, I1) ∧
      (∀ rs0, out = .ok rs0 → res = 0) ∧
      (∀ e msg, out = .error e msg → res ≠ 0) ∧
      (∀ msg, eng.load chunk n = .error msg →
        isfunction (luaT_gettmbyobj I.L (.string msg) "__call") = false →
        res = 2 ∧ ∃ m, out = .error .errrun m) := by
  refine ⟨_, _, RunChunk_command eng c I chunk n out La g rs Lb hne hx hg hy, ?_, ?_, ?_⟩
  · rintro rs0 rfl; rfl
  · rintro e msg rfl
    cases e <;> simp [statusof, LuaErr.code]
  · intro msg hl hnc
    have hv : loadvalue eng chunk n = .string msg := by simp [loadvalue, hl]
    rw [hv] at hx
    have hns : isfunction (LuaValue.string msg) = false := rfl
    simp only [luaD_call, hns, hnc, Bool.false_eq_true, if_false, Option.some.injEq,
      Prod.mk.injEq] at hx
    rw [← hx.1]
    exact ⟨rfl, _, rfl⟩

/-- The witness of `RunChunk_status` (C13): a chunk that fails to compile. -/
theorem RunChunk_status_witness :
    ∃ res I1, I0.RunChunk eng0 clib0 "x = (" 5 = some (res, I1) ∧
      (∀ rs0, CallResult.error .errrun (.string "attempt to call a string value") = .ok rs0 →
        res = 0) ∧
      (∀ e msg, CallResult.error .errrun (.string "attempt to call a string value")
        = .error e msg → res ≠ 0) ∧
      (∀ msg, eng0.load "x = (" 5 = .error msg →
        isfunction (luaT_gettmbyobj I0.L (.string msg) "__call") = false →
        res = 2 ∧ ∃ m, CallResult.error .errrun (.string "attempt to call a string value")
          = .error .errrun m) :=
  RunChunk_status eng0 clib0 I0 "x = (" 5
    (.error .errrun (.string "attempt to call a string value")) Lrun (.lfunction 11) [.number d2]
    { Lrun with stack := [.string "attempt to call a string value"] }
    (by decide) (by decide) (by decide) (by decide)

/-- C14: a non-empty chunk makes `RunChunk` write the diagnostic "Execution error." if and
only if the protected call failed and a terminal is attached (`is_term`), and then once;
with no terminal attached `RunChunk` writes nothing at all, and it still returns, with
the status of the protected call. -/
theorem RunChunk_diagnostic (eng : Engine) (c : CLib) (I : Interpreter)
    (chunk : String) (n : Nat) (out : CallResult) (La : lua_State) (g : LuaValue)
    (rs : List LuaValue) (Lb : lua_State)
    (hne : chunknonempty chunk = true)
    (hx : luaD_call eng I.L (loadvalue eng chunk n) [] = some (out, La))
    (hg : lua_getfield { La with stack := I.L.stack ++ errvalues out } LUA_GLOBALSINDEX "_nbranch"
      = some (lua_push { La with stack := I.L.stack ++ errvalues out } g))
    (hy : luaD_call eng { La with stack := I.L.stack ++ errvalues out } g [] = some (.ok rs, Lb)) :
    ∃ I1 evs, I.RunChunk eng c chunk n = some (statusof out, I1) ∧
      I1.trace = I.trace ++ evs ∧
      (Event.strout "Execution error." false ∈ evs ↔ (statusof out ≠ 0 ∧ I.is_term = true)) ∧
      evs.count (Event.strout "Execution error." false) ≤ 1 ∧
      (I.is_term = false → ∀ str iserr, Event.strout str iserr ∉ evs) := by
  refine ⟨_, [.loadbuffer chunk n, .pcall (loadvalue eng chunk n)]
        ++ (if statusof out ≠ 0 ∧ I.is_term = true then [.strout "Execution error." false] else [])
        ++ [.call g],
    RunChunk_command eng c I chunk n out La g rs Lb hne hx hg hy, by simp [List.append_assoc],
    ?_, ?_, ?_⟩
  · by_cases hs : statusof out ≠ 0 ∧ I.is_term = true
    · simp [hs]
    · simp only [hs, if_false, iff_false]
      simp
  · by_cases hs : statusof out ≠ 0 ∧ I.is_term = true
    · simp [hs]
    · simp [hs]
  · intro ht str iserr
    simp [ht]

/-- The witness of `RunChunk_diagnostic` (C14): a failing chunk with a terminal attached. -/
theorem RunChunk_diagnostic_witness :
    ∃ I1 evs, ({ I0 with is_term := true } : Interpreter).RunChunk eng0 clib0 "error()" 7
        = some (statusof (.error .errrun (.string "error")), I1) ∧
      I1.trace = ({ I0 with is_term := true } : Interpreter).trace ++ evs ∧
      (Event.strout "Execution error." false ∈ evs ↔
        (statusof (.error .errrun (.string "error")) ≠ 0 ∧
          ({ I0 with is_term := true } : Interpreter).is_term = true)) ∧
      evs.count (Event.strout "Execution error." false) ≤ 1 ∧
      (({ I0 with is_term := true } : Interpreter).is_term = false →
        ∀ str iserr, Event.strout str iserr ∉ evs) :=
  RunChunk_diagnostic eng0 clib0 { I0 with is_term := true } "error()" 7
    (.error .errrun (.string "error")) Lrun (.lfunction 11) [.number d2]
    { Lrun with stack := [.string "error"] } (by decide) (by decide) (by decide) (by decide)

/-- C15: after `RunChunk` returns on an empty chunk, `jobs` is the integer the function
that the global `_idle` holds returned, that function was called once, and nothing else
was loaded or called; after `RunChunk` returns on a non-empty chunk, `jobs` is the integer
the function that the global `_nbranch` holds returned, whether the chunk succeeded or
failed. -/
theorem RunChunk_jobs (eng : Engine) (c : CLib) (I : Interpreter)
    (chunk0 : String) (n0 : Nat) (f : LuaValue) (rs : List LuaValue) (La : lua_State)
    (he : chunknonempty chunk0 = false)
    (hf : lua_getfield I.L LUA_GLOBALSINDEX "_idle" = some (lua_push I.L f))
    (hx : luaD_call eng I.L f [] = some (.ok rs, La))
    (chunk : String) (n : Nat) (out : CallResult) (Lb : lua_State) (g : LuaValue)
    (rs2 : List LuaValue) (Lc : lua_State)
    (hne : chunknonempty chunk = true)
    (hx2 : luaD_call eng I.L (loadvalue eng chunk n) [] = some (out, Lb))
    (hg : lua_getfield { Lb with stack := I.L.stack ++ errvalues out } LUA_GLOBALSINDEX "_nbranch"
      = some (lua_push { Lb with stack := I.L.stack ++ errvalues out } g))
    (hy : luaD_call eng { Lb with stack := I.L.stack ++ errvalues out } g [] = some (.ok rs2, Lc)) :
    (∃ I1, I.RunChunk eng c chunk0 n0 = some (-1, I1) ∧
        I1.jobs = tointegerv eng c (rs.headD .nil) ∧ I1.trace = I.trace ++ [.call f]) ∧
      (∃ I2 evs, I.RunChunk eng c chunk n = some (statusof out, I2) ∧
        I2.jobs = tointegerv eng c (rs2.headD .nil) ∧
        I2.trace = I.trace ++ evs ++ [.call g]) := by
  exact ⟨⟨_, RunChunk_idle eng c I chunk0 n0 f rs La he hf hx, rfl, rfl⟩,
    ⟨_, [.loadbuffer chunk n, .pcall (loadvalue eng chunk n)]
        ++ (if statusof out ≠ 0 ∧ I.is_term = true then [.strout "Execution error." false] else []),
      RunChunk_command eng c I chunk n out Lb g rs2 Lc hne hx2 hg hy, rfl,
      by simp only [List.append_assoc]⟩⟩

/-- The witness of `RunChunk_jobs` (C15): `_idle` returns 3, `_nbranch` returns 2, and the
chunk "error()" fails. -/
theorem RunChunk_jobs_witness :
    (∃ I1, I0.RunChunk eng0 clib0 "" 0 = some (-1, I1) ∧
        I1.jobs = tointegerv eng0 clib0 ([LuaValue.number d3].headD .nil) ∧
        I1.trace = I0.trace ++ [.call (.lfunction 10)]) ∧
      (∃ I2 evs, I0.RunChunk eng0 clib0 "error()" 7
          = some (statusof (.error .errrun (.string "error")), I2) ∧
        I2.jobs = tointegerv eng0 clib0 ([LuaValue.number d2].headD .nil) ∧
        I2.trace = I0.trace ++ evs ++ [.call (.lfunction 11)]) :=
  RunChunk_jobs eng0 clib0 I0 "" 0 (.lfunction 10) [.number d3] Lrun
    (by decide) (by decide) (by decide)
    "error()" 7 (.error .errrun (.string "error")) Lrun (.lfunction 11) [.number d2]
    { Lrun with stack := [.string "error"] } (by decide) (by decide) (by decide) (by decide)

/-! # The gates of the cooperative scheduler -/

/-- C16: `Terminate` sets the status to 1.  With the status 1, `frameskip` sets the global
`wait_exit` to true, performs no gate operation and leaves the status at 1, so every
later call does the same.  With any other status `frameskip` leaves the Lua state, and
with it `wait_exit`, untouched and performs `EndExec` followed by `WaitExec`: release of
the execution gate, then the two waits and the release of the handoff gate. -/
theorem frameskip_terminate (I : Interpreter) (t : Nat) (gw ge : Bool) (G : Table)
    (hG : I.L.tables[I.L.l_gt]? = some G)
    (hm : luaH_get G.node (.string "wait_exit") ≠ .nil ∨
      luaT_gettmbyobj (lua_pushboolean I.L 1) (.table I.L.l_gt) "__newindex" = .nil) :
    I.Terminate.Status = 1 ∧
      (∃ I1, I.Terminate.frameskip t gw ge = some I1 ∧
        getglobal I1.L "wait_exit" = .bool true ∧ I1.trace = I.trace ∧ I1.Status = 1 ∧
        I1.L.stack = I.L.stack) ∧
      (I.status ≠ 1 → ∃ I2, I.frameskip t gw ge = some I2 ∧ I2.L = I.L ∧
        I2.trace = I.trace ++ [.release .hExecMutex, .wait .hWaitMutex t gw,
          .wait .hExecMutex t ge, .release .hWaitMutex]) := by
  refine ⟨rfl, ?_, ?_⟩
  · have hlt : I.L.l_gt < I.L.tables.length := by
      by_contra hcon
      rw [List.getElem?_eq_none (by omega)] at hG
      exact absurd hG (by simp)
    have hset : lua_setfield (lua_pushboolean I.L 1) LUA_GLOBALSINDEX "wait_exit"
        = some { I.L with tables := (I.L.tables.set I.L.l_gt
            ⟨luaH_set G.node (.string "wait_exit") (.bool true), G.metatable⟩) } := by
      have hi : index2adr (lua_pushboolean I.L 1) LUA_GLOBALSINDEX = some (.table I.L.l_gt) := by
        simp [index2adr, LUA_GLOBALSINDEX, LUA_REGISTRYINDEX, LUA_ENVIRONINDEX, lua_pushboolean,
          lua_push]
      have hl : (lua_pushboolean I.L 1).stack.getLast? = some (.bool true) := by
        simp [lua_pushboolean, lua_push]
      have hG1 : (lua_pushboolean I.L 1).tables[I.L.l_gt]? = some G := hG
      simp only [lua_setfield, hi, hl, MAXTAGLOOP]
      rw [luaV_settable_raw _ 99 _ G (.string "wait_exit") _ hG1 (by rfl) hm]
      simp [lua_pop, lua_pushboolean, lua_push]
    refine ⟨{ I.Terminate with L := { I.L with tables := (I.L.tables.set I.L.l_gt
            ⟨luaH_set G.node (.string "wait_exit") (.bool true), G.metatable⟩) } }, ?_, ?_,
      rfl, rfl, rfl⟩
    · simp only [Interpreter.frameskip, Interpreter.Terminate, if_true, hset]
    · simp [getglobal, List.getElem?_set_self hlt, luaH_get_set_self]
  · intro hs
    refine ⟨I.EndExec.WaitExec t gw ge, by simp [Interpreter.frameskip, hs], rfl, ?_⟩
    simp [Interpreter.WaitExec, Interpreter.EndExec]

/-- The witness of `frameskip_terminate` (C16): the interpreter `I0`. -/
theorem frameskip_terminate_witness :
    I0.Terminate.Status = 1 ∧
      (∃ I1, I0.Terminate.frameskip 1000 true true = some I1 ∧
        getglobal I1.L "wait_exit" = .bool true ∧ I1.trace = I0.trace ∧ I1.Status = 1 ∧
        I1.L.stack = I0.L.stack) ∧
      (I0.status ≠ 1 → ∃ I2, I0.frameskip 1000 true true = some I2 ∧ I2.L = I0.L ∧
        I2.trace = I0.trace ++ [.release .hExecMutex, .wait .hWaitMutex 1000 true,
          .wait .hExecMutex 1000 true, .release .hWaitMutex]) :=
  frameskip_terminate I0 1000 true true
    ⟨[(.string "_idle", .lfunction 10), (.string "_nbranch", .lfunction 11)], none⟩
    (by decide) (Or.inr (by decide))

/-- C17 (as amended): a termination request only sets the status, and neither
`ProcessChunk` nor `RunChunk` tests it.  A non-empty chunk passed to `ProcessChunk` after
`Terminate` is still compiled and called: when the call of the chunk ends as `out` and
the call of `_nbranch` returns, `ProcessChunk` returns the status of `out`; its events
begin with the three gate operations of `WaitExec`, `luaL_loadbuffer` on the chunk and
the protected call of what it pushed; the Lua state is the one the script left; and the
status is still 1. -/
theorem ProcessChunk_after_Terminate (eng : Engine) (c : CLib) (I : Interpreter)
    (chunk : String) (n t : Nat) (gw ge : Bool) (out : CallResult) (La : lua_State)
    (g : LuaValue) (rs : List LuaValue) (Lb : lua_State)
    (hne : chunknonempty chunk = true)
    (hx : luaD_call eng I.L (loadvalue eng chunk n) [] = some (out, La))
    (hg : lua_getfield { La with stack := I.L.stack ++ errvalues out } LUA_GLOBALSINDEX "_nbranch"
      = some (lua_push { La with stack := I.L.stack ++ errvalues out } g))
    (hy : luaD_call eng { La with stack := I.L.stack ++ errvalues out } g [] = some (.ok rs, Lb)) :
    I.Terminate.Status = 1 ∧
      ∃ I2 evs, I.Terminate.ProcessChunk eng c chunk n t gw ge = some (statusof out, I2) ∧
        I2.Status = 1 ∧
        I2.trace = I.trace ++ [.wait .hWaitMutex t gw, .wait .hExecMutex t ge,
          .release .hWaitMutex, .loadbuffer chunk n, .pcall (loadvalue eng chunk n)] ++ evs ∧
        I2.L = { Lb with stack := I.L.stack ++ errvalues out } := by
  have h := RunChunk_command eng c (I.Terminate.WaitExec t gw ge) chunk n out La g rs Lb hne
    hx hg hy
  refine ⟨rfl, ?_⟩
  simp only [Interpreter.ProcessChunk, h]
  refine ⟨_, (if statusof out ≠ 0 ∧ I.is_term = true then [.strout "Execution error." false]
    else []) ++ [.call g, .release .hExecMutex], rfl, rfl, ?_, rfl⟩
  simp only [Interpreter.EndExec, Interpreter.WaitExec, Interpreter.Terminate,
    List.append_assoc, List.cons_append, List.nil_append]

/-- The witness of `ProcessChunk_after_Terminate` (C17): the chunk "x = 2+2" after
`Terminate` on the interpreter `I0`. -/
theorem ProcessChunk_after_Terminate_witness :
    I0.Terminate.Status = 1 ∧
      ∃ I2 evs, I0.Terminate.ProcessChunk eng0 clib0 "x = 2+2" 7 1000 true true
          = some (statusof (.ok []), I2) ∧
        I2.Status = 1 ∧
        I2.trace = I0.trace ++ [.wait .hWaitMutex 1000 true, .wait .hExecMutex 1000 true,
          .release .hWaitMutex, .loadbuffer "x = 2+2" 7,
          .pcall (loadvalue eng0 "x = 2+2" 7)] ++ evs ∧
        I2.L = { ({ Lrun with tables := [⟨[], none⟩,
            ⟨[(.string "_idle", .lfunction 10), (.string "_nbranch", .lfunction 11),
              (.string "x", .number d4)], none⟩] } : lua_State) with
          stack := I0.L.stack ++ errvalues (.ok []) } :=
  ProcessChunk_after_Terminate eng0 clib0 I0 "x = 2+2" 7 1000 true true (.ok [])
    { Lrun with tables := [⟨[], none⟩,
      ⟨[(.string "_idle", .lfunction 10), (.string "_nbranch", .lfunction 11),
        (.string "x", .number d4)], none⟩] }
    (.lfunction 11) [.number d2]
    { Lrun with tables := [⟨[], none⟩,
      ⟨[(.string "_idle", .lfunction 10), (.string "_nbranch", .lfunction 11),
        (.string "x", .number d4)], none⟩] }
    (by decide) (by decide) (by decide) (by decide)

/-- The counterexample to C17 as stated: after `Terminate` the status is 1, and
`ProcessChunk` called with the chunk "x = 2+2" still loads it and runs it: the protected
call of closure 1 is made, returns 0, and the global `x` is 4 afterwards. -/
theorem ProcessChunk_runs_after_Terminate :
    I0.Terminate.Status = 1 ∧
      ∃ I1, I0.Terminate.ProcessChunk eng0 clib0 "x = 2+2" 7 1000 true true = some (0, I1) ∧
        Event.pcall (.lfunction 1) ∈ I1.trace ∧ getglobal I1.L "x" = .number d4 := by
  refine ⟨rfl, ?_⟩
  have h : (I0.Terminate.ProcessChunk eng0 clib0 "x = 2+2" 7 1000 true true).isSome = true := by
    decide
  obtain ⟨p, hp⟩ := Option.isSome_iff_exists.1 h
  have h1 : (I0.Terminate.ProcessChunk eng0 clib0 "x = 2+2" 7 1000 true true).map
      (fun p => (p.1, decide (Event.pcall (.lfunction 1) ∈ p.2.trace), getglobal p.2.L "x"))
      = some (0, true, .number d4) := by decide
  obtain ⟨res, I1⟩ := p
  rw [hp] at h1
  simp only [Option.map_some', Option.some.injEq, Prod.mk.injEq, decide_eq_true_eq] at h1
  obtain ⟨rfl, h2, h3⟩ := h1
  exact ⟨I1, hp, h2, h3⟩

/-- C18 (as amended): a `ProcessChunk` call is `WaitExec`, `RunChunk`, `EndExec`.  Its own
gate operations are, in this order: wait for the handoff gate `hWaitMutex`, wait for the
execution gate `hExecMutex`, release the handoff gate, all three before `RunChunk`, and
the release of the execution gate after `RunChunk`, as the last event of the call.  The
handoff gate is released before the chunk runs, and `ProcessChunk` does not release it
after the chunk.  (`evs` is what `RunChunk` does in between, whatever that is.) -/
theorem ProcessChunk_gate_order (eng : Engine) (c : CLib) (I : Interpreter)
    (chunk : String) (n t : Nat) (gw ge : Bool) (res : Int) (I1 : Interpreter)
    (h : I.RunChunk eng c chunk n = some (res, I1)) :
    ∃ I2 evs, I.ProcessChunk eng c chunk n t gw ge = some (res, I2) ∧
      I1.trace = I.trace ++ evs ∧
      I2.trace = I.trace ++ [.wait .hWaitMutex t gw, .wait .hExecMutex t ge, .release .hWaitMutex]
        ++ evs ++ [.release .hExecMutex] := by
  obtain ⟨evs, he⟩ := RunChunk_trace_append eng c I chunk n res I1 h
  refine ⟨_, evs, ProcessChunk_of_RunChunk eng c I chunk n t gw ge res I1 h, he, ?_⟩
  simp [he]

/-- The witness of `ProcessChunk_gate_order` (C18): the chunk "x = 2+2". -/
theorem ProcessChunk_gate_order_witness :
    ∃ I1 I2 evs, I0.RunChunk eng0 clib0 "x = 2+2" 7 = some (0, I1) ∧
      I0.ProcessChunk eng0 clib0 "x = 2+2" 7 1000 true true = some (0, I2) ∧
      I1.trace = I0.trace ++ evs ∧
      I2.trace = I0.trace ++ [.wait .hWaitMutex 1000 true, .wait .hExecMutex 1000 true,
        .release .hWaitMutex] ++ evs ++ [.release .hExecMutex] := by
  have h : (I0.RunChunk eng0 clib0 "x = 2+2" 7).isSome = true := by decide
  obtain ⟨p, hp⟩ := Option.isSome_iff_exists.1 h
  obtain ⟨res, I1⟩ := p
  have hr : res = 0 := by
    have : (I0.RunChunk eng0 clib0 "x = 2+2" 7).map (fun p => p.1) = some 0 := by decide
    rw [hp] at this
    simpa using this
  subst hr
  obtain ⟨I2, evs, h1⟩ :=
    ProcessChunk_gate_order eng0 clib0 I0 "x = 2+2" 7 1000 true true 0 I1 hp
  exact ⟨I1, I2, evs, hp, h1⟩

/-- The counterexample to C18 as stated: the events of one `ProcessChunk` call on the
chunk "x = 2+2".  The handoff gate is released third, before the chunk is loaded and
run, and the execution gate is released last; this is not the order the claim gives. -/
theorem ProcessChunk_releases_handoff_first :
    (I0.ProcessChunk eng0 clib0 "x = 2+2" 7 1000 true true).map (fun p => p.2.trace)
        = some [.wait .hWaitMutex 1000 true, .wait .hExecMutex 1000 true, .release .hWaitMutex,
            .loadbuffer "x = 2+2" 7, .pcall (.lfunction 1), .call (.lfunction 11),
            .release .hExecMutex] ∧
      (I0.ProcessChunk eng0 clib0 "x = 2+2" 7 1000 true true).map (fun p => p.2.trace)
        ≠ some (claimedorder 1000 true true
            [.loadbuffer "x = 2+2" 7, .pcall (.lfunction 1), .call (.lfunction 11)]) := by
  decide

/-- C19 (as amended): `WaitExec` does not look at what `WaitForSingleObject` returns.
Whether or not the gates were acquired within the timeout, `ProcessChunk` calls
`RunChunk`, which runs the chunk or the idle function as it would otherwise, and returns
its status: the Lua state, the job count and the script events are those of `RunChunk`. -/
theorem ProcessChunk_ignores_timeout (eng : Engine) (c : CLib) (I : Interpreter)
    (chunk : String) (n t : Nat) (gw ge : Bool) (res : Int) (I1 : Interpreter)
    (h : I.RunChunk eng c chunk n = some (res, I1)) :
    ∃ I2, I.ProcessChunk eng c chunk n t gw ge = some (res, I2) ∧
      I2.L = I1.L ∧ I2.jobs = I1.jobs ∧ I2.is_busy = I1.is_busy ∧
      (∀ ev ∈ I1.trace.drop I.trace.length, ev ∈ I2.trace) ∧
      Event.wait .hExecMutex t ge ∈ I2.trace := by
  refine ⟨_, ProcessChunk_of_RunChunk eng c I chunk n t gw ge res I1 h, rfl, rfl, rfl, ?_, ?_⟩
  · intro ev hev
    simp [hev]
  · simp

/-- The witness of `ProcessChunk_ignores_timeout` (C19): the chunk "x = 2+2" when the
wait for the execution gate times out. -/
theorem ProcessChunk_ignores_timeout_witness :
    ∃ I1 I2, I0.RunChunk eng0 clib0 "x = 2+2" 7 = some (0, I1) ∧
      I0.ProcessChunk eng0 clib0 "x = 2+2" 7 1000 true false = some (0, I2) ∧
      I2.L = I1.L ∧ I2.jobs = I1.jobs ∧ I2.is_busy = I1.is_busy ∧
      (∀ ev ∈ I1.trace.drop I0.trace.length, ev ∈ I2.trace) ∧
      Event.wait .hExecMutex 1000 false ∈ I2.trace := by
  have h : (I0.RunChunk eng0 clib0 "x = 2+2" 7).isSome = true := by decide
  obtain ⟨p, hp⟩ := Option.isSome_iff_exists.1 h
  obtain ⟨res, I1⟩ := p
  have hr : res = 0 := by
    have : (I0.RunChunk eng0 clib0 "x = 2+2" 7).map (fun p => p.1) = some 0 := by decide
    rw [hp] at this
    simpa using this
  subst hr
  obtain ⟨I2, h1, h2⟩ :=
    ProcessChunk_ignores_timeout eng0 clib0 I0 "x = 2+2" 7 1000 true false 0 I1 hp
  exact ⟨I1, I2, hp, h1, h2⟩

/-- The counterexample to C19 as stated: the wait for the execution gate times out, and
`ProcessChunk` still loads the chunk "x = 2+2", runs it (the global `x` is 4 afterwards)
and calls the function of the global `_nbranch`. -/
theorem ProcessChunk_runs_on_timeout :
    (I0.ProcessChunk eng0 clib0 "x = 2+2" 7 1000 true false).map
        (fun p => (p.1, p.2.trace, getglobal p.2.L "x"))
      = some (0, [.wait .hWaitMutex 1000 true, .wait .hExecMutex 1000 false,
          .release .hWaitMutex, .loadbuffer "x = 2+2" 7, .pcall (.lfunction 1),
          .call (.lfunction 11), .release .hExecMutex], .number d4) := by
  decide

/-! # Stack depth, status and busy flag across operations -/

theorem Interpreter.new_eq (self : Addr) :
    Interpreter.new self = some
      { L := { luaL_newstate with
                 tables := [⟨[(.string "interp", .lightuserdata self)], none⟩, ⟨[], none⟩] },
        is_busy := false, is_term := false, jobs := 0, status := 0,
        term_verbose := 0, postfunc := none, postcontext := 0, trace := [] } := by
  have hi : index2adr (lua_pushlightuserdata luaL_newstate self) LUA_REGISTRYINDEX
      = some (.table 0) := rfl
  have hl : (lua_pushlightuserdata luaL_newstate self).stack.getLast?
      = some (.lightuserdata self) := rfl
  have hs : lua_setfield (lua_pushlightuserdata luaL_newstate self) LUA_REGISTRYINDEX "interp"
      = some { luaL_newstate with
                 tables := [⟨[(.string "interp", .lightuserdata self)], none⟩, ⟨[], none⟩] } := by
    simp only [lua_setfield, hi, hl, MAXTAGLOOP]
    rw [luaV_settable_raw (lua_pushlightuserdata luaL_newstate self) 99 0 ⟨[], none⟩
      (.string "interp") _ rfl (by rfl) (Or.inr rfl)]
    rfl
  simp only [Interpreter.new, hs]

/-- The fields `status` and `is_busy` across a call of `RunChunk` that returns: the
status is as before, and the busy flag is false after a non-empty chunk and as before
after an empty one. -/
theorem RunChunk_flags (eng : Engine) (c : CLib) (I : Interpreter) (chunk : String) (n : Nat)
    (res : Int) (I1 : Interpreter) (h : I.RunChunk eng c chunk n = some (res, I1)) :
    I1.status = I.status ∧ (chunknonempty chunk = true → I1.is_busy = false) ∧
      (chunknonempty chunk = false → I1.is_busy = I.is_busy) := by
  by_cases hc : chunknonempty chunk = true
  · simp only [Interpreter.RunChunk, hc, if_true] at h
    rcases hp : lua_pcall eng (luaL_loadbuffer eng I.L chunk n).2 0 0 with _ | ⟨res1, L2⟩
    · simp [hp] at h
    · simp only [hp] at h
      by_cases hs : res1 ≠ 0 ∧ I.is_term = true
      · simp only [hs, and_self, if_true, Interpreter.term_strout, ne_eq, not_false_eq_true] at h
        rcases hg : lua_getfield L2 LUA_GLOBALSINDEX "_nbranch" with _ | L3
        · simp [hg] at h
        · simp only [hg] at h
          rcases hl : lua_call eng L3 0 1 with _ | L4
          · simp [hl] at h
          · simp only [hl, Option.some.injEq, Prod.mk.injEq] at h
            rw [← h.2]
            exact ⟨rfl, fun _ => rfl, fun hn => by rw [hc] at hn; exact absurd hn (by simp)⟩
      · simp only [hs, if_false] at h
        rcases hg : lua_getfield L2 LUA_GLOBALSINDEX "_nbranch" with _ | L3
        · simp [hg] at h
        · simp only [hg] at h
          rcases hl : lua_call eng L3 0 1 with _ | L4
          · simp [hl] at h
          · simp only [hl, Option.some.injEq, Prod.mk.injEq] at h
            rw [← h.2]
            exact ⟨rfl, fun _ => rfl, fun hn => by rw [hc] at hn; exact absurd hn (by simp)⟩
  · simp only [Interpreter.RunChunk, hc, Bool.false_eq_true, if_false] at h
    rcases hg : lua_getfield I.L LUA_GLOBALSINDEX "_idle" with _ | L1
    · simp [hg] at h
    · simp only [hg] at h
      rcases hl : lua_call eng L1 0 1 with _ | L2
      · simp [hl] at h
      · simp only [hl, Option.some.injEq, Prod.mk.injEq] at h
        rw [← h.2]
        exact ⟨rfl, fun hn => absurd hn hc, fun _ => rfl⟩

/-- What one operation does to the fields `status` and `is_busy`: only `Terminate`
writes the status, and it writes 1; the busy flag is as before or false. -/
theorem perform_flags (eng : Engine) (c : CLib) (I : Interpreter) (op : Op) (I1 : Interpreter)
    (h : I.perform eng c op = some I1) :
    (I1.status = I.status ∨ (op = .Terminate ∧ I1.status = 1)) ∧
      (I1.is_busy = I.is_busy ∨ I1.is_busy = false) := by
  cases op with
  | Terminate =>
    simp only [Interpreter.perform, Option.some.injEq] at h
    subst h
    exact ⟨Or.inr ⟨rfl, rfl⟩, Or.inl rfl⟩
  | RunChunk chunk n =>
    simp only [Interpreter.perform, Option.map_eq_some', Prod.exists, exists_eq_right] at h
    obtain ⟨res, h⟩ := h
    obtain ⟨h1, h2, h3⟩ := RunChunk_flags eng c I chunk n res I1 h
    refine ⟨Or.inl h1, ?_⟩
    by_cases hc : chunknonempty chunk = true
    · exact Or.inr (h2 hc)
    · exact Or.inl (h3 (by simpa using hc))
  | ProcessChunk chunk n t gw ge =>
    simp only [Interpreter.perform, Option.map_eq_some', Prod.exists, exists_eq_right] at h
    obtain ⟨res, h⟩ := h
    simp only [Interpreter.ProcessChunk] at h
    rcases hr : (I.WaitExec t gw ge).RunChunk eng c chunk n with _ | ⟨res1, I2⟩
    · simp [hr] at h
    · simp only [hr, Option.some.injEq, Prod.mk.injEq] at h
      obtain ⟨h1, h2, h3⟩ := RunChunk_flags eng c _ chunk n res1 I2 hr
      rw [← h.2]
      refine ⟨Or.inl h1, ?_⟩
      by_cases hc : chunknonempty chunk = true
      · exact Or.inr (h2 hc)
      · exact Or.inl (h3 (by simpa using hc))
  | frameskip t gw ge =>
    simp only [Interpreter.perform, Interpreter.frameskip] at h
    by_cases hs : I.status = 1
    · simp only [hs, if_true] at h
      rcases hf : lua_setfield (lua_pushboolean I.L 1) LUA_GLOBALSINDEX "wait_exit" with _ | L1
      · simp [hf] at h
      · simp only [hf, Option.some.injEq] at h
        subst h
        exact ⟨Or.inl hs.symm, Or.inl rfl⟩
    · simp only [hs, if_false, Option.some.injEq] at h
      subst h
      exact ⟨Or.inl rfl, Or.inl rfl⟩
  | PostStep simt simdt mjd =>
    simp only [Interpreter.perform, Option.some.injEq] at h
    subst h
    simp only [Interpreter.PostStep]
    cases I.postfunc <;> exact ⟨Or.inl rfl, Or.inl rfl⟩

theorem performall_flags (eng : Engine) (c : CLib) (ops : List Op) :
    ∀ (I I1 : Interpreter), Interpreter.performall eng c I ops = some I1 →
      (I.status = 1 → I1.status = 1) ∧
      ((I.status = 0 ∨ I.status = 1) → (I1.status = 0 ∨ I1.status = 1)) ∧
      (I.status = 0 → Op.Terminate ∉ ops → I1.status = 0) ∧
      (I.is_busy = false → I1.is_busy = false) := by
  induction ops with
  | nil =>
    intro I I1 h
    simp only [Interpreter.performall, Option.some.injEq] at h
    subst h
    exact ⟨id, id, fun h _ => h, id⟩
  | cons op ops ih =>
    intro I I1 h
    simp only [Interpreter.performall] at h
    rcases hp : I.perform eng c op with _ | I2
    · simp [hp] at h
    · simp only [hp] at h
      obtain ⟨a1, a2, a3, a4⟩ := ih I2 I1 h
      obtain ⟨b1, b2⟩ := perform_flags eng c I op I2 hp
      refine ⟨fun hs => a1 ?_, fun hs => a2 ?_, fun hs hn => a3 ?_ ?_, fun hb => a4 ?_⟩
      · rcases b1 with b | ⟨_, b⟩
        · rw [b]; exact hs
        · exact b
      · rcases b1 with b | ⟨_, b⟩
        · rw [b]; exact hs
        · exact Or.inr b
      · rcases b1 with b | ⟨b, _⟩
        · rw [b]; exact hs
        · exact absurd (by rw [b]; exact List.mem_cons_self _ _) hn
      · exact fun hm => hn (List.mem_cons_of_mem _ hm)
      · rcases b2 with b | b
        · rw [b]; exact hb
        · exact b

/-- C26 (the code at the failing inputs): on the interpreter `I0`, whose stack is empty,
`RunChunk` returns with the stack at depth 0 after the empty chunk and after the chunk
"x = 2+2", which succeeds; after the chunk "error()", which raises an error, and after
the chunk "x = (", which fails to compile, it returns status 2 with the error value left
on the stack, at depth 1; a second failing chunk leaves the depth at 2. -/
theorem RunChunk_leaves_error_value :
    I0.L.stack = [] ∧
      (I0.RunChunk eng0 clib0 "" 0).map (fun p => (p.1, p.2.L.stack)) = some (-1, []) ∧
      (I0.RunChunk eng0 clib0 "x = 2+2" 7).map (fun p => (p.1, p.2.L.stack)) = some (0, []) ∧
      (I0.RunChunk eng0 clib0 "error()" 7).map (fun p => (p.1, p.2.L.stack))
        = some (2, [.string "error"]) ∧
      (I0.RunChunk eng0 clib0 "x = (" 5).map (fun p => (p.1, p.2.L.stack))
        = some (2, [.string "attempt to call a string value"]) ∧
      ((I0.RunChunk eng0 clib0 "error()" 7).bind
          (fun p => p.2.RunChunk eng0 clib0 "error()" 7)).map (fun p => p.2.L.stack.length)
        = some 2 := by
  decide

/-- C27: `Status()` is 0 on a newly constructed interpreter and 1 after `Terminate()`.
Across every sequence of operations (`Terminate`, `RunChunk`, `ProcessChunk`,
`frameskip`, `PostStep`) that return, a status of 1 stays 1, a status of 0 or 1 stays 0
or 1, and a status of 0 stays 0 when `Terminate` is not among the operations. -/
theorem Status_irreversible (eng : Engine) (c : CLib) (self : Addr) (I : Interpreter)
    (ops : List Op) (I1 : Interpreter)
    (h : Interpreter.performall eng c I ops = some I1) :
    (∃ J, Interpreter.new self = some J ∧ J.Status = 0) ∧
      I.Terminate.Status = 1 ∧
      (I.Status = 1 → I1.Status = 1) ∧
      ((I.Status = 0 ∨ I.Status = 1) → (I1.Status = 0 ∨ I1.Status = 1)) ∧
      (I.Status = 0 → Op.Terminate ∉ ops → I1.Status = 0) := by
  obtain ⟨a1, a2, a3, -⟩ := performall_flags eng c ops I I1 h
  exact ⟨⟨_, Interpreter.new_eq self, rfl⟩, rfl, a1, a2, a3⟩

/-- The witness of `Status_irreversible` (C27): after `Terminate`, a chunk, a frame skip,
a post-step, an idle turn and a second `Terminate`. -/
theorem Status_irreversible_witness :
    ∃ I1, Interpreter.performall eng0 clib0 I0.Terminate
        [.ProcessChunk "x = 2+2" 7 1000 true true, .frameskip 1000 true true,
         .PostStep d1 d1 d1, .RunChunk "" 0, .Terminate] = some I1 ∧
      (∃ J, Interpreter.new 4096 = some J ∧ J.Status = 0) ∧
      I0.Terminate.Terminate.Status = 1 ∧
      (I0.Terminate.Status = 1 → I1.Status = 1) ∧
      ((I0.Terminate.Status = 0 ∨ I0.Terminate.Status = 1) → (I1.Status = 0 ∨ I1.Status = 1)) ∧
      (I0.Terminate.Status = 0 →
        Op.Terminate ∉ [Op.ProcessChunk "x = 2+2" 7 1000 true true, .frameskip 1000 true true,
          .PostStep d1 d1 d1, .RunChunk "" 0, .Terminate] → I1.Status = 0) := by
  have h : (Interpreter.performall eng0 clib0 I0.Terminate
      [.ProcessChunk "x = 2+2" 7 1000 true true, .frameskip 1000 true true,
       .PostStep d1 d1 d1, .RunChunk "" 0, .Terminate]).isSome = true := by decide
  obtain ⟨I1, h1⟩ := Option.isSome_iff_exists.1 h
  exact ⟨I1, h1, Status_irreversible eng0 clib0 4096 I0.Terminate _ I1 h1⟩

/-- C28: `IsBusy()` is false on a newly constructed interpreter.  In a state `I` reached
from an interpreter that is not busy by any sequence of operations, `IsBusy()` is false,
and it is false after `RunChunk` returns there, whatever the chunk; after a non-empty
chunk it is false in any case, and an empty chunk leaves the flag as it found it. -/
theorem IsBusy_after_RunChunk (eng : Engine) (c : CLib) (self : Addr) (J : Interpreter)
    (ops : List Op) (I : Interpreter) (chunk : String) (n : Nat) (res : Int) (I1 : Interpreter)
    (hb : J.IsBusy = false)
    (hr : Interpreter.performall eng c J ops = some I)
    (h : I.RunChunk eng c chunk n = some (res, I1)) :
    (∃ K, Interpreter.new self = some K ∧ K.IsBusy = false) ∧
      I.IsBusy = false ∧ I1.IsBusy = false ∧
      (∀ (K : Interpreter) (ch : String) (k : Nat) (r : Int) (K1 : Interpreter),
        K.RunChunk eng c ch k = some (r, K1) →
          (chunknonempty ch = true → K1.IsBusy = false) ∧
          (chunknonempty ch = false → K1.IsBusy = K.IsBusy)) := by
  obtain ⟨-, -, -, a4⟩ := performall_flags eng c ops J I hr
  have hI : I.is_busy = false := a4 hb
  obtain ⟨-, b2, b3⟩ := RunChunk_flags eng c I chunk n res I1 h
  refine ⟨⟨_, Interpreter.new_eq self, rfl⟩, hI, ?_, ?_⟩
  · by_cases hc : chunknonempty chunk = true
    · exact b2 hc
    · exact (b3 (by simpa using hc)).trans hI
  · intro K ch k r K1 hk
    obtain ⟨-, d2, d3⟩ := RunChunk_flags eng c K ch k r K1 hk
    exact ⟨d2, d3⟩

/-- The witness of `IsBusy_after_RunChunk` (C28): a failing chunk and a succeeding chunk,
then an idle turn. -/
theorem IsBusy_after_RunChunk_witness :
    ∃ I I1, Interpreter.performall eng0 clib0 I0
        [.RunChunk "error()" 7, .ProcessChunk "x = 2+2" 7 1000 true true] = some I ∧
      I.RunChunk eng0 clib0 "" 0 = some (-1, I1) ∧
      (∃ K, Interpreter.new 4096 = some K ∧ K.IsBusy = false) ∧
      I.IsBusy = false ∧ I1.IsBusy = false ∧
      (∀ (K : Interpreter) (ch : String) (k : Nat) (r : Int) (K1 : Interpreter),
        K.RunChunk eng0 clib0 ch k = some (r, K1) →
          (chunknonempty ch = true → K1.IsBusy = false) ∧
          (chunknonempty ch = false → K1.IsBusy = K.IsBusy)) := by
  have h : (Interpreter.performall eng0 clib0 I0
      [.RunChunk "error()" 7, .ProcessChunk "x = 2+2" 7 1000 true true]).isSome = true := by
    decide
  obtain ⟨I, h1⟩ := Option.isSome_iff_exists.1 h
  have h2 : ((Interpreter.performall eng0 clib0 I0
      [.RunChunk "error()" 7, .ProcessChunk "x = 2+2" 7 1000 true true]).bind
        (fun K => (K.RunChunk eng0 clib0 "" 0).map Prod.fst)) = some (-1) := by decide
  rw [h1] at h2
  rcases h3 : I.RunChunk eng0 clib0 "" 0 with _ | ⟨r, I1⟩
  · simp [h3] at h2
  · simp only [h3, Option.some_bind, Option.map_some', Option.some.injEq] at h2
    subst h2
    exact ⟨I, I1, h1, h3, IsBusy_after_RunChunk eng0 clib0 4096 I0 _ I "" 0 (-1) I1 rfl h1 h3⟩

/-! # The probes leave the stack alone -/

theorem index2adr_absindex (L : lua_State) (idx : Int) (hv : validindex L idx) (hneg : idx < 0) :
    validindex L (absindex L idx) ∧ 0 < absindex L idx ∧
      index2adr L (absindex L idx) = index2adr L idx := by
  simp only [validindex, LUA_REGISTRYINDEX] at hv
  rcases hv with ⟨h1, _⟩ | ⟨h1, h2, h3⟩
  · omega
  · have hpos : 0 < absindex L idx := by simp only [absindex]; omega
    refine ⟨Or.inl ⟨by omega, by simp only [absindex]; omega⟩, hpos, ?_⟩
    have hn : ¬ 0 < idx := by omega
    have c2 : (-10000 : Int) < idx := by omega
    have c4 : ¬ (idx = 0 ∨ (L.stack.length : Int) < -idx) := by omega
    have e1 : (absindex L idx - 1).toNat = ((L.stack.length : Int) + idx).toNat := by
      simp only [absindex]; congr 1; omega
    simp only [index2adr, hpos, hn, LUA_REGISTRYINDEX, c2, c4, if_true, if_false, e1]

theorem checkfields_congr (L : lua_State) (idx jdx : Int)
    (hi : index2adr L jdx = index2adr L idx) (fs : List String) :
    checkfields L jdx fs = checkfields L idx fs := by
  induction fs with
  | nil => rfl
  | cons f fs ih =>
    simp only [checkfields, lua_getfield, hi]
    cases hx : index2adr L idx with
    | none => rfl
    | some t =>
      cases hg : luaV_gettable L MAXTAGLOOP t (.string f) with
      | none => simp only [hg, Option.map_none']
      | some v =>
        simp only [hg, Option.map_some', lua_pop_push, ih]

theorem checkfields_returns (L : lua_State) (idx : Int) (t : LuaValue)
    (hi : index2adr L idx = some t) (fs : List String)
    (hr : ∀ k ∈ fs, (luaV_gettable L MAXTAGLOOP t (.string k)).isSome = true) :
    ∃ r, checkfields L idx fs = some (r, L) := by
  induction fs with
  | nil => exact ⟨1, rfl⟩
  | cons f fs ih =>
    obtain ⟨v, hg⟩ := Option.isSome_iff_exists.1 (hr f (List.mem_cons_self _ _))
    simp only [checkfields, lua_getfield, hi, hg, Option.map_some', lua_isnil_push, lua_pop_push,
      decide_eq_true_eq]
    by_cases hv : v = .nil
    · exact ⟨0, by simp [hv]⟩
    · simpa [hv] using ih (fun k hk => hr k (List.mem_cons_of_mem _ hk))

/-- The common body of the two probes: it restores the state, gives the same result for a
negative index and for the absolute index of the same slot, and returns whenever the
reads of the probed fields return. -/
theorem shapeprobe_pure (L : lua_State) (n : Nat) (fs : List String)
    (probe : Int → Option (Int × lua_State))
    (hp : ∀ idx, probe idx = if !lua_istable L idx then some (0, L)
      else
        match countkeys (tabsize (lua_pushnil L) (if 0 ≤ idx then idx else idx - 1) + 1)
            (lua_pushnil L) (if 0 ≤ idx then idx else idx - 1) 0 with
        | none => none
        | some (k, L2) => if k ≠ n then some (0, L2) else checkfields L2 idx fs)
    (idx : Int) (hv : validindex L idx) (hw : tablesok L) :
    (∀ r L1, probe idx = some (r, L1) → L1 = L) ∧
      (idx < 0 → probe (absindex L idx) = probe idx) ∧
      (∀ t, index2adr L idx = some t →
        (∀ k ∈ fs, (luaV_gettable L MAXTAGLOOP t (.string k)).isSome = true) →
        ∃ r, probe idx = some (r, L)) := by
  have key : ∀ jdx, validindex L jdx → ∀ id, index2adr L jdx = some (.table id) →
      ∃ h, L.tables[id]? = some h ∧
        probe jdx = if h.node.length ≠ n then some (0, L) else checkfields L jdx fs := by
    intro jdx hvj id hi
    have hmem := mem_stack_of_index2adr L jdx _ hvj hi
    have hlt : id < L.tables.length := by simpa using hw.2 _ hmem
    have hh : L.tables[id]? = some L.tables[id] := List.getElem?_eq_getElem hlt
    have hwf : wfnode L.tables[id].node := hw.1 _ (List.getElem_mem hlt)
    have hc := countkeys_table L jdx id _ hvj hi hh hwf
    have ht : lua_istable L jdx = true := (lua_istable_iff L jdx).2 ⟨id, hi⟩
    refine ⟨_, hh, ?_⟩
    rw [hp jdx]
    simp only [ht, Bool.not_true, Bool.false_eq_true, if_false, hc]
  refine ⟨fun r L1 h => (shapeprobe_spec L idx n fs (probe idx) (hp idx) hv hw).1 r L1 h |>.1,
    fun hneg => ?_, fun t hi hr => ?_⟩
  · obtain ⟨hva, _, hia⟩ := index2adr_absindex L idx hv hneg
    by_cases ht : lua_istable L idx = true
    · obtain ⟨id, hi⟩ := (lua_istable_iff L idx).1 ht
      obtain ⟨h1, hh1, e1⟩ := key idx hv id hi
      obtain ⟨h2, hh2, e2⟩ := key _ hva id (hia.trans hi)
      rw [hh1] at hh2
      obtain rfl : h1 = h2 := by simpa using hh2
      rw [e1, e2, checkfields_congr L idx _ hia fs]
    · have ht' : lua_istable L idx = false := by simpa using ht
      have hta : lua_istable L (absindex L idx) = false := by
        simpa [lua_istable, lua_type, hia] using ht'
      rw [hp idx, hp (absindex L idx)]
      simp [ht', hta]
  · by_cases ht : lua_istable L idx = true
    · obtain ⟨id, hi2⟩ := (lua_istable_iff L idx).1 ht
      obtain ⟨h1, hh1, e1⟩ := key idx hv id hi2
      rw [e1]
      by_cases hn : h1.node.length = n
      · simpa [hn] using checkfields_returns L idx t hi fs hr
      · exact ⟨0, by simp [hn]⟩
    · have ht' : lua_istable L idx = false := by simpa using ht
      exact ⟨0, by rw [hp idx]; simp [ht']⟩

/-- C29: on every stack index, positive or negative, of a well-formed state the probes
`lua_isvector` and `lua_ismatrix` return the whole Lua state, stack depth and contents
included, as they found it, on every return path; for a negative index the result is the
result for the absolute index of the same slot; and they do return whenever the reads of
the probed fields return (always on a value that is no table and on a table without
metatable). -/
theorem probes_pure (L : lua_State) (idx : Int) (hv : validindex L idx) (hw : tablesok L) :
    (∀ r L1, lua_isvector L idx = some (r, L1) → L1 = L ∧ L1.stack = L.stack) ∧
      (∀ r L1, lua_ismatrix L idx = some (r, L1) → L1 = L ∧ L1.stack = L.stack) ∧
      (idx < 0 → index2adr L (absindex L idx) = index2adr L idx ∧
        lua_isvector L (absindex L idx) = lua_isvector L idx ∧
        lua_ismatrix L (absindex L idx) = lua_ismatrix L idx) ∧
      (∀ t, index2adr L idx = some t →
        (∀ k ∈ ["x", "y", "z"], (luaV_gettable L MAXTAGLOOP t (.string k)).isSome = true) →
        ∃ r, lua_isvector L idx = some (r, L)) ∧
      (∀ t, index2adr L idx = some t →
        (∀ k ∈ ["m11", "m12", "m13", "m21", "m22", "m23", "m31", "m32", "m33"],
          (luaV_gettable L MAXTAGLOOP t (.string k)).isSome = true) →
        ∃ r, lua_ismatrix L idx = some (r, L)) ∧
      (lua_istable L idx = false →
        lua_isvector L idx = some (0, L) ∧ lua_ismatrix L idx = some (0, L)) ∧
      (∀ id h, index2adr L idx = some (.table id) → L.tables[id]? = some h →
        h.metatable = none →
        (∃ r, lua_isvector L idx = some (r, L)) ∧ ∃ r, lua_ismatrix L idx = some (r, L)) := by
  obtain ⟨v1, v2, v3⟩ := shapeprobe_pure L 3 ["x", "y", "z"] (lua_isvector L)
    (fun _ => rfl) idx hv hw
  obtain ⟨m1, m2, m3⟩ := shapeprobe_pure L 9
    ["m11", "m12", "m13", "m21", "m22", "m23", "m31", "m32", "m33"] (lua_ismatrix L)
    (fun _ => rfl) idx hv hw
  obtain ⟨-, -, sv3, sv4⟩ := shapeprobe_spec L idx 3 ["x", "y", "z"] (lua_isvector L idx) rfl hv hw
  obtain ⟨-, -, sm3, sm4⟩ := shapeprobe_spec L idx 9
    ["m11", "m12", "m13", "m21", "m22", "m23", "m31", "m32", "m33"] (lua_ismatrix L idx) rfl hv hw
  refine ⟨fun r L1 h => ?_, fun r L1 h => ?_, fun hneg => ?_, v3, m3, fun ht => ⟨sv3 ht, sm3 ht⟩,
    fun id h hi hh hm => ⟨sv4 id h hi hh hm, sm4 id h hi hh hm⟩⟩
  · have := v1 r L1 h
    subst this
    exact ⟨rfl, rfl⟩
  · have := m1 r L1 h
    subst this
    exact ⟨rfl, rfl⟩
  · exact ⟨(index2adr_absindex L idx hv hneg).2.2, v2 hneg, m2 hneg⟩

/-- The witness of `probes_pure` (C29): the table `{x=1, y=2, z=3}` at index -1, which
is index 1. -/
theorem probes_pure_witness :
    (∀ r L1, lua_isvector Lxyz (-1) = some (r, L1) → L1 = Lxyz ∧ L1.stack = Lxyz.stack) ∧
      (∀ r L1, lua_ismatrix Lxyz (-1) = some (r, L1) → L1 = Lxyz ∧ L1.stack = Lxyz.stack) ∧
      ((-1 : Int) < 0 → index2adr Lxyz (absindex Lxyz (-1)) = index2adr Lxyz (-1) ∧
        lua_isvector Lxyz (absindex Lxyz (-1)) = lua_isvector Lxyz (-1) ∧
        lua_ismatrix Lxyz (absindex Lxyz (-1)) = lua_ismatrix Lxyz (-1)) ∧
      (∀ t, index2adr Lxyz (-1) = some t →
        (∀ k ∈ ["x", "y", "z"], (luaV_gettable Lxyz MAXTAGLOOP t (.string k)).isSome = true) →
        ∃ r, lua_isvector Lxyz (-1) = some (r, Lxyz)) ∧
      (∀ t, index2adr Lxyz (-1) = some t →
        (∀ k ∈ ["m11", "m12", "m13", "m21", "m22", "m23", "m31", "m32", "m33"],
          (luaV_gettable Lxyz MAXTAGLOOP t (.string k)).isSome = true) →
        ∃ r, lua_ismatrix Lxyz (-1) = some (r, Lxyz)) ∧
      (lua_istable Lxyz (-1) = false →
        lua_isvector Lxyz (-1) = some (0, Lxyz) ∧ lua_ismatrix Lxyz (-1) = some (0, Lxyz)) ∧
      (∀ id h, index2adr Lxyz (-1) = some (.table id) → Lxyz.tables[id]? = some h →
        h.metatable = none →
        (∃ r, lua_isvector Lxyz (-1) = some (r, Lxyz)) ∧
          ∃ r, lua_ismatrix Lxyz (-1) = some (r, Lxyz)) :=
  probes_pure Lxyz (-1) (Or.inr (by decide)) tablesok_Lxyz

/-! # The DeltaGlider script methods -/

/-- The C expression `a & 1` on a two's-complement integer is the lowest bit of `a`. -/
theorem land_one (x : Int) : Int.land x 1 = x % 2 := by
  cases x with
  | ofNat n =>
    show ((n &&& 1 : Nat) : Int) = (n : Int) % 2
    rw [Nat.and_one_is_mod]; rfl
  | negSucc n =>
    show ((Nat.ldiff 1 n : Nat) : Int) = Int.negSucc n % 2
    have h1 : Nat.ldiff 1 n = if n % 2 = 0 then 1 else 0 := by
      apply Nat.eq_of_testBit_eq
      intro i
      rw [Nat.testBit_ldiff]
      rcases Nat.mod_two_eq_zero_or_one n with h | h
      · simp only [h, if_true]
        cases i with
        | zero => simp [Nat.testBit_zero, h]
        | succ j => simp [Nat.testBit_succ]
      · simp only [h, if_false]
        cases i with
        | zero => simp [Nat.testBit_zero, h]
        | succ j => simp [Nat.testBit_succ]
    rw [h1]
    rcases Nat.mod_two_eq_zero_or_one n with h | h
    · simp only [h, if_true]
      have : Int.negSucc n = -((n : Int) + 1) := rfl
      omega
    · simp only [h]
      have : Int.negSucc n = -((n : Int) + 1) := rfl
      simp
      omega

theorem dgGear_eq (eng : Engine) (c : CLib) (L : lua_State) (dg : Addr)
    (hdg : lua_toDG L 1 = some dg) (hnz : dg ≠ 0) :
    dgGear eng c L = some (0,
      [(dg, if lua_tointeger eng c L 2 % 2 = 0 then DGCall.RaiseGear else DGCall.LowerGear)]) := by
  simp only [dgGear, hdg, hnz, if_false, land_one]
  by_cases h : lua_tointeger eng c L 2 % 2 = 0
  · simp [h]
  · simp [h]

theorem dgswitch_eq (eng : Engine) (c : CLib) (L : lua_State) (dg : Addr) (close opn : DGCall)
    (hdg : lua_toDG L 1 = some dg) (hnz : dg ≠ 0) :
    dgswitch eng c L close opn = some (0,
      if lua_tointeger eng c L 2 = 0 then [(dg, close)]
      else if lua_tointeger eng c L 2 = 1 then [(dg, opn)] else []) := by
  simp only [dgswitch, hdg, hnz, ne_eq, not_false_eq_true, true_and]
  by_cases h0 : lua_tointeger eng c L 2 = 0
  · simp [h0]
  · by_cases h1 : lua_tointeger eng c L 2 = 1
    · simp [h1]
    · have : ¬ (0 ≤ lua_tointeger eng c L 2 ∧ lua_tointeger eng c L 2 < 2) := by omega
      simp [h0, h1, this]

/-- C30 (as amended): on the wrapper of a DeltaGlider, the seven methods `Nosecone`,
`Hatch`, `Retro`, `OLock`, `ILock`, `Radiator` and `ABrake` call the close (retract)
operation of their subsystem for action 0, the open (extend) operation for action 1, and
no operation for any other integer.  `Gear` goes by the lowest bit of the action and
always calls an operation: `RaiseGear` for every even action (0, and 2 = UP),
`LowerGear` for every odd action (1, and 3 = DOWN). -/
theorem dg_methods (eng : Engine) (c : CLib) (L : lua_State) (dg : Addr) (action : Int)
    (hdg : lua_toDG L 1 = some dg) (hnz : dg ≠ 0) (ha : lua_tointeger eng c L 2 = action) :
    dgGear eng c L
        = some (0, [(dg, if action % 2 = 0 then DGCall.RaiseGear else DGCall.LowerGear)]) ∧
      dgNosecone eng c L = some (0, if action = 0 then [(dg, .CloseNcone)]
        else if action = 1 then [(dg, .OpenNcone)] else []) ∧
      dgHatch eng c L = some (0, if action = 0 then [(dg, .CloseHatch)]
        else if action = 1 then [(dg, .OpenHatch)] else []) ∧
      dgRetro eng c L = some (0, if action = 0 then [(dg, .CloseRetroCover)]
        else if action = 1 then [(dg, .OpenRetroCover)] else []) ∧
      dgOLock eng c L = some (0, if action = 0 then [(dg, .CloseOuterAirlock)]
        else if action = 1 then [(dg, .OpenOuterAirlock)] else []) ∧
      dgILock eng c L = some (0, if action = 0 then [(dg, .CloseInnerAirlock)]
        else if action = 1 then [(dg, .OpenInnerAirlock)] else []) ∧
      dgRadiator eng c L = some (0, if action = 0 then [(dg, .CloseRadiator)]
        else if action = 1 then [(dg, .OpenRadiator)] else []) ∧
      dgABrake eng c L = some (0, if action = 0 then [(dg, .RetractAirbrake)]
        else if action = 1 then [(dg, .ExtendAirbrake)] else []) := by
  subst ha
  exact ⟨dgGear_eq eng c L dg hdg hnz, dgswitch_eq eng c L dg _ _ hdg hnz,
    dgswitch_eq eng c L dg _ _ hdg hnz, dgswitch_eq eng c L dg _ _ hdg hnz,
    dgswitch_eq eng c L dg _ _ hdg hnz, dgswitch_eq eng c L dg _ _ hdg hnz,
    dgswitch_eq eng c L dg _ _ hdg hnz, dgswitch_eq eng c L dg _ _ hdg hnz⟩

/-- The witness of `dg_methods` (C30): the call with action 3 on the DeltaGlider at
address 5000. -/
theorem dg_methods_witness :
    dgGear eng0 clib0 (Ldg d3)
        = some (0, [(5000, if (3 : Int) % 2 = 0 then DGCall.RaiseGear else DGCall.LowerGear)]) ∧
      dgNosecone eng0 clib0 (Ldg d3) = some (0, if (3 : Int) = 0 then [(5000, .CloseNcone)]
        else if (3 : Int) = 1 then [(5000, .OpenNcone)] else []) ∧
      dgHatch eng0 clib0 (Ldg d3) = some (0, if (3 : Int) = 0 then [(5000, .CloseHatch)]
        else if (3 : Int) = 1 then [(5000, .OpenHatch)] else []) ∧
      dgRetro eng0 clib0 (Ldg d3) = some (0, if (3 : Int) = 0 then [(5000, .CloseRetroCover)]
        else if (3 : Int) = 1 then [(5000, .OpenRetroCover)] else []) ∧
      dgOLock eng0 clib0 (Ldg d3) = some (0, if (3 : Int) = 0 then [(5000, .CloseOuterAirlock)]
        else if (3 : Int) = 1 then [(5000, .OpenOuterAirlock)] else []) ∧
      dgILock eng0 clib0 (Ldg d3) = some (0, if (3 : Int) = 0 then [(5000, .CloseInnerAirlock)]
        else if (3 : Int) = 1 then [(5000, .OpenInnerAirlock)] else []) ∧
      dgRadiator eng0 clib0 (Ldg d3) = some (0, if (3 : Int) = 0 then [(5000, .CloseRadiator)]
        else if (3 : Int) = 1 then [(5000, .OpenRadiator)] else []) ∧
      dgABrake eng0 clib0 (Ldg d3) = some (0, if (3 : Int) = 0 then [(5000, .RetractAirbrake)]
        else if (3 : Int) = 1 then [(5000, .ExtendAirbrake)] else []) :=
  dg_methods eng0 clib0 (Ldg d3) 5000 3 (by decide) (by decide) (by decide)

/-- The counterexample to C30 as stated: `Gear` called with action 2 (the script constant
`UP`) calls `RaiseGear`, and called with action 3 (`DOWN`) calls `LowerGear`, where the
claim has no subsystem operation called; `Nosecone` calls none for either. -/
theorem dgGear_other_actions :
    lua_tointeger eng0 clib0 (Ldg d2) 2 = 2 ∧ lua_tointeger eng0 clib0 (Ldg d3) 2 = 3 ∧
      dgGear eng0 clib0 (Ldg d2) = some (0, [(5000, .RaiseGear)]) ∧
      dgGear eng0 clib0 (Ldg d3) = some (0, [(5000, .LowerGear)]) ∧
      dgNosecone eng0 clib0 (Ldg d2) = some (0, []) ∧
      dgNosecone eng0 clib0 (Ldg d3) = some (0, []) := by
  refine ⟨by decide, by decide, ?_, ?_, by decide, by decide⟩
  · rw [dgGear_eq eng0 clib0 (Ldg d2) 5000 (by decide) (by decide)]
    have : lua_tointeger eng0 clib0 (Ldg d2) 2 = 2 := by decide
    rw [this]; rfl
  · rw [dgGear_eq eng0 clib0 (Ldg d3) 5000 (by decide) (by decide)]
    have : lua_tointeger eng0 clib0 (Ldg d3) 2 = 3 := by decide
    rw [this]; rfl

/-! # Argument checks -/

theorem term_strout_eq (L : lua_State) (str : String) (iserr : Bool) (R : Table) (a : Addr)
    (hR : L.tables[L.l_registry]? = some R) (hm : R.metatable = none)
    (hi : luaH_get R.node (.string "interp") = .lightuserdata a) (ha : a ≠ 0) :
    term_strout L str iserr = some (L, [Event.strout str iserr]) := by
  obtain ⟨st, tb, ud, r, g, e, m⟩ := L
  simp only [term_strout, GetInterpreter, lua_getfield_registry _ "interp" R hR hm, hi,
    lua_pop_push]
  simp only [lua_push, lua_touserdata, index2adr_neg1, ha, if_false]

/-- The two outcomes of `AssertPrmtp` once the probe has returned `res` and left the
state as it was. -/
theorem AssertPrmtp_outcome (k : InterpreterH) (c : CLib) (L : lua_State) (fname : String)
    (idx prm tp : Int) (R : Table) (a : Addr) (tn : String) (res : Int)
    (hR : L.tables[L.l_registry]? = some R) (hm : R.metatable = none)
    (hi : luaH_get R.node (.string "interp") = .lightuserdata a) (ha : a ≠ 0)
    (htp : 0 ≤ tp) (htn : tpname[tp.toNat]? = some tn)
    (hprobe : (if tp = k.PRMTP_NUMBER then some (if lua_isnumber c L idx then 1 else 0, L)
      else if tp = k.PRMTP_VECTOR then lua_isvector L idx
      else if tp = k.PRMTP_STRING then some (if lua_isstring L idx then 1 else 0, L)
      else if tp = k.PRMTP_LIGHTUSERDATA then
        some (if lua_islightuserdata L idx then 1 else 0, L)
      else if tp = k.PRMTP_TABLE then some (if lua_istable L idx then 1 else 0, L)
      else some (1, L)) = some (res, L)) :
    AssertPrmtp k c L fname idx prm tp = some (res, L,
      if res = 0 then [Event.strout (prmtpmessage fname prm tn) k.term_strout_iserr] else []) := by
  simp only [AssertPrmtp, hprobe]
  by_cases h0 : res = 0
  · have hlt : ¬ tp < 0 := by omega
    simp only [h0, if_true, hlt, if_false, htn,
      term_strout_eq L _ k.term_strout_iserr R a hR hm hi ha, prmtpmessage]
  · simp only [h0, if_false]

theorem index2adr_of_validindex (L : lua_State) (idx : Int) (hv : validindex L idx) :
    ∃ t, index2adr L idx = some t := by
  simp only [validindex, LUA_REGISTRYINDEX] at hv
  rcases hv with ⟨h1, h2⟩ | ⟨h1, h2, h3⟩
  · have hpos : 0 < idx := by omega
    have hlt : (idx - 1).toNat < L.stack.length := by omega
    exact ⟨_, by simp only [index2adr, hpos, if_true]; exact List.getElem?_eq_getElem hlt⟩
  · have hpos : ¬ 0 < idx := by omega
    have c2 : (-10000 : Int) < idx := by omega
    have c4 : ¬ (idx = 0 ∨ (L.stack.length : Int) < -idx) := by omega
    have hlt : ((L.stack.length : Int) + idx).toNat < L.stack.length := by omega
    exact ⟨_, by
      simp only [index2adr, hpos, LUA_REGISTRYINDEX, c2, c4, if_true, if_false]
      exact List.getElem?_eq_getElem hlt⟩

/-- C24: with the constants `PRMTP_*` numbering the kinds as the table `tpname` lists
them, `AssertPrmtp` called for a kind returns nonzero if and only if the value at the
stack index satisfies the probe of that kind; it leaves the Lua state as it was; when it
returns 0 it writes one diagnostic, `fname: argument prm: invalid type (expected kind)`,
and when it returns nonzero it writes nothing. -/
theorem AssertPrmtp_spec (k : InterpreterH) (c : CLib) (L : lua_State) (fname : String)
    (idx prm : Int) (R : Table) (a : Addr)
    (hR : L.tables[L.l_registry]? = some R) (hm : R.metatable = none)
    (hi : luaH_get R.node (.string "interp") = .lightuserdata a) (ha : a ≠ 0)
    (hv : validindex L idx) (hw : tablesok L)
    (hret : ∀ id, index2adr L idx = some (.table id) →
      ∀ f ∈ ["x", "y", "z"], (luaV_gettable L MAXTAGLOOP (.table id) (.string f)).isSome = true)
    (hk : k.PRMTP_NUMBER = 0 ∧ k.PRMTP_VECTOR = 1 ∧ k.PRMTP_STRING = 2 ∧
      k.PRMTP_LIGHTUSERDATA = 3 ∧ k.PRMTP_TABLE = 4) :
    ∀ kind : PrmKind, ∃ res out,
      AssertPrmtp k c L fname idx prm (kind.const k) = some (res, L, out) ∧
      (res ≠ 0 ↔ kind.probe c L idx) ∧
      (res = 0 → out = [Event.strout (prmtpmessage fname prm kind.name) k.term_strout_iserr]) ∧
      (res ≠ 0 → out = []) := by
  obtain ⟨k0, k1, k2, k3, k4⟩ := hk
  have fin : ∀ (tp : Int) (tn : String) (res : Int), 0 ≤ tp → tpname[tp.toNat]? = some tn →
      (if tp = k.PRMTP_NUMBER then some (if lua_isnumber c L idx then 1 else 0, L)
        else if tp = k.PRMTP_VECTOR then lua_isvector L idx
        else if tp = k.PRMTP_STRING then some (if lua_isstring L idx then 1 else 0, L)
        else if tp = k.PRMTP_LIGHTUSERDATA then
          some (if lua_islightuserdata L idx then 1 else 0, L)
        else if tp = k.PRMTP_TABLE then some (if lua_istable L idx then 1 else 0, L)
        else some (1, L)) = some (res, L) →
      ∃ out, AssertPrmtp k c L fname idx prm tp = some (res, L, out) ∧
        (res = 0 → out = [Event.strout (prmtpmessage fname prm tn) k.term_strout_iserr]) ∧
        (res ≠ 0 → out = []) := by
    intro tp tn res h1 h2 h3
    refine ⟨_, AssertPrmtp_outcome k c L fname idx prm tp R a tn res hR hm hi ha h1 h2 h3, ?_, ?_⟩
    · intro h; simp [h]
    · intro h; simp [h]
  intro kind
  cases kind with
  | number =>
    obtain ⟨out, e1, e2, e3⟩ := fin k.PRMTP_NUMBER "number" (if lua_isnumber c L idx then 1 else 0)
      (by simp [k0]) (by simp [k0, tpname]) (by simp)
    refine ⟨_, out, e1, ?_, e2, e3⟩
    by_cases h : lua_isnumber c L idx = true <;> simp [h, PrmKind.probe]
  | vector =>
    have hr : ∃ r, lua_isvector L idx = some (r, L) := by
      by_cases ht : lua_istable L idx = true
      · obtain ⟨id, hid⟩ := (lua_istable_iff L idx).1 ht
        obtain ⟨-, -, h3⟩ := shapeprobe_pure L 3 ["x", "y", "z"] (lua_isvector L) (fun _ => rfl)
          idx hv hw
        exact h3 _ hid (hret id hid)
      · exact ⟨0, (shapeprobe_spec L idx 3 ["x", "y", "z"] (lua_isvector L idx) rfl hv hw).2.2.1
          (by simpa using ht)⟩
    obtain ⟨r, hr⟩ := hr
    obtain ⟨out, e1, e2, e3⟩ := fin k.PRMTP_VECTOR "vector" r
      (by simp [k1]) (by simp [k1, tpname]) (by simp [k0, k1, hr])
    refine ⟨r, out, e1, ?_, e2, e3⟩
    simp only [PrmKind.probe, hr, Option.some.injEq, Prod.mk.injEq]
    constructor
    · intro h; exact ⟨r, L, ⟨rfl, rfl⟩, h⟩
    · rintro ⟨r1, L1, ⟨rfl, -⟩, h⟩; exact h
  | string =>
    obtain ⟨out, e1, e2, e3⟩ := fin k.PRMTP_STRING "string" (if lua_isstring L idx then 1 else 0)
      (by simp [k2]) (by simp [k2, tpname]) (by simp [k0, k1, k2])
    refine ⟨_, out, e1, ?_, e2, e3⟩
    by_cases h : lua_isstring L idx = true <;> simp [h, PrmKind.probe]
  | handle =>
    obtain ⟨out, e1, e2, e3⟩ := fin k.PRMTP_LIGHTUSERDATA "handle"
      (if lua_islightuserdata L idx then 1 else 0)
      (by simp [k3]) (by simp [k3, tpname]) (by simp [k0, k1, k2, k3])
    refine ⟨_, out, e1, ?_, e2, e3⟩
    by_cases h : lua_islightuserdata L idx = true <;> simp [h, PrmKind.probe]
  | table =>
    obtain ⟨out, e1, e2, e3⟩ := fin k.PRMTP_TABLE "table" (if lua_istable L idx then 1 else 0)
      (by simp [k4]) (by simp [k4, tpname]) (by simp [k0, k1, k2, k3, k4])
    refine ⟨_, out, e1, ?_, e2, e3⟩
    by_cases h : lua_istable L idx = true <;> simp [h, PrmKind.probe]

theorem tablesok_Largs : tablesok Largs := by
  refine ⟨?_, ?_⟩
  · intro h hh
    simp only [Largs, List.mem_cons, List.mem_singleton, List.not_mem_nil, or_false] at hh
    rcases hh with rfl | rfl | rfl <;> simp [wfnode]
  · intro v hv
    simp only [Largs, List.mem_cons, List.mem_singleton, List.not_mem_nil, or_false] at hv
    rcases hv with rfl | rfl <;> simp [Largs]

/-- The witness of `AssertPrmtp_spec` (C24): the string "abc" as argument 2 of a function
"set_pos", checked against the kind number, which it fails, and against the kind string,
which it passes. -/
theorem AssertPrmtp_spec_witness :
    (∃ res out,
      AssertPrmtp header0 clib0 Largs "set_pos" (-2) 2 (PrmKind.number.const header0)
        = some (res, Largs, out) ∧
      (res ≠ 0 ↔ PrmKind.number.probe clib0 Largs (-2)) ∧
      (res = 0 → out = [Event.strout (prmtpmessage "set_pos" 2 PrmKind.number.name)
        header0.term_strout_iserr]) ∧
      (res ≠ 0 → out = [])) ∧
    (∃ res out,
      AssertPrmtp header0 clib0 Largs "set_pos" (-2) 2 (PrmKind.string.const header0)
        = some (res, Largs, out) ∧
      (res ≠ 0 ↔ PrmKind.string.probe clib0 Largs (-2)) ∧
      (res = 0 → out = [Event.strout (prmtpmessage "set_pos" 2 PrmKind.string.name)
        header0.term_strout_iserr]) ∧
      (res ≠ 0 → out = [])) :=
  ⟨AssertPrmtp_spec header0 clib0 Largs "set_pos" (-2) 2
      ⟨[(.string "interp", .lightuserdata 4096)], none⟩ 4096 rfl rfl rfl (by decide)
      (Or.inr (by decide)) tablesok_Largs
      (fun id hid => by
        have e : index2adr Largs (-2) = some (.string "abc") := by decide
        rw [e] at hid
        cases hid) ⟨rfl, rfl, rfl, rfl, rfl⟩ PrmKind.number,
    AssertPrmtp_spec header0 clib0 Largs "set_pos" (-2) 2
      ⟨[(.string "interp", .lightuserdata 4096)], none⟩ 4096 rfl rfl rfl (by decide)
      (Or.inr (by decide)) tablesok_Largs
      (fun id hid => by
        have e : index2adr Largs (-2) = some (.string "abc") := by decide
        rw [e] at hid
        cases hid) ⟨rfl, rfl, rfl, rfl, rfl⟩ PrmKind.string⟩

/-! # Operations that read their arguments unchecked -/

/-- C25 (the code at the failing inputs): `oapi.set_tacc ("fast")` gets a string that is no
number, and `oapiSetTimeAcceleration (0)` is called; `v:set_angvel ({})` gets a table that
is no vector, and `SetAngularVel` is called with the zero vector; `note:set_pos ("left",
1, 2, 3)` gets a string that is no number for `x1`, and `oapiAnnotationSetPos` is called
with 0 in its place. -/
theorem unchecked_arguments_reach_host :
    (lua_isnumber clib0 Ltacc (-1) = false ∧
      oapi_set_tacc clib0 Ltacc = (0, [.oapiSetTimeAcceleration ⟨0⟩])) ∧
    (lua_isvector Langvel 2 = some (0, Langvel) ∧
      vesselSetAngularVel clib0 6000 Langvel
        = some (0, Langvel, [.SetAngularVel 5000 ⟨⟨0⟩, ⟨0⟩, ⟨0⟩⟩])) ∧
    (lua_isnumber clib0 Lnote 2 = false ∧
      noteSetPos clib0 Lnote = some (0, [.oapiAnnotationSetPos 7000 ⟨0⟩ d1 d2 d3])) := by
  decide

/-! # Lemmas on the stack and on raw table access -/

/-- A negative index `-j` reaches into the last `j` slots of the stack. -/
theorem index2adr_suffix (st suf : List LuaValue) (tb ud r g e m) (j : Nat)
    (h1 : 0 < j) (h2 : j ≤ suf.length) (h3 : j < 10000) :
    index2adr ⟨st ++ suf, tb, ud, r, g, e, m⟩ (-(j : Int)) = suf[suf.length - j]? := by
  have c1 : ¬ (0 : Int) < -(j : Int) := by omega
  have c2 : (-10000 : Int) < -(j : Int) := by omega
  have c3 : ¬ (-(j : Int) = 0 ∨ ((st ++ suf).length : Int) < - -(j : Int)) := by
    simp only [List.length_append, Nat.cast_add]; omega
  have e1 : (((st ++ suf).length : Int) + -(j : Int)).toNat = st.length + (suf.length - j) := by
    simp only [List.length_append, Nat.cast_add]; omega
  simp only [index2adr, c1, LUA_REGISTRYINDEX, c2, c3, if_true, if_false, e1]
  rw [List.getElem?_append_right (by omega)]
  congr 1; omega

theorem stackpos_suffix (st suf : List LuaValue) (tb ud r g e m) (j : Nat)
    (h1 : 0 < j) (h2 : j ≤ suf.length) :
    stackpos ⟨st ++ suf, tb, ud, r, g, e, m⟩ (-(j : Int)) = some (st.length + (suf.length - j)) := by
  have c1 : ¬ (0 : Int) < -(j : Int) := by omega
  have c3 : -(j : Int) < 0 ∧ - -(j : Int) ≤ ((st ++ suf).length : Int) := by
    simp only [List.length_append, Nat.cast_add]; omega
  have e1 : (((st ++ suf).length : Int) + -(j : Int)).toNat = st.length + (suf.length - j) := by
    simp only [List.length_append, Nat.cast_add]; omega
  simp only [stackpos, c1, c3, and_self, if_true, if_false, e1]

theorem lua_remove_neg2 (st : List LuaValue) (a b : LuaValue) (tb ud r g e m) :
    lua_remove ⟨st ++ [a, b], tb, ud, r, g, e, m⟩ (-2) = some ⟨st ++ [b], tb, ud, r, g, e, m⟩ := by
  have hp := stackpos_suffix st [a, b] tb ud r g e m 2 (by omega) (by simp)
  simp only [Nat.cast_ofNat, List.length_cons, List.length_nil] at hp
  simp only [lua_remove, hp, Option.map_some']
  rw [List.eraseIdx_append_of_length_le (by omega)]
  simp

theorem lua_insert_neg1 (st : List LuaValue) (a : LuaValue) (tb ud r g e m) :
    lua_insert ⟨st ++ [a], tb, ud, r, g, e, m⟩ (-1) = some ⟨st ++ [a], tb, ud, r, g, e, m⟩ := by
  have hp := stackpos_suffix st [a] tb ud r g e m 1 (by omega) (by simp)
  simp only [Nat.cast_one, List.length_cons, List.length_nil] at hp
  simp only [lua_insert, hp]
  simp

theorem index2adr_neg3_three (st : List LuaValue) (a b c : LuaValue) (tb ud r g e m) :
    index2adr ⟨st ++ [a, b, c], tb, ud, r, g, e, m⟩ (-3) = some a := by
  have := index2adr_suffix st [a, b, c] tb ud r g e m 3 (by omega) (by simp) (by omega)
  simpa using this

theorem index2adr_neg4_four (st : List LuaValue) (a b c d : LuaValue) (tb ud r g e m) :
    index2adr ⟨st ++ [a, b, c, d], tb, ud, r, g, e, m⟩ (-4) = some a := by
  have := index2adr_suffix st [a, b, c, d] tb ud r g e m 4 (by omega) (by simp) (by omega)
  simpa using this

theorem index2adr_neg2_four (st : List LuaValue) (a b c d : LuaValue) (tb ud r g e m) :
    index2adr ⟨st ++ [a, b, c, d], tb, ud, r, g, e, m⟩ (-2) = some c := by
  have := index2adr_suffix st [a, b, c, d] tb ud r g e m 2 (by omega) (by simp) (by omega)
  simpa using this

theorem index2adr_neg1_four (st : List LuaValue) (a b c d : LuaValue) (tb ud r g e m) :
    index2adr ⟨st ++ [a, b, c, d], tb, ud, r, g, e, m⟩ (-1) = some d := by
  have := index2adr_suffix st [a, b, c, d] tb ud r g e m 1 (by omega) (by simp) (by omega)
  simpa using this

theorem luaT_gettmbyobj_rawsettable (st : List LuaValue) (tb : List Table) (ud r g e m)
    (id : Nat) (h : Table) (hr : rawsettable tb id h) :
    luaT_gettmbyobj ⟨st, tb, ud, r, g, e, m⟩ (.table id) "__newindex" = .nil := by
  obtain ⟨hh, hm | ⟨b, hb, hm, hbb, hn⟩⟩ := hr
  · simp [luaT_gettmbyobj, getmetatable, hh, hm]
  · simp [luaT_gettmbyobj, getmetatable, hh, hm, hbb, hn]

/-- A raw assignment `t[key] = val` through `lua_settable (L, -3)`. -/
theorem lua_settable_neg3 (st : List LuaValue) (id : Nat) (key : String) (val : LuaValue)
    (tb : List Table) (ud r g e m) (h : Table) (hr : rawsettable tb id h) :
    lua_settable ⟨st ++ [.table id, .string key, val], tb, ud, r, g, e, m⟩ (-3)
      = some ⟨st ++ [.table id],
          tb.set id { h with node := luaH_set h.node (.string key) val }, ud, r, g, e, m⟩ := by
  simp only [lua_settable, index2adr_neg3_three, index2adr_neg2_three, index2adr_neg1_three,
    MAXTAGLOOP]
  rw [luaV_settable_raw _ 99 id h _ _ hr.1 (by rfl)
    (Or.inr (luaT_gettmbyobj_rawsettable _ tb ud r g e m id h hr))]
  simp only [Option.map_some', lua_pop, List.length_append, List.length_cons, List.length_nil]
  congr 2
  have : st.length + (0 + 1 + 1 + 1) - 2 = st.length + 1 := by omega
  rw [this, take_length_append]
  rfl

/-- A raw assignment `t[key] = val` through `lua_settable (L, -4)`. -/
theorem lua_settable_neg4 (st : List LuaValue) (id : Nat) (x : LuaValue) (key : String)
    (val : LuaValue) (tb : List Table) (ud r g e m) (h : Table) (hr : rawsettable tb id h) :
    lua_settable ⟨st ++ [.table id, x, .string key, val], tb, ud, r, g, e, m⟩ (-4)
      = some ⟨st ++ [.table id, x],
          tb.set id { h with node := luaH_set h.node (.string key) val }, ud, r, g, e, m⟩ := by
  simp only [lua_settable, index2adr_neg4_four, index2adr_neg2_four, index2adr_neg1_four,
    MAXTAGLOOP]
  rw [luaV_settable_raw _ 99 id h _ _ hr.1 (by rfl)
    (Or.inr (luaT_gettmbyobj_rawsettable _ tb ud r g e m id h hr))]
  simp only [Option.map_some', lua_pop, List.length_append, List.length_cons, List.length_nil]
  congr 2
  have : st.length + (0 + 1 + 1 + 1 + 1) - 2 = st.length + 2 := by omega
  rw [this, take_length_append]
  rfl

/-- A raw assignment `t[k] = v` through `lua_setfield (L, -2, k)`. -/
theorem lua_setfield_neg2 (st : List LuaValue) (id : Nat) (k : String) (v : LuaValue)
    (tb : List Table) (ud r g e m) (h : Table) (hr : rawsettable tb id h) :
    lua_setfield ⟨st ++ [.table id, v], tb, ud, r, g, e, m⟩ (-2) k
      = some ⟨st ++ [.table id],
          tb.set id { h with node := luaH_set h.node (.string k) v }, ud, r, g, e, m⟩ := by
  have hl : (st ++ [LuaValue.table id, v]).getLast? = some v := by simp
  simp only [lua_setfield, index2adr_neg2, hl, MAXTAGLOOP]
  rw [luaV_settable_raw _ 99 id h _ _ hr.1 (by rfl)
    (Or.inr (luaT_gettmbyobj_rawsettable _ tb ud r g e m id h hr))]
  simp only [Option.map_some', lua_pop, List.length_append, List.length_cons, List.length_nil]
  congr 2
  have : st.length + (0 + 1 + 1) - 1 = st.length + 1 := by omega
  rw [this, take_length_append]
  rfl

/-- A raw assignment `t[k] = v` through `lua_setfield (L, -3, k)`. -/
theorem lua_setfield_neg3 (st : List LuaValue) (id : Nat) (x : LuaValue) (k : String)
    (v : LuaValue) (tb : List Table) (ud r g e m) (h : Table) (hr : rawsettable tb id h) :
    lua_setfield ⟨st ++ [.table id, x, v], tb, ud, r, g, e, m⟩ (-3) k
      = some ⟨st ++ [.table id, x],
          tb.set id { h with node := luaH_set h.node (.string k) v }, ud, r, g, e, m⟩ := by
  have hl : (st ++ [LuaValue.table id, x, v]).getLast? = some v := by simp
  simp only [lua_setfield, index2adr_neg3_three, hl, MAXTAGLOOP]
  rw [luaV_settable_raw _ 99 id h _ _ hr.1 (by rfl)
    (Or.inr (luaT_gettmbyobj_rawsettable _ tb ud r g e m id h hr))]
  simp only [Option.map_some', lua_pop, List.length_append, List.length_cons, List.length_nil]
  congr 2
  have : st.length + (0 + 1 + 1 + 1) - 1 = st.length + 2 := by omega
  rw [this, take_length_append]
  rfl

/-- A raw assignment to the registry through `lua_setfield (L, LUA_REGISTRYINDEX, k)`. -/
theorem lua_setfield_registry (st : List LuaValue) (k : String) (v : LuaValue)
    (tb : List Table) (ud r g e m) (R : Table) (hr : rawsettable tb r R) :
    lua_setfield ⟨st ++ [v], tb, ud, r, g, e, m⟩ LUA_REGISTRYINDEX k
      = some ⟨st, tb.set r { R with node := luaH_set R.node (.string k) v }, ud, r, g, e, m⟩ := by
  have hl : (st ++ [v]).getLast? = some v := by simp
  simp only [lua_setfield, index2adr_registry, hl, MAXTAGLOOP]
  rw [luaV_settable_raw _ 99 r R _ _ hr.1 (by rfl)
    (Or.inr (luaT_gettmbyobj_rawsettable _ tb ud r g e m r R hr))]
  simp only [Option.map_some', lua_pop, List.length_append, List.length_cons, List.length_nil]
  congr 2
  simp

theorem luaT_gettmbyobj_rawgettable (st : List LuaValue) (tb : List Table) (ud r g e m)
    (id : Nat) (h : Table) (hr : rawgettable tb id h) :
    luaT_gettmbyobj ⟨st, tb, ud, r, g, e, m⟩ (.table id) "__index" = .nil := by
  obtain ⟨hh, hm | ⟨b, hb, hm, hbb, hn⟩⟩ := hr
  · simp [luaT_gettmbyobj, getmetatable, hh, hm]
  · simp [luaT_gettmbyobj, getmetatable, hh, hm, hbb, hn]

/-- A raw read through `lua_getfield (L, LUA_REGISTRYINDEX, k)`. -/
theorem lua_getfield_registry_raw (st : List LuaValue) (k : String) (tb : List Table)
    (ud r g e m) (R : Table) (hr : rawgettable tb r R) :
    lua_getfield ⟨st, tb, ud, r, g, e, m⟩ LUA_REGISTRYINDEX k
      = some ⟨st ++ [luaH_get R.node (.string k)], tb, ud, r, g, e, m⟩ := by
  rw [lua_getfield_raw _ _ r R k (index2adr_registry _) hr.1
    (Or.inr (luaT_gettmbyobj_rawgettable _ tb ud r g e m r R hr))]
  rfl

/-- A raw read through `lua_getfield (L, -1, k)`. -/
theorem lua_getfield_neg1 (st : List LuaValue) (id : Nat) (k : String) (tb : List Table)
    (ud r g e m) (h : Table) (hr : rawgettable tb id h) :
    lua_getfield ⟨st ++ [.table id], tb, ud, r, g, e, m⟩ (-1) k
      = some ⟨st ++ [.table id, luaH_get h.node (.string k)], tb, ud, r, g, e, m⟩ := by
  rw [lua_getfield_raw _ _ id h k (index2adr_neg1 _ _ _ _ _ _ _ _) hr.1
    (Or.inr (luaT_gettmbyobj_rawgettable _ tb ud r g e m id h hr))]
  simp [lua_push]

theorem lua_rawget_neg2 (st : List LuaValue) (id : Nat) (key : LuaValue) (tb : List Table)
    (ud r g e m) (h : Table) (hh : tb[id]? = some h) :
    lua_rawget ⟨st ++ [.table id, key], tb, ud, r, g, e, m⟩ (-2)
      = some ⟨st ++ [.table id, luaH_get h.node key], tb, ud, r, g, e, m⟩ := by
  have hl : (st ++ [LuaValue.table id, key]).getLast? = some key := by simp
  simp only [lua_rawget, index2adr_neg2, hl, hh, Option.map_some', lua_pop, lua_push,
    List.length_append, List.length_cons, List.length_nil]
  congr 2
  have : st.length + (0 + 1 + 1) - 1 = st.length + 1 := by omega
  rw [this, take_length_append]
  simp

/-- The call `lua_setmetatable (L, -2)` with a table below a table. -/
theorem lua_setmetatable_table (st : List LuaValue) (id b : Nat) (tb : List Table)
    (ud r g e m) (h : Table) (hh : tb[id]? = some h) :
    lua_setmetatable ⟨st ++ [.table id, .table b], tb, ud, r, g, e, m⟩ (-2)
      = some ⟨st ++ [.table id], tb.set id { h with metatable := some b }, ud, r, g, e, m⟩ := by
  have hl : (st ++ [LuaValue.table id, LuaValue.table b]).getLast? = some (.table b) := by simp
  have hp : lua_pop ⟨st ++ [LuaValue.table id, LuaValue.table b], tb, ud, r, g, e, m⟩ 1
      = ⟨st ++ [.table id], tb, ud, r, g, e, m⟩ := lua_pop_two st _ _ tb ud r g e m
  simp only [lua_setmetatable, index2adr_neg2, hl, hp, hh]

/-- The call `lua_setmetatable (L, -2)` with a table below a full userdata. -/
theorem lua_setmetatable_udata (st : List LuaValue) (u b : Nat) (tb : List Table)
    (ud : List Udata) (r g e m) (U : Udata) (hu : ud[u]? = some U) :
    lua_setmetatable ⟨st ++ [.userdata u, .table b], tb, ud, r, g, e, m⟩ (-2)
      = some ⟨st ++ [.userdata u], tb, ud.set u { U with metatable := some b }, r, g, e, m⟩ := by
  have hl : (st ++ [LuaValue.userdata u, LuaValue.table b]).getLast? = some (.table b) := by simp
  have hp : lua_pop ⟨st ++ [LuaValue.userdata u, LuaValue.table b], tb, ud, r, g, e, m⟩ 1
      = ⟨st ++ [.userdata u], tb, ud, r, g, e, m⟩ := lua_pop_two st _ _ tb ud r g e m
  simp only [lua_setmetatable, index2adr_neg2, hl, hp, hu]

/-! # Registering a library table -/

theorem luaL_newmetatable_fresh (st : List LuaValue) (tb : List Table) (ud r g e m)
    (R : Table) (tname : String) (hR : tb[r]? = some R) (hm : R.metatable = none)
    (hn : luaH_get R.node (.string tname) = .nil) :
    luaL_newmetatable ⟨st, tb, ud, r, g, e, m⟩ tname
      = some (1, ⟨st ++ [.table tb.length], newmetaheap tb r R tname, ud, r, g, e, m⟩) := by
  unfold newmetaheap
  have hlt : r < tb.length := by
    by_contra hcon
    rw [List.getElem?_eq_none (by omega)] at hR
    exact absurd hR (by simp)
  have hg := lua_getfield_registry_raw st tname tb ud r g e m R ⟨hR, Or.inl hm⟩
  have hnil : lua_isnil ⟨st ++ [LuaValue.nil], tb, ud, r, g, e, m⟩ (-1) = true :=
    lua_isnil_push ⟨st, tb, ud, r, g, e, m⟩ .nil
  have hpop : lua_pop ⟨st ++ [LuaValue.nil], tb, ud, r, g, e, m⟩ 1 = ⟨st, tb, ud, r, g, e, m⟩ :=
    lua_pop_push ⟨st, tb, ud, r, g, e, m⟩ .nil
  have hpv : lua_pushvalue ⟨st ++ [.table tb.length], tb ++ [(⟨[], none⟩ : Table)], ud, r, g, e, m⟩ (-1)
      = ⟨st ++ [.table tb.length] ++ [.table tb.length], tb ++ [(⟨[], none⟩ : Table)], ud, r, g, e, m⟩ := by
    simp [lua_pushvalue, lua_push, index2adr_neg1]
  have hR1 : (tb ++ [(⟨[], none⟩ : Table)])[r]? = some R := by
    rw [List.getElem?_append_left hlt]; exact hR
  have hs := lua_setfield_registry (st ++ [.table tb.length]) tname (.table tb.length)
    (tb ++ [(⟨[], none⟩ : Table)]) ud r g e m R ⟨hR1, Or.inl hm⟩
  simp only [luaL_newmetatable, bind, Option.bind, pure, hg, hn, hnil, Bool.not_true,
    Bool.false_eq_true, if_false, hpop, lua_createtable, hpv, hs]

theorem luaL_newmetatable_found (st : List LuaValue) (tb : List Table) (ud r g e m)
    (R : Table) (tname : String) (V : Nat) (hR : tb[r]? = some R) (hm : R.metatable = none)
    (hn : luaH_get R.node (.string tname) = .table V) :
    luaL_newmetatable ⟨st, tb, ud, r, g, e, m⟩ tname
      = some (0, ⟨st ++ [.table V], tb, ud, r, g, e, m⟩) := by
  have hg := lua_getfield_registry_raw st tname tb ud r g e m R ⟨hR, Or.inl hm⟩
  have hnil : lua_isnil ⟨st ++ [LuaValue.table V], tb, ud, r, g, e, m⟩ (-1) = false :=
    lua_isnil_push ⟨st, tb, ud, r, g, e, m⟩ (.table V)
  simp only [luaL_newmetatable, bind, Option.bind, pure, hg, hn, hnil, Bool.not_false, if_true]

/-- One turn of the loop of `luaL_findtable` on a part that the table reached so far does
not hold: a new table is stored under the part and becomes the table reached. -/
theorem findtable_loop_fresh (sz : Nat) (st : List LuaValue) (p : Nat) (tb : List Table)
    (ud r g e m) (P : Table) (part : String) (rest : List String)
    (hP : tb[p]? = some P) (hm : P.metatable = none)
    (hn : luaH_get P.node (.string part) = .nil) :
    findtable_loop sz ⟨st ++ [.table p], tb, ud, r, g, e, m⟩ (part :: rest)
      = findtable_loop sz ⟨st ++ [.table tb.length],
          (tb ++ [(⟨[], none⟩ : Table)]).set p
            { P with node := luaH_set P.node (.string part) (.table tb.length) },
          ud, r, g, e, m⟩ rest := by
  have hlt : p < tb.length := by
    by_contra hcon
    rw [List.getElem?_eq_none (by omega)] at hP
    exact absurd hP (by simp)
  have h1 : lua_pushstring ⟨st ++ [.table p], tb, ud, r, g, e, m⟩ part
      = ⟨st ++ [.table p, .string part], tb, ud, r, g, e, m⟩ := by
    simp [lua_pushstring, lua_push]
  have h2 := lua_rawget_neg2 st p (.string part) tb ud r g e m P hP
  have hnil : lua_isnil ⟨st ++ [LuaValue.table p, LuaValue.nil], tb, ud, r, g, e, m⟩ (-1) = true := by
    have := lua_isnil_push ⟨st ++ [.table p], tb, ud, r, g, e, m⟩ .nil
    simpa [lua_push] using this
  have hpop : lua_pop ⟨st ++ [LuaValue.table p, LuaValue.nil], tb, ud, r, g, e, m⟩ 1
      = ⟨st ++ [.table p], tb, ud, r, g, e, m⟩ := lua_pop_two st _ _ tb ud r g e m
  have h5 : lua_pushvalue (lua_pushstring
        ⟨st ++ [.table p] ++ [.table tb.length], tb ++ [(⟨[], none⟩ : Table)], ud, r, g, e, m⟩ part) (-2)
      = ⟨st ++ [.table p, .table tb.length, .string part, .table tb.length],
          tb ++ [(⟨[], none⟩ : Table)], ud, r, g, e, m⟩ := by
    have : st ++ [LuaValue.table p] ++ [LuaValue.table tb.length] ++ [LuaValue.string part]
        = st ++ [LuaValue.table p] ++ [LuaValue.table tb.length, LuaValue.string part] := by simp
    simp only [lua_pushstring, lua_push, lua_pushvalue, this, index2adr_neg2]
    simp
  have hP1 : (tb ++ [(⟨[], none⟩ : Table)])[p]? = some P := by
    rw [List.getElem?_append_left hlt]; exact hP
  have h6 := lua_settable_neg4 st p (.table tb.length) part (.table tb.length)
    (tb ++ [(⟨[], none⟩ : Table)]) ud r g e m P ⟨hP1, Or.inl hm⟩
  have h7 := lua_remove_neg2 st (.table p) (.table tb.length)
    ((tb ++ [(⟨[], none⟩ : Table)]).set p { P with node := luaH_set P.node (.string part) (.table tb.length) })
    ud r g e m
  rw [findtable_loop]
  simp only [h1, h2, hn, hnil, if_true, hpop, lua_createtable, h5, h6, h7]

/-- One turn of the loop of `luaL_findtable` on a part under which the table reached so
far holds a table: that table becomes the table reached. -/
theorem findtable_loop_found (sz : Nat) (st : List LuaValue) (p q : Nat) (tb : List Table)
    (ud r g e m) (P : Table) (part : String) (rest : List String)
    (hP : tb[p]? = some P) (hn : luaH_get P.node (.string part) = .table q) :
    findtable_loop sz ⟨st ++ [.table p], tb, ud, r, g, e, m⟩ (part :: rest)
      = findtable_loop sz ⟨st ++ [.table q], tb, ud, r, g, e, m⟩ rest := by
  have h1 : lua_pushstring ⟨st ++ [.table p], tb, ud, r, g, e, m⟩ part
      = ⟨st ++ [.table p, .string part], tb, ud, r, g, e, m⟩ := by
    simp [lua_pushstring, lua_push]
  have h2 := lua_rawget_neg2 st p (.string part) tb ud r g e m P hP
  have hnil : lua_isnil ⟨st ++ [LuaValue.table p, LuaValue.table q], tb, ud, r, g, e, m⟩ (-1)
      = false := by
    have := lua_isnil_push ⟨st ++ [.table p], tb, ud, r, g, e, m⟩ (.table q)
    simpa [lua_push] using this
  have htab : lua_istable ⟨st ++ [LuaValue.table p, LuaValue.table q], tb, ud, r, g, e, m⟩ (-1)
      = true := (lua_istable_iff _ _).2 ⟨q, index2adr_neg1_two st _ _ tb ud r g e m⟩
  have h7 := lua_remove_neg2 st (.table p) (.table q) tb ud r g e m
  rw [findtable_loop]
  simp only [h1, h2, hn, hnil, htab, Bool.false_eq_true, if_false, Bool.not_true, h7]

/-- The loop of `luaL_openlib` stores the functions in the table on top of the stack. -/
theorem luaL_openlib_top_eq (st : List LuaValue) (M : Nat) (ud r g e m)
    (mt : Option Nat) (l : List (String × String)) :
    ∀ (tb : List Table) (nd : List (LuaValue × LuaValue)),
      rawsettable tb M ⟨nd, mt⟩ → mt ≠ some M →
      luaL_openlib_top ⟨st ++ [.table M], tb, ud, r, g, e, m⟩ l
        = some ⟨st ++ [.table M], tb.set M ⟨libnode nd l, mt⟩, ud, r, g, e, m⟩ := by
  induction l with
  | nil =>
    intro tb nd hr _
    have : tb.set M ⟨nd, mt⟩ = tb := by
      apply List.ext_getElem?
      intro i
      by_cases hi : M = i
      · subst hi
        rw [List.getElem?_set_self (by
          by_contra hcon
          have := hr.1
          rw [List.getElem?_eq_none (by omega)] at this
          exact absurd this (by simp))]
        exact hr.1.symm
      · rw [List.getElem?_set_ne hi]
    simp only [luaL_openlib_top, libnode, this]
  | cons nf l ih =>
    intro tb nd hr hne
    obtain ⟨name, func⟩ := nf
    have hlt : M < tb.length := by
      by_contra hcon
      have := hr.1
      rw [List.getElem?_eq_none (by omega)] at this
      exact absurd this (by simp)
    have h1 : lua_push ⟨st ++ [.table M], tb, ud, r, g, e, m⟩ (.cfunction func)
        = ⟨st ++ [.table M, .cfunction func], tb, ud, r, g, e, m⟩ := by simp [lua_push]
    have h2 := lua_setfield_neg2 st M name (.cfunction func) tb ud r g e m ⟨nd, mt⟩ hr
    have hr2 : rawsettable (tb.set M ⟨luaH_set nd (.string name) (.cfunction func), mt⟩) M
        ⟨luaH_set nd (.string name) (.cfunction func), mt⟩ := by
      refine ⟨List.getElem?_set_self hlt, ?_⟩
      rcases hr.2 with hm | ⟨b, hb, hm, hbb, hn⟩
      · exact Or.inl hm
      · refine Or.inr ⟨b, hb, hm, ?_, hn⟩
        have hmb : mt = some b := hm
        have : M ≠ b := fun hc => hne (by rw [hmb, hc])
        rw [List.getElem?_set_ne this]; exact hbb
    simp only [luaL_openlib_top, h1, h2, libnode]
    rw [ih _ _ hr2 hne, List.set_set]

theorem lt_length_of_getElem? {α : Type} (l : List α) (i : Nat) (a : α) (h : l[i]? = some a) :
    i < l.length := by
  by_contra hcon
  rw [List.getElem?_eq_none (by omega)] at h
  exact absurd h (by simp)

/-- The call `luaL_openlib (L, method, l, 0)` when neither `_LOADED[method]` nor the global
that the first part of the name denotes exists: the global table, the library table
below it and the entry of `_LOADED` are created, and the functions are stored. -/
theorem luaL_openlib_fresh (st : List LuaValue) (tb : List Table) (ud r g e m)
    (R T G : Table) (ld : Nat) (method p1 p2 : String) (l : List (String × String))
    (hsplit : (splitdots method.data).map String.mk = [p1, p2])
    (hR : tb[r]? = some R) (hl : luaH_get R.node (.string "_LOADED") = .table ld)
    (hT : tb[ld]? = some T) (hTm : T.metatable = none)
    (hTn : luaH_get T.node (.string method) = .nil)
    (hG : tb[g]? = some G) (hGm : G.metatable = none)
    (hGn : luaH_get G.node (.string p1) = .nil) (hne : ld ≠ g) :
    luaL_openlib ⟨st, tb, ud, r, g, e, m⟩ method l
      = some ⟨st ++ [.table (tb.length + 1)], openlibheap tb g ld G T method p1 p2 l,
          ud, r, g, e, m⟩ := by
  unfold openlibheap
  have hld : ld < tb.length := lt_length_of_getElem? _ _ _ hT
  have hg : g < tb.length := lt_length_of_getElem? _ _ _ hG
  -- the table of loaded modules
  have s0 : (splitdots "_LOADED".data).map String.mk = ["_LOADED"] := by decide
  have s1 : luaL_findtable ⟨st, tb, ud, r, g, e, m⟩ LUA_REGISTRYINDEX "_LOADED" 1
      = some (none, ⟨st ++ [.table ld], tb, ud, r, g, e, m⟩) := by
    simp only [luaL_findtable, s0, lua_pushvalue, index2adr_registry, Option.getD_some, lua_push]
    rw [findtable_loop_found 1 st r ld tb ud r g e m R "_LOADED" [] hR hl]
    rfl
  have s2 := lua_getfield_neg1 st ld method tb ud r g e m T ⟨hT, Or.inl hTm⟩
  rw [hTn] at s2
  have s3 : lua_istable ⟨st ++ [LuaValue.table ld, LuaValue.nil], tb, ud, r, g, e, m⟩ (-1)
      = false := by
    simp [lua_istable, lua_type, index2adr_neg1_two, LuaValue.ttype, LUA_TNIL, LUA_TTABLE]
  have s4 : lua_pop ⟨st ++ [LuaValue.table ld, LuaValue.nil], tb, ud, r, g, e, m⟩ 1
      = ⟨st ++ [.table ld], tb, ud, r, g, e, m⟩ := lua_pop_two st _ _ tb ud r g e m
  -- the global table and the library table
  have hD : ((tb ++ [(⟨[], none⟩ : Table)]).set g
      { G with node := luaH_set G.node (.string p1) (.table tb.length) })[tb.length]?
      = some ⟨[], none⟩ := by
    rw [List.getElem?_set_ne (by omega), List.getElem?_append_right (le_refl _)]
    simp
  have hlen : ((tb ++ [(⟨[], none⟩ : Table)]).set g
      { G with node := luaH_set G.node (.string p1) (.table tb.length) }).length
      = tb.length + 1 := by simp
  have s5 : luaL_findtable ⟨st ++ [.table ld], tb, ud, r, g, e, m⟩ LUA_GLOBALSINDEX method l.length
      = some (none, ⟨st ++ [.table ld, .table (tb.length + 1)],
          (((tb ++ [(⟨[], none⟩ : Table)]).set g
              { G with node := luaH_set G.node (.string p1) (.table tb.length) })
            ++ [(⟨[], none⟩ : Table)]).set tb.length
              ⟨luaH_set [] (.string p2) (.table (tb.length + 1)), none⟩,
          ud, r, g, e, m⟩) := by
    have hi : index2adr ⟨st ++ [.table ld], tb, ud, r, g, e, m⟩ LUA_GLOBALSINDEX
        = some (.table g) := by
      simp [index2adr, LUA_GLOBALSINDEX, LUA_REGISTRYINDEX, LUA_ENVIRONINDEX]
    simp only [luaL_findtable, hsplit, lua_pushvalue, hi, Option.getD_some, lua_push]
    rw [findtable_loop_fresh l.length (st ++ [LuaValue.table ld]) g tb ud r g e m G p1 [p2] hG hGm hGn]
    rw [findtable_loop_fresh l.length (st ++ [LuaValue.table ld]) tb.length _ ud r g e m ⟨[], none⟩ p2 []
      hD rfl rfl]
    simp only [hlen, findtable_loop, List.append_assoc, List.singleton_append]
  -- the entry of the table of loaded modules
  have hT2 : ((((tb ++ [(⟨[], none⟩ : Table)]).set g
              { G with node := luaH_set G.node (.string p1) (.table tb.length) })
            ++ [(⟨[], none⟩ : Table)]).set tb.length
              ⟨luaH_set [] (.string p2) (.table (tb.length + 1)), none⟩)[ld]? = some T := by
    rw [List.getElem?_set_ne (by omega), List.getElem?_append_left (by simp; omega),
      List.getElem?_set_ne (by omega), List.getElem?_append_left hld]
    exact hT
  have s6 : lua_pushvalue ⟨st ++ [.table ld, .table (tb.length + 1)],
          (((tb ++ [(⟨[], none⟩ : Table)]).set g
              { G with node := luaH_set G.node (.string p1) (.table tb.length) })
            ++ [(⟨[], none⟩ : Table)]).set tb.length
              ⟨luaH_set [] (.string p2) (.table (tb.length + 1)), none⟩,
          ud, r, g, e, m⟩ (-1)
      = ⟨st ++ [.table ld, .table (tb.length + 1), .table (tb.length + 1)],
          (((tb ++ [(⟨[], none⟩ : Table)]).set g
              { G with node := luaH_set G.node (.string p1) (.table tb.length) })
            ++ [(⟨[], none⟩ : Table)]).set tb.length
              ⟨luaH_set [] (.string p2) (.table (tb.length + 1)), none⟩,
          ud, r, g, e, m⟩ := by
    simp [lua_pushvalue, lua_push, index2adr_neg1_two]
  have s7 := lua_setfield_neg3 st ld (.table (tb.length + 1)) method (.table (tb.length + 1)) _
    ud r g e m T ⟨hT2, Or.inl hTm⟩
  have s8 := lua_remove_neg2 st (.table ld) (.table (tb.length + 1))
    (((((tb ++ [(⟨[], none⟩ : Table)]).set g
              { G with node := luaH_set G.node (.string p1) (.table tb.length) })
            ++ [(⟨[], none⟩ : Table)]).set tb.length
              ⟨luaH_set [] (.string p2) (.table (tb.length + 1)), none⟩).set ld
              { T with node := luaH_set T.node (.string method) (.table (tb.length + 1)) })
    ud r g e m
  have s9 := lua_insert_neg1 st (.table (tb.length + 1))
    (((((tb ++ [(⟨[], none⟩ : Table)]).set g
              { G with node := luaH_set G.node (.string p1) (.table tb.length) })
            ++ [(⟨[], none⟩ : Table)]).set tb.length
              ⟨luaH_set [] (.string p2) (.table (tb.length + 1)), none⟩).set ld
              { T with node := luaH_set T.node (.string method) (.table (tb.length + 1)) })
    ud r g e m
  have hM : (((((tb ++ [(⟨[], none⟩ : Table)]).set g
              { G with node := luaH_set G.node (.string p1) (.table tb.length) })
            ++ [(⟨[], none⟩ : Table)]).set tb.length
              ⟨luaH_set [] (.string p2) (.table (tb.length + 1)), none⟩).set ld
              { T with node := luaH_set T.node (.string method) (.table (tb.length + 1)) })[
                tb.length + 1]? = some ⟨[], none⟩ := by
    rw [List.getElem?_set_ne (by omega), List.getElem?_set_ne (by omega),
      List.getElem?_append_right (by simp)]
    simp
  have s10 := luaL_openlib_top_eq st (tb.length + 1) ud r g e m none l _ [] ⟨hM, Or.inl rfl⟩
    (by simp)
  simp only [luaL_openlib, bind, Option.bind, pure, s1, s2, s3, Bool.not_false, if_true, s4, s5,
    Option.isSome_none, Bool.false_eq_true, if_false, s6, s7, s8, s9, s10]

/-- The call `luaL_openlib (L, method, l, 0)` when `_LOADED[method]` is a table: the
functions are stored in that table. -/
theorem luaL_openlib_found (st : List LuaValue) (tb : List Table) (ud r g e m)
    (R T : Table) (ld M : Nat) (nd : List (LuaValue × LuaValue)) (mt : Option Nat)
    (method : String) (l : List (String × String))
    (hR : tb[r]? = some R) (hl : luaH_get R.node (.string "_LOADED") = .table ld)
    (hT : tb[ld]? = some T) (hTm : T.metatable = none)
    (hTn : luaH_get T.node (.string method) = .table M)
    (hM : rawsettable tb M ⟨nd, mt⟩) (hne : mt ≠ some M) :
    luaL_openlib ⟨st, tb, ud, r, g, e, m⟩ method l
      = some ⟨st ++ [.table M], tb.set M ⟨libnode nd l, mt⟩, ud, r, g, e, m⟩ := by
  have s0 : (splitdots "_LOADED".data).map String.mk = ["_LOADED"] := by decide
  have s1 : luaL_findtable ⟨st, tb, ud, r, g, e, m⟩ LUA_REGISTRYINDEX "_LOADED" 1
      = some (none, ⟨st ++ [.table ld], tb, ud, r, g, e, m⟩) := by
    simp only [luaL_findtable, s0, lua_pushvalue, index2adr_registry, Option.getD_some, lua_push]
    rw [findtable_loop_found 1 st r ld tb ud r g e m R "_LOADED" [] hR hl]
    rfl
  have s2 := lua_getfield_neg1 st ld method tb ud r g e m T ⟨hT, Or.inl hTm⟩
  rw [hTn] at s2
  have s3 : lua_istable ⟨st ++ [LuaValue.table ld, LuaValue.table M], tb, ud, r, g, e, m⟩ (-1)
      = true := (lua_istable_iff _ _).2 ⟨M, index2adr_neg1_two st _ _ tb ud r g e m⟩
  have s8 := lua_remove_neg2 st (.table ld) (.table M) tb ud r g e m
  have s9 := lua_insert_neg1 st (.table M) tb ud r g e m
  have s10 := luaL_openlib_top_eq st M ud r g e m mt l tb nd hM hne
  simp only [luaL_openlib, bind, Option.bind, pure, s1, s2, s3, Bool.not_true, Bool.false_eq_true,
    if_false, s8, s9, s10]

/-! # The first run of a vessel class's Lua_InitInstance -/

theorem newmetaheap_length (tb : List Table) (r : Nat) (R : Table) (tname : String) :
    (newmetaheap tb r R tname).length = tb.length + 1 := by
  simp [newmetaheap]

theorem newmetaheap_self (tb : List Table) (r : Nat) (R : Table) (tname : String)
    (hr : r < tb.length) :
    (newmetaheap tb r R tname)[r]?
      = some { R with node := luaH_set R.node (.string tname) (.table tb.length) } :=
  List.getElem?_set_self (by simp; omega)

theorem newmetaheap_new (tb : List Table) (r : Nat) (R : Table) (tname : String)
    (hr : r < tb.length) :
    (newmetaheap tb r R tname)[tb.length]? = some ⟨[], none⟩ := by
  unfold newmetaheap
  rw [List.getElem?_set_ne (by omega), List.getElem?_append_right (le_refl _)]
  simp

theorem newmetaheap_other (tb : List Table) (r : Nat) (R : Table) (tname : String) (i : Nat)
    (hi : i ≠ r) (hl : i < tb.length) :
    (newmetaheap tb r R tname)[i]? = tb[i]? := by
  unfold newmetaheap
  rw [List.getElem?_set_ne (by omega), List.getElem?_append_left hl]

theorem openlibheap_length (tb : List Table) (g ld : Nat) (G T : Table)
    (method p1 p2 : String) (l : List (String × String)) :
    (openlibheap tb g ld G T method p1 p2 l).length = tb.length + 2 := by
  simp [openlibheap]

theorem openlibheap_lib (tb : List Table) (g ld : Nat) (G T : Table)
    (method p1 p2 : String) (l : List (String × String)) :
    (openlibheap tb g ld G T method p1 p2 l)[tb.length + 1]? = some ⟨libnode [] l, none⟩ :=
  List.getElem?_set_self (by simp)

theorem openlibheap_other (tb : List Table) (g ld : Nat) (G T : Table)
    (method p1 p2 : String) (l : List (String × String)) (i : Nat)
    (hg : i ≠ g) (hld : i ≠ ld) (hl : i < tb.length) :
    (openlibheap tb g ld G T method p1 p2 l)[i]? = tb[i]? := by
  unfold openlibheap
  rw [List.getElem?_set_ne (by omega), List.getElem?_set_ne (by omega),
    List.getElem?_set_ne (by omega), List.getElem?_append_left (by simp; omega),
    List.getElem?_set_ne (by omega), List.getElem?_append_left hl]

/-- The first run of a vessel class's `Lua_InitInstance` in an interpreter: the sentinel
is not found, the tables `vtable`, `method` (below a new global) and `base` are created
and linked, and `vtable` is attached to the wrapper. -/
theorem vessel_InitInstance_fresh (sentinel vtable method base p1 p2 : String)
    (lib : List (String × String)) (st : List LuaValue) (tb : List Table) (ud : List Udata)
    (r g e m) (R T G : Table) (U : Udata) (u ld tv : Nat)
    (hsplit : (splitdots method.data).map String.mk = [p1, p2])
    (hn1 : vtable ≠ "_LOADED") (hn2 : base ≠ vtable) (hn3 : vtable ≠ "VESSEL.vtable")
    (hn4 : base ≠ "VESSEL.vtable")
    (hR : tb[r]? = some R) (hRm : R.metatable = none)
    (hs : luaH_get R.node (.string sentinel) = .nil)
    (hv : luaH_get R.node (.string vtable) = .nil)
    (hb : luaH_get R.node (.string base) = .nil)
    (hl : luaH_get R.node (.string "_LOADED") = .table ld)
    (hvt : luaH_get R.node (.string "VESSEL.vtable") = .table tv)
    (hT : tb[ld]? = some T) (hTm : T.metatable = none)
    (hTn : luaH_get T.node (.string method) = .nil)
    (hG : tb[g]? = some G) (hGm : G.metatable = none)
    (hGn : luaH_get G.node (.string p1) = .nil)
    (hd : r ≠ ld ∧ r ≠ g ∧ ld ≠ g) (hU : ud[u]? = some U) :
    vessel_InitInstance sentinel vtable method base lib ⟨st ++ [.userdata u], tb, ud, r, g, e, m⟩
      = some (0, ⟨st ++ [.userdata u],
          installedtables tb r g ld tv R T G vtable method base p1 p2 lib,
          ud.set u { U with metatable := some tb.length }, r, g, e, m⟩) := by
  obtain ⟨hd1, hd2, hd3⟩ := hd
  have hrl : r < tb.length := lt_length_of_getElem? _ _ _ hR
  have hll : ld < tb.length := lt_length_of_getElem? _ _ _ hT
  have hgl : g < tb.length := lt_length_of_getElem? _ _ _ hG
  have e2 : tb.length + 1 + 1 = tb.length + 2 := rfl
  have e3 : tb.length + 1 + 2 = tb.length + 3 := rfl
  simp only [installedtables]
  generalize hR1 : ({ R with node := luaH_set R.node (.string vtable) (.table tb.length) } : Table)
    = R1
  have hR1m : R1.metatable = none := by rw [← hR1]; exact hRm
  have hR1n : R1.node = luaH_set R.node (.string vtable) (.table tb.length) := by rw [← hR1]
  -- the sentinel is not found
  have a1 := lua_getfield_registry_raw (st ++ [LuaValue.userdata u]) sentinel tb ud r g e m R
    ⟨hR, Or.inl hRm⟩
  rw [hs] at a1
  have a2 : lua_isnil ⟨st ++ [LuaValue.userdata u] ++ [LuaValue.nil], tb, ud, r, g, e, m⟩ (-1)
      = true := lua_isnil_push ⟨st ++ [LuaValue.userdata u], tb, ud, r, g, e, m⟩ LuaValue.nil
  have a3 : lua_pop ⟨st ++ [LuaValue.userdata u] ++ [LuaValue.nil], tb, ud, r, g, e, m⟩ 1
      = ⟨st ++ [LuaValue.userdata u], tb, ud, r, g, e, m⟩ :=
    lua_pop_push ⟨st ++ [LuaValue.userdata u], tb, ud, r, g, e, m⟩ LuaValue.nil
  -- the metatable of the wrappers
  have a4 := luaL_newmetatable_fresh (st ++ [LuaValue.userdata u]) tb ud r g e m R vtable hR hRm hv
  have h1len := newmetaheap_length tb r R vtable
  have h1r : (newmetaheap tb r R vtable)[r]? = some R1 := by
    rw [← hR1]; exact newmetaheap_self tb r R vtable hrl
  have h1ld := (newmetaheap_other tb r R vtable ld hd1.symm hll).trans hT
  have h1g := (newmetaheap_other tb r R vtable g hd2.symm hgl).trans hG
  have h1v := newmetaheap_new tb r R vtable hrl
  generalize newmetaheap tb r R vtable = H1 at a4 h1len h1r h1ld h1g h1v ⊢
  -- the method table
  have hl1 : luaH_get R1.node (.string "_LOADED") = .table ld := by
    rw [hR1n, luaH_get_set_other _ _ _ _ (by simpa using hn1.symm)]; exact hl
  have a5 := luaL_openlib_fresh (st ++ [LuaValue.userdata u] ++ [LuaValue.table tb.length])
    H1 ud r g e m R1 T G ld method p1 p2 lib hsplit h1r hl1 h1ld hTm hTn h1g hGm hGn hd3
  have h2len := openlibheap_length H1 g ld G T method p1 p2 lib
  have h2r := (openlibheap_other H1 g ld G T method p1 p2 lib r hd2 hd1 (by omega)).trans h1r
  have h2v := (openlibheap_other H1 g ld G T method p1 p2 lib tb.length (by omega) (by omega)
    (by omega)).trans h1v
  have h2m := openlibheap_lib H1 g ld G T method p1 p2 lib
  rw [h1len] at a5 h2len h2m
  generalize openlibheap H1 g ld G T method p1 p2 lib = H2 at a5 h2len h2r h2v h2m ⊢
  -- the table of inherited methods
  have hb1 : luaH_get R1.node (.string base) = .nil := by
    rw [hR1n, luaH_get_set_other _ _ _ _ (by simpa using hn2)]; exact hb
  have a6 := luaL_newmetatable_fresh
    (st ++ [LuaValue.userdata u] ++ [LuaValue.table tb.length] ++ [LuaValue.table (tb.length + 1 + 1)])
    H2 ud r g e m R1 base h2r hR1m hb1
  have h3r := newmetaheap_self H2 r R1 base (by omega)
  have h3b := newmetaheap_new H2 r R1 base (by omega)
  have h3m := (newmetaheap_other H2 r R1 base (tb.length + 1 + 1) (by omega) (by omega)).trans h2m
  have h3v := (newmetaheap_other H2 r R1 base tb.length (by omega) (by omega)).trans h2v
  rw [h2len] at a6 h3r h3b
  generalize newmetaheap H2 r R1 base = H3 at a6 h3r h3b h3m h3v ⊢
  have hvt2 : luaH_get (luaH_set R1.node (.string base) (.table (tb.length + 1 + 2)))
      (.string "VESSEL.vtable") = .table tv := by
    rw [luaH_get_set_other _ _ _ _ (by simpa using hn4.symm), hR1n,
      luaH_get_set_other _ _ _ _ (by simpa using hn3.symm)]
    exact hvt
  have a7 := lua_getfield_registry_raw
    (st ++ [LuaValue.userdata u] ++ [LuaValue.table tb.length] ++ [LuaValue.table (tb.length + 1 + 1)]
      ++ [LuaValue.table (tb.length + 1 + 2)] ++ [LuaValue.string "__index"])
    "VESSEL.vtable" H3 ud r g e m _ ⟨h3r, Or.inl hR1m⟩
  rw [hvt2] at a7
  have a8 := lua_settable_neg3
    (st ++ [LuaValue.userdata u] ++ [LuaValue.table tb.length] ++ [LuaValue.table (tb.length + 1 + 1)])
    (tb.length + 1 + 2) "__index" (.table tv) H3 ud r g e m ⟨[], none⟩ ⟨h3b, Or.inl rfl⟩
  -- the links between the tables
  have h4m : (H3.set (tb.length + 1 + 2)
      ⟨luaH_set [] (.string "__index") (.table tv), none⟩)[tb.length + 1 + 1]?
      = some ⟨libnode [] lib, none⟩ := by
    rw [List.getElem?_set_ne (by omega)]; exact h3m
  have a9 := lua_setmetatable_table (st ++ [LuaValue.userdata u] ++ [LuaValue.table tb.length])
    (tb.length + 1 + 1) (tb.length + 1 + 2) _ ud r g e m _ h4m
  have h5v : ((H3.set (tb.length + 1 + 2)
      ⟨luaH_set [] (.string "__index") (.table tv), none⟩).set (tb.length + 1 + 1)
      ⟨libnode [] lib, some (tb.length + 1 + 2)⟩)[tb.length]? = some ⟨[], none⟩ := by
    rw [List.getElem?_set_ne (by omega), List.getElem?_set_ne (by omega)]; exact h3v
  have a10 := lua_settable_neg4 (st ++ [LuaValue.userdata u]) tb.length
    (.table (tb.length + 1 + 1)) "__index" (.table (tb.length + 1 + 1)) _ ud r g e m _
    ⟨h5v, Or.inl rfl⟩
  have a11 := lua_pop_two (st ++ [LuaValue.userdata u]) (.table tb.length)
    (.table (tb.length + 1 + 1))
    (((H3.set (tb.length + 1 + 2)
      ⟨luaH_set [] (.string "__index") (.table tv), none⟩).set (tb.length + 1 + 1)
      ⟨libnode [] lib, some (tb.length + 1 + 2)⟩).set tb.length
      ⟨luaH_set [] (.string "__index") (.table (tb.length + 1 + 1)), none⟩) ud r g e m
  have a12 := lua_setmetatable_udata st u tb.length
    (((H3.set (tb.length + 1 + 2)
      ⟨luaH_set [] (.string "__index") (.table tv), none⟩).set (tb.length + 1 + 1)
      ⟨libnode [] lib, some (tb.length + 1 + 2)⟩).set tb.length
      ⟨luaH_set [] (.string "__index") (.table (tb.length + 1 + 1)), none⟩) ud r g e m U hU
  simp only [e2, e3, List.append_assoc, List.cons_append, List.nil_append]
    at a1 a2 a3 a4 a5 a6 a7 a8 a9 a10 a11 a12
  have b1 : ∀ (S : List Table), index2adr ⟨st ++ [LuaValue.userdata u, LuaValue.table tb.length,
      LuaValue.table (tb.length + 2), LuaValue.string "__index"], S, ud, r, g, e, m⟩ (-2)
      = some (.table (tb.length + 2)) := fun S =>
    index2adr_neg2_four st _ _ _ _ S ud r g e m
  simp only [vessel_InitInstance, luaL_getmetatable, bind, Option.bind, pure, lua_pushstring,
    lua_push, lua_pushvalue, List.append_assoc, List.cons_append, List.nil_append,
    a1, a2, if_true, a3, a4, a5, a6, a7, a8, a9, b1, Option.getD_some, a10, a11, a12]

/-! # Dispatch on a vessel class wrapper -/

theorem libnode_get_notin (l : List (String × String)) :
    ∀ (nd : List (LuaValue × LuaValue)) (key : LuaValue),
      (∀ p ∈ l, LuaValue.string p.1 ≠ key) → luaH_get (libnode nd l) key = luaH_get nd key := by
  induction l with
  | nil => intro nd key _; rfl
  | cons p l ih =>
    intro nd key h
    obtain ⟨name, func⟩ := p
    simp only [libnode]
    rw [ih _ _ (fun q hq => h q (List.mem_cons_of_mem _ hq)),
      luaH_get_set_other _ _ _ _ (fun hc => h (name, func) (List.mem_cons_self _ _) hc.symm)]

theorem libnode_get_in (l : List (String × String)) :
    ∀ (nd : List (LuaValue × LuaValue)) (name func : String),
      (l.map Prod.fst).Nodup → (name, func) ∈ l →
      luaH_get (libnode nd l) (.string name) = .cfunction func := by
  induction l with
  | nil => intro nd name func _ h; exact absurd h (List.not_mem_nil _)
  | cons p l ih =>
    intro nd name func hnd h
    obtain ⟨n1, f1⟩ := p
    simp only [List.map_cons, List.nodup_cons] at hnd
    simp only [libnode]
    rcases List.mem_cons.1 h with heq | hin
    · obtain ⟨rfl, rfl⟩ : name = n1 ∧ func = f1 := by simpa using heq
      rw [libnode_get_notin l _ _ (fun q hq hc => hnd.1 (by
        have : q.1 = name := by simpa using hc
        rw [← this]; exact List.mem_map_of_mem _ hq)), luaH_get_set_self]
    · exact ih _ name func hnd.2 hin

/-- Indexing a wrapper whose metatable `V` sends `__index` to a method table `M`, whose
metatable `B` sends `__index` to a plain table `tv`: the entry of `M` when it has one, the
entry of `tv` otherwise. -/
theorem luaV_gettable_dispatch (L : lua_State) (u V M B tv : Nat) (U : Udata)
    (hV hM hB hT : Table) (key : LuaValue)
    (hu : L.udata[u]? = some U) (hum : U.metatable = some V)
    (h1 : L.tables[V]? = some hV) (h1i : luaH_get hV.node (.string "__index") = .table M)
    (h2 : L.tables[M]? = some hM) (h2m : hM.metatable = some B)
    (h3 : L.tables[B]? = some hB) (h3i : luaH_get hB.node (.string "__index") = .table tv)
    (h4 : L.tables[tv]? = some hT) (h4m : hT.metatable = none) :
    luaV_gettable L MAXTAGLOOP (.userdata u) key
      = some (if luaH_get hM.node key = .nil then luaH_get hT.node key
          else luaH_get hM.node key) := by
  have t1 : luaT_gettmbyobj L (.userdata u) "__index" = .table M := by
    simp [luaT_gettmbyobj, getmetatable, hu, hum, h1, h1i]
  have t2 : luaT_gettmbyobj L (.table M) "__index" = .table tv := by
    simp [luaT_gettmbyobj, getmetatable, h2, h2m, h3, h3i]
  have t3 : luaT_gettmbyobj L (.table tv) "__index" = .nil :=
    luaT_gettmbyobj_nometa L tv hT _ h4 h4m
  have key3 : ∀ n : Nat, luaV_gettable L (n + 3) (.userdata u) key
      = some (if luaH_get hM.node key = .nil then luaH_get hT.node key
          else luaH_get hM.node key) := by
    intro n
    simp only [luaV_gettable, t1, h2, t2, h4, t3, isfunction]
    by_cases hk : luaH_get hM.node key = .nil
    · simp [hk]
    · simp [hk]
  exact key3 97

/-- On a wrapper for which a vessel class is installed a name reads as the entry of the
method table of the class when that table holds one, and as the entry of `VESSEL.vtable`
otherwise. -/
theorem lookup_classinstalled (L : lua_State) (u : Nat) (vtable method base name : String)
    (h : classinstalled L u vtable method base) :
    lookup L u name = some (if methodentry L method name = .nil
      then vtableentry L "VESSEL.vtable" name else methodentry L method name) := by
  obtain ⟨U, V, h1, h2, M, B, tv, ld, R, T, hV, hM, hB, hT, r1, -, -, -, r5, r6, t1, -, t3,
    v1, -, v3, m1, m2, b1, -, b3, -, x1, x2, -⟩ := h
  have e1 : methodentry L method name = luaH_get hM.node (.string name) := by
    simp [methodentry, rawentry, loadedlib, registered, r1, r5, t1, t3, m1]
  have e2 : vtableentry L "VESSEL.vtable" name = luaH_get hT.node (.string name) := by
    simp [vtableentry, rawentry, registered, r1, r6, metaof, x1]
  rw [e1, e2]
  exact luaV_gettable_dispatch L u V M B tv U hV hM hB hT _ h1 h2 v1 v3 m1 m2 b1 b3 x1 x2

theorem openlibheap_loaded (tb : List Table) (g ld : Nat) (G T : Table)
    (method p1 p2 : String) (l : List (String × String)) (hl : ld < tb.length) :
    (openlibheap tb g ld G T method p1 p2 l)[ld]?
      = some { T with node := luaH_set T.node (.string method) (.table (tb.length + 1)) } := by
  unfold openlibheap
  rw [List.getElem?_set_ne (by omega)]
  exact List.getElem?_set_self (by simp; omega)

theorem installedtables_vtable (tb : List Table) (r g ld tv : Nat) (R T G : Table)
    (vtable method base p1 p2 : String) (lib : List (String × String)) :
    (installedtables tb r g ld tv R T G vtable method base p1 p2 lib)[tb.length]?
      = some ⟨luaH_set [] (.string "__index") (.table (tb.length + 2)), none⟩ := by
  simp only [installedtables]
  exact List.getElem?_set_self (by
    simp only [List.length_set, newmetaheap_length, openlibheap_length]; omega)

theorem installedtables_method (tb : List Table) (r g ld tv : Nat) (R T G : Table)
    (vtable method base p1 p2 : String) (lib : List (String × String)) :
    (installedtables tb r g ld tv R T G vtable method base p1 p2 lib)[tb.length + 2]?
      = some ⟨libnode [] lib, some (tb.length + 3)⟩ := by
  simp only [installedtables]
  rw [List.getElem?_set_ne (by omega)]
  exact List.getElem?_set_self (by
    simp only [List.length_set, newmetaheap_length, openlibheap_length]; omega)

theorem installedtables_base (tb : List Table) (r g ld tv : Nat) (R T G : Table)
    (vtable method base p1 p2 : String) (lib : List (String × String)) :
    (installedtables tb r g ld tv R T G vtable method base p1 p2 lib)[tb.length + 3]?
      = some ⟨luaH_set [] (.string "__index") (.table tv), none⟩ := by
  simp only [installedtables]
  rw [List.getElem?_set_ne (by omega), List.getElem?_set_ne (by omega)]
  exact List.getElem?_set_self (by
    simp only [List.length_set, newmetaheap_length, openlibheap_length]; omega)

theorem installedtables_registry (tb : List Table) (r g ld tv : Nat) (R T G : Table)
    (vtable method base p1 p2 : String) (lib : List (String × String)) (hr : r < tb.length) :
    (installedtables tb r g ld tv R T G vtable method base p1 p2 lib)[r]?
      = some { R with node := (luaH_set (luaH_set R.node (.string vtable) (.table tb.length))
          (.string base) (.table (tb.length + 3))) } := by
  simp only [installedtables]
  rw [List.getElem?_set_ne (by omega), List.getElem?_set_ne (by omega),
    List.getElem?_set_ne (by omega),
    newmetaheap_self _ _ _ _ (by rw [openlibheap_length, newmetaheap_length]; omega)]
  rw [openlibheap_length, newmetaheap_length]

theorem installedtables_loaded (tb : List Table) (r g ld tv : Nat) (R T G : Table)
    (vtable method base p1 p2 : String) (lib : List (String × String))
    (hl : ld < tb.length) (hne : ld ≠ r) :
    (installedtables tb r g ld tv R T G vtable method base p1 p2 lib)[ld]?
      = some { T with node := luaH_set T.node (.string method) (.table (tb.length + 2)) } := by
  simp only [installedtables]
  rw [List.getElem?_set_ne (by omega), List.getElem?_set_ne (by omega),
    List.getElem?_set_ne (by omega),
    newmetaheap_other _ _ _ _ _ hne (by rw [openlibheap_length, newmetaheap_length]; omega),
    openlibheap_loaded _ _ _ _ _ _ _ _ _ (by rw [newmetaheap_length]; omega), newmetaheap_length]

theorem installedtables_other (tb : List Table) (r g ld tv : Nat) (R T G : Table)
    (vtable method base p1 p2 : String) (lib : List (String × String)) (i : Nat)
    (hl : i < tb.length) (h1 : i ≠ r) (h2 : i ≠ g) (h3 : i ≠ ld) :
    (installedtables tb r g ld tv R T G vtable method base p1 p2 lib)[i]? = tb[i]? := by
  simp only [installedtables]
  rw [List.getElem?_set_ne (by omega), List.getElem?_set_ne (by omega),
    List.getElem?_set_ne (by omega),
    newmetaheap_other _ _ _ _ _ h1 (by rw [openlibheap_length, newmetaheap_length]; omega),
    openlibheap_other _ _ _ _ _ _ _ _ _ _ h2 h3 (by rw [newmetaheap_length]; omega),
    newmetaheap_other _ _ _ _ _ h1 hl]

/-! # The first run installs the class -/

/-- The first run of a vessel class's `Lua_InitInstance` returns 0, leaves the stack as it
was and installs the class for the wrapper on top of the stack; the method table of the
class then holds exactly the functions of the class's list, and `VESSEL.vtable` is as
before.  The registry holds nothing under the name `sentinel` afterwards either, which
is neither `vtable` nor `base`. -/
theorem vessel_InitInstance_installs (sentinel vtable method base p1 p2 : String)
    (lib : List (String × String)) (L : lua_State) (u : Nat)
    (hsplit : (splitdots method.data).map String.mk = [p1, p2])
    (hn1 : vtable ≠ "_LOADED") (hn2 : base ≠ vtable) (hn3 : vtable ≠ "VESSEL.vtable")
    (hn4 : base ≠ "VESSEL.vtable") (hn5 : base ≠ "_LOADED")
    (hn6 : sentinel ≠ vtable) (hn7 : sentinel ≠ base)
    (h : classabsent L u sentinel vtable method base p1) :
    ∃ L1, vessel_InitInstance sentinel vtable method base lib L = some (0, L1) ∧
      L1.stack = L.stack ∧ classinstalled L1 u vtable method base ∧
      (∀ name, methodentry L1 method name = luaH_get (libnode [] lib) (.string name)) ∧
      (∀ name, vtableentry L1 "VESSEL.vtable" name = vtableentry L "VESSEL.vtable" name) ∧
      registered L1 sentinel = .nil := by
  obtain ⟨stk, tb, ud, r, g, e, m⟩ := L
  obtain ⟨st, U, R, T, G, TV, ld, tv, hst, hU, hR, hRm, hs, hv, hb, hl, hvt, hT, hTm, hTn,
    hG, hGm, hGn, hTV, hTVm, hd1, hd2, hd3, hd4, hd5, hd6⟩ := h
  simp only at hst hU hR hT hG hTV hd1 hd2 hd3 hd4 hd5 hd6
  subst hst
  have hrl : r < tb.length := lt_length_of_getElem? _ _ _ hR
  have hll : ld < tb.length := lt_length_of_getElem? _ _ _ hT
  have htl : tv < tb.length := lt_length_of_getElem? _ _ _ hTV
  have hul : u < ud.length := lt_length_of_getElem? _ _ _ hU
  refine ⟨_, vessel_InitInstance_fresh sentinel vtable method base p1 p2 lib st tb ud r g e m
    R T G U u ld tv hsplit hn1 hn2 hn3 hn4 hR hRm hs hv hb hl hvt hT hTm hTn hG hGm hGn
    ⟨hd1, hd2, hd3⟩ hU, rfl, ?_, ?_, ?_, ?_⟩
  · have k1 : LuaValue.string "VESSEL.vtable" ≠ LuaValue.string base := by
      intro hc; exact hn4 (LuaValue.string.inj hc).symm
    have k2 : LuaValue.string "VESSEL.vtable" ≠ LuaValue.string vtable := by
      intro hc; exact hn3 (LuaValue.string.inj hc).symm
    have k3 : LuaValue.string vtable ≠ LuaValue.string base := by
      intro hc; exact hn2 (LuaValue.string.inj hc).symm
    have k4 : LuaValue.string "_LOADED" ≠ LuaValue.string base := by
      intro hc; exact hn5 (LuaValue.string.inj hc).symm
    have k5 : LuaValue.string "_LOADED" ≠ LuaValue.string vtable := by
      intro hc; exact hn1 (LuaValue.string.inj hc).symm
    refine ⟨{ U with metatable := some tb.length }, tb.length, List.getElem?_set_self hul, rfl,
      tb.length + 2, tb.length + 3, tv, ld,
      { R with node := (luaH_set (luaH_set R.node (.string vtable) (.table tb.length))
          (.string base) (.table (tb.length + 3))) },
      { T with node := luaH_set T.node (.string method) (.table (tb.length + 2)) },
      ⟨luaH_set [] (.string "__index") (.table (tb.length + 2)), none⟩,
      ⟨libnode [] lib, some (tb.length + 3)⟩,
      ⟨luaH_set [] (.string "__index") (.table tv), none⟩, TV,
      installedtables_registry _ _ _ _ _ _ _ _ _ _ _ _ _ _ hrl, hRm, ?_, ?_, ?_, ?_,
      installedtables_loaded _ _ _ _ _ _ _ _ _ _ _ _ _ _ hll (Ne.symm hd1), hTm, ?_,
      installedtables_vtable _ _ _ _ _ _ _ _ _ _ _ _ _ _, rfl, ?_,
      installedtables_method _ _ _ _ _ _ _ _ _ _ _ _ _ _, rfl,
      installedtables_base _ _ _ _ _ _ _ _ _ _ _ _ _ _, rfl, ?_, ?_, ?_, hTVm, ?_⟩
    · simp only [luaH_get_set_other _ _ _ _ k3, luaH_get_set_self]
    · simp only [luaH_get_set_self]
    · simp only [luaH_get_set_other _ _ _ _ k4, luaH_get_set_other _ _ _ _ k5, hl]
    · simp only [luaH_get_set_other _ _ _ _ k1, luaH_get_set_other _ _ _ _ k2, hvt]
    · simp only [luaH_get_set_self]
    · simp only [luaH_get_set_self]
    · simp only [luaH_get_set_self]
    · have k6 : LuaValue.string "__newindex" ≠ LuaValue.string "__index" := by decide
      simp only [luaH_get_set_other _ _ _ _ k6]
      rfl
    · rw [installedtables_other _ _ _ _ _ _ _ _ _ _ _ _ _ _ _ htl hd4 hd6 hd5, hTV]
    · simp only [List.nodup_cons, List.mem_cons, List.mem_singleton, List.not_mem_nil,
        List.nodup_nil, not_or, not_false_eq_true, and_true]
      omega
  · intro name
    have k4 : LuaValue.string "_LOADED" ≠ LuaValue.string base := by
      intro hc; exact hn5 (LuaValue.string.inj hc).symm
    have k5 : LuaValue.string "_LOADED" ≠ LuaValue.string vtable := by
      intro hc; exact hn1 (LuaValue.string.inj hc).symm
    simp only [methodentry, rawentry, loadedlib, registered,
      installedtables_registry _ _ _ _ _ _ _ _ _ _ _ _ _ _ hrl]
    rw [luaH_get_set_other _ _ _ _ k4, luaH_get_set_other _ _ _ _ k5, hl]
    simp only [installedtables_loaded _ _ _ _ _ _ _ _ _ _ _ _ _ _ hll (Ne.symm hd1),
      luaH_get_set_self, installedtables_method]
  · intro name
    have k1 : LuaValue.string "VESSEL.vtable" ≠ LuaValue.string base := by
      intro hc; exact hn4 (LuaValue.string.inj hc).symm
    have k2 : LuaValue.string "VESSEL.vtable" ≠ LuaValue.string vtable := by
      intro hc; exact hn3 (LuaValue.string.inj hc).symm
    simp only [vtableentry, rawentry, registered,
      installedtables_registry _ _ _ _ _ _ _ _ _ _ _ _ _ _ hrl, hR]
    rw [luaH_get_set_other _ _ _ _ k1, luaH_get_set_other _ _ _ _ k2, hvt]
    simp only [metaof, installedtables_other _ _ _ _ _ _ _ _ _ _ _ _ _ _ _ htl hd4 hd6 hd5]
  · have k6 : LuaValue.string sentinel ≠ LuaValue.string base := by
      intro hc; exact hn7 (LuaValue.string.inj hc)
    have k7 : LuaValue.string sentinel ≠ LuaValue.string vtable := by
      intro hc; exact hn6 (LuaValue.string.inj hc)
    simp only [registered, installedtables_registry _ _ _ _ _ _ _ _ _ _ _ _ _ _ hrl]
    rw [luaH_get_set_other _ _ _ _ k6, luaH_get_set_other _ _ _ _ k7, hs]

theorem classabsent_Lvessel :
    classabsent Lvessel 0 "VESSEL.DG" "DG.vtable" "DG.method" "DG.base" "DG" :=
  ⟨[], ⟨5000, some 3⟩, _, _, _, _, 2, 3, rfl, rfl, rfl, rfl, by decide, by decide, by decide,
    by decide, by decide, rfl, rfl, by decide, rfl, rfl, by decide, rfl, rfl,
    by decide, by decide, by decide, by decide, by decide, by decide⟩

/-! # A later run of a vessel class's Lua_InitInstance -/

theorem vessel_InitInstance_found (sentinel vtable method base : String)
    (lib : List (String × String)) (st : List LuaValue) (tb : List Table) (ud : List Udata)
    (r g e m) (R T hV hM hB : Table) (U : Udata) (u V M B tv ld : Nat)
    (hR : tb[r]? = some R) (hRm : R.metatable = none)
    (hs : luaH_get R.node (.string sentinel) = .nil)
    (hv : luaH_get R.node (.string vtable) = .table V)
    (hb : luaH_get R.node (.string base) = .table B)
    (hl : luaH_get R.node (.string "_LOADED") = .table ld)
    (hvt : luaH_get R.node (.string "VESSEL.vtable") = .table tv)
    (hT : tb[ld]? = some T) (hTm : T.metatable = none)
    (hTn : luaH_get T.node (.string method) = .table M)
    (hVt : tb[V]? = some hV) (hVm : hV.metatable = none)
    (hMt : tb[M]? = some hM) (hMm : hM.metatable = some B)
    (hBt : tb[B]? = some hB) (hBm : hB.metatable = none)
    (hBn : luaH_get hB.node (.string "__newindex") = .nil)
    (hd : r ≠ M ∧ V ≠ M ∧ B ≠ M ∧ V ≠ B) (hU : ud[u]? = some U) :
    vessel_InitInstance sentinel vtable method base lib ⟨st ++ [.userdata u], tb, ud, r, g, e, m⟩
      = some (0, ⟨st ++ [.userdata u], reinstalledtables tb V M B tv hV hM hB lib,
          ud.set u { U with metatable := some V }, r, g, e, m⟩) := by
  obtain ⟨hd1, hd2, hd3, hd4⟩ := hd
  obtain ⟨ndM, mtM⟩ := hM
  simp only at hMm
  subst hMm
  have hMl : M < tb.length := lt_length_of_getElem? _ _ _ hMt
  have hBl : B < tb.length := lt_length_of_getElem? _ _ _ hBt
  have hVl : V < tb.length := lt_length_of_getElem? _ _ _ hVt
  simp only [reinstalledtables]
  -- the sentinel is not found
  have a1 := lua_getfield_registry_raw (st ++ [LuaValue.userdata u]) sentinel tb ud r g e m R
    ⟨hR, Or.inl hRm⟩
  rw [hs] at a1
  have a2 : lua_isnil ⟨st ++ [LuaValue.userdata u] ++ [LuaValue.nil], tb, ud, r, g, e, m⟩ (-1)
      = true := lua_isnil_push ⟨st ++ [LuaValue.userdata u], tb, ud, r, g, e, m⟩ LuaValue.nil
  have a3 : lua_pop ⟨st ++ [LuaValue.userdata u] ++ [LuaValue.nil], tb, ud, r, g, e, m⟩ 1
      = ⟨st ++ [LuaValue.userdata u], tb, ud, r, g, e, m⟩ :=
    lua_pop_push ⟨st ++ [LuaValue.userdata u], tb, ud, r, g, e, m⟩ LuaValue.nil
  -- the metatable of the wrappers is there
  have a4 := luaL_newmetatable_found (st ++ [LuaValue.userdata u]) tb ud r g e m R vtable V
    hR hRm hv
  -- the method table is there and takes the functions again
  have a5 := luaL_openlib_found (st ++ [LuaValue.userdata u] ++ [LuaValue.table V]) tb ud r g e m
    R T ld M ndM (some B) method lib hR hl hT hTm hTn
    ⟨hMt, Or.inr ⟨B, hB, rfl, hBt, hBn⟩⟩ (by intro hc; exact hd3 (Option.some.inj hc))
  have h1r : (tb.set M ⟨libnode ndM lib, some B⟩)[r]? = some R := by
    rw [List.getElem?_set_ne (Ne.symm hd1)]; exact hR
  have h1b : (tb.set M ⟨libnode ndM lib, some B⟩)[B]? = some hB := by
    rw [List.getElem?_set_ne (Ne.symm hd3)]; exact hBt
  have h1v : (tb.set M ⟨libnode ndM lib, some B⟩)[V]? = some hV := by
    rw [List.getElem?_set_ne (Ne.symm hd2)]; exact hVt
  have h1m : (tb.set M ⟨libnode ndM lib, some B⟩)[M]? = some ⟨libnode ndM lib, some B⟩ :=
    List.getElem?_set_self hMl
  have h1len : (tb.set M ⟨libnode ndM lib, some B⟩).length = tb.length := List.length_set _ _ _
  generalize tb.set M ⟨libnode ndM lib, some B⟩ = H1 at a5 h1r h1b h1v h1m h1len ⊢
  -- the table of inherited methods is there
  have a6 := luaL_newmetatable_found
    (st ++ [LuaValue.userdata u] ++ [LuaValue.table V] ++ [LuaValue.table M])
    H1 ud r g e m R base B h1r hRm hb
  have a7 := lua_getfield_registry_raw
    (st ++ [LuaValue.userdata u] ++ [LuaValue.table V] ++ [LuaValue.table M]
      ++ [LuaValue.table B] ++ [LuaValue.string "__index"])
    "VESSEL.vtable" H1 ud r g e m _ ⟨h1r, Or.inl hRm⟩
  rw [hvt] at a7
  have a8 := lua_settable_neg3
    (st ++ [LuaValue.userdata u] ++ [LuaValue.table V] ++ [LuaValue.table M])
    B "__index" (.table tv) H1 ud r g e m hB ⟨h1b, Or.inl hBm⟩
  -- the links between the tables
  have h2m : (H1.set B { hB with node := luaH_set hB.node (.string "__index") (.table tv) })[M]?
      = some ⟨libnode ndM lib, some B⟩ := by
    rw [List.getElem?_set_ne hd3]; exact h1m
  have a9 := lua_setmetatable_table (st ++ [LuaValue.userdata u] ++ [LuaValue.table V])
    M B _ ud r g e m _ h2m
  have h3v : ((H1.set B { hB with node := luaH_set hB.node (.string "__index") (.table tv) }).set
      M ⟨libnode ndM lib, some B⟩)[V]? = some hV := by
    rw [List.getElem?_set_ne (Ne.symm hd2), List.getElem?_set_ne (Ne.symm hd4)]; exact h1v
  have a10 := lua_settable_neg4 (st ++ [LuaValue.userdata u]) V
    (.table M) "__index" (.table M) _ ud r g e m _ ⟨h3v, Or.inl hVm⟩
  have a11 := lua_pop_two (st ++ [LuaValue.userdata u]) (.table V) (.table M)
    (((H1.set B { hB with node := luaH_set hB.node (.string "__index") (.table tv) }).set
      M ⟨libnode ndM lib, some B⟩).set V
      { hV with node := luaH_set hV.node (.string "__index") (.table M) }) ud r g e m
  have a12 := lua_setmetatable_udata st u V
    (((H1.set B { hB with node := luaH_set hB.node (.string "__index") (.table tv) }).set
      M ⟨libnode ndM lib, some B⟩).set V
      { hV with node := luaH_set hV.node (.string "__index") (.table M) }) ud r g e m U hU
  simp only [List.append_assoc, List.cons_append, List.nil_append]
    at a1 a2 a3 a4 a5 a6 a7 a8 a9 a10 a11 a12
  have b1 : ∀ (S : List Table), index2adr ⟨st ++ [LuaValue.userdata u, LuaValue.table V,
      LuaValue.table M, LuaValue.string "__index"], S, ud, r, g, e, m⟩ (-2)
      = some (.table M) := fun S =>
    index2adr_neg2_four st _ _ _ _ S ud r g e m
  have b2 : lua_isnil ⟨st ++ [LuaValue.userdata u, LuaValue.nil], tb, ud, r, g, e, m⟩ (-1)
      = true := a2
  simp only [vessel_InitInstance, luaL_getmetatable, bind, Option.bind, pure, lua_pushstring,
    lua_push, lua_pushvalue, List.append_assoc, List.cons_append, List.nil_append,
    a1, a2, if_true, a3, a4, a5, a6, a7, a8, a9, b1, Option.getD_some, a10, a11, a12]

/-! # The tables of a class found in place -/

theorem reinstalledtables_other (tb : List Table) (V M B tv : Nat) (hV hM hB : Table)
    (lib : List (String × String)) (i : Nat) (h1 : i ≠ V) (h2 : i ≠ M) (h3 : i ≠ B) :
    (reinstalledtables tb V M B tv hV hM hB lib)[i]? = tb[i]? := by
  simp only [reinstalledtables]
  rw [List.getElem?_set_ne (Ne.symm h1), List.getElem?_set_ne (Ne.symm h2),
    List.getElem?_set_ne (Ne.symm h3), List.getElem?_set_ne (Ne.symm h2)]

theorem reinstalledtables_vtable (tb : List Table) (V M B tv : Nat) (hV hM hB : Table)
    (lib : List (String × String)) (hl : V < tb.length) :
    (reinstalledtables tb V M B tv hV hM hB lib)[V]?
      = some { hV with node := luaH_set hV.node (.string "__index") (.table M) } := by
  simp only [reinstalledtables]
  exact List.getElem?_set_self (by simp only [List.length_set]; exact hl)

theorem reinstalledtables_method (tb : List Table) (V M B tv : Nat) (hV hM hB : Table)
    (lib : List (String × String)) (hl : M < tb.length) (hne : V ≠ M) :
    (reinstalledtables tb V M B tv hV hM hB lib)[M]?
      = some ⟨libnode hM.node lib, some B⟩ := by
  simp only [reinstalledtables]
  rw [List.getElem?_set_ne hne]
  exact List.getElem?_set_self (by simp only [List.length_set]; exact hl)

theorem reinstalledtables_base (tb : List Table) (V M B tv : Nat) (hV hM hB : Table)
    (lib : List (String × String)) (hl : B < tb.length) (h1 : V ≠ B) (h2 : M ≠ B) :
    (reinstalledtables tb V M B tv hV hM hB lib)[B]?
      = some { hB with node := luaH_set hB.node (.string "__index") (.table tv) } := by
  simp only [reinstalledtables]
  rw [List.getElem?_set_ne h1, List.getElem?_set_ne h2]
  exact List.getElem?_set_self (by simp only [List.length_set]; exact hl)

/-- A run of a vessel class's `Lua_InitInstance` that finds the tables of the class in
place returns 0, leaves the stack and the registry as they were and installs the class
for the wrapper on top of the stack; it stores every function of the class's list in
the method table again and leaves the other entries of the method table and
`VESSEL.vtable` as they were. -/
theorem vessel_InitInstance_again (sentinel vtable method base : String)
    (lib : List (String × String)) (L : lua_State) (u : Nat)
    (h : classpresent L u sentinel vtable method base) :
    ∃ L1, vessel_InitInstance sentinel vtable method base lib L = some (0, L1) ∧
      L1.stack = L.stack ∧ classinstalled L1 u vtable method base ∧
      registered L1 sentinel = .nil ∧
      L1.tables[L1.l_registry]? = L.tables[L.l_registry]? ∧
      ((lib.map Prod.fst).Nodup → ∀ name f, (name, f) ∈ lib →
        methodentry L1 method name = .cfunction f) ∧
      (∀ name, name ∉ lib.map Prod.fst →
        methodentry L1 method name = methodentry L method name) ∧
      (∀ name, vtableentry L1 "VESSEL.vtable" name = vtableentry L "VESSEL.vtable" name) := by
  obtain ⟨stk, tb, ud, r, g, e, m⟩ := L
  obtain ⟨st, U, V, hst, hU, hs, M, B, tv, ld, R, T, hV, hM, hB, hT, r1, r2, r3, r4, r5, r6,
    t1, t2, t3, v1, v2, v3, m1, m2, b1, b2, b3, b4, x1, x2, hnd⟩ := h
  simp only at hst hU r1 t1 v1 m1 b1 x1 hnd
  subst hst
  simp only [registered, r1] at hs
  simp only [List.nodup_cons, List.mem_cons, List.mem_singleton, List.not_mem_nil,
    List.nodup_nil, not_or, not_false_eq_true, and_true] at hnd
  obtain ⟨⟨d1, d2, d3, d4, d5⟩, ⟨d6, d7, d8, d9⟩, ⟨d10, d11, d12⟩, ⟨d13, d14⟩, d15⟩ := hnd
  have hMl : M < tb.length := lt_length_of_getElem? _ _ _ m1
  have hBl : B < tb.length := lt_length_of_getElem? _ _ _ b1
  have hVl : V < tb.length := lt_length_of_getElem? _ _ _ v1
  have hul : u < ud.length := lt_length_of_getElem? _ _ _ hU
  have hreg : (reinstalledtables tb V M B tv hV hM hB lib)[r]? = some R :=
    (reinstalledtables_other tb V M B tv hV hM hB lib r d2 d3 d4).trans r1
  have hld : (reinstalledtables tb V M B tv hV hM hB lib)[ld]? = some T :=
    (reinstalledtables_other tb V M B tv hV hM hB lib ld d6 d7 d8).trans t1
  have htv : (reinstalledtables tb V M B tv hV hM hB lib)[tv]? = some hT :=
    (reinstalledtables_other tb V M B tv hV hM hB lib tv (Ne.symm d12) (Ne.symm d14)
      (Ne.symm d15)).trans x1
  have hme : ∀ name, methodentry ⟨st ++ [LuaValue.userdata u],
      reinstalledtables tb V M B tv hV hM hB lib,
      ud.set u { U with metatable := some V }, r, g, e, m⟩ method name
      = luaH_get (libnode hM.node lib) (.string name) := by
    intro name
    simp only [methodentry, rawentry, loadedlib, registered, hreg, r5, hld, t3,
      reinstalledtables_method tb V M B tv hV hM hB lib hMl d10]
  have hme0 : ∀ name, methodentry ⟨st ++ [LuaValue.userdata u], tb, ud, r, g, e, m⟩ method name
      = luaH_get hM.node (.string name) := by
    intro name
    simp only [methodentry, rawentry, loadedlib, registered, r1, r5, t1, t3, m1]
  refine ⟨_, vessel_InitInstance_found sentinel vtable method base lib st tb ud r g e m
    R T hV hM hB U u V M B tv ld r1 r2 hs r3 r4 r5 r6 t1 t2 t3 v1 v2 m1 m2 b1 b2 b4
    ⟨d3, d10, Ne.symm d13, d11⟩ hU, rfl, ?_, ?_, ?_, ?_, ?_, ?_⟩
  · have k6 : LuaValue.string "__newindex" ≠ LuaValue.string "__index" := by decide
    refine ⟨{ U with metatable := some V }, V, List.getElem?_set_self hul, rfl,
      M, B, tv, ld, R, T,
      { hV with node := luaH_set hV.node (.string "__index") (.table M) },
      ⟨libnode hM.node lib, some B⟩,
      { hB with node := luaH_set hB.node (.string "__index") (.table tv) }, hT,
      hreg, r2, r3, r4, r5, r6, hld, t2, t3,
      reinstalledtables_vtable tb V M B tv hV hM hB lib hVl, v2, ?_,
      reinstalledtables_method tb V M B tv hV hM hB lib hMl d10, rfl,
      reinstalledtables_base tb V M B tv hV hM hB lib hBl d11 d13, b2, ?_, ?_, htv, x2, ?_⟩
    · simp only [luaH_get_set_self]
    · simp only [luaH_get_set_self]
    · simp only [luaH_get_set_other _ _ _ _ k6, b4]
    · simp only [List.nodup_cons, List.mem_cons, List.mem_singleton, List.not_mem_nil,
        List.nodup_nil, not_or, not_false_eq_true, and_true]
      exact ⟨⟨d1, d2, d3, d4, d5⟩, ⟨d6, d7, d8, d9⟩, ⟨d10, d11, d12⟩, ⟨d13, d14⟩, d15⟩
  · simp only [registered, hreg, hs]
  · exact hreg.trans r1.symm
  · intro hnodup name f hm
    rw [hme]
    exact libnode_get_in lib _ name f hnodup hm
  · intro name hm
    rw [hme, hme0]
    apply libnode_get_notin
    intro p hp hc
    exact hm (List.mem_map.mpr ⟨p, hp, LuaValue.string.inj hc⟩)
  · intro name
    simp only [vtableentry, rawentry, registered, hreg, r1, r6, metaof, htv, x1]

/-! # Two runs on one interpreter -/

/-- C23: a second run of `Lua_InitInstance` does not find the sentinel and registers the
class again.  On the interpreter `Lvessel` the first run, a script that replaces one
method of the class (`Gear` of the DeltaGlider, `hatch` of the HST, `gear` of the
ShuttleA) by a function of its own, and the run for the wrapper of a second vessel leave
the method back at its C function, so the method table is not as it was before the
second run. -/
theorem InitInstance_registers_again :
    tworuns DeltaGlider.Lua_InitInstance Lvessel "DG" "method" "DG.method" "Gear"
        (.lfunction 7) 6000
      = some (.lfunction 7, .cfunction "dgGear", false) ∧
    tworuns HST.Lua_InitInstance Lvessel "HST" "method" "HST.method" "hatch"
        (.lfunction 7) 6000
      = some (.lfunction 7, .cfunction "hstHatch", false) ∧
    tworuns ShuttleA.Lua_InitInstance Lvessel "SHUTTLEA" "method" "SHUTTLEA.method" "gear"
        (.lfunction 7) 6000
      = some (.lfunction 7, .cfunction "lua_gear", false) := by
  decide

/-! # Dispatch after DeltaGlider::Lua_InitInstance -/

theorem Lvessel2_reached :
    (DeltaGlider.Lua_InitInstance Lvessel).bind (fun p => newwrapper p.2 6000) = some Lvessel2 := by
  decide

theorem classpresent_Lvessel2 :
    classpresent Lvessel2 1 "VESSEL.DG" "DG.vtable" "DG.method" "DG.base" :=
  ⟨[.userdata 0], ⟨6000, some 3⟩, 4, rfl, rfl, by decide, 6, 7, 3, 2, _, _, _, _, _, _,
    rfl, rfl, by decide, by decide, by decide, by decide, rfl, rfl, by decide,
    rfl, rfl, by decide, rfl, rfl, rfl, rfl, by decide, by decide, rfl, rfl, by decide⟩

theorem methodentry_classabsent (L : lua_State) (u : Nat)
    (sentinel vtable method base p1 name : String)
    (h : classabsent L u sentinel vtable method base p1) :
    methodentry L method name = .nil := by
  obtain ⟨st, U, R, T, G, TV, ld, tv, -, -, hR, -, -, -, -, hl, -, hT, -, hTn, -⟩ := h
  simp only [methodentry, rawentry, loadedlib, registered, hR, hl, hT, hTn]

/-- A run of `DeltaGlider::Lua_InitInstance`, the first one on the interpreter or a later
one, returns 0 and installs the class for the wrapper on top of the stack; the method
table then holds the C function of every name of `dgLib` and, for the other names, the
entry it had, and `VESSEL.vtable` is as before. -/
theorem DeltaGlider_installs (L : lua_State) (u : Nat)
    (h : classabsent L u "VESSEL.DG" "DG.vtable" "DG.method" "DG.base" "DG" ∨
      classpresent L u "VESSEL.DG" "DG.vtable" "DG.method" "DG.base") :
    ∃ L1, DeltaGlider.Lua_InitInstance L = some (0, L1) ∧
      classinstalled L1 u "DG.vtable" "DG.method" "DG.base" ∧
      (∀ name f, (name, f) ∈ dgLib → methodentry L1 "DG.method" name = .cfunction f) ∧
      (∀ name, name ∉ dgLib.map Prod.fst →
        methodentry L1 "DG.method" name = methodentry L "DG.method" name) ∧
      (∀ name, vtableentry L1 "VESSEL.vtable" name = vtableentry L "VESSEL.vtable" name) := by
  rcases h with h | h
  · obtain ⟨L1, h1, -, h3, h4, h5, -⟩ := vessel_InitInstance_installs "VESSEL.DG" "DG.vtable"
      "DG.method" "DG.base" "DG" "method" dgLib L u (by decide) (by decide) (by decide)
      (by decide) (by decide) (by decide) (by decide) (by decide) h
    refine ⟨L1, h1, h3, ?_, ?_, h5⟩
    · intro name f hm
      rw [h4]; exact libnode_get_in dgLib [] name f (by decide) hm
    · intro name hm
      rw [h4, methodentry_classabsent L u _ _ _ _ _ name h, libnode_get_notin dgLib [] _ ?_]
      · rfl
      · intro p hp hc
        exact hm (List.mem_map.mpr ⟨p, hp, LuaValue.string.inj hc⟩)
  · obtain ⟨L1, h1, -, h3, -, -, h6, h7, h8⟩ := vessel_InitInstance_again "VESSEL.DG"
      "DG.vtable" "DG.method" "DG.base" dgLib L u h
    exact ⟨L1, h1, h3, h6 (by decide), h7, h8⟩

/-- C21: when `DeltaGlider::Lua_InitInstance` runs on a vessel wrapper, be it the first
run on the interpreter or a later one, it returns 0, and a lookup on the wrapper then
yields the entry of the DG method table, the C function of the name, for every name of
`dgLib` (whatever `VESSEL.vtable` holds under that name); a name that is not in `dgLib`
keeps the entry of the method table it had, and when it had none the lookup yields the
entry of `VESSEL.vtable`, which the run leaves as it was. -/
theorem DG_dispatch (L : lua_State) (u : Nat)
    (h : classabsent L u "VESSEL.DG" "DG.vtable" "DG.method" "DG.base" "DG" ∨
      classpresent L u "VESSEL.DG" "DG.vtable" "DG.method" "DG.base") :
    ∃ L1, DeltaGlider.Lua_InitInstance L = some (0, L1) ∧
      (∀ name f, (name, f) ∈ dgLib →
        methodentry L1 "DG.method" name = .cfunction f ∧
        lookup L1 u name = some (methodentry L1 "DG.method" name)) ∧
      (∀ name, name ∉ dgLib.map Prod.fst →
        methodentry L1 "DG.method" name = methodentry L "DG.method" name ∧
        (methodentry L "DG.method" name = .nil →
          lookup L1 u name = some (vtableentry L1 "VESSEL.vtable" name))) ∧
      (∀ name, vtableentry L1 "VESSEL.vtable" name = vtableentry L "VESSEL.vtable" name) := by
  obtain ⟨L1, h1, h3, h4, h5, h6⟩ := DeltaGlider_installs L u h
  refine ⟨L1, h1, ?_, ?_, h6⟩
  · intro name f hm
    have e := h4 name f hm
    refine ⟨e, ?_⟩
    rw [lookup_classinstalled L1 u _ _ _ name h3, e]
    simp
  · intro name hm
    refine ⟨h5 name hm, fun hn => ?_⟩
    have e : methodentry L1 "DG.method" name = .nil := (h5 name hm).trans hn
    rw [lookup_classinstalled L1 u _ _ _ name h3, e]
    simp

theorem DG_dispatch_witness :
    ((classabsent Lvessel 0 "VESSEL.DG" "DG.vtable" "DG.method" "DG.base" "DG" ∨
      classpresent Lvessel 0 "VESSEL.DG" "DG.vtable" "DG.method" "DG.base") ∧
    vtableentry Lvessel "VESSEL.vtable" "Gear" = .cfunction "v_gear" ∧
    (∀ name, methodentry Lvessel "DG.method" name = .nil) ∧
    ∃ L1, DeltaGlider.Lua_InitInstance Lvessel = some (0, L1) ∧
      (∀ name f, (name, f) ∈ dgLib →
        methodentry L1 "DG.method" name = .cfunction f ∧
        lookup L1 0 name = some (methodentry L1 "DG.method" name)) ∧
      (∀ name, name ∉ dgLib.map Prod.fst →
        methodentry L1 "DG.method" name = methodentry Lvessel "DG.method" name ∧
        (methodentry Lvessel "DG.method" name = .nil →
          lookup L1 0 name = some (vtableentry L1 "VESSEL.vtable" name))) ∧
      (∀ name, vtableentry L1 "VESSEL.vtable" name = vtableentry Lvessel "VESSEL.vtable" name)) ∧
    ((classabsent Lvessel2 1 "VESSEL.DG" "DG.vtable" "DG.method" "DG.base" "DG" ∨
      classpresent Lvessel2 1 "VESSEL.DG" "DG.vtable" "DG.method" "DG.base") ∧
    methodentry Lvessel2 "DG.method" "get_name" = .nil ∧
    ∃ L1, DeltaGlider.Lua_InitInstance Lvessel2 = some (0, L1) ∧
      (∀ name f, (name, f) ∈ dgLib →
        methodentry L1 "DG.method" name = .cfunction f ∧
        lookup L1 1 name = some (methodentry L1 "DG.method" name)) ∧
      (∀ name, name ∉ dgLib.map Prod.fst →
        methodentry L1 "DG.method" name = methodentry Lvessel2 "DG.method" name ∧
        (methodentry Lvessel2 "DG.method" name = .nil →
          lookup L1 1 name = some (vtableentry L1 "VESSEL.vtable" name))) ∧
      (∀ name, vtableentry L1 "VESSEL.vtable" name
        = vtableentry Lvessel2 "VESSEL.vtable" name)) :=
  ⟨⟨Or.inl classabsent_Lvessel, by decide, fun _ => rfl,
      DG_dispatch Lvessel 0 (Or.inl classabsent_Lvessel)⟩,
    ⟨Or.inr classpresent_Lvessel2, by decide,
      DG_dispatch Lvessel2 1 (Or.inr classpresent_Lvessel2)⟩⟩

/-! # Assignments to VESSEL.vtable after the installation -/

/-- An assignment to `VESSEL.vtable` in a state in which a vessel class is installed
stores the value in the table, leaves the class installed and the method table as it
was. -/
theorem vtable_assign_classinstalled (L : lua_State) (u : Nat)
    (vtable method base name : String) (v : LuaValue)
    (h : classinstalled L u vtable method base) :
    ∃ L2, vtable_assign L "VESSEL.vtable" name v = some L2 ∧ L2.stack = L.stack ∧
      classinstalled L2 u vtable method base ∧
      vtableentry L2 "VESSEL.vtable" name = v ∧
      (∀ n, methodentry L2 method n = methodentry L method n) := by
  obtain ⟨st, tb, ud, r, g, e, m⟩ := L
  obtain ⟨U, V, hU, hUm, M, B, tv, ld, R, T, hV, hM, hB, hT, r1, r2, r3, r4, r5, r6,
    t1, t2, t3, v1, v2, v3, m1, m2, b1, b2, b3, b4, x1, x2, hnd⟩ := h
  simp only at hU r1 t1 v1 m1 b1 x1 hnd
  simp only [List.nodup_cons, List.mem_cons, List.mem_singleton, List.not_mem_nil,
    List.nodup_nil, not_or, not_false_eq_true, and_true] at hnd
  obtain ⟨⟨d1, d2, d3, d4, d5⟩, ⟨d6, d7, d8, d9⟩, ⟨d10, d11, d12⟩, ⟨d13, d14⟩, d15⟩ := hnd
  have htl : tv < tb.length := lt_length_of_getElem? _ _ _ x1
  have a1 := lua_getfield_registry_raw st "VESSEL.vtable" tb ud r g e m R ⟨r1, Or.inl r2⟩
  rw [r6] at a1
  have a2 := lua_setfield_neg2 st tv name v tb ud r g e m hT ⟨x1, Or.inl x2⟩
  have a3 := lua_pop_push ⟨st, tb.set tv { hT with node := luaH_set hT.node (.string name) v },
    ud, r, g, e, m⟩ (LuaValue.table tv)
  simp only [lua_push, List.append_assoc, List.cons_append, List.nil_append] at a1 a2 a3
  have hrun : vtable_assign ⟨st, tb, ud, r, g, e, m⟩ "VESSEL.vtable" name v
      = some ⟨st, tb.set tv { hT with node := luaH_set hT.node (.string name) v },
          ud, r, g, e, m⟩ := by
    simp only [vtable_assign, luaL_getmetatable, bind, Option.bind, pure, lua_push,
      List.append_assoc, List.cons_append, List.nil_append, a1, a2, a3]
  have hreg : (tb.set tv { hT with node := luaH_set hT.node (.string name) v })[r]? = some R := by
    rw [List.getElem?_set_ne (Ne.symm d5)]; exact r1
  have hld : (tb.set tv { hT with node := luaH_set hT.node (.string name) v })[ld]? = some T := by
    rw [List.getElem?_set_ne (Ne.symm d9)]; exact t1
  have hVt : (tb.set tv { hT with node := luaH_set hT.node (.string name) v })[V]? = some hV := by
    rw [List.getElem?_set_ne (Ne.symm d12)]; exact v1
  have hMt : (tb.set tv { hT with node := luaH_set hT.node (.string name) v })[M]? = some hM := by
    rw [List.getElem?_set_ne (Ne.symm d14)]; exact m1
  have hBt : (tb.set tv { hT with node := luaH_set hT.node (.string name) v })[B]? = some hB := by
    rw [List.getElem?_set_ne (Ne.symm d15)]; exact b1
  have htv : (tb.set tv { hT with node := luaH_set hT.node (.string name) v })[tv]?
      = some { hT with node := luaH_set hT.node (.string name) v } :=
    List.getElem?_set_self htl
  refine ⟨_, hrun, rfl, ?_, ?_, ?_⟩
  · exact ⟨U, V, hU, hUm, M, B, tv, ld, R, T, hV, hM, hB, _, hreg, r2, r3, r4, r5, r6,
      hld, t2, t3, hVt, v2, v3, hMt, m2, hBt, b2, b3, b4, htv, x2, by
        simp only [List.nodup_cons, List.mem_cons, List.mem_singleton, List.not_mem_nil,
          List.nodup_nil, not_or, not_false_eq_true, and_true]
        exact ⟨⟨d1, d2, d3, d4, d5⟩, ⟨d6, d7, d8, d9⟩, ⟨d10, d11, d12⟩, ⟨d13, d14⟩, d15⟩⟩
  · simp only [vtableentry, rawentry, registered, hreg, r6, metaof, htv, luaH_get_set_self]
  · intro n
    simp only [methodentry, rawentry, loadedlib, registered, hreg, r1, r5, hld, t1, t3, hMt, m1]

/-- C22: the delegation from the DG class to `VESSEL.vtable` is by reference.  After a
run of `DeltaGlider::Lua_InitInstance` on a wrapper (the first one on the interpreter or
a later one), an assignment of `v` to the name in `VESSEL.vtable` succeeds, and a lookup
of the name on the wrapper then yields `v`, for every name that is not in `dgLib` and
has no entry in the DG method table. -/
theorem DG_delegation_by_reference (L : lua_State) (u : Nat) (name : String) (v : LuaValue)
    (h : classabsent L u "VESSEL.DG" "DG.vtable" "DG.method" "DG.base" "DG" ∨
      classpresent L u "VESSEL.DG" "DG.vtable" "DG.method" "DG.base")
    (hn : name ∉ dgLib.map Prod.fst) (hm : methodentry L "DG.method" name = .nil) :
    ∃ L1 L2, DeltaGlider.Lua_InitInstance L = some (0, L1) ∧
      vtable_assign L1 "VESSEL.vtable" name v = some L2 ∧
      vtableentry L2 "VESSEL.vtable" name = v ∧ lookup L2 u name = some v := by
  obtain ⟨L1, h1, h3, -, h5, -⟩ := DeltaGlider_installs L u h
  obtain ⟨L2, k1, -, k3, k4, k5⟩ :=
    vtable_assign_classinstalled L1 u "DG.vtable" "DG.method" "DG.base" name v h3
  refine ⟨L1, L2, h1, k1, k4, ?_⟩
  have e : methodentry L2 "DG.method" name = .nil := ((k5 name).trans (h5 name hn)).trans hm
  rw [lookup_classinstalled L2 u _ _ _ name k3, e, k4]
  simp

theorem DG_delegation_by_reference_witness :
    ((classabsent Lvessel 0 "VESSEL.DG" "DG.vtable" "DG.method" "DG.base" "DG" ∨
        classpresent Lvessel 0 "VESSEL.DG" "DG.vtable" "DG.method" "DG.base") ∧
      "get_name" ∉ dgLib.map Prod.fst ∧ methodentry Lvessel "DG.method" "get_name" = .nil ∧
      vtableentry Lvessel "VESSEL.vtable" "get_name" = .cfunction "v_get_name" ∧
      ∃ L1 L2, DeltaGlider.Lua_InitInstance Lvessel = some (0, L1) ∧
        vtable_assign L1 "VESSEL.vtable" "get_name" (.lfunction 9) = some L2 ∧
        vtableentry L2 "VESSEL.vtable" "get_name" = .lfunction 9 ∧
        lookup L2 0 "get_name" = some (.lfunction 9)) ∧
    ((classabsent Lvessel2 1 "VESSEL.DG" "DG.vtable" "DG.method" "DG.base" "DG" ∨
        classpresent Lvessel2 1 "VESSEL.DG" "DG.vtable" "DG.method" "DG.base") ∧
      "land" ∉ dgLib.map Prod.fst ∧ methodentry Lvessel2 "DG.method" "land" = .nil ∧
      vtableentry Lvessel2 "VESSEL.vtable" "land" = .nil ∧
      ∃ L1 L2, DeltaGlider.Lua_InitInstance Lvessel2 = some (0, L1) ∧
        vtable_assign L1 "VESSEL.vtable" "land" (.cfunction "v_land") = some L2 ∧
        vtableentry L2 "VESSEL.vtable" "land" = .cfunction "v_land" ∧
        lookup L2 1 "land" = some (.cfunction "v_land")) :=
  ⟨⟨Or.inl classabsent_Lvessel, by decide, by decide, by decide,
      DG_delegation_by_reference Lvessel 0 "get_name" (.lfunction 9)
        (Or.inl classabsent_Lvessel) (by decide) (by decide)⟩,
    ⟨Or.inr classpresent_Lvessel2, by decide, by decide, by decide,
      DG_delegation_by_reference Lvessel2 1 "land" (.cfunction "v_land")
        (Or.inr classpresent_Lvessel2) (by decide) (by decide)⟩⟩

/-! # The extension hooks of the vessel classes -/

/-- The blocks of the userdata stay when the metatable of one of them is set. -/
theorem blocks_set_metatable (ud : List Udata) (u : Nat) (U : Udata) (mt : Option Nat)
    (hU : ud[u]? = some U) (id : Nat) (u0 : Udata) (h0 : ud[id]? = some u0) :
    ∃ u1 : Udata, (ud.set u { U with metatable := mt })[id]? = some u1 ∧
      u1.block = u0.block := by
  by_cases hid : u = id
  · subst hid
    rw [hU] at h0
    obtain rfl : U = u0 := Option.some.inj h0
    exact ⟨_, List.getElem?_set_self (lt_length_of_getElem? _ _ _ hU), rfl⟩
  · exact ⟨u0, by rw [List.getElem?_set_ne hid]; exact h0, rfl⟩

/-- The first run of a vessel class's `Lua_InitInstance` respects `hookframe`: it writes
under string keys only, so the cached wrappers stay, and it changes no block. -/
theorem vessel_InitInstance_frame_absent (sentinel vtable method base p1 p2 : String)
    (lib : List (String × String)) (L : lua_State) (u : Nat)
    (hsplit : (splitdots method.data).map String.mk = [p1, p2])
    (hn1 : vtable ≠ "_LOADED") (hn2 : base ≠ vtable) (hn3 : vtable ≠ "VESSEL.vtable")
    (hn4 : base ≠ "VESSEL.vtable")
    (h : classabsent L u sentinel vtable method base p1) (res : Int) (L1 : lua_State)
    (hrun : vessel_InitInstance sentinel vtable method base lib L = some (res, L1)) :
    hookframe L L1 := by
  obtain ⟨stk, tb, ud, r, g, e, m⟩ := L
  obtain ⟨st, U, R, T, G, TV, ld, tv, hst, hU, hR, hRm, hs, hv, hb, hl, hvt, hT, hTm, hTn,
    hG, hGm, hGn, hTV, hTVm, hd1, hd2, hd3, hd4, hd5, hd6⟩ := h
  simp only at hst hU hR hT hG hTV hd1 hd2 hd3 hd4 hd5 hd6
  subst hst
  have hrl : r < tb.length := lt_length_of_getElem? _ _ _ hR
  rw [vessel_InitInstance_fresh sentinel vtable method base p1 p2 lib st tb ud r g e m
    R T G U u ld tv hsplit hn1 hn2 hn3 hn4 hR hRm hs hv hb hl hvt hT hTm hTn hG hGm hGn
    ⟨hd1, hd2, hd3⟩ hU] at hrun
  simp only [Option.some.injEq, Prod.mk.injEq] at hrun
  obtain ⟨-, rfl⟩ := hrun
  have k1 : LuaValue.string "VESSEL.vtable" ≠ LuaValue.string base := by
    intro hc; exact hn4 (LuaValue.string.inj hc).symm
  have k2 : LuaValue.string "VESSEL.vtable" ≠ LuaValue.string vtable := by
    intro hc; exact hn3 (LuaValue.string.inj hc).symm
  refine ⟨rfl, rfl, ?_, ⟨_, installedtables_registry _ _ _ _ _ _ _ _ _ _ _ _ _ _ hrl, hRm,
    Or.inr ⟨tv, ?_⟩⟩, ?_⟩
  · intro p
    simp only [cached, installedtables_registry _ _ _ _ _ _ _ _ _ _ _ _ _ _ hrl, hR]
    rw [luaH_get_set_other _ _ _ _ (by simp), luaH_get_set_other _ _ _ _ (by simp)]
  · simp only [luaH_get_set_other _ _ _ _ k1, luaH_get_set_other _ _ _ _ k2, hvt]
  · intro id u0 h0
    exact blocks_set_metatable ud u U _ hU id u0 h0

/-- A later run of a vessel class's `Lua_InitInstance` respects `hookframe`: it leaves
the registry as it was and changes no block. -/
theorem vessel_InitInstance_frame_present (sentinel vtable method base : String)
    (lib : List (String × String)) (L : lua_State) (u : Nat)
    (h : classpresent L u sentinel vtable method base) (res : Int) (L1 : lua_State)
    (hrun : vessel_InitInstance sentinel vtable method base lib L = some (res, L1)) :
    hookframe L L1 := by
  obtain ⟨stk, tb, ud, r, g, e, m⟩ := L
  obtain ⟨st, U, V, hst, hU, hs, M, B, tv, ld, R, T, hV, hM, hB, hT, r1, r2, r3, r4, r5, r6,
    t1, t2, t3, v1, v2, v3, m1, m2, b1, b2, b3, b4, x1, x2, hnd⟩ := h
  simp only at hst hU r1 t1 v1 m1 b1 x1 hnd
  subst hst
  simp only [registered, r1] at hs
  simp only [List.nodup_cons, List.mem_cons, List.mem_singleton, List.not_mem_nil,
    List.nodup_nil, not_or, not_false_eq_true, and_true] at hnd
  obtain ⟨⟨d1, d2, d3, d4, d5⟩, ⟨d6, d7, d8, d9⟩, ⟨d10, d11, d12⟩, ⟨d13, d14⟩, d15⟩ := hnd
  have hreg : (reinstalledtables tb V M B tv hV hM hB lib)[r]? = some R :=
    (reinstalledtables_other tb V M B tv hV hM hB lib r d2 d3 d4).trans r1
  rw [vessel_InitInstance_found sentinel vtable method base lib st tb ud r g e m
    R T hV hM hB U u V M B tv ld r1 r2 hs r3 r4 r5 r6 t1 t2 t3 v1 v2 m1 m2 b1 b2 b4
    ⟨d3, d10, Ne.symm d13, d11⟩ hU] at hrun
  simp only [Option.some.injEq, Prod.mk.injEq] at hrun
  obtain ⟨-, rfl⟩ := hrun
  refine ⟨rfl, rfl, ?_, ⟨R, hreg, r2, Or.inr ⟨tv, r6⟩⟩, ?_⟩
  · intro p
    simp only [cached, hreg, r1]
  · intro id u0 h0
    exact blocks_set_metatable ud u U _ hU id u0 h0

/-- Storing under a light userdata key leaves what a table holds under a string. -/
theorem luaH_get_set_light (nd : List (LuaValue × LuaValue)) (p : Addr) (w : LuaValue)
    (k : String) :
    luaH_get (luaH_set nd (.lightuserdata p) w) (.string k) = luaH_get nd (.string k) :=
  luaH_get_set_other _ _ _ _ (by simp)

theorem classabsent_cache (L : lua_State) (u : Nat) (sentinel vtable method base p1 : String)
    (R : Table) (p : Addr) (w : LuaValue) (hR : L.tables[L.l_registry]? = some R)
    (h : classabsent L u sentinel vtable method base p1) :
    classabsent { L with tables := (L.tables.set L.l_registry
      { R with node := luaH_set R.node (.lightuserdata p) w }) } u
      sentinel vtable method base p1 := by
  obtain ⟨stk, tb, ud, r, g, e, m⟩ := L
  obtain ⟨st, U, R0, T, G, TV, ld, tv, hst, hU, hR0, hRm, hs, hv, hb, hl, hvt, hT, hTm, hTn,
    hG, hGm, hGn, hTV, hTVm, hd1, hd2, hd3, hd4, hd5, hd6⟩ := h
  simp only at hst hU hR hR0 hT hG hTV hd1 hd2 hd3 hd4 hd5 hd6
  rw [hR] at hR0
  obtain rfl : R = R0 := Option.some.inj hR0
  have hrl : r < tb.length := lt_length_of_getElem? _ _ _ hR
  refine ⟨st, U, { R with node := luaH_set R.node (.lightuserdata p) w }, T, G, TV, ld, tv,
    hst, hU, List.getElem?_set_self hrl, hRm, ?_, ?_, ?_, ?_, ?_, ?_, hTm, hTn, ?_, hGm, hGn, ?_,
    hTVm, hd1, hd2, hd3, hd4, hd5, hd6⟩
  · simp only [luaH_get_set_light, hs]
  · simp only [luaH_get_set_light, hv]
  · simp only [luaH_get_set_light, hb]
  · simp only [luaH_get_set_light, hl]
  · simp only [luaH_get_set_light,
      hvt]
  · show (tb.set r _)[ld]? = some T
    rw [List.getElem?_set_ne hd1]; exact hT
  · show (tb.set r _)[g]? = some G
    rw [List.getElem?_set_ne hd2]; exact hG
  · show (tb.set r _)[tv]? = some TV
    rw [List.getElem?_set_ne (Ne.symm hd4)]; exact hTV

theorem classtables_cache (L : lua_State) (vtable method base : String) (V : Nat)
    (R : Table) (p : Addr) (w : LuaValue) (hR : L.tables[L.l_registry]? = some R)
    (h : classtables L vtable method base V) :
    classtables { L with tables := (L.tables.set L.l_registry
      { R with node := luaH_set R.node (.lightuserdata p) w }) } vtable method base V := by
  obtain ⟨stk, tb, ud, r, g, e, m⟩ := L
  obtain ⟨M, B, tv, ld, R0, T, hV, hM, hB, hT, r1, r2, r3, r4, r5, r6,
    t1, t2, t3, v1, v2, v3, m1, m2, b1, b2, b3, b4, x1, x2, hnd⟩ := h
  simp only at hR r1 t1 v1 m1 b1 x1 hnd
  rw [hR] at r1
  obtain rfl : R = R0 := Option.some.inj r1
  have hrl : r < tb.length := lt_length_of_getElem? _ _ _ hR
  have hnd0 := hnd
  simp only [List.nodup_cons, List.mem_cons, List.mem_singleton, List.not_mem_nil,
    List.nodup_nil, not_or, not_false_eq_true, and_true] at hnd
  obtain ⟨⟨d1, d2, d3, d4, d5⟩, -⟩ := hnd
  refine ⟨M, B, tv, ld, { R with node := luaH_set R.node (.lightuserdata p) w }, T, hV, hM, hB,
    hT, List.getElem?_set_self hrl, r2, ?_, ?_, ?_, ?_, ?_, t2, t3, ?_, v2, v3, ?_, m2, ?_, b2,
    b3, b4, ?_, x2, hnd0⟩
  · simp only [luaH_get_set_light, r3]
  · simp only [luaH_get_set_light, r4]
  · simp only [luaH_get_set_light, r5]
  · simp only [luaH_get_set_light,
      r6]
  · show (tb.set r _)[ld]? = some T
    rw [List.getElem?_set_ne d1]; exact t1
  · show (tb.set r _)[V]? = some hV
    rw [List.getElem?_set_ne d2]; exact v1
  · show (tb.set r _)[M]? = some hM
    rw [List.getElem?_set_ne d3]; exact m1
  · show (tb.set r _)[B]? = some hB
    rw [List.getElem?_set_ne d4]; exact b1
  · show (tb.set r _)[tv]? = some hT
    rw [List.getElem?_set_ne d5]; exact x1

theorem classpresent_cache (L : lua_State) (u : Nat) (sentinel vtable method base : String)
    (R : Table) (p : Addr) (w : LuaValue) (hR : L.tables[L.l_registry]? = some R)
    (h : classpresent L u sentinel vtable method base) :
    classpresent { L with tables := (L.tables.set L.l_registry
      { R with node := luaH_set R.node (.lightuserdata p) w }) } u
      sentinel vtable method base := by
  obtain ⟨st, U, V, hst, hU, hs, ht⟩ := h
  refine ⟨st, U, V, hst, hU, ?_, classtables_cache L vtable method base V R p w hR ht⟩
  have hrl : L.l_registry < L.tables.length := lt_length_of_getElem? _ _ _ hR
  simp only [registered, hR] at hs
  simp only [registered, List.getElem?_set_self hrl,
    luaH_get_set_light, hs]

theorem cachestable_classready (sentinel vtable method base p1 : String) :
    cachestable (classready sentinel vtable method base p1) := by
  refine ⟨fun L st hP => ?_, fun L U hP => ?_, fun L R p w hP hR _ => ?_⟩
  · exact fun st1 ud u U0 h => hP st1 ud u U0 h
  · exact fun st1 ud u U0 h => hP st1 ud u U0 h
  · intro st1 ud u U0 h
    rcases hP st1 ud u U0 h with ha | hp
    · exact Or.inl (classabsent_cache
        { L with stack := st1 ++ [LuaValue.userdata u], udata := ud } u sentinel vtable method
        base p1 R p w hR ha)
    · exact Or.inr (classpresent_cache
        { L with stack := st1 ++ [LuaValue.userdata u], udata := ud } u sentinel vtable method
        base R p w hR hp)

/-- The `Lua_InitInstance` of a vessel class is a callback that is well behaved on the
states whose tables are ready for the class: on the first wrapper it installs the class,
on every later one it finds the tables in place; either way it returns, respects
`hookframe` and leaves the tables in place. -/
theorem hookok_classhost (sentinel vtable method base p1 p2 : String)
    (lib : List (String × String))
    (hsplit : (splitdots method.data).map String.mk = [p1, p2])
    (hn1 : vtable ≠ "_LOADED") (hn2 : base ≠ vtable) (hn3 : vtable ≠ "VESSEL.vtable")
    (hn4 : base ≠ "VESSEL.vtable") (hn5 : base ≠ "_LOADED")
    (hn6 : sentinel ≠ vtable) (hn7 : sentinel ≠ base) :
    hookok (classhost (vessel_InitInstance sentinel vtable method base lib))
      (classready sentinel vtable method base p1) := by
  intro v L ver id u _ _ hP _ htop hu _
  obtain ⟨stk, tb, ud, r, g, e, m⟩ := L
  simp only at htop hu
  obtain ⟨st, rfl⟩ := List.getLast?_eq_some_iff.1 htop
  have hready : ∀ (L1 : lua_State) (V : Nat), registered L1 sentinel = .nil →
      classtables L1 vtable method base V → classready sentinel vtable method base p1 L1 :=
    fun L1 V hs ht st1 ud1 u1 U1 h1 => Or.inr ⟨st1, U1, V, rfl, h1, hs, ht⟩
  rcases hP st ud id u hu with ha | hp
  · obtain ⟨L1, h1, -, ⟨U0, V, -, -, ht⟩, -, -, hsn⟩ := vessel_InitInstance_installs sentinel
      vtable method base p1 p2 lib _ id hsplit hn1 hn2 hn3 hn4 hn5 hn6 hn7 ha
    refine ⟨0, L1, ?_, vessel_InitInstance_frame_absent sentinel vtable method base p1 p2 lib
      _ id hsplit hn1 hn2 hn3 hn4 ha 0 L1 h1, hready L1 V hsn ht⟩
    simp only [classhost, if_true]
    exact h1
  · obtain ⟨L1, h1, -, ⟨U0, V, -, -, ht⟩, hsn, -⟩ := vessel_InitInstance_again sentinel
      vtable method base lib _ id hp
    refine ⟨0, L1, ?_, vessel_InitInstance_frame_present sentinel vtable method base lib
      _ id hp 0 L1 h1, hready L1 V hsn ht⟩
    simp only [classhost, if_true]
    exact h1

theorem hookok_hostDG :
    hookok hostDG (classready "VESSEL.DG" "DG.vtable" "DG.method" "DG.base" "DG") :=
  hookok_classhost "VESSEL.DG" "DG.vtable" "DG.method" "DG.base" "DG" "method" dgLib
    (by decide) (by decide) (by decide) (by decide) (by decide) (by decide) (by decide)
    (by decide)

theorem hookok_hostHST :
    hookok hostHST (classready "VESSEL.HST" "HST.vtable" "HST.method" "HST.base" "HST") :=
  hookok_classhost "VESSEL.HST" "HST.vtable" "HST.method" "HST.base" "HST" "method" hstLib
    (by decide) (by decide) (by decide) (by decide) (by decide) (by decide) (by decide)
    (by decide)

theorem hookok_hostShuttleA :
    hookok hostShuttleA (classready "VESSEL.SHUTTLEA" "SHUTTLEA.vtable" "SHUTTLEA.method"
      "SHUTTLEA.base" "SHUTTLEA") :=
  hookok_classhost "VESSEL.SHUTTLEA" "SHUTTLEA.vtable" "SHUTTLEA.method" "SHUTTLEA.base"
    "SHUTTLEA" "method" shuttleaLib
    (by decide) (by decide) (by decide) (by decide) (by decide) (by decide) (by decide)
    (by decide)

theorem classready_Lhost (sentinel vtable method base p1 : String)
    (h : (sentinel, vtable, method, base, p1) ∈
      [("VESSEL.DG", "DG.vtable", "DG.method", "DG.base", "DG"),
       ("VESSEL.HST", "HST.vtable", "HST.method", "HST.base", "HST"),
       ("VESSEL.SHUTTLEA", "SHUTTLEA.vtable", "SHUTTLEA.method", "SHUTTLEA.base",
        "SHUTTLEA")]) :
    classready sentinel vtable method base p1 Lhost := by
  intro st ud u U hU
  have e1 : luaH_get [(LuaValue.string "_LOADED", LuaValue.table 2),
      (LuaValue.string "VESSEL.vtable", LuaValue.table 3),
      (LuaValue.string "LightEmitter.vtable", LuaValue.table 4)] (.string sentinel) = .nil ∧
      luaH_get [(LuaValue.string "_LOADED", LuaValue.table 2),
      (LuaValue.string "VESSEL.vtable", LuaValue.table 3),
      (LuaValue.string "LightEmitter.vtable", LuaValue.table 4)] (.string vtable) = .nil ∧
      luaH_get [(LuaValue.string "_LOADED", LuaValue.table 2),
      (LuaValue.string "VESSEL.vtable", LuaValue.table 3),
      (LuaValue.string "LightEmitter.vtable", LuaValue.table 4)] (.string base) = .nil := by
    simp only [List.mem_cons, List.mem_singleton, Prod.mk.injEq, List.not_mem_nil,
      or_false] at h
    rcases h with ⟨rfl, rfl, rfl, rfl, rfl⟩ | ⟨rfl, rfl, rfl, rfl, rfl⟩ |
      ⟨rfl, rfl, rfl, rfl, rfl⟩ <;> decide
  exact Or.inl ⟨st, U,
    ⟨[(.string "_LOADED", .table 2), (.string "VESSEL.vtable", .table 3),
      (.string "LightEmitter.vtable", .table 4)], none⟩, ⟨[], none⟩, ⟨[], none⟩,
    ⟨[(.string "__index", .table 3), (.string "get_name", .cfunction "v_get_name"),
      (.string "Gear", .cfunction "v_gear")], none⟩, 2, 3, rfl, hU, rfl, rfl, e1.1, e1.2.1,
    e1.2.2, by decide, by decide, rfl, rfl, rfl, rfl, rfl, rfl, rfl, rfl,
    (by show (0 : Nat) ≠ 2; decide), (by show (0 : Nat) ≠ 1; decide),
    (by show (2 : Nat) ≠ 1; decide), (by show (3 : Nat) ≠ 0; decide),
    (by show (3 : Nat) ≠ 2; decide), (by show (3 : Nat) ≠ 1; decide)⟩

theorem regok_Lhost (tname : String)
    (hn : tname = "VESSEL.vtable" ∨ tname = "LightEmitter.vtable") :
    regok Lhost tname := by
  refine ⟨_, rfl, rfl, Or.inr ?_⟩
  rcases hn with rfl | rfl
  · exact ⟨3, by decide⟩
  · exact ⟨4, by decide⟩

theorem cached_Lhost (p : Addr) : cached Lhost p = .nil := by
  simp [cached, Lhost, luaH_get]

theorem cacheinv_Lhost : cacheinv Lhost :=
  ⟨fun p => Or.inl (cached_Lhost p), fun p _ hp => absurd (cached_Lhost p) hp⟩

/-! # The wrapper cache with the callbacks of the vessel classes -/

theorem Lhit_reached : lua_pushlightemitter Lhost 5000 = some Lhit := by decide

theorem regok_Lhit (tname : String)
    (hn : tname = "VESSEL.vtable" ∨ tname = "LightEmitter.vtable") :
    regok Lhit tname := by
  refine ⟨_, rfl, rfl, Or.inr ?_⟩
  rcases hn with rfl | rfl
  · exact ⟨3, by decide⟩
  · exact ⟨4, by decide⟩

/-- C1: in every run of `lua_pushvessel` calls on an interpreter whose cache satisfies its
invariant, each call pushes one wrapper (a full userdata), and the wrappers pushed for
two handles of the run are the same object if and only if the handles are equal.  The
callback of the host is asked to be well behaved on the states in which the run calls
it only, as the `Lua_InitInstance` of the vessel classes is. -/
theorem lua_pushvessel_identity (h : Host) (P : lua_State → Prop) (L : lua_State)
    (hs : List Addr) (hok : hookok h P) (hst : cachestable P) (hP : P L)
    (hreg : regok L "VESSEL.vtable") (hinv : cacheinv L) (hver : ∀ v ∈ hs, h.Version v ≠ none) :
    ∃ L1 calls ws, pushvessels h L hs = some (L1, calls) ∧
      L1.stack = L.stack ++ ws ∧ ws.length = hs.length ∧
      (∀ w ∈ ws, ∃ id, w = LuaValue.userdata id) ∧
      ∀ i j, i < hs.length → j < hs.length → (ws[i]? = ws[j]? ↔ hs[i]? = hs[j]?) := by
  obtain ⟨L1, calls, hp, -, -, hinv1, hst1, -, hall, -, -⟩ :=
    pushvessels_spec h P hok hst hs L hreg hinv hP hver
  refine ⟨L1, calls, hs.map (cached L1), hp, hst1, by simp, ?_, ?_⟩
  · intro w hw
    obtain ⟨v, hv, rfl⟩ := List.mem_map.1 hw
    rcases hinv1.1 v with hn | ⟨id, u, hc, -, -⟩
    · exact absurd hn (hall v hv)
    · exact ⟨id, hc⟩
  · intro i j hi hj
    simp only [List.getElem?_map, List.getElem?_eq_getElem hi, List.getElem?_eq_getElem hj,
      Option.map_some', Option.some.injEq]
    constructor
    · intro heq
      exact hinv1.2 _ _ (hall _ (List.getElem_mem hi)) heq
    · intro heq
      rw [heq]

/-- The witness of `lua_pushvessel_identity` (C1): the handles 5000, 6000, 5000 of three
DeltaGliders, whose callback is `DeltaGlider::Lua_InitInstance`. -/
theorem lua_pushvessel_identity_witness :
    ∃ L1 calls ws, pushvessels hostDG Lhost [5000, 6000, 5000] = some (L1, calls) ∧
      L1.stack = Lhost.stack ++ ws ∧ ws.length = [5000, 6000, 5000].length ∧
      (∀ w ∈ ws, ∃ id, w = LuaValue.userdata id) ∧
      ∀ i j, i < [5000, 6000, 5000].length → j < [5000, 6000, 5000].length →
        (ws[i]? = ws[j]? ↔ [5000, 6000, 5000][i]? = [5000, 6000, 5000][j]?) :=
  lua_pushvessel_identity hostDG _ Lhost [5000, 6000, 5000] hookok_hostDG
    (cachestable_classready _ _ _ _ _) (classready_Lhost _ _ _ _ _ (by simp))
    (regok_Lhost _ (Or.inl rfl)) cacheinv_Lhost (by decide)

/-- C9: in every run of `lua_pushvessel` calls, `LoadVesselExtensions` is called exactly
once for each handle of the run that was not cached before (for every handle of the run,
on a fresh cache), and for no other handle; each call gets a state in which the new
wrapper is on top of the stack and nothing is cached for the handle yet; and a call of
`lua_pushvessel` that hits the cache makes no call of `LoadVesselExtensions`.  The
callback of the host is asked to be well behaved on the states in which the run calls
it only, as the `Lua_InitInstance` of the vessel classes is. -/
theorem LoadVesselExtensions_once (h : Host) (P : lua_State → Prop) (L : lua_State)
    (hs : List Addr) (hok : hookok h P) (hst : cachestable P) (hP : P L)
    (hreg : regok L "VESSEL.vtable") (hinv : cacheinv L) (hver : ∀ v ∈ hs, h.Version v ≠ none) :
    ∃ L1 calls, pushvessels h L hs = some (L1, calls) ∧
      (∀ v, (calls.map Prod.fst).count v = if v ∈ hs ∧ cached L v = .nil then 1 else 0) ∧
      (∀ c ∈ calls, cached c.2 c.1 = .nil ∧
        ∃ id u, c.2.stack.getLast? = some (.userdata id) ∧ c.2.udata[id]? = some u ∧
          u.block = c.1) ∧
      (∀ v, cached L v ≠ .nil → lua_pushvessel h L v = some (lua_push L (cached L v), [])) := by
  obtain ⟨L1, calls, hp, -, -, -, -, -, -, hcnt, hcalls⟩ :=
    pushvessels_spec h P hok hst hs L hreg hinv hP hver
  exact ⟨L1, calls, hp, hcnt, hcalls, fun v hc => lua_pushvessel_hit h L v hreg hc⟩

/-- The witness of `LoadVesselExtensions_once` (C9): the handles 5000, 6000, 5000 of
three DeltaGliders; `DeltaGlider::Lua_InitInstance` runs for 5000 and for 6000, once
each. -/
theorem LoadVesselExtensions_once_witness :
    (pushvessels hostDG Lhost [5000, 6000, 5000]).map (fun r => r.2.map Prod.fst)
        = some [5000, 6000] ∧
    ∃ L1 calls, pushvessels hostDG Lhost [5000, 6000, 5000] = some (L1, calls) ∧
      (∀ v, (calls.map Prod.fst).count v
        = if v ∈ [5000, 6000, 5000] ∧ cached Lhost v = .nil then 1 else 0) ∧
      (∀ c ∈ calls, cached c.2 c.1 = .nil ∧
        ∃ id u, c.2.stack.getLast? = some (.userdata id) ∧ c.2.udata[id]? = some u ∧
          u.block = c.1) ∧
      (∀ v, cached Lhost v ≠ .nil →
        lua_pushvessel hostDG Lhost v = some (lua_push Lhost (cached Lhost v), [])) :=
  ⟨by decide,
    LoadVesselExtensions_once hostDG _ Lhost [5000, 6000, 5000] hookok_hostDG
      (cachestable_classready _ _ _ _ _) (classready_Lhost _ _ _ _ _ (by simp))
      (regok_Lhost _ (Or.inl rfl)) cacheinv_Lhost (by decide)⟩

/-- C8: for every vessel handle `v` other than the focus flag, `lua_pushvessel` pushes a
wrapper whose block holds `v`, and `lua_tovessel` applied to that wrapper returns `v` and
leaves the Lua state, the block of the wrapper included, as it was.  The callback of the
host is asked to be well behaved on the state in which `lua_pushvessel` calls it only, as
the `Lua_InitInstance` of the vessel classes is. -/
theorem lua_tovessel_pushvessel (h : Host) (P : lua_State → Prop) (L : lua_State)
    (v focus : Addr) (hok : hookok h P) (hst : cachestable P) (hP : P L)
    (hreg : regok L "VESSEL.vtable") (hinv : cacheinv L) (hver : h.Version v ≠ none)
    (hv : v ≠ vfocus) :
    ∃ L1 calls id u, lua_pushvessel h L v = some (L1, calls) ∧
      L1.stack = L.stack ++ [.userdata id] ∧ L1.udata[id]? = some u ∧ u.block = v ∧
      lua_tovessel focus L1 (-1) = some (v, L1) := by
  obtain ⟨L1, calls, hp, -, -, hinv1, hst1, hnn, -, -, -, -⟩ :=
    lua_pushvessel_step h P L v hreg hinv hok hst hP hver
  rcases hinv1.1 v with hn | ⟨id, u, hc, hu, hb⟩
  · exact absurd hn hnn
  · rw [hc] at hst1
    refine ⟨L1, calls, id, u, hp, hst1, hu, hb hv, ?_⟩
    obtain ⟨st1, tb1, ud1, r1, g1, e1, m1⟩ := L1
    simp only at hst1 hu
    subst hst1
    have hbv : u.block = v := hb hv
    simp only [lua_tovessel, lua_touserdata, index2adr_neg1, hu, hbv, hv, if_false]

/-- The witness of `lua_tovessel_pushvessel` (C8): the DeltaGlider 5000, whose callback
is `DeltaGlider::Lua_InitInstance`, while the focus vessel is 6000. -/
theorem lua_tovessel_pushvessel_witness :
    ∃ L1 calls id u, lua_pushvessel hostDG Lhost 5000 = some (L1, calls) ∧
      L1.stack = Lhost.stack ++ [.userdata id] ∧ L1.udata[id]? = some u ∧ u.block = 5000 ∧
      lua_tovessel 6000 L1 (-1) = some (5000, L1) :=
  lua_tovessel_pushvessel hostDG _ Lhost 5000 6000 hookok_hostDG
    (cachestable_classready _ _ _ _ _) (classready_Lhost _ _ _ _ _ (by simp))
    (regok_Lhost _ (Or.inl rfl)) cacheinv_Lhost (by decide) (by decide)

/-- C2 (as amended): the wrappers of all handle kinds share one cache, the registry keyed
by the raw address.  When a wrapper is cached under the address `p`, both
`lua_pushlightemitter (p)` and `lua_pushvessel (p)`, for any host, push that wrapper,
whichever call created it; when none is cached, `lua_pushlightemitter (p)` pushes a new
wrapper that holds `p` and has the metatable registered as `LightEmitter.vtable`, and
`lua_pushvessel (p)`, for a host that has a vessel at `p` and a callback that is well
behaved there, hands `LoadVesselExtensions` a new wrapper that holds `p` and has the
metatable registered as `VESSEL.vtable`, and pushes that wrapper. -/
theorem pushobject_shared_cache (L : lua_State) (p : Addr)
    (hregl : regok L "LightEmitter.vtable") (hregv : regok L "VESSEL.vtable") :
    (cached L p ≠ .nil →
      lua_pushlightemitter L p = some (lua_push L (cached L p)) ∧
      ∀ h : Host, lua_pushvessel h L p = some (lua_push L (cached L p), [])) ∧
    (cached L p = .nil →
      (∃ L1, lua_pushlightemitter L p = some L1 ∧
        L1.stack = L.stack ++ [.userdata L.udata.length] ∧
        L1.udata = L.udata ++ [⟨p, metaof (registered L "LightEmitter.vtable")⟩] ∧
        cached L1 p = .userdata L.udata.length) ∧
      ∀ (h : Host) (P : lua_State → Prop), hookok h P → cachestable P → P L →
        h.Version p ≠ none →
        ∃ L1 Lc, lua_pushvessel h L p = some (L1, [(p, Lc)]) ∧
          Lc.stack = L.stack ++ [.userdata L.udata.length] ∧
          Lc.udata = L.udata ++ [⟨p, metaof (registered L "VESSEL.vtable")⟩] ∧
          L1.stack = L.stack ++ [.userdata L.udata.length] ∧
          cached L1 p = .userdata L.udata.length) := by
  refine ⟨fun hc => ⟨pushobject_hit _ L p hregl hc, fun h => lua_pushvessel_hit h L p hregv hc⟩,
    fun hc => ⟨pushobject_miss _ L p hregl hc, fun h P hok hst hP hver => ?_⟩⟩
  obtain ⟨L8, R8, -, hf, hR8, -, hpush⟩ := lua_pushvessel_miss h P L p hregv hc hok hst hP hver
  refine ⟨_, _, hpush, rfl, rfl, hf.1, ?_⟩
  have hlt : L8.l_registry < L8.tables.length := lt_length_of_getElem? _ _ _ hR8
  simp only [cached, List.getElem?_set_self hlt, luaH_get_set_self]

/-- The witness of `pushobject_shared_cache` (C2): the address 5000 in the state `Lhit`,
where a light-emitter wrapper is cached under it, and in the state `Lhost`, where nothing
is cached, with the host of the DeltaGliders. -/
theorem pushobject_shared_cache_witness :
    (cached Lhit 5000 = .userdata 0 ∧
      lua_pushlightemitter Lhit 5000 = some (lua_push Lhit (.userdata 0)) ∧
      lua_pushvessel hostDG Lhit 5000 = some (lua_push Lhit (.userdata 0), [])) ∧
    (cached Lhost 5000 = .nil ∧
      (∃ L1, lua_pushlightemitter Lhost 5000 = some L1 ∧
        L1.stack = Lhost.stack ++ [.userdata Lhost.udata.length] ∧
        L1.udata = Lhost.udata ++ [⟨5000, metaof (registered Lhost "LightEmitter.vtable")⟩] ∧
        cached L1 5000 = .userdata Lhost.udata.length) ∧
      ∃ L1 Lc, lua_pushvessel hostDG Lhost 5000 = some (L1, [(5000, Lc)]) ∧
        Lc.stack = Lhost.stack ++ [.userdata Lhost.udata.length] ∧
        Lc.udata = Lhost.udata ++ [⟨5000, metaof (registered Lhost "VESSEL.vtable")⟩] ∧
        L1.stack = Lhost.stack ++ [.userdata Lhost.udata.length] ∧
        cached L1 5000 = .userdata Lhost.udata.length) := by
  have e1 : cached Lhit 5000 = .userdata 0 := by decide
  have h1 := (pushobject_shared_cache Lhit 5000 (regok_Lhit _ (Or.inr rfl))
    (regok_Lhit _ (Or.inl rfl))).1 (by rw [e1]; simp)
  have h2 := (pushobject_shared_cache Lhost 5000 (regok_Lhost _ (Or.inr rfl))
    (regok_Lhost _ (Or.inl rfl))).2 (cached_Lhost 5000)
  rw [e1] at h1
  exact ⟨⟨e1, h1.1, h1.2 hostDG⟩, cached_Lhost 5000, h2.1,
    h2.2 hostDG _ hookok_hostDG (cachestable_classready _ _ _ _ _)
      (classready_Lhost _ _ _ _ _ (by simp)) (by decide)⟩

/-- On a light userdata `lua_touserdata` returns the pointer it holds, and `lua_tovessel`
reads through that pointer: no userdata block is there, and the call has no defined
result. -/
theorem lua_tovessel_lightuserdata (focus : Addr) (L : lua_State) (idx : Int) (p : Addr)
    (h : index2adr L idx = some (.lightuserdata p)) : lua_tovessel focus L idx = none := by
  simp only [lua_tovessel, lua_touserdata, h]
  by_cases hp : p = 0 <;> simp [hp]

/-- C3 (the code at the failing input): the pseudo-instance `focus` that `LoadVesselAPI`
creates is the light userdata `vfocus`, not a wrapper that holds `vfocus`.  A method
call `focus:get_name ()` finds `v_get_name` through the metatable of the light userdata
and reaches `lua_tovessel (L, 1)`, where `lua_touserdata` returns the pointer value 1
and `*pv` reads through it: whatever the focus vessel is, 5000 or 6000 or any other,
the call has no defined result and returns no vessel. -/
theorem lua_tovessel_focus_instance :
    ∃ Lf, focuscall Lhost = some Lf ∧ Lf.stack = [.lightuserdata vfocus] ∧
      luaV_gettable Lf MAXTAGLOOP (.lightuserdata vfocus) (.string "get_name")
        = some (.cfunction "v_get_name") ∧
      lua_touserdata Lf 1 = some (.raw 1) ∧
      lua_tovessel 5000 Lf 1 = none ∧ lua_tovessel 6000 Lf 1 = none ∧
      ∀ focus, lua_tovessel focus Lf 1 = none := by
  have h : (focuscall Lhost).isSome = true := by decide
  obtain ⟨Lf, hLf⟩ := Option.isSome_iff_exists.1 h
  have h1 : (focuscall Lhost).map (fun Lf => (Lf.stack,
      luaV_gettable Lf MAXTAGLOOP (.lightuserdata vfocus) (.string "get_name"),
      lua_touserdata Lf 1, index2adr Lf 1))
      = some ([.lightuserdata vfocus], some (.cfunction "v_get_name"), some (.raw 1),
          some (.lightuserdata vfocus)) := by decide
  rw [hLf] at h1
  simp only [Option.map_some', Option.some.injEq, Prod.mk.injEq] at h1
  obtain ⟨a1, a2, a3, a4⟩ := h1
  exact ⟨Lf, hLf, a1, a2, a3, lua_tovessel_lightuserdata _ Lf 1 _ a4,
    lua_tovessel_lightuserdata _ Lf 1 _ a4, fun f => lua_tovessel_lightuserdata f Lf 1 _ a4⟩

end Orbiter

